import Mathlib

/-!
# PathForge TD: combat and wave simulation core

A shallow embedding of the simulation classes of the tower-defense game
(`Enemy`, `Projectile`, `Ally`, `Tower`, `SheriffTower`, `MageTower`,
`WaveManager`, `Map` and the methods of `Game` that drive the simulation, the
waves, the taps, the tower upgrades and the sandbox) together with theorems
about them.

Modelling conventions
* C++ `int` is Lean's `Int`; `/` on `int` is truncating division (`Int.tdiv`),
  `%` is `Int.tmod`.  Signed overflow is undefined behaviour in C++ and lies
  outside the model; the products formed by `applyDifficulty` stay inside the
  32-bit range for every multiplier up to 1431655
  (`applyDifficulty_product_in_range`).
* C++ `float` values are rationals (`ℚ`).  For the death-animation timer
  (`deathAnimTimer_ += dt`, compared with `0.6f`, divided by `0.1f`) and the
  burn timers (`burnTimer_ -= dt`, `burnTickTimer_ -= dt`) of `Enemy::update`
  the rounding of `float` arithmetic is modelled: every sum, difference or
  quotient is rounded to the nearest IEEE-754 binary32 value by `f32` (ties to
  even; overflow to infinity is outside the model), and the constants `0.6f`
  and `0.1f` are `f32 (6 / 10)` and `f32 (1 / 10)`.  The remaining `float`
  arithmetic (positions, distances, cooldowns, the other timers) is idealised
  as exact rational arithmetic, and its decimal literals are the rationals
  they denote.  `std::sqrt` is not rational, so every function that calls it
  takes the square-root function as its first argument `sqrt : ℚ → ℚ`; the
  theorems hold for every such function and the concrete evaluations use
  `sqrtQ`, which is exact on perfect squares.
* The conversion `float → int` truncates toward zero (`floatToInt`).
* `std::vector<T>` is `List T`; an `int` index `i` reads position `i.toNat`.
* A method that mutates its object returns the new object; a method that
  mutates several collections returns all of them.
* An unchecked read `v[i]` whose index may lie outside the vector (`vectorAt`,
  `WaveManager.getCurrentWave`) returns an `Option`; a method that performs
  such a read returns `none` when the index is outside, where the C++ program
  has no defined behaviour.
* The array `grid_[COLS][ROWS]` of `Map` is a function on `Fin 10 × Fin 16`.
-/

namespace PathForge

/-! ## Numeric helpers -/

/-- Conversion `(int)f` of a `float`: truncation toward zero. -/
def floatToInt (q : ℚ) : Int := Int.tdiv q.num (q.den : Int)

/-- Rounding of a rational to the nearest integer, a tie going to the even
neighbour. -/
def roundHalfEven (q : ℚ) : Int :=
  if q - (⌊q⌋ : ℚ) < 1 / 2 then ⌊q⌋
  else if q - (⌊q⌋ : ℚ) > 1 / 2 then ⌊q⌋ + 1
  else if ⌊q⌋ % 2 = 0 then ⌊q⌋ else ⌊q⌋ + 1

/-- Spacing of the `float` values (IEEE-754 binary32) around `q`: with
`2 ^ e ≤ |q| < 2 ^ (e + 1)` it is `2 ^ (e - 23)`, and `2 ^ (-149)` in the
subnormal range `|q| < 2 ^ (-126)`. -/
def ulp32 (q : ℚ) : ℚ := (2 : ℚ) ^ (max (Int.log 2 |q|) (-126) - 23)

/-- The `float` nearest to `q` (round to nearest, ties to even): the result of
a `float` operation whose exact result is `q`.  Overflow to infinity is not
modelled. -/
def f32 (q : ℚ) : ℚ := (roundHalfEven (q / ulp32 q) : ℚ) * ulp32 q

/-- Square root on the rationals (integer square roots of numerator and
denominator), exact on squares of rationals. -/
def sqrtQ (q : ℚ) : ℚ := Rat.sqrt q

/-! ## Map.h: waypoints -/

/-- Waypoint of `Map.h`: a position in grid-cell units. -/
structure Waypoint where
  x : ℚ
  y : ℚ
deriving DecidableEq

/-- Element `v[i]` of a waypoint vector. -/
def wpAt (wps : List Waypoint) (i : Int) : Waypoint := wps.getD i.toNat ⟨0, 0⟩

/-! ## Enemy.h / Enemy.cpp -/

inductive EnemyType where
  | SLIME
  | GOBLIN
  | BOSS
  | BAT
  | FLYING_EYE
deriving DecidableEq, Repr

inductive EnemyState where
  | NORMAL
  | BURNING
  | FROZEN
  | SLOWED
deriving DecidableEq, Repr

/-- The data members of `class Enemy`. -/
structure Enemy where
  type_ : EnemyType
  x_ : ℚ
  y_ : ℚ
  speed_ : ℚ
  hp_ : Int
  maxHP_ : Int
  reward_ : Int
  reachedEnd_ : Bool
  rewardGranted_ : Bool
  waypoints_ : List Waypoint
  currentWaypoint_ : Int
  animTimer_ : ℚ
  animFrame_ : Int
  animFrameCount_ : Int
  isDying_ : Bool
  isDead_ : Bool
  deathAnimTimer_ : ℚ
  deathFrame_ : Int
  burnTimer_ : ℚ
  burnDamagePerSec_ : ℚ
  burnTickTimer_ : ℚ
  slowTimer_ : ℚ
  slowFactor_ : ℚ
  frozenTimer_ : ℚ
  visualState_ : EnemyState
  stateFlashTimer_ : ℚ
deriving DecidableEq

namespace Enemy

def ANIM_FRAME_TIME : ℚ := 15 / 100
def deathAnimDuration_ : ℚ := f32 (6 / 10)
def DEATH_FRAME_TIME : ℚ := f32 (1 / 10)

/-- Base hit points set by the constructor's `switch`. -/
def baseHP : EnemyType → Int
  | .SLIME => 40
  | .GOBLIN => 90
  | .BOSS => 1500
  | .BAT => 25
  | .FLYING_EYE => 60

/-- Base speed set by the constructor's `switch`. -/
def baseSpeed : EnemyType → ℚ
  | .SLIME => 15 / 10
  | .GOBLIN => 1
  | .BOSS => 6 / 10
  | .BAT => 2
  | .FLYING_EYE => 13 / 10

/-- Kill reward set by the constructor's `switch`. -/
def baseReward : EnemyType → Int
  | .SLIME => 10
  | .GOBLIN => 25
  | .BOSS => 100
  | .BAT => 15
  | .FLYING_EYE => 30

/-- Animation frame count set by the constructor's `switch`. -/
def baseFrameCount : EnemyType → Int
  | .SLIME => 6
  | .GOBLIN => 6
  | .BOSS => 6
  | .BAT => 4
  | .FLYING_EYE => 4

/-- Constructor `Enemy::Enemy(type, waypoints)`. -/
def new (type : EnemyType) (waypoints : List Waypoint) : Enemy :=
  { type_ := type
    x_ := if waypoints.isEmpty then 0 else (wpAt waypoints 0).x
    y_ := if waypoints.isEmpty then 0 else (wpAt waypoints 0).y
    speed_ := baseSpeed type
    hp_ := baseHP type
    maxHP_ := baseHP type
    reward_ := baseReward type
    reachedEnd_ := false
    rewardGranted_ := false
    waypoints_ := waypoints
    currentWaypoint_ := 1
    animTimer_ := 0
    animFrame_ := 0
    animFrameCount_ := baseFrameCount type
    isDying_ := false
    isDead_ := false
    deathAnimTimer_ := 0
    deathFrame_ := 0
    burnTimer_ := 0
    burnDamagePerSec_ := 0
    burnTickTimer_ := 0
    slowTimer_ := 0
    slowFactor_ := 1
    frozenTimer_ := 0
    visualState_ := .NORMAL
    stateFlashTimer_ := 0 }

def isAlive (e : Enemy) : Bool := decide (e.hp_ > 0)
def isDying (e : Enemy) : Bool := e.isDying_
def isDead (e : Enemy) : Bool := e.isDead_
def reachedEnd (e : Enemy) : Bool := e.reachedEnd_
def getX (e : Enemy) : ℚ := e.x_
def getY (e : Enemy) : ℚ := e.y_
def getReward (e : Enemy) : Int := e.reward_
def isRewardGranted (e : Enemy) : Bool := e.rewardGranted_
def markRewardGranted (e : Enemy) : Enemy := { e with rewardGranted_ := true }
def getType (e : Enemy) : EnemyType := e.type_
def isFrozen (e : Enemy) : Bool := decide (e.frozenTimer_ > 0)
def isSlowed (e : Enemy) : Bool := decide (e.slowTimer_ > 0)
def isBurning (e : Enemy) : Bool := decide (e.burnTimer_ > 0)
def isFlying (e : Enemy) : Bool :=
  e.type_ == EnemyType.BAT || e.type_ == EnemyType.FLYING_EYE

/-- Method `Enemy::startDeath`. -/
def startDeath (e : Enemy) : Enemy :=
  if !e.isDying_ then
    { e with isDying_ := true, deathAnimTimer_ := 0, deathFrame_ := 0 }
  else e

/-- Method `Enemy::takeDamage`. -/
def takeDamage (e : Enemy) (damage : Int) : Enemy :=
  let e1 := { e with hp_ := e.hp_ - damage }
  let e2 := if e1.hp_ < 0 then { e1 with hp_ := 0 } else e1
  if e2.hp_ = 0 ∧ !e2.isDying_ ∧ !e2.isDead_ then startDeath e2 else e2

/-- Method `Enemy::applyDifficulty`. -/
def applyDifficulty (e : Enemy) (multiplier : Int) : Enemy :=
  { e with
    hp_ := Int.tdiv (e.hp_ * multiplier) 100
    maxHP_ := Int.tdiv (e.maxHP_ * multiplier) 100
    speed_ := e.speed_ * (multiplier : ℚ) / 100 }

/-- Method `Enemy::applyBurn`. -/
def applyBurn (e : Enemy) (damagePerSec duration : ℚ) : Enemy :=
  { e with burnDamagePerSec_ := damagePerSec, burnTimer_ := duration, burnTickTimer_ := 0 }

/-- Method `Enemy::applySlow`. -/
def applySlow (e : Enemy) (factor duration : ℚ) : Enemy :=
  { e with slowFactor_ := factor, slowTimer_ := duration }

/-- Method `Enemy::freeze`. -/
def freeze (e : Enemy) (duration : ℚ) : Enemy :=
  { e with frozenTimer_ := duration }

/-- Method `Enemy::clearStatusEffects`. -/
def clearStatusEffects (e : Enemy) : Enemy :=
  { e with burnTimer_ := 0, slowTimer_ := 0, slowFactor_ := 1, frozenTimer_ := 0,
           visualState_ := .NORMAL }

/-- Method `Enemy::getCurrentSpeed`. -/
def getCurrentSpeed (e : Enemy) : ℚ :=
  if e.frozenTimer_ > 0 then 0 else e.speed_ * e.slowFactor_

/-- Burn block of `Enemy::update`: the timers run down and a tick of
`(int)burnDamagePerSec_` fires when the tick timer is used up. -/
def updateBurn (e : Enemy) (dt : ℚ) : Enemy :=
  if e.burnTimer_ > 0 then
    let e1 := { e with burnTimer_ := f32 (e.burnTimer_ - dt),
                       burnTickTimer_ := f32 (e.burnTickTimer_ - dt) }
    let e2 :=
      if e1.burnTickTimer_ ≤ 0 then
        { takeDamage e1 (floatToInt e1.burnDamagePerSec_) with burnTickTimer_ := 1 }
      else e1
    { e2 with visualState_ := .BURNING }
  else e

/-- Slow block of `Enemy::update`. -/
def updateSlow (e : Enemy) (dt : ℚ) : Enemy :=
  if e.slowTimer_ > 0 then
    { e with slowTimer_ := e.slowTimer_ - dt, visualState_ := .SLOWED }
  else { e with slowFactor_ := 1 }

/-- Frozen block of `Enemy::update`; the second component is the value of the
local `dt` afterwards (set to 0 while frozen). -/
def updateFrozen (e : Enemy) (dt : ℚ) : Enemy × ℚ :=
  if e.frozenTimer_ > 0 then
    ({ e with frozenTimer_ := e.frozenTimer_ - dt, visualState_ := .FROZEN }, 0)
  else (e, dt)

/-- Animation block at the end of `Enemy::update`. -/
def updateAnim (e : Enemy) (dt : ℚ) : Enemy :=
  let e1 := { e with animTimer_ := e.animTimer_ + dt }
  if e1.animTimer_ ≥ ANIM_FRAME_TIME then
    { e1 with animTimer_ := e1.animTimer_ - ANIM_FRAME_TIME,
              animFrame_ := Int.tmod (e1.animFrame_ + 1) e1.animFrameCount_ }
  else e1

/-- Movement block of `Enemy::update` followed by the animation block; the
`return` taken on reaching the last waypoint skips the animation block. -/
def updateMove (sqrt : ℚ → ℚ) (e : Enemy) (dt : ℚ) : Enemy :=
  if dt > 0 ∧ e.currentWaypoint_ < (e.waypoints_.length : Int) then
    let targetX := (wpAt e.waypoints_ e.currentWaypoint_).x
    let targetY := (wpAt e.waypoints_ e.currentWaypoint_).y
    let dx := targetX - e.x_
    let dy := targetY - e.y_
    let dist := sqrt (dx * dx + dy * dy)
    if dist < 5 / 100 then
      let e1 := { e with x_ := targetX, y_ := targetY,
                         currentWaypoint_ := e.currentWaypoint_ + 1 }
      if e1.currentWaypoint_ ≥ (e1.waypoints_.length : Int) then
        { e1 with reachedEnd_ := true }
      else updateAnim e1 dt
    else
      let currentSpeed := if e.frozenTimer_ > 0 then 0 else e.speed_ * e.slowFactor_
      let moveAmount := if currentSpeed * dt > dist then dist else currentSpeed * dt
      updateAnim { e with x_ := e.x_ + (dx / dist) * moveAmount,
                          y_ := e.y_ + (dy / dist) * moveAmount } dt
  else updateAnim e dt

/-- Method `Enemy::update`. -/
def update (sqrt : ℚ → ℚ) (e : Enemy) (dt : ℚ) : Enemy :=
  if e.isDying_ then
    let e1 := { e with deathAnimTimer_ := f32 (e.deathAnimTimer_ + dt) }
    let e2 := { e1 with
      deathFrame_ := floatToInt (f32 (e1.deathAnimTimer_ / DEATH_FRAME_TIME)) }
    if e2.deathAnimTimer_ ≥ deathAnimDuration_ then { e2 with isDead_ := true } else e2
  else if !e.isAlive || e.reachedEnd_ then e
  else
    let e1 := updateBurn e dt
    let e2 := updateSlow e1 dt
    let r := updateFrozen e2 dt
    updateMove sqrt r.1 r.2

/-- Method `Enemy::getPathProgress`. -/
def getPathProgress (sqrt : ℚ → ℚ) (e : Enemy) : ℚ :=
  if e.waypoints_.length ≤ 1 then 0
  else
    let totalSegments : Int := (e.waypoints_.length : Int) - 1
    if e.currentWaypoint_ < (e.waypoints_.length : Int) then
      let completedSegments : Int := e.currentWaypoint_ - 1
      let targetX := (wpAt e.waypoints_ e.currentWaypoint_).x
      let targetY := (wpAt e.waypoints_ e.currentWaypoint_).y
      let dx := targetX - e.x_
      let dy := targetY - e.y_
      let distToNext := sqrt (dx * dx + dy * dy)
      let prevX := (wpAt e.waypoints_ (e.currentWaypoint_ - 1)).x
      let prevY := (wpAt e.waypoints_ (e.currentWaypoint_ - 1)).y
      let segmentDx := targetX - prevX
      let segmentDy := targetY - prevY
      let segmentLength := sqrt (segmentDx * segmentDx + segmentDy * segmentDy)
      let segmentProgress : ℚ :=
        if segmentLength > 1 / 1000 then 1 - distToNext / segmentLength else 0
      ((completedSegments : ℚ) + segmentProgress) / (totalSegments : ℚ)
    else
      let completedSegments : Int := totalSegments
      ((completedSegments : ℚ) + 0) / (totalSegments : ℚ)

end Enemy

/-- Read `v[i]` of an enemy vector as an option (`none` outside the vector). -/
def enemyAt (enemies : List Enemy) (i : Int) : Option Enemy :=
  if i < 0 then none else enemies.get? i.toNat

/-- Apply a mutating method to element `i` of a vector: `v[i].f()`. -/
def modifyAt {α : Type} : List α → Nat → (α → α) → List α
  | [], _, _ => []
  | a :: l, 0, f => f a :: l
  | a :: l, n + 1, f => a :: modifyAt l n f

/-! ## Projectile.h / Projectile.cpp -/

/-- The data members of `class Projectile`. -/
structure Projectile where
  x_ : ℚ
  y_ : ℚ
  targetIndex_ : Int
  damage_ : Int
  speed_ : ℚ
  active_ : Bool
deriving DecidableEq

namespace Projectile

/-- Constructor `Projectile::Projectile`. -/
def new (startX startY : ℚ) (targetEnemyIndex damage : Int) : Projectile :=
  { x_ := startX, y_ := startY, targetIndex_ := targetEnemyIndex, damage_ := damage,
    speed_ := 8, active_ := true }

def isActive (p : Projectile) : Bool := p.active_
def deactivate (p : Projectile) : Projectile := { p with active_ := false }
def getTargetIndex (p : Projectile) : Int := p.targetIndex_
def getDamage (p : Projectile) : Int := p.damage_

/-- Method `Projectile::update`. -/
def update (sqrt : ℚ → ℚ) (p : Projectile) (dt targetX targetY : ℚ) : Projectile :=
  if !p.active_ then p
  else
    let dx := targetX - p.x_
    let dy := targetY - p.y_
    let dist := sqrt (dx * dx + dy * dy)
    if dist < 1 / 100 then { p with x_ := targetX, y_ := targetY }
    else
      let moveAmount := if p.speed_ * dt > dist then dist else p.speed_ * dt
      { p with x_ := p.x_ + (dx / dist) * moveAmount, y_ := p.y_ + (dy / dist) * moveAmount }

/-- Method `Projectile::hasReachedTarget`. -/
def hasReachedTarget (p : Projectile) (targetX targetY : ℚ) : Bool :=
  let dx := targetX - p.x_
  let dy := targetY - p.y_
  decide (dx * dx + dy * dy < (2 / 10) * (2 / 10))

end Projectile

/-! ## Tower.h / Tower.cpp -/

/-- The scan shared by the three `findTarget` methods: `bestIndex` starts at
`-1`, `bestProgress` at `-1.0f`, and enemy `i` replaces the best one when it
passes the method's own test `eligible` and its path progress is strictly
greater than `bestProgress`. -/
def scanTargets (eligible : Enemy → Bool) (progress : Enemy → ℚ) :
    List Enemy → Int → Int → ℚ → Int
  | [], _, bestIndex, _ => bestIndex
  | e :: es, i, bestIndex, bestProgress =>
    if eligible e = true ∧ progress e > bestProgress then
      scanTargets eligible progress es (i + 1) i (progress e)
    else
      scanTargets eligible progress es (i + 1) bestIndex bestProgress

/-- The data members of `class Tower`. -/
structure Tower where
  gridCol_ : Int
  gridRow_ : Int
  x_ : ℚ
  y_ : ℚ
  damage_ : Int
  range_ : ℚ
  fireRate_ : ℚ
  cooldown_ : ℚ
  level_ : Int
  attackAnimTimer_ : ℚ
deriving DecidableEq

namespace Tower

def attackAnimDuration_ : ℚ := 3 / 10

/-- Constructor `Tower::Tower`. -/
def new (gridCol gridRow : Int) : Tower :=
  { gridCol_ := gridCol, gridRow_ := gridRow,
    x_ := (gridCol : ℚ) + 1 / 2, y_ := (gridRow : ℚ) + 1 / 2,
    damage_ := 10, range_ := 25 / 10, fireRate_ := 1, cooldown_ := 0,
    level_ := 1, attackAnimTimer_ := 0 }

/-- Method `Tower::update`. -/
def update (t : Tower) (dt : ℚ) : Tower :=
  if t.cooldown_ > 0 then { t with cooldown_ := t.cooldown_ - dt } else t

def updateAnim (t : Tower) (dt : ℚ) : Tower :=
  if t.attackAnimTimer_ > 0 then { t with attackAnimTimer_ := t.attackAnimTimer_ - dt } else t

def canFire (t : Tower) : Bool := decide (t.cooldown_ ≤ 0)
def resetCooldown (t : Tower) : Tower := { t with cooldown_ := 1 / t.fireRate_ }
def triggerAttackAnim (t : Tower) : Tower := { t with attackAnimTimer_ := attackAnimDuration_ }
def getDamage (t : Tower) : Int := t.damage_

/-- The test enemy `e` must pass in `Tower::findTarget` before its progress is
compared: alive, not at the end, and at distance `<= range_`. -/
def eligible (sqrt : ℚ → ℚ) (t : Tower) (e : Enemy) : Bool :=
  if !e.isAlive || e.reachedEnd then false
  else
    let dx := e.getX - t.x_
    let dy := e.getY - t.y_
    let dist := sqrt (dx * dx + dy * dy)
    decide (dist ≤ t.range_)

/-- Method `Tower::findTarget`. -/
def findTarget (sqrt : ℚ → ℚ) (t : Tower) (enemies : List Enemy) : Int :=
  scanTargets (eligible sqrt t) (Enemy.getPathProgress sqrt) enemies 0 (-1) (-1)

end Tower

/-! ## Ally.h / Ally.cpp -/

/-- The data members of `class Ally`. -/
structure Ally where
  x_ : ℚ
  y_ : ℚ
  hp_ : Int
  maxHP_ : Int
  damage_ : Int
  speed_ : ℚ
  reachedSpawn_ : Bool
  waypoints_ : List Waypoint
  currentWaypoint_ : Int
  attackCooldown_ : ℚ
deriving DecidableEq

namespace Ally

def ATTACK_RANGE : ℚ := 1 / 2
def ATTACK_COOLDOWN : ℚ := 1

/-- Constructor `Ally::Ally`. -/
def new (startX startY : ℚ) (waypoints : List Waypoint) : Ally :=
  { x_ := startX, y_ := startY, hp_ := 200, maxHP_ := 200, damage_ := 60, speed_ := 1,
    reachedSpawn_ := false, waypoints_ := waypoints,
    currentWaypoint_ := (waypoints.length : Int) - 2, attackCooldown_ := 0 }

def isAlive (a : Ally) : Bool := decide (a.hp_ > 0)
def reachedSpawn (a : Ally) : Bool := a.reachedSpawn_

/-- Method `Ally::takeDamage`. -/
def takeDamage (a : Ally) (damage : Int) : Ally :=
  let a1 := { a with hp_ := a.hp_ - damage }
  if a1.hp_ < 0 then { a1 with hp_ := 0 } else a1

/-- Target search of `Ally::update`: `targetIndex` starts at `-1`, `bestDist`
at `ATTACK_RANGE`, and an alive enemy strictly nearer than `bestDist` replaces
the target. -/
def scanNearest (sqrt : ℚ → ℚ) (a : Ally) : List Enemy → Int → Int → ℚ → Int
  | [], _, targetIndex, _ => targetIndex
  | e :: es, i, targetIndex, bestDist =>
    if !e.isAlive then scanNearest sqrt a es (i + 1) targetIndex bestDist
    else
      let dx := e.getX - a.x_
      let dy := e.getY - a.y_
      let dist := sqrt (dx * dx + dy * dy)
      if dist < bestDist then scanNearest sqrt a es (i + 1) i dist
      else scanNearest sqrt a es (i + 1) targetIndex bestDist

/-- Movement block of `Ally::update` (backwards along the waypoints). -/
def move (sqrt : ℚ → ℚ) (a : Ally) (dt : ℚ) : Ally :=
  if a.currentWaypoint_ ≥ 0 then
    let targetX := (wpAt a.waypoints_ a.currentWaypoint_).x
    let targetY := (wpAt a.waypoints_ a.currentWaypoint_).y
    let dx := targetX - a.x_
    let dy := targetY - a.y_
    let dist := sqrt (dx * dx + dy * dy)
    if dist < 5 / 100 then
      let a1 := { a with x_ := targetX, y_ := targetY,
                         currentWaypoint_ := a.currentWaypoint_ - 1 }
      if a1.currentWaypoint_ < 0 then { a1 with reachedSpawn_ := true } else a1
    else
      let moveAmount := if a.speed_ * dt > dist then dist else a.speed_ * dt
      { a with x_ := a.x_ + (dx / dist) * moveAmount, y_ := a.y_ + (dy / dist) * moveAmount }
  else a

/-- Method `Ally::update`; the damage-number call on the game is a visual
sink and leaves no trace in the state. -/
def update (sqrt : ℚ → ℚ) (a : Ally) (dt : ℚ) (enemies : List Enemy) : Ally × List Enemy :=
  if !a.isAlive || a.reachedSpawn_ then (a, enemies)
  else
    let a1 := if a.attackCooldown_ > 0 then { a with attackCooldown_ := a.attackCooldown_ - dt }
              else a
    let targetIndex := scanNearest sqrt a1 enemies 0 (-1) ATTACK_RANGE
    if targetIndex ≥ 0 ∧ a1.attackCooldown_ ≤ 0 then
      ({ a1 with attackCooldown_ := ATTACK_COOLDOWN },
       modifyAt enemies targetIndex.toNat (fun e => e.takeDamage a1.damage_))
    else (move sqrt a1 dt, enemies)

end Ally

/-! ## SheriffTower.h / SheriffTower.cpp -/

/-- The data members of `class SheriffTower`. -/
structure SheriffTower where
  gridCol_ : Int
  gridRow_ : Int
  x_ : ℚ
  y_ : ℚ
  fireCooldown_ : ℚ
  spawnCooldown_ : ℚ
deriving DecidableEq

namespace SheriffTower

def FIRE_RATE : ℚ := 1
def SPAWN_RATE : ℚ := 15
def RANGE : ℚ := 3
def DAMAGE : Int := 30

/-- Constructor `SheriffTower::SheriffTower`. -/
def new (gridCol gridRow : Int) : SheriffTower :=
  { gridCol_ := gridCol, gridRow_ := gridRow,
    x_ := (gridCol : ℚ) + 1 / 2, y_ := (gridRow : ℚ) + 1 / 2,
    fireCooldown_ := 0, spawnCooldown_ := SPAWN_RATE }

/-- The test enemy `e` must pass in `SheriffTower::findTarget` before its
progress is compared: not flying, alive, not at the end, at distance
`<= RANGE`. -/
def eligible (sqrt : ℚ → ℚ) (t : SheriffTower) (e : Enemy) : Bool :=
  if e.isFlying then false
  else if !e.isAlive || e.reachedEnd then false
  else
    let dx := e.getX - t.x_
    let dy := e.getY - t.y_
    let dist := sqrt (dx * dx + dy * dy)
    decide (dist ≤ RANGE)

/-- Method `SheriffTower::findTarget`. -/
def findTarget (sqrt : ℚ → ℚ) (t : SheriffTower) (enemies : List Enemy) : Int :=
  scanTargets (eligible sqrt t) (Enemy.getPathProgress sqrt) enemies 0 (-1) (-1)

/-- Method `SheriffTower::update`: the tower, the projectile vector and the
ally vector after the call. -/
def update (sqrt : ℚ → ℚ) (t : SheriffTower) (dt : ℚ) (enemies : List Enemy)
    (projectiles : List Projectile) (waypoints : List Waypoint) (allies : List Ally) :
    SheriffTower × List Projectile × List Ally :=
  let t1 := if t.fireCooldown_ > 0 then { t with fireCooldown_ := t.fireCooldown_ - dt } else t
  let fired : SheriffTower × List Projectile :=
    if t1.fireCooldown_ ≤ 0 then
      let targetIdx := findTarget sqrt t1 enemies
      if targetIdx ≥ 0 then
        ({ t1 with fireCooldown_ := 1 / FIRE_RATE },
         projectiles ++ [Projectile.new t1.x_ t1.y_ targetIdx DAMAGE])
      else (t1, projectiles)
    else (t1, projectiles)
  let t2 : SheriffTower := { fired.1 with spawnCooldown_ := fired.1.spawnCooldown_ - dt }
  if t2.spawnCooldown_ ≤ 0 ∧ !waypoints.isEmpty then
    ({ t2 with spawnCooldown_ := SPAWN_RATE }, fired.2,
     allies ++ [Ally.new (wpAt waypoints ((waypoints.length : Int) - 1)).x
                         (wpAt waypoints ((waypoints.length : Int) - 1)).y waypoints])
  else (t2, fired.2, allies)

end SheriffTower

/-! ## MageTower.h / MageTower.cpp -/

inductive ElementType where
  | FIRE
  | ICE
  | LIGHTNING
deriving DecidableEq, Repr

/-- The `struct MageConfig`; a field that `getConfig` leaves unset for the
element at hand reads 0 here. -/
structure MageConfig where
  element : ElementType
  damage : ℚ
  range : ℚ
  fireRate : ℚ
  aoeRadius : ℚ
  dotDuration : ℚ
  dotDamage : ℚ
  slowFactor : ℚ
  slowDuration : ℚ
  chainTargets : Int
deriving DecidableEq

/-- The constant `FLT_MAX` of `<cfloat>`. -/
def FLT_MAX : ℚ := 340282346638528859811704183484516925440

/-- The data members of `class MageTower`. -/
structure MageTower where
  gridCol_ : Int
  gridRow_ : Int
  x_ : ℚ
  y_ : ℚ
  cooldown_ : ℚ
  level_ : Int
  element_ : ElementType
deriving DecidableEq

namespace MageTower

/-- Constructor `MageTower::MageTower` (`recalculateStats` does nothing). -/
def new (gridCol gridRow : Int) (element : ElementType) : MageTower :=
  { gridCol_ := gridCol, gridRow_ := gridRow,
    x_ := (gridCol : ℚ) + 1 / 2, y_ := (gridRow : ℚ) + 1 / 2,
    cooldown_ := 0, level_ := 1, element_ := element }

/-- Method `MageTower::getConfig`. -/
def getConfig (t : MageTower) : MageConfig :=
  let l : ℚ := ((t.level_ - 1 : Int) : ℚ)
  let base : MageConfig :=
    { element := t.element_, damage := 0, range := 25 / 10 + l * (2 / 10),
      fireRate := 8 / 10 + l * (1 / 10), aoeRadius := 1 + l * (15 / 100),
      dotDuration := 0, dotDamage := 0, slowFactor := 0, slowDuration := 0,
      chainTargets := 0 }
  match t.element_ with
  | .FIRE =>
    { base with damage := ((15 + (t.level_ - 1) * 8 : Int) : ℚ),
                dotDuration := 3 + l * (5 / 10),
                dotDamage := ((5 + (t.level_ - 1) * 3 : Int) : ℚ) }
  | .ICE =>
    { base with damage := ((12 + (t.level_ - 1) * 6 : Int) : ℚ),
                slowFactor := 5 / 10 - l * (5 / 100),
                slowDuration := 2 + l * (3 / 10) }
  | .LIGHTNING =>
    { base with damage := ((20 + (t.level_ - 1) * 10 : Int) : ℚ),
                chainTargets := 2 + (t.level_ - 1) }

/-- The test enemy `e` must pass in `MageTower::findTarget` before its progress
is compared: alive, not at the end, at distance `<= config.range`. -/
def eligible (sqrt : ℚ → ℚ) (t : MageTower) (e : Enemy) : Bool :=
  if !e.isAlive || e.reachedEnd then false
  else
    let dx := e.getX - t.x_
    let dy := e.getY - t.y_
    let dist := sqrt (dx * dx + dy * dy)
    decide (dist ≤ (getConfig t).range)

/-- Method `MageTower::findTarget`. -/
def findTarget (sqrt : ℚ → ℚ) (t : MageTower) (enemies : List Enemy) : Int :=
  scanTargets (eligible sqrt t) (Enemy.getPathProgress sqrt) enemies 0 (-1) (-1)

/-- Body of the loop of `MageTower::applyAoeDamage` for one enemy, the splash
centre being `(targetX, targetY)`. -/
def aoeHit (sqrt : ℚ → ℚ) (targetX targetY damage : ℚ) (config : MageConfig)
    (enemy : Enemy) : Enemy :=
  if !enemy.isAlive then enemy
  else
    let dx := enemy.getX - targetX
    let dy := enemy.getY - targetY
    let dist := sqrt (dx * dx + dy * dy)
    if dist ≤ config.aoeRadius then
      let wasFrozen := enemy.isFrozen
      let combo : Bool := config.element == ElementType.FIRE && wasFrozen
      let finalDamage : ℚ := if combo then damage * 2 else damage
      let e1 := if combo then enemy.clearStatusEffects else enemy
      let e2 := e1.takeDamage (floatToInt finalDamage)
      match config.element with
      | .FIRE => e2.applyBurn config.dotDamage config.dotDuration
      | .ICE => e2.applySlow config.slowFactor config.slowDuration
      | .LIGHTNING => e2
    else enemy

/-- Method `MageTower::applyAoeDamage`. -/
def applyAoeDamage (sqrt : ℚ → ℚ) (enemies : List Enemy) (targetIdx : Int) (damage : ℚ)
    (config : MageConfig) : List Enemy :=
  match enemyAt enemies targetIdx with
  | none => enemies
  | some target =>
    enemies.map (aoeHit sqrt target.getX target.getY damage config)

/-- Inner loop of `MageTower::applyChainLightning`: the nearest alive enemy not
yet hit within 3.0 of `(lastX, lastY)`, or `-1`. -/
def scanChain (sqrt : ℚ → ℚ) (lastX lastY : ℚ) (hitIndices : List Int) :
    List Enemy → Int → Int → ℚ → Int
  | [], _, nearestIdx, _ => nearestIdx
  | e :: es, i, nearestIdx, nearestDist =>
    if !e.isAlive then scanChain sqrt lastX lastY hitIndices es (i + 1) nearestIdx nearestDist
    else if i ∈ hitIndices then
      scanChain sqrt lastX lastY hitIndices es (i + 1) nearestIdx nearestDist
    else
      let dx := e.getX - lastX
      let dy := e.getY - lastY
      let dist := sqrt (dx * dx + dy * dy)
      if dist < nearestDist ∧ dist ≤ 3 then
        scanChain sqrt lastX lastY hitIndices es (i + 1) i dist
      else scanChain sqrt lastX lastY hitIndices es (i + 1) nearestIdx nearestDist

/-- The `for (chain = 1; chain < chainCount; ++chain)` loop of
`MageTower::applyChainLightning` with `n` iterations left; it returns the enemy
vector and the local vector `hitIndices`. -/
def chainLoop (sqrt : ℚ → ℚ) (damage : ℚ) :
    Nat → List Enemy → List Int → List Enemy × List Int
  | 0, enemies, hitIndices => (enemies, hitIndices)
  | n + 1, enemies, hitIndices =>
    let lastHit := hitIndices.getLastD 0
    let lastX := ((enemyAt enemies lastHit).map Enemy.getX).getD 0
    let lastY := ((enemyAt enemies lastHit).map Enemy.getY).getD 0
    let nearestIdx := scanChain sqrt lastX lastY hitIndices enemies 0 (-1) FLT_MAX
    if nearestIdx ≥ 0 then
      chainLoop sqrt damage n
        (modifyAt enemies nearestIdx.toNat (fun e => e.takeDamage (floatToInt (damage * (75 / 100)))))
        (hitIndices ++ [nearestIdx])
    else (enemies, hitIndices)

/-- Method `MageTower::applyChainLightning` together with the final value of
its local vector `hitIndices` (empty when the method returns at once). -/
def chainLightning (sqrt : ℚ → ℚ) (enemies : List Enemy) (firstTargetIdx : Int) (damage : ℚ)
    (chainCount : Int) : List Enemy × List Int :=
  match enemyAt enemies firstTargetIdx with
  | none => (enemies, [])
  | some first =>
    if !first.isAlive then (enemies, [])
    else
      chainLoop sqrt damage (chainCount - 1).toNat
        (modifyAt enemies firstTargetIdx.toNat (fun e => e.takeDamage (floatToInt damage)))
        [firstTargetIdx]

/-- Method `MageTower::applyChainLightning`. -/
def applyChainLightning (sqrt : ℚ → ℚ) (enemies : List Enemy) (firstTargetIdx : Int)
    (damage : ℚ) (chainCount : Int) : List Enemy :=
  (chainLightning sqrt enemies firstTargetIdx damage chainCount).1

/-- Method `MageTower::update`: the tower, the enemy vector and the projectile
vector after the call. -/
def update (sqrt : ℚ → ℚ) (t : MageTower) (dt : ℚ) (enemies : List Enemy)
    (projectiles : List Projectile) : MageTower × List Enemy × List Projectile :=
  let t1 := if t.cooldown_ > 0 then { t with cooldown_ := t.cooldown_ - dt } else t
  if t1.cooldown_ ≤ 0 then
    let targetIdx := findTarget sqrt t1 enemies
    if targetIdx ≥ 0 then
      let config := getConfig t1
      let enemies1 :=
        if config.element = ElementType.LIGHTNING then
          applyChainLightning sqrt enemies targetIdx config.damage config.chainTargets
        else applyAoeDamage sqrt enemies targetIdx config.damage config
      ({ t1 with cooldown_ := 1 / config.fireRate }, enemies1,
       projectiles ++ [Projectile.new t1.x_ t1.y_ targetIdx 0])
    else (t1, enemies, projectiles)
  else (t1, enemies, projectiles)

end MageTower

/-! ## Wave.h / Wave.cpp -/

/-- One entry of a wave (`struct WaveEntry`): an enemy kind and how many of it. -/
structure WaveEntry where
  enemyType : EnemyType
  count : Int
deriving DecidableEq

/-- A wave (`struct Wave`); the multiplier defaults to 100. -/
structure Wave where
  entries : List WaveEntry
  spawnInterval : ℚ
  difficultyMultiplier : Int := 100
deriving DecidableEq

/-- The data members of `class WaveManager`. -/
structure WaveManager where
  waves_ : List Wave
  currentWave_ : Int
deriving DecidableEq

namespace WaveManager

/-- Constructor `WaveManager::WaveManager`: the ten fixed waves. -/
def new : WaveManager :=
  { waves_ :=
      [ { entries := [⟨.SLIME, 3⟩], spawnInterval := 15 / 10 },
        { entries := [⟨.SLIME, 5⟩], spawnInterval := 13 / 10 },
        { entries := [⟨.GOBLIN, 3⟩, ⟨.BAT, 2⟩], spawnInterval := 12 / 10 },
        { entries := [⟨.SLIME, 8⟩], spawnInterval := 11 / 10 },
        { entries := [⟨.GOBLIN, 5⟩, ⟨.SLIME, 5⟩, ⟨.BAT, 3⟩], spawnInterval := 1 },
        { entries := [⟨.SLIME, 10⟩, ⟨.BAT, 5⟩], spawnInterval := 9 / 10 },
        { entries := [⟨.GOBLIN, 8⟩, ⟨.FLYING_EYE, 3⟩], spawnInterval := 9 / 10 },
        { entries := [⟨.GOBLIN, 5⟩, ⟨.SLIME, 10⟩, ⟨.BAT, 5⟩], spawnInterval := 8 / 10 },
        { entries := [⟨.GOBLIN, 12⟩, ⟨.FLYING_EYE, 5⟩], spawnInterval := 7 / 10 },
        { entries := [⟨.BOSS, 1⟩, ⟨.BAT, 10⟩], spawnInterval := 2 } ]
    currentWave_ := 0 }

/-- Method `getCurrentWave`: `waves_[currentWave_]`.  The C++ access is
unchecked; an index outside the vector has no defined result (`none`). -/
def getCurrentWave (w : WaveManager) : Option Wave :=
  if 0 ≤ w.currentWave_ then w.waves_[w.currentWave_.toNat]? else none

def getCurrentWaveIndex (w : WaveManager) : Int := w.currentWave_
def getTotalWaves (w : WaveManager) : Int := (w.waves_.length : Int)
def allWavesDone (w : WaveManager) : Bool := decide (w.currentWave_ ≥ (w.waves_.length : Int))
def advanceWave (w : WaveManager) : WaveManager := { w with currentWave_ := w.currentWave_ + 1 }

/-- Method `WaveManager::generateEndlessWave`. -/
def generateEndlessWave (_w : WaveManager) (waveNumber : Int) : Wave :=
  let multiplier : Int :=
    if waveNumber ≤ 5 then 75
    else if waveNumber ≤ 10 then 100
    else if waveNumber ≤ 20 then 150
    else 200 + (waveNumber - 20) * 10
  let baseCount : Int := 5 + waveNumber * 2
  let interval : ℚ := max (3 / 10) (1 - (waveNumber : ℚ) * (3 / 100))
  let entries : List WaveEntry :=
    if Int.tmod waveNumber 5 = 0 then
      [⟨.BOSS, 1⟩, ⟨.GOBLIN, Int.tdiv baseCount 2⟩, ⟨.FLYING_EYE, Int.tdiv baseCount 3⟩]
    else if Int.tmod waveNumber 3 = 0 then
      [⟨.GOBLIN, baseCount⟩, ⟨.SLIME, Int.tdiv baseCount 2⟩, ⟨.BAT, Int.tdiv baseCount 3⟩]
    else
      [⟨.GOBLIN, Int.tdiv baseCount 2⟩, ⟨.SLIME, baseCount⟩] ++
        (if waveNumber ≥ 3 then
          (if Int.tmod waveNumber 2 = 0 then [⟨.BAT, Int.tdiv baseCount 3⟩]
           else [⟨.FLYING_EYE, Int.tdiv baseCount 4⟩])
         else [])
  { entries := entries, spawnInterval := interval, difficultyMultiplier := multiplier }

end WaveManager

/-! ## Map.h / Map.cpp -/

inductive CellType where
  | GRASS
  | PATH
  | BLOCKED
  | TOWER
deriving DecidableEq, Repr

inductive MapType where
  | FOREST
  | DESERT
  | SNOW
  | DUNGEON
deriving DecidableEq, Repr

/-- The data members of `class Map`; `grid_` is the array
`CellType grid_[COLS][ROWS]`, indexed by column and then row. -/
structure Map where
  grid_ : Fin 10 → Fin 16 → CellType
  waypoints_ : List Waypoint
  type_ : MapType
deriving DecidableEq

namespace Map

def COLS : Int := 10
def ROWS : Int := 16

/-- The three loops shared by `initForest`, `initDesert`, `initSnow` and
`initDungeon`: every cell is set to GRASS, then the listed path cells to PATH,
then the listed blocked cells to BLOCKED (a later assignment wins). -/
def fillGrid (pathCells blockedCells : List (Nat × Nat)) : Fin 10 → Fin 16 → CellType :=
  fun c r =>
    if (c.val, r.val) ∈ blockedCells then .BLOCKED
    else if (c.val, r.val) ∈ pathCells then .PATH
    else .GRASS

/-- Method `Map::initForest`. -/
def initForest : Fin 10 → Fin 16 → CellType :=
  fillGrid
    [(5, 15), (5, 14), (5, 13), (5, 12), (5, 11),
     (6, 11), (7, 11), (8, 11),
     (8, 10), (8, 9), (8, 8),
     (7, 8), (6, 8), (5, 8), (4, 8), (3, 8), (2, 8), (1, 8),
     (1, 7), (1, 6), (1, 5),
     (2, 5), (3, 5), (4, 5), (5, 5), (6, 5), (7, 5),
     (7, 4), (7, 3), (7, 2),
     (6, 2), (5, 2), (4, 2),
     (4, 1), (4, 0)]
    [(0, 15), (1, 15), (9, 15),
     (0, 12), (3, 13), (9, 13),
     (0, 9), (3, 10), (6, 13),
     (9, 6), (9, 3), (0, 3),
     (0, 0), (1, 0), (9, 0)]

/-- Method `Map::initDesert`. -/
def initDesert : Fin 10 → Fin 16 → CellType :=
  fillGrid
    [(2, 15), (2, 14), (2, 13), (2, 12),
     (3, 12), (4, 12), (5, 12), (6, 12), (7, 12),
     (7, 11), (7, 10), (7, 9),
     (6, 9), (5, 9), (4, 9), (3, 9), (2, 9),
     (2, 8), (2, 7), (2, 6),
     (3, 6), (4, 6), (5, 6), (6, 6), (7, 6),
     (7, 5), (7, 4), (7, 3),
     (6, 3), (5, 3), (4, 3), (3, 3), (2, 3),
     (2, 2), (2, 1), (2, 0)]
    [(0, 0), (1, 0), (9, 0), (8, 0),
     (0, 15), (1, 15), (9, 15), (8, 15),
     (0, 7), (9, 7), (4, 14), (5, 1)]

/-- Method `Map::initSnow`. -/
def initSnow : Fin 10 → Fin 16 → CellType :=
  fillGrid
    [(5, 15), (5, 14), (5, 13),
     (4, 13), (3, 13), (2, 13), (1, 13),
     (1, 12), (1, 11), (1, 10),
     (2, 10), (3, 10), (4, 10), (5, 10), (6, 10), (7, 10), (8, 10),
     (8, 9), (8, 8), (8, 7),
     (7, 7), (6, 7), (5, 7), (4, 7), (3, 7), (2, 7),
     (2, 6), (2, 5), (2, 4),
     (3, 4), (4, 4), (5, 4), (6, 4), (7, 4),
     (7, 3), (7, 2), (7, 1),
     (6, 1), (5, 1), (4, 1), (3, 1), (2, 1), (1, 1),
     (1, 0)]
    [(0, 0), (9, 0), (9, 15), (0, 15),
     (3, 14), (7, 14), (4, 5), (6, 5)]

/-- Method `Map::initDungeon`. -/
def initDungeon : Fin 10 → Fin 16 → CellType :=
  fillGrid
    [(1, 15), (1, 14), (1, 13), (1, 12), (1, 11), (1, 10),
     (2, 10), (3, 10), (4, 10), (5, 10), (6, 10), (7, 10), (8, 10),
     (8, 9), (8, 8), (8, 7), (8, 6),
     (7, 6), (6, 6), (5, 6), (4, 6), (3, 6), (2, 6),
     (2, 5), (2, 4),
     (3, 4), (4, 4), (5, 4), (6, 4), (7, 4), (8, 4),
     (8, 3), (8, 2), (8, 1),
     (7, 1), (6, 1), (5, 1), (4, 1), (3, 1), (2, 1), (1, 1),
     (1, 0)]
    [(0, 0), (9, 0), (9, 15), (0, 15),
     (3, 8), (6, 8), (4, 2), (5, 2),
     (0, 5), (9, 5), (0, 10), (9, 10)]

/-- Method `Map::initMap`: the grid for the map type. -/
def initMap (type : MapType) : Fin 10 → Fin 16 → CellType :=
  match type with
  | .DESERT => initDesert
  | .SNOW => initSnow
  | .DUNGEON => initDungeon
  | .FOREST => initForest

/-- Method `Map::initWaypoints`: the waypoint list for the map type. -/
def initWaypoints (type : MapType) : List Waypoint :=
  match type with
  | .DESERT =>
    [⟨25 / 10, 155 / 10⟩, ⟨25 / 10, 125 / 10⟩, ⟨75 / 10, 125 / 10⟩, ⟨75 / 10, 95 / 10⟩,
     ⟨25 / 10, 95 / 10⟩, ⟨25 / 10, 65 / 10⟩, ⟨75 / 10, 65 / 10⟩, ⟨75 / 10, 35 / 10⟩,
     ⟨25 / 10, 35 / 10⟩, ⟨25 / 10, 5 / 10⟩]
  | .SNOW =>
    [⟨55 / 10, 155 / 10⟩, ⟨55 / 10, 135 / 10⟩, ⟨15 / 10, 135 / 10⟩, ⟨15 / 10, 105 / 10⟩,
     ⟨85 / 10, 105 / 10⟩, ⟨85 / 10, 75 / 10⟩, ⟨25 / 10, 75 / 10⟩, ⟨25 / 10, 45 / 10⟩,
     ⟨75 / 10, 45 / 10⟩, ⟨75 / 10, 15 / 10⟩, ⟨15 / 10, 15 / 10⟩, ⟨15 / 10, 5 / 10⟩]
  | .DUNGEON =>
    [⟨15 / 10, 155 / 10⟩, ⟨15 / 10, 105 / 10⟩, ⟨85 / 10, 105 / 10⟩, ⟨85 / 10, 65 / 10⟩,
     ⟨25 / 10, 65 / 10⟩, ⟨25 / 10, 45 / 10⟩, ⟨85 / 10, 45 / 10⟩, ⟨85 / 10, 15 / 10⟩,
     ⟨15 / 10, 15 / 10⟩, ⟨15 / 10, 5 / 10⟩]
  | .FOREST =>
    [⟨55 / 10, 155 / 10⟩, ⟨55 / 10, 115 / 10⟩, ⟨85 / 10, 115 / 10⟩, ⟨85 / 10, 85 / 10⟩,
     ⟨15 / 10, 85 / 10⟩, ⟨15 / 10, 55 / 10⟩, ⟨75 / 10, 55 / 10⟩, ⟨75 / 10, 25 / 10⟩,
     ⟨45 / 10, 25 / 10⟩, ⟨45 / 10, 5 / 10⟩]

/-- Constructor `Map::Map(MapType)`. -/
def ofType (type : MapType) : Map :=
  { grid_ := initMap type, waypoints_ := initWaypoints type, type_ := type }

/-- Constructor `Map::Map()`: the forest map. -/
def new : Map := ofType .FOREST

/-- Method `Map::setMapType`: the grid and the waypoints are initialised anew. -/
def setMapType (_m : Map) (type : MapType) : Map := ofType type

def getWaypoints (m : Map) : List Waypoint := m.waypoints_
def getType (m : Map) : MapType := m.type_

/-- Method `Map::getCell`: a cell outside the grid (`COLS = 10`, `ROWS = 16`)
reads as BLOCKED. -/
def getCell (m : Map) (col row : Int) : CellType :=
  if h : col < 0 ∨ col ≥ 10 ∨ row < 0 ∨ row ≥ 16 then .BLOCKED
  else m.grid_ ⟨col.toNat, by omega⟩ ⟨row.toNat, by omega⟩

/-- Method `Map::setCell`: writes `grid_[col][row]` when the cell is inside
the grid and does nothing otherwise. -/
def setCell (m : Map) (col row : Int) (type : CellType) : Map :=
  if col ≥ 0 ∧ col < 10 ∧ row ≥ 0 ∧ row < 16 then
    { m with grid_ := fun c r =>
        if (c.val : Int) = col ∧ (r.val : Int) = row then type else m.grid_ c r }
  else m

/-- Method `Map::canPlaceTower`. -/
def canPlaceTower (m : Map) (col row : Int) : Bool :=
  decide (m.getCell col row = CellType.GRASS)

/-- Method `Map::placeTower`. -/
def placeTower (m : Map) (col row : Int) : Map := m.setCell col row .TOWER

end Map

/-! ## Game.h: enumerations -/

inductive GameState where
  | LOGIN
  | MENU
  | DIFFICULTY_SELECT
  | CHARACTER_MENU
  | SANDBOX
  | PLAYING
  | PAUSED
  | WAVE_COMPLETE
  | GAME_OVER
  | VICTORY
deriving DecidableEq, Repr

/-- The nested enumeration `Game::TowerType`. -/
inductive TowerType where
  | ARCHER
  | SHERIFF
  | MAGE
deriving DecidableEq, Repr

/-! ## Game.h / Game.cpp: the simulation methods -/

inductive Difficulty where
  | EASY
  | MEDIUM
  | HARD
  | ENDLESS
deriving DecidableEq, Repr

/-- The data members of `class Game` that the methods below read or write
(the account, the card and character-level counters and the purely visual
managers are left out).  The defaults are the in-class initialisers and the
constructor's initialiser list. -/
structure Game where
  map_ : Map
  towers_ : List Tower
  sheriffTowers_ : List SheriffTower
  mageTowers_ : List MageTower
  allies_ : List Ally
  enemies_ : List Enemy
  projectiles_ : List Projectile
  gold_ : Int
  baseHP_ : Int
  difficulty_ : Difficulty
  endlessWaveMultiplier_ : Int
  waveManager_ : WaveManager := WaveManager.new
  state_ : GameState := .LOGIN
  waveTimer_ : ℚ := 3
  spawnTimer_ : ℚ := 0
  enemiesSpawned_ : Int := 0
  totalEnemiesInWave_ : Int := 0
  waveActive_ : Bool := false
  endlessWaveNumber_ : Int := 1
  endlessRewardCounter_ : Int := 0
  spawnQueue_ : List EnemyType := []
  menuCoins_ : Int := 0
  sandboxMode_ : Bool := false
  sandboxWave_ : Int := 1
  sandboxInfiniteMoney_ : Bool := false
  selectedTowerIndex_ : Int := -1
  selectedTowerType_ : TowerType := .ARCHER
  selectedMageElement_ : ElementType := .FIRE
deriving DecidableEq

namespace Game

/-- Method `Game::getDifficultyMultiplier`. -/
def getDifficultyMultiplier (g : Game) : Int :=
  match g.difficulty_ with
  | .EASY => 75
  | .HARD => 150
  | .ENDLESS => 200
  | .MEDIUM => 100

/-- Method `Game::spawnEnemy` (the log line for a boss is not modelled). -/
def spawnEnemy (g : Game) (type : EnemyType) : Game :=
  let e := Enemy.new type g.map_.getWaypoints
  let multiplier :=
    if g.difficulty_ = Difficulty.ENDLESS then g.endlessWaveMultiplier_
    else g.getDifficultyMultiplier
  let e1 := if multiplier ≠ 100 then e.applyDifficulty multiplier else e
  { g with enemies_ := g.enemies_ ++ [e1] }

/-- Outcome of the body of the loop of `Game::updateEnemies` for one enemy:
the enemy afterwards, whether the escape branch ran (`baseHP_--`), and whether
the reward branch ran (`gold_ += reward`, `markRewardGranted`, `spawnBlood`). -/
structure EnemyPass where
  enemy : Enemy
  escaped : Bool
  granted : Bool

/-- Body of the loop of `Game::updateEnemies` for one enemy. -/
def enemyPass (sqrt : ℚ → ℚ) (dt : ℚ) (enemy : Enemy) : EnemyPass :=
  let e1 := enemy.update sqrt dt
  let escaped : Bool := e1.reachedEnd && e1.isAlive
  let e2 := if escaped then e1.takeDamage 9999 else e1
  let granted : Bool := e2.isDying && !e2.reachedEnd && !e2.isRewardGranted
  let e3 := if granted then e2.markRewardGranted else e2
  { enemy := e3, escaped := escaped, granted := granted }

/-- The loop of `Game::updateEnemies`: the enemies, `gold_` and `baseHP_`
afterwards. -/
def updateEnemiesLoop (sqrt : ℚ → ℚ) (dt : ℚ) : List Enemy → Int → Int → List Enemy × Int × Int
  | [], gold, baseHP => ([], gold, baseHP)
  | e :: es, gold, baseHP =>
    let p := enemyPass sqrt dt e
    let baseHP1 := if p.escaped then baseHP - 1 else baseHP
    let gold1 := if p.granted then gold + p.enemy.getReward else gold
    let r := updateEnemiesLoop sqrt dt es gold1 baseHP1
    (p.enemy :: r.1, r.2.1, r.2.2)

/-- Method `Game::updateEnemies`. -/
def updateEnemies (sqrt : ℚ → ℚ) (g : Game) (dt : ℚ) : Game :=
  let r := updateEnemiesLoop sqrt dt g.enemies_ g.gold_ g.baseHP_
  { g with enemies_ := r.1, gold_ := r.2.1, baseHP_ := r.2.2 }

/-- The loop of `Game::updateTowers`: towers and projectiles afterwards. -/
def updateTowersLoop (sqrt : ℚ → ℚ) (dt : ℚ) (enemies : List Enemy) :
    List Tower → List Projectile → List Tower × List Projectile
  | [], projectiles => ([], projectiles)
  | tower :: ts, projectiles =>
    let t1 := (tower.update dt).updateAnim dt
    let targetIdx := t1.findTarget sqrt enemies
    if t1.canFire = true ∧ targetIdx ≥ 0 then
      let r := updateTowersLoop sqrt dt enemies ts
        (projectiles ++ [Projectile.new t1.x_ t1.y_ targetIdx t1.getDamage])
      (t1.resetCooldown.triggerAttackAnim :: r.1, r.2)
    else
      let r := updateTowersLoop sqrt dt enemies ts projectiles
      (t1 :: r.1, r.2)

/-- Method `Game::updateTowers`. -/
def updateTowers (sqrt : ℚ → ℚ) (g : Game) (dt : ℚ) : Game :=
  let r := updateTowersLoop sqrt dt g.enemies_ g.towers_ g.projectiles_
  { g with towers_ := r.1, projectiles_ := r.2 }

/-- The loop of `Game::updateSheriffTowers`. -/
def updateSheriffTowersLoop (sqrt : ℚ → ℚ) (dt : ℚ) (enemies : List Enemy)
    (waypoints : List Waypoint) :
    List SheriffTower → List Projectile → List Ally →
      List SheriffTower × List Projectile × List Ally
  | [], projectiles, allies => ([], projectiles, allies)
  | sheriff :: ts, projectiles, allies =>
    let u := sheriff.update sqrt dt enemies projectiles waypoints allies
    let r := updateSheriffTowersLoop sqrt dt enemies waypoints ts u.2.1 u.2.2
    (u.1 :: r.1, r.2.1, r.2.2)

/-- Method `Game::updateSheriffTowers`. -/
def updateSheriffTowers (sqrt : ℚ → ℚ) (g : Game) (dt : ℚ) : Game :=
  let r := updateSheriffTowersLoop sqrt dt g.enemies_ g.map_.getWaypoints
    g.sheriffTowers_ g.projectiles_ g.allies_
  { g with sheriffTowers_ := r.1, projectiles_ := r.2.1, allies_ := r.2.2 }

/-- The loop of `Game::updateMageTowers`. -/
def updateMageTowersLoop (sqrt : ℚ → ℚ) (dt : ℚ) :
    List MageTower → List Enemy → List Projectile →
      List MageTower × List Enemy × List Projectile
  | [], enemies, projectiles => ([], enemies, projectiles)
  | mage :: ts, enemies, projectiles =>
    let u := mage.update sqrt dt enemies projectiles
    let r := updateMageTowersLoop sqrt dt ts u.2.1 u.2.2
    (u.1 :: r.1, r.2.1, r.2.2)

/-- Method `Game::updateMageTowers`. -/
def updateMageTowers (sqrt : ℚ → ℚ) (g : Game) (dt : ℚ) : Game :=
  let r := updateMageTowersLoop sqrt dt g.mageTowers_ g.enemies_ g.projectiles_
  { g with mageTowers_ := r.1, enemies_ := r.2.1, projectiles_ := r.2.2 }

/-- First loop of `Game::updateAllies`: every alive ally is updated. -/
def updateAlliesLoop (sqrt : ℚ → ℚ) (dt : ℚ) : List Ally → List Enemy → List Ally × List Enemy
  | [], enemies => ([], enemies)
  | ally :: as, enemies =>
    let u := if ally.isAlive then ally.update sqrt dt enemies else (ally, enemies)
    let r := updateAlliesLoop sqrt dt as u.2
    (u.1 :: r.1, r.2)

/-- Damage an enemy deals to an ally it touches in `Game::updateAllies`. -/
def contactDamage (e : Enemy) : Int :=
  if e.getType = EnemyType.GOBLIN then 35
  else if e.getType = EnemyType.SLIME then 50 else 40

/-- Inner loop of the second part of `Game::updateAllies` for one enemy. -/
def contactAllies (sqrt : ℚ → ℚ) (enemy : Enemy) (allies : List Ally) : List Ally :=
  allies.map fun ally =>
    if !ally.isAlive then ally
    else
      let dx := enemy.getX - ally.x_
      let dy := enemy.getY - ally.y_
      let dist := sqrt (dx * dx + dy * dy)
      if dist < 1 / 2 then ally.takeDamage (contactDamage enemy) else ally

/-- Second loop of `Game::updateAllies`: alive enemies hurt the allies they
touch. -/
def contactLoop (sqrt : ℚ → ℚ) : List Enemy → List Ally → List Ally
  | [], allies => allies
  | enemy :: es, allies =>
    if !enemy.isAlive then contactLoop sqrt es allies
    else contactLoop sqrt es (contactAllies sqrt enemy allies)

/-- Method `Game::updateAllies`. -/
def updateAllies (sqrt : ℚ → ℚ) (g : Game) (dt : ℚ) : Game :=
  let r := updateAlliesLoop sqrt dt g.allies_ g.enemies_
  { g with allies_ := contactLoop sqrt r.2 r.1, enemies_ := r.2 }

/-- Body of the loop of `Game::updateProjectiles` for one projectile (damage
numbers and explosions are visual sinks). -/
def projectileStep (sqrt : ℚ → ℚ) (dt : ℚ) (proj : Projectile) (enemies : List Enemy) :
    Projectile × List Enemy :=
  if !proj.isActive then (proj, enemies)
  else
    let targetIdx := proj.getTargetIndex
    match enemyAt enemies targetIdx with
    | none => (proj.deactivate, enemies)
    | some target =>
      if !target.isAlive then (proj.deactivate, enemies)
      else
        let p1 := proj.update sqrt dt target.getX target.getY
        if p1.hasReachedTarget target.getX target.getY then
          (p1.deactivate,
           modifyAt enemies targetIdx.toNat (fun e => e.takeDamage p1.getDamage))
        else (p1, enemies)

/-- The loop of `Game::updateProjectiles`. -/
def updateProjectilesLoop (sqrt : ℚ → ℚ) (dt : ℚ) :
    List Projectile → List Enemy → List Projectile × List Enemy
  | [], enemies => ([], enemies)
  | proj :: ps, enemies =>
    let u := projectileStep sqrt dt proj enemies
    let r := updateProjectilesLoop sqrt dt ps u.2
    (u.1 :: r.1, r.2)

/-- Method `Game::updateProjectiles`. -/
def updateProjectiles (sqrt : ℚ → ℚ) (g : Game) (dt : ℚ) : Game :=
  let r := updateProjectilesLoop sqrt dt g.projectiles_ g.enemies_
  { g with projectiles_ := r.1, enemies_ := r.2 }

/-- Method `Game::cleanupDead`; `erase(remove_if(..))` keeps, in order, the
elements that fail the predicate. -/
def cleanupDead (g : Game) : Game :=
  let allies := g.allies_.filter (fun a => !(!a.isAlive || a.reachedSpawn))
  let enemies := g.enemies_.filter (fun e => !e.isDead)
  let projectiles1 := g.projectiles_.filter (fun p => !(!p.isActive))
  let projectiles2 := projectiles1.map fun proj =>
    if proj.getTargetIndex ≥ (enemies.length : Int) then proj.deactivate else proj
  let projectiles3 := projectiles2.filter (fun p => !(!p.isActive))
  { g with allies_ := allies, enemies_ := enemies, projectiles_ := projectiles3 }

end Game

/-! ## Vocabulary of the specifications -/

/-- One call on an enemy from the outside: the calls a tower, a projectile, an
ally or the game loop makes during play. -/
inductive EnemyCall where
  | takeDamage (damage : Int)
  | applyBurn (damagePerSec duration : ℚ)
  | applySlow (factor duration : ℚ)
  | update (dt : ℚ)

/-- The arguments of the call are non-negative. -/
def EnemyCall.nonneg : EnemyCall → Prop
  | .takeDamage damage => 0 ≤ damage
  | .applyBurn damagePerSec duration => 0 ≤ damagePerSec ∧ 0 ≤ duration
  | .applySlow factor duration => 0 ≤ factor ∧ 0 ≤ duration
  | .update dt => 0 ≤ dt

/-- Perform one call. -/
def Enemy.call (sqrt : ℚ → ℚ) (e : Enemy) : EnemyCall → Enemy
  | .takeDamage damage => e.takeDamage damage
  | .applyBurn damagePerSec duration => e.applyBurn damagePerSec duration
  | .applySlow factor duration => e.applySlow factor duration
  | .update dt => e.update sqrt dt

/-- Perform a sequence of calls, first to last. -/
def Enemy.calls (sqrt : ℚ → ℚ) (e : Enemy) (cs : List EnemyCall) : Enemy :=
  cs.foldl (Enemy.call sqrt) e

/-- An enemy as the spawner produces it: constructed, then scaled once by
`applyDifficulty` when a multiplier is given. -/
def Enemy.spawned (type : EnemyType) (waypoints : List Waypoint) : Option Int → Enemy
  | none => Enemy.new type waypoints
  | some multiplier => (Enemy.new type waypoints).applyDifficulty multiplier

/-- The hit-point invariant of an enemy, with the auxiliary fact that the
burn damage per second is non-negative. -/
def Enemy.HpInv (e : Enemy) : Prop :=
  0 ≤ e.hp_ ∧ e.hp_ ≤ e.maxHP_ ∧ (e.hp_ = 0 → e.isDying_ = true ∨ e.isDead_ = true) ∧
    0 ≤ e.burnDamagePerSec_

/-- The enemy after a sequence of `Game::updateEnemies` calls with the given
time steps: the loop body applied once per call. -/
def Game.enemyAfter (sqrt : ℚ → ℚ) : Enemy → List ℚ → Enemy
  | e, [] => e
  | e, dt :: dts => Game.enemyAfter sqrt (Game.enemyPass sqrt dt e).enemy dts

/-- How many times, over a sequence of `Game::updateEnemies` calls with the
given time steps, the reward branch (`gold_ += enemy.getReward()`) runs for an
enemy that starts as `e`. -/
def Game.rewardGrants (sqrt : ℚ → ℚ) : Enemy → List ℚ → Nat
  | _, [] => 0
  | e, dt :: dts =>
    (if (Game.enemyPass sqrt dt e).granted then 1 else 0) +
      Game.rewardGrants sqrt (Game.enemyPass sqrt dt e).enemy dts

/-- A sequence of `Game::updateEnemies` calls. -/
def Game.updateEnemiesSeq (sqrt : ℚ → ℚ) (g : Game) (dts : List ℚ) : Game :=
  dts.foldl (Game.updateEnemies sqrt) g

/-- The reward of the enemy has been granted and can no longer be affected:
the flag is set, the enemy is dying and it has not reached the end. -/
def Enemy.Settled (e : Enemy) : Prop :=
  e.rewardGranted_ = true ∧ e.isDying_ = true ∧ e.reachedEnd_ = false

/-! ## Concrete states used in the evaluations -/

/-- A straight path of two waypoints, four cells long. -/
def exampleWaypoints : List Waypoint := [⟨1 / 2, 1 / 2⟩, ⟨9 / 2, 1 / 2⟩]

/-- A game right after `Game::Game()`, on the straight path, before any tower
is placed or enemy spawned. -/
def exampleGame : Game :=
  { map_ := { Map.new with waypoints_ := exampleWaypoints }, towers_ := [], sheriffTowers_ := [], mageTowers_ := [],
    allies_ := [], enemies_ := [], projectiles_ := [], gold_ := 50, baseHP_ := 20,
    difficulty_ := .MEDIUM, endlessWaveMultiplier_ := 100 }

/-- A slime killed by 40 points of damage whose reward has been granted. -/
def rewardedSlime : Enemy :=
  ((Enemy.new .SLIME exampleWaypoints).takeDamage 40).markRewardGranted

/-- A slime killed by 40 points of damage whose death animation (0.6 s) has
run to its end. -/
def deadSlime : Enemy :=
  { Enemy.new .SLIME exampleWaypoints with
    hp_ := 0, isDying_ := true, isDead_ := true, deathAnimTimer_ := f32 (6 / 10),
    deathFrame_ := 6 }

/-- A game with a dead slime in front of a live slime and a live goblin, and
one projectile in flight toward the live slime (index 1). -/
def staleIndexGame : Game :=
  { exampleGame with
    enemies_ := [deadSlime, Enemy.new .SLIME exampleWaypoints, Enemy.new .GOBLIN exampleWaypoints]
    projectiles_ := [Projectile.new (1 / 2) (1 / 2) 1 10] }

/-- Enemy `e` is a targeting candidate for a weapon at `(x, y)` with the given
range: alive, not at the end of the path, and at distance at most `range`. -/
def targetCandidate (sqrt : ℚ → ℚ) (x y range : ℚ) (e : Enemy) : Prop :=
  e.isAlive = true ∧ e.reachedEnd = false ∧
    sqrt ((e.getX - x) * (e.getX - x) + (e.getY - y) * (e.getY - y)) ≤ range

/-- The targeting policy: `r` is `-1` exactly when the list has no candidate;
otherwise `r` is the index of a candidate whose progress is at least that of
every candidate and strictly greater than that of every candidate before it
(so it is the first one of greatest progress). -/
def FirstBestTarget (cand : Enemy → Prop) (progress : Enemy → ℚ) (enemies : List Enemy)
    (r : Int) : Prop :=
  (r = -1 ↔ ∀ e ∈ enemies, ¬cand e) ∧
  (r ≠ -1 → ∃ (j : Nat) (e : Enemy), r = (j : Int) ∧ enemies[j]? = some e ∧ cand e ∧
    (∀ (k : Nat) (e' : Enemy), enemies[k]? = some e' → cand e' → progress e' ≤ progress e) ∧
    (∀ (k : Nat) (e' : Enemy), k < j → enemies[k]? = some e' → cand e' →
      progress e' < progress e))

/-- A goblin standing on the example path at `x`. -/
def goblinAt (x : ℚ) : Enemy :=
  { Enemy.new .GOBLIN exampleWaypoints with x_ := x }

/-- Three goblins in a line on the example path, one cell apart. -/
def goblinLine : List Enemy := [goblinAt (1 / 2), goblinAt (3 / 2), goblinAt (5 / 2)]

/-- The position `enemies[i].getX()`, `enemies[i].getY()` the chain reads for
the enemy hit last. -/
def chainOrigin (enemies : List Enemy) (i : Int) : ℚ × ℚ :=
  (((enemyAt enemies i).map Enemy.getX).getD 0, ((enemyAt enemies i).map Enemy.getY).getD 0)

/-- Distance from the point `o` to enemy `e`, as the chain computes it. -/
def hopDist (sqrt : ℚ → ℚ) (o : ℚ × ℚ) (e : Enemy) : ℚ :=
  sqrt ((e.getX - o.1) * (e.getX - o.1) + (e.getY - o.2) * (e.getY - o.2))

/-- Enemy number `i` can be the next hop of a chain that has hit the indices
`hit`, the last of them `prev`: it is alive, not yet hit, and within 3.0 of
enemy `prev`. -/
def ChainCandidate (sqrt : ℚ → ℚ) (enemies : List Enemy) (hit : List Int) (prev : Int)
    (i : Nat) : Prop :=
  ∃ e, enemies[i]? = some e ∧ e.isAlive = true ∧ (i : Int) ∉ hit ∧
    hopDist sqrt (chainOrigin enemies prev) e ≤ 3

/-- Index `next` is a chain candidate after `prev` and no candidate is nearer
to enemy `prev`. -/
def NearestCandidate (sqrt : ℚ → ℚ) (enemies : List Enemy) (hit : List Int) (prev next : Int) :
    Prop :=
  ∃ (j : Nat) (e : Enemy), next = (j : Int) ∧ enemies[j]? = some e ∧
    ChainCandidate sqrt enemies hit prev j ∧
    ∀ (i : Nat) (e' : Enemy), enemies[i]? = some e' → ChainCandidate sqrt enemies hit prev i →
      hopDist sqrt (chainOrigin enemies prev) e ≤ hopDist sqrt (chainOrigin enemies prev) e'

/-- Damage the chain deals to enemy `i` when it hits it: `(int)damage` for the
first target, `(int)(damage * 0.75f)` for every later hop. -/
def chainDamage (first : Int) (damage : ℚ) (i : Int) : Int :=
  if i = first then floatToInt damage else floatToInt (damage * (75 / 100))

/-- Invariant of the chain loop with respect to the enemy vector `orig` at the
call: `cur` is the vector now and `hits` the local vector `hitIndices`. -/
structure ChainInv (sqrt : ℚ → ℚ) (orig : List Enemy) (first : Int) (damage : ℚ)
    (cur : List Enemy) (hits : List Int) : Prop where
  length_eq : cur.length = orig.length
  unhit : ∀ (i : Nat) (e : Enemy), orig[i]? = some e → (i : Int) ∉ hits → cur[i]? = some e
  hit : ∀ (i : Nat) (e : Enemy), orig[i]? = some e → (i : Int) ∈ hits →
    cur[i]? = some (e.takeDamage (chainDamage first damage i))
  head : hits.head? = some first
  nodup : hits.Nodup
  valid : ∀ h ∈ hits, ∃ j : Nat, h = (j : Int) ∧ j < orig.length
  chain : ∀ (pre : List Int) (prev next : Int) (post : List Int),
    hits = pre ++ prev :: next :: post → NearestCandidate sqrt orig (pre ++ [prev]) prev next

/-- A fresh slime on the example path frozen for two seconds. -/
def frozenSlime : Enemy := (Enemy.new .SLIME exampleWaypoints).freeze 2

/-- One stage of the per-frame pipeline of `Game::update`, or a spawn. -/
inductive GameOp where
  | updateEnemies (dt : ℚ)
  | updateTowers (dt : ℚ)
  | updateSheriffTowers (dt : ℚ)
  | updateMageTowers (dt : ℚ)
  | updateAllies (dt : ℚ)
  | updateProjectiles (dt : ℚ)
  | cleanupDead
  | spawnEnemy (type : EnemyType)

/-- Run one stage. -/
def Game.step (sqrt : ℚ → ℚ) (g : Game) : GameOp → Game
  | .updateEnemies dt => g.updateEnemies sqrt dt
  | .updateTowers dt => g.updateTowers sqrt dt
  | .updateSheriffTowers dt => g.updateSheriffTowers sqrt dt
  | .updateMageTowers dt => g.updateMageTowers sqrt dt
  | .updateAllies dt => g.updateAllies sqrt dt
  | .updateProjectiles dt => g.updateProjectiles sqrt dt
  | .cleanupDead => g.cleanupDead
  | .spawnEnemy type => g.spawnEnemy type

/-- Run a sequence of stages, first to last. -/
def Game.run (sqrt : ℚ → ℚ) (g : Game) (ops : List GameOp) : Game :=
  ops.foldl (Game.step sqrt) g

/-- A game together with its reward bookkeeping: `credits` runs parallel to the
enemy collection and counts, per enemy, how many times `Game::updateEnemies`
has added its reward to gold; `removed` lists the enemies `Game::cleanupDead`
has removed so far, each with its final count. -/
structure Ledger where
  game : Game
  credits : List Nat
  removed : List (Enemy × Nat)

/-- Run one stage and keep the books. -/
def Ledger.step (sqrt : ℚ → ℚ) (l : Ledger) : GameOp → Ledger
  | .updateEnemies dt =>
    { game := l.game.updateEnemies sqrt dt
      credits := List.zipWith
        (fun e c => if (Game.enemyPass sqrt dt e).granted then c + 1 else c)
        l.game.enemies_ l.credits
      removed := l.removed }
  | .cleanupDead =>
    { game := l.game.cleanupDead
      credits := ((l.game.enemies_.zip l.credits).filter (fun p => !p.1.isDead)).map Prod.snd
      removed := l.removed ++ (l.game.enemies_.zip l.credits).filter (fun p => p.1.isDead) }
  | .spawnEnemy type =>
    { game := l.game.spawnEnemy type, credits := l.credits ++ [0], removed := l.removed }
  | .updateTowers dt => { l with game := l.game.updateTowers sqrt dt }
  | .updateSheriffTowers dt => { l with game := l.game.updateSheriffTowers sqrt dt }
  | .updateMageTowers dt => { l with game := l.game.updateMageTowers sqrt dt }
  | .updateAllies dt => { l with game := l.game.updateAllies sqrt dt }
  | .updateProjectiles dt => { l with game := l.game.updateProjectiles sqrt dt }

/-- Run a sequence of stages and keep the books. -/
def Ledger.run (sqrt : ℚ → ℚ) (l : Ledger) (ops : List GameOp) : Ledger :=
  ops.foldl (Ledger.step sqrt) l

/-- The books of a game in which no reward has been granted yet. -/
def Ledger.start (g : Game) : Ledger :=
  { game := g, credits := g.enemies_.map (fun _ => 0), removed := [] }

/-- Gold accounted for by a list of enemies with their counts. -/
def creditedGold (l : List (Enemy × Nat)) : Int :=
  (l.map fun p => (p.2 : Int) * p.1.getReward).sum

/-- The fields the reward bookkeeping depends on are untouched from `e` to `e'`
(a dying enemy stays dying): what damage and status effects do to an enemy. -/
def Enemy.SameLedger (e e' : Enemy) : Prop :=
  e'.rewardGranted_ = e.rewardGranted_ ∧ e'.reachedEnd_ = e.reachedEnd_ ∧
    e'.isDead_ = e.isDead_ ∧ e'.reward_ = e.reward_ ∧
    (e.isDying_ = true → e'.isDying_ = true)

/-- Bookkeeping invariant of one enemy with count `n`: either nothing was
granted (count 0, flag clear) or the reward was granted once and is settled;
and a dead enemy has reached the end or has its flag set. -/
def Enemy.Booked (e : Enemy) (n : Nat) : Prop :=
  ((n = 0 ∧ e.rewardGranted_ = false) ∨ (n = 1 ∧ e.Settled)) ∧
    (e.isDead_ = true → e.reachedEnd_ = true ∨ e.rewardGranted_ = true)

/-- Invariant of the books with respect to the gold at the start: every enemy
of the collection and every removed enemy is booked, the removed ones were dead
when removed, and gold is the starting gold plus the gold accounted for. -/
def Ledger.Inv (startGold : Int) (l : Ledger) : Prop :=
  List.Forall₂ Enemy.Booked l.game.enemies_ l.credits ∧
  (∀ p ∈ l.removed, p.1.isDead_ = true ∧ p.1.Booked p.2) ∧
  l.game.gold_ = startGold + creditedGold l.removed +
    creditedGold (l.game.enemies_.zip l.credits)

/-- The example game with one projectile of damage 40 waiting at the start of
the path for the enemy that will have index 0. -/
def ambushGame : Game :=
  { exampleGame with projectiles_ := [Projectile.new (1 / 2) (1 / 2) 0 40] }

/-- A slime is spawned, killed by the projectile, rewarded in the next
`updateEnemies`, dead after its animation, and removed. -/
def ambushOps : List GameOp :=
  [.spawnEnemy .SLIME, .updateProjectiles (1 / 10), .updateEnemies (1 / 10),
   .updateEnemies (3 / 5), .cleanupDead]

/-- A slime that has walked the example path and stands on its last waypoint
(the index still points at it, `reachedEnd` is not yet set), with 5 hit points
left and a burn of 5 per second just applied. -/
def burningSlimeAtEnd : Enemy :=
  { ((Enemy.new .SLIME exampleWaypoints).takeDamage 35).applyBurn 5 3 with
    x_ := 9 / 2, animTimer_ := 57 / 20, animFrame_ := 1 }

/-- The example game with that slime as its only enemy. -/
def lastStepGame : Game := { exampleGame with enemies_ := [burningSlimeAtEnd] }

/-- The burn tick and the step onto the end of the path fall into the same
`updateEnemies`; the death animation then runs out and the cleanup follows. -/
def lastStepOps : List GameOp := [.updateEnemies (1 / 10), .updateEnemies (3 / 5), .cleanupDead]

/-- That slime after the `update` in which the burn tick kills it and the
movement block carries it past the last waypoint. -/
def killedAtEnd : Enemy :=
  { burningSlimeAtEnd with
    hp_ := 0, isDying_ := true, reachedEnd_ := true, currentWaypoint_ := 2,
    burnTimer_ := f32 (29 / 10), burnTickTimer_ := 1, visualState_ := .BURNING }

/-- The same slime once its death animation has run out. -/
def deadAtEnd : Enemy :=
  { killedAtEnd with isDead_ := true, deathAnimTimer_ := f32 (3 / 5), deathFrame_ := 6 }

/-! ## Vocabulary of the statements about repeated hits -/

/-- The enemy after `k` hits of `damage` points each: `takeDamage(damage)`
called `k` times in a row. -/
def Enemy.takeHits (e : Enemy) (damage : Int) : Nat → Enemy
  | 0 => e
  | k + 1 => (Enemy.takeHits e damage k).takeDamage damage

/-! ## Tower.h / Tower.cpp: cost and upgrades -/

namespace Tower

/-- Static method `Tower::getCost(Difficulty)`. -/
def getCost (diff : Difficulty) : Int :=
  match diff with
  | .HARD => 35
  | _ => 50

def getMaxLevel : Int := 5
def getLevel (t : Tower) : Int := t.level_
def getGridCol (t : Tower) : Int := t.gridCol_
def getGridRow (t : Tower) : Int := t.gridRow_
def getRange (t : Tower) : ℚ := t.range_
def getFireRate (t : Tower) : ℚ := t.fireRate_

/-- Method `Tower::getUpgradeCost`: the `switch` on the current level. -/
def getUpgradeCost (t : Tower) : Int :=
  if t.level_ = 1 then 30
  else if t.level_ = 2 then 50
  else if t.level_ = 3 then 100
  else if t.level_ = 4 then 200
  else 0

/-- Method `Tower::canUpgrade`. -/
def canUpgrade (t : Tower) (playerGold : Int) : Bool :=
  decide (t.level_ < getMaxLevel) && decide (playerGold ≥ t.getUpgradeCost)

/-- Method `Tower::recalculateStats`. -/
def recalculateStats (t : Tower) : Tower :=
  { t with
    damage_ := 10 + (t.level_ - 1) * 5
    range_ := 25 / 10 + ((t.level_ - 1 : Int) : ℚ) * (3 / 10)
    fireRate_ := 1 + ((t.level_ - 1 : Int) : ℚ) * (2 / 10) }

/-- Method `Tower::upgrade`. -/
def upgrade (t : Tower) : Tower :=
  if t.level_ < getMaxLevel then recalculateStats { t with level_ := t.level_ + 1 } else t

/-- The tower after `k` calls of `upgrade()`. -/
def upgrades (t : Tower) : Nat → Tower
  | 0 => t
  | k + 1 => (upgrades t k).upgrade

end Tower

namespace SheriffTower

/-- Static method `SheriffTower::getCost(Difficulty)`. -/
def getCost (diff : Difficulty) : Int :=
  match diff with
  | .HARD => 150
  | _ => 200

end SheriffTower

namespace MageTower

/-- Static method `MageTower::getCost(Difficulty)`. -/
def getCost (diff : Difficulty) : Int :=
  match diff with
  | .HARD => 200
  | _ => 250

end MageTower

/-! ## Game.h / Game.cpp: waves, taps, upgrades and the sandbox -/

/-- Unchecked read `v[i]` of a vector: an index outside the vector has no
defined result (`none`). -/
def vectorAt {α : Type} (v : List α) (i : Int) : Option α :=
  if 0 ≤ i then v[i.toNat]? else none

/-- The nested loops of `Game::buildSpawnQueue` and `Game::sandboxSpawnWave`:
each entry contributes `count` copies of its enemy kind, in entry order. -/
def flattenEntries : List WaveEntry → List EnemyType
  | [] => []
  | entry :: rest => List.replicate entry.count.toNat entry.enemyType ++ flattenEntries rest

/-- The loop of `Game::onTap` over `towers_`: the index of the first archer
tower standing on cell `(col, row)`. -/
def towerIndexAt (col row : Int) : List Tower → Int → Option Int
  | [], _ => none
  | t :: ts, i =>
    if t.getGridCol = col ∧ t.getGridRow = row then some i
    else towerIndexAt col row ts (i + 1)

namespace Game

def WAVE_DELAY : ℚ := 5

/-- Constructor `Game::Game()`; the menu coins come from storage. -/
def new (savedMenuCoins : Int) : Game :=
  { map_ := Map.new, towers_ := [], sheriffTowers_ := [], mageTowers_ := [], allies_ := [],
    enemies_ := [], projectiles_ := [], gold_ := 50, baseHP_ := 20, difficulty_ := .MEDIUM,
    endlessWaveMultiplier_ := 100, menuCoins_ := savedMenuCoins }

def getGold (g : Game) : Int := g.gold_
def getState (g : Game) : GameState := g.state_
def isUpgradeMenuOpen (g : Game) : Bool := decide (g.selectedTowerIndex_ ≥ 0)
def getSelectedTowerIndex (g : Game) : Int := g.selectedTowerIndex_
def openUpgradeMenu (g : Game) (towerIndex : Int) : Game :=
  { g with selectedTowerIndex_ := towerIndex }
def closeUpgradeMenu (g : Game) : Game := { g with selectedTowerIndex_ := -1 }
def selectArcherTower (g : Game) : Game := { g with selectedTowerType_ := .ARCHER }
def selectSheriffTower (g : Game) : Game := { g with selectedTowerType_ := .SHERIFF }
def selectMageTower (g : Game) : Game := { g with selectedTowerType_ := .MAGE }
def setMageElement (g : Game) (element : ElementType) : Game :=
  { g with selectedMageElement_ := element }
def toggleSandboxMode (g : Game) : Game := { g with sandboxMode_ := !g.sandboxMode_ }
def setDifficulty (g : Game) (diff : Difficulty) : Game := { g with difficulty_ := diff }
def setMapType (g : Game) (type : MapType) : Game := { g with map_ := g.map_.setMapType type }
def resumeGame (g : Game) : Game :=
  if g.state_ = .PAUSED then { g with state_ := .PLAYING } else g

/-- Method `Game::togglePause`. -/
def togglePause (g : Game) : Game :=
  if g.state_ = .PLAYING then { g with state_ := .PAUSED }
  else if g.state_ = .PAUSED then { g with state_ := .PLAYING }
  else g

/-- Method `Game::startGame`. -/
def startGame (g : Game) : Game :=
  if g.state_ = .MENU then { g with state_ := .DIFFICULTY_SELECT } else g

/-- Method `Game::startGameWithDifficulty`. -/
def startGameWithDifficulty (g : Game) (diff : Difficulty) : Game :=
  let g1 := { g with difficulty_ := diff, state_ := .WAVE_COMPLETE, waveTimer_ := 3 }
  if diff = .EASY then { g1 with gold_ := 75, baseHP_ := 25 }
  else if diff = .HARD then { g1 with gold_ := 35, baseHP_ := 15 }
  else if diff = .ENDLESS then { g1 with gold_ := 50, baseHP_ := 15 }
  else { g1 with gold_ := 50, baseHP_ := 20 }

/-- Method `Game::restartGame`. -/
def restartGame (g : Game) : Game :=
  { g with
    gold_ := 50
    baseHP_ := 20
    state_ := .WAVE_COMPLETE
    waveTimer_ := 3
    spawnTimer_ := 0
    enemiesSpawned_ := 0
    totalEnemiesInWave_ := 0
    waveActive_ := false
    spawnQueue_ := []
    enemies_ := []
    towers_ := []
    sheriffTowers_ := []
    mageTowers_ := []
    allies_ := []
    projectiles_ := []
    map_ := Map.new
    waveManager_ := WaveManager.new
    selectedTowerIndex_ := -1
    endlessWaveNumber_ := 1
    endlessWaveMultiplier_ := 100
    endlessRewardCounter_ := 0 }

/-- Method `Game::returnToMenu`. -/
def returnToMenu (g : Game) : Game := { g.restartGame with state_ := .MENU }

/-- Method `Game::claimVictoryReward` (the write to storage is not modelled). -/
def claimVictoryReward (g : Game) : Game :=
  let reward : Int :=
    match g.difficulty_ with
    | .EASY => 50
    | .MEDIUM => 100
    | .HARD => 250
    | .ENDLESS => 0
  if reward > 0 then { g with menuCoins_ := g.menuCoins_ + reward } else g

/-- Method `Game::checkEndlessWaveReward` (the write to storage is not
modelled). -/
def checkEndlessWaveReward (g : Game) : Game :=
  if g.difficulty_ ≠ .ENDLESS then g
  else
    let g1 := { g with endlessRewardCounter_ := g.endlessRewardCounter_ + 1 }
    if g1.endlessRewardCounter_ ≥ 10 then
      { g1 with menuCoins_ := g1.menuCoins_ + 100, endlessRewardCounter_ := 0 }
    else g1

/-- Method `Game::buildSpawnQueue`; outside endless mode it reads
`waveManager_.getCurrentWave()`. -/
def buildSpawnQueue (g : Game) : Option Game :=
  if g.difficulty_ = .ENDLESS then
    let wave := g.waveManager_.generateEndlessWave g.endlessWaveNumber_
    some { g with
      endlessWaveMultiplier_ := wave.difficultyMultiplier
      spawnQueue_ := flattenEntries wave.entries
      endlessWaveNumber_ := g.endlessWaveNumber_ + 1 }
  else
    match g.waveManager_.getCurrentWave with
    | none => none
    | some wave => some { g with spawnQueue_ := flattenEntries wave.entries }

/-- Method `Game::startNextWave`. -/
def startNextWave (g : Game) : Option Game :=
  if g.difficulty_ ≠ .ENDLESS ∧ g.waveManager_.allWavesDone = true then some g
  else
    let g1 := { g with state_ := .PLAYING, waveActive_ := true, enemiesSpawned_ := 0,
                       spawnTimer_ := 0 }
    match g1.buildSpawnQueue with
    | none => none
    | some g2 => some { g2 with totalEnemiesInWave_ := (g2.spawnQueue_.length : Int) }

/-- Method `Game::updateWaveSpawning`; the reads `spawnQueue_[enemiesSpawned_]`
and `waveManager_.getCurrentWave()` are unchecked. -/
def updateWaveSpawning (g : Game) (dt : ℚ) : Option Game :=
  if g.state_ = .WAVE_COMPLETE then
    let g1 := { g with waveTimer_ := g.waveTimer_ - dt }
    if g1.waveTimer_ ≤ 0 then g1.startNextWave else some g1
  else if g.waveActive_ = false then some g
  else if g.enemiesSpawned_ < g.totalEnemiesInWave_ then
    let g1 := { g with spawnTimer_ := g.spawnTimer_ - dt }
    if g1.spawnTimer_ ≤ 0 then
      match vectorAt g1.spawnQueue_ g1.enemiesSpawned_ with
      | none => none
      | some type =>
        let g2 := g1.spawnEnemy type
        let g3 := { g2 with enemiesSpawned_ := g2.enemiesSpawned_ + 1 }
        match g3.waveManager_.getCurrentWave with
        | none => none
        | some wave => some { g3 with spawnTimer_ := wave.spawnInterval }
    else some g1
  else some g

/-- The six simulation calls of `Game::update` between `updateWaveSpawning`
and `cleanupDead`, in source order. -/
def simulate (sqrt : ℚ → ℚ) (g : Game) (dt : ℚ) : Game :=
  let g1 := g.updateEnemies sqrt dt
  let g2 := g1.updateTowers sqrt dt
  let g3 := g2.updateSheriffTowers sqrt dt
  let g4 := g3.updateMageTowers sqrt dt
  let g5 := g4.updateAllies sqrt dt
  g5.updateProjectiles sqrt dt

/-- The end of `Game::update`, after `cleanupDead`: the game-over check and
the wave-complete check. -/
def checkEndOfWave (g : Game) : Game :=
  if g.baseHP_ ≤ 0 then { g with baseHP_ := 0, state_ := .GAME_OVER }
  else if g.waveActive_ = true ∧ g.enemiesSpawned_ ≥ g.totalEnemiesInWave_ ∧
      g.enemies_.isEmpty = true then
    let g1 := { g with waveActive_ := false, waveManager_ := g.waveManager_.advanceWave }
    if g1.difficulty_ ≠ .ENDLESS ∧ g1.waveManager_.allWavesDone = true then
      claimVictoryReward { g1 with state_ := .VICTORY }
    else
      let g2 := if g1.difficulty_ = .ENDLESS then g1.checkEndlessWaveReward else g1
      { g2 with state_ := .WAVE_COMPLETE, waveTimer_ := WAVE_DELAY }
  else g

/-- Method `Game::update` (damage numbers and particles are not modelled). -/
def update (sqrt : ℚ → ℚ) (g : Game) (dt : ℚ) : Option Game :=
  if g.state_ = .LOGIN ∨ g.state_ = .MENU ∨ g.state_ = .PAUSED ∨ g.state_ = .GAME_OVER ∨
      g.state_ = .VICTORY then some g
  else
    match g.updateWaveSpawning dt with
    | none => none
    | some g1 => some (checkEndOfWave (cleanupDead (simulate sqrt g1 dt)))

/-- Method `Game::onTap`. -/
def onTap (g : Game) (worldX worldY : ℚ) : Game :=
  if g.state_ = .GAME_OVER ∨ g.state_ = .MENU then g
  else if g.state_ = .VICTORY then
    let menuBtnWidth : ℚ := 3
    let menuBtnHeight : ℚ := 1
    let menuBtnX : ℚ := (Map.COLS : ℚ) * (1 / 2) - menuBtnWidth * (1 / 2)
    let menuBtnY : ℚ := (Map.ROWS : ℚ) * (45 / 100)
    if worldX ≥ menuBtnX ∧ worldX ≤ menuBtnX + menuBtnWidth ∧
        worldY ≥ menuBtnY ∧ worldY ≤ menuBtnY + menuBtnHeight then g.returnToMenu
    else g
  else if g.state_ = .PAUSED then g.resumeGame
  else if g.isUpgradeMenuOpen = true then g.closeUpgradeMenu
  else
    let col := floatToInt worldX
    let row := floatToInt worldY
    if col < 0 ∨ col ≥ Map.COLS ∨ row < 0 ∨ row ≥ Map.ROWS then g
    else
      match towerIndexAt col row g.towers_ 0 with
      | some i => g.openUpgradeMenu i
      | none =>
        if g.map_.canPlaceTower col row = true then
          if g.selectedTowerType_ = .SHERIFF ∧
              (g.gold_ ≥ SheriffTower.getCost g.difficulty_ ∨ g.sandboxMode_ = true) then
            let g1 := { g with
              sheriffTowers_ := g.sheriffTowers_ ++ [SheriffTower.new col row]
              map_ := g.map_.placeTower col row }
            if g1.sandboxMode_ = false then
              { g1 with gold_ := g1.gold_ - SheriffTower.getCost g1.difficulty_ }
            else g1
          else if g.selectedTowerType_ = .MAGE ∧
              (g.gold_ ≥ MageTower.getCost g.difficulty_ ∨ g.sandboxMode_ = true) then
            let g1 := { g with
              mageTowers_ := g.mageTowers_ ++ [MageTower.new col row g.selectedMageElement_]
              map_ := g.map_.placeTower col row }
            if g1.sandboxMode_ = false then
              { g1 with gold_ := g1.gold_ - MageTower.getCost g1.difficulty_ }
            else g1
          else if g.selectedTowerType_ = .ARCHER ∧
              (g.gold_ ≥ Tower.getCost g.difficulty_ ∨ g.sandboxMode_ = true) then
            let g1 := { g with
              towers_ := g.towers_ ++ [Tower.new col row]
              map_ := g.map_.placeTower col row }
            if g1.sandboxMode_ = false then
              { g1 with gold_ := g1.gold_ - Tower.getCost g1.difficulty_ }
            else g1
          else g
        else g

/-- Method `Game::upgradeSelectedTower`: the returned flag and the game
afterwards. -/
def upgradeSelectedTower (g : Game) : Bool × Game :=
  if h : g.selectedTowerIndex_ < 0 ∨ g.selectedTowerIndex_ ≥ (g.towers_.length : Int) then
    (false, g)
  else
    let tower := g.towers_.get ⟨g.selectedTowerIndex_.toNat, by omega⟩
    if tower.canUpgrade g.gold_ = false then (false, g)
    else
      let cost := tower.getUpgradeCost
      let g1 := { g with
        gold_ := g.gold_ - cost
        towers_ := modifyAt g.towers_ g.selectedTowerIndex_.toNat Tower.upgrade }
      (true, g1.closeUpgradeMenu)

/-- Method `Game::enterSandbox`. -/
def enterSandbox (g : Game) : Game :=
  { g with
    state_ := .SANDBOX
    sandboxMode_ := true
    sandboxInfiniteMoney_ := true
    gold_ := 9999
    baseHP_ := 999
    sandboxWave_ := 1
    enemies_ := []
    projectiles_ := []
    waveActive_ := false }

/-- Method `Game::exitSandbox`. -/
def exitSandbox (g : Game) : Game :=
  { g.returnToMenu with sandboxMode_ := false, sandboxInfiniteMoney_ := false }

/-- Method `Game::sandboxClearTowers`. -/
def sandboxClearTowers (g : Game) : Game :=
  { g with towers_ := [], sheriffTowers_ := [], mageTowers_ := [], allies_ := [],
           enemies_ := [], projectiles_ := [], map_ := Map.new }

/-- Method `Game::sandboxSpawnWave`. -/
def sandboxSpawnWave (g : Game) (waveNumber : Int) : Game :=
  let wave := g.waveManager_.generateEndlessWave waveNumber
  let queue := flattenEntries wave.entries
  { g with spawnQueue_ := queue, totalEnemiesInWave_ := (queue.length : Int),
           enemiesSpawned_ := 0, waveActive_ := true, spawnTimer_ := 0 }

/-- Method `Game::sandboxSpawnEnemy`. -/
def sandboxSpawnEnemy (g : Game) (type : EnemyType) : Game := g.spawnEnemy type

/-- Method `Game::sandboxSetGold`. -/
def sandboxSetGold (g : Game) (amount : Int) : Game := { g with gold_ := amount }

/-- Method `Game::sandboxNextWave`. -/
def sandboxNextWave (g : Game) : Game :=
  let g1 := g.sandboxSpawnWave g.sandboxWave_
  { g1 with sandboxWave_ := g1.sandboxWave_ + 1 }

end Game

/-! ## Vocabulary of the statements about taps -/

/-- A campaign game in its first wave: all three slimes have been spawned and
the last one left is in its death animation, its reward already granted. -/
def lastEnemyGame : Game :=
  { Game.new 0 with
    state_ := .PLAYING
    waveActive_ := true
    enemiesSpawned_ := 3
    totalEnemiesInWave_ := 3
    spawnQueue_ := [.SLIME, .SLIME, .SLIME]
    enemies_ := [rewardedSlime]
    gold_ := 60 }

/-- The state of `lastEnemyGame` after the update in which the death animation
of the last slime ends: the collection is empty and the wave is complete. -/
def lastEnemyGameAfter : Game :=
  { lastEnemyGame with
    enemies_ := []
    waveActive_ := false
    waveManager_ := WaveManager.new.advanceWave
    state_ := .WAVE_COMPLETE
    waveTimer_ := 5 }

/-! ## Vocabulary of the statements about rewards -/

/-- The game after `k` calls of `checkEndlessWaveReward`, one per completed
wave. -/
def Game.checkEndlessWaveRewards (g : Game) : Nat → Game
  | 0 => g
  | k + 1 => (Game.checkEndlessWaveRewards g k).checkEndlessWaveReward

/-! ## Game.h: further state operations -/

namespace Game

def openLoginScreen (g : Game) : Game := { g with state_ := .LOGIN }
def skipLogin (g : Game) : Game := { g with state_ := .MENU }
def openCharacterMenu (g : Game) : Game := { g with state_ := .CHARACTER_MENU }
def closeCharacterMenu (g : Game) : Game := { g with state_ := .MENU }
def addGold (g : Game) (amount : Int) : Game := { g with gold_ := g.gold_ + amount }

end Game

/-! ## Vocabulary of the statements about `Game::update` -/

/-- The call `update` gets past its first `if`: the state is none of LOGIN,
MENU, PAUSED, GAME_OVER, VICTORY, so the combat pipeline runs. -/
def Game.runsPipeline (g : Game) : Prop :=
  ¬ (g.state_ = .LOGIN ∨ g.state_ = .MENU ∨ g.state_ = .PAUSED ∨ g.state_ = .GAME_OVER ∨
      g.state_ = .VICTORY)

/-- The victory reward in menu coins for a difficulty, as the claim lists it
(none for ENDLESS). -/
def Game.victoryReward : Difficulty → Int
  | .EASY => 50
  | .MEDIUM => 100
  | .HARD => 250
  | .ENDLESS => 0

/-- A slime standing on the last waypoint of the example path, about to
escape. -/
def slimeAtExit : Enemy := { Enemy.new .SLIME exampleWaypoints with x_ := 9 / 2 }

/-- The slime of `slimeAtExit` after the update in which it escapes: it has
reached the end and was taken out with 9999 points of damage. -/
def escapedSlime : Enemy :=
  { slimeAtExit with currentWaypoint_ := 2, reachedEnd_ := true, hp_ := 0, isDying_ := true }

/-- A campaign game on its last base hit point: the three slimes of the first
wave have been spawned and the last one stands on the exit. -/
def lastStandGame : Game :=
  { Game.new 0 with
    state_ := .PLAYING
    baseHP_ := 1
    waveActive_ := true
    enemiesSpawned_ := 3
    totalEnemiesInWave_ := 3
    spawnQueue_ := [.SLIME, .SLIME, .SLIME]
    enemies_ := [slimeAtExit] }

/-- The state of `lastStandGame` after the update in which the slime escapes. -/
def lastStandGameAfter : Game :=
  { lastStandGame with baseHP_ := 0, state_ := .GAME_OVER, enemies_ := [escapedSlime] }

/-- A bat killed by 25 points of damage whose reward has been granted. -/
def rewardedBat : Enemy :=
  ((Enemy.new .BAT exampleWaypoints).takeDamage 25).markRewardGranted

/-- A campaign game (MEDIUM) in its tenth and last wave: all eleven enemies
have been spawned and the last bat is in its death animation. -/
def finalWaveGame : Game :=
  { Game.new 0 with
    state_ := .PLAYING
    waveManager_ := { WaveManager.new with currentWave_ := 9 }
    waveActive_ := true
    enemiesSpawned_ := 11
    totalEnemiesInWave_ := 11
    spawnQueue_ := flattenEntries [⟨.BOSS, 1⟩, ⟨.BAT, 10⟩]
    enemies_ := [rewardedBat] }

/-- The state of `finalWaveGame` after the update in which the death animation
of the last bat ends: victory, with the reward of 100 menu coins. -/
def finalWaveGameAfter : Game :=
  { finalWaveGame with
    enemies_ := []
    waveActive_ := false
    waveManager_ := { WaveManager.new with currentWave_ := 10 }
    state_ := .VICTORY
    menuCoins_ := 100 }

/-! ## Vocabulary of the statements about the death animation and burn ticks -/

/-- The time a call lets pass: `dt` for `update(dt)`, nothing for the others. -/
def EnemyCall.elapsed : EnemyCall → ℚ
  | .update dt => dt
  | _ => 0

/-- The time steps of the `update` calls of a sequence of calls, in order. -/
def EnemyCall.steps : List EnemyCall → List ℚ
  | [] => []
  | .update dt :: cs => dt :: EnemyCall.steps cs
  | _ :: cs => EnemyCall.steps cs

/-- The value of a `float` variable that starts at `t` and to which the
statement `t += x` is applied for each `x` of the list in turn, every sum being
rounded to a `float`. -/
def floatAccumulate : ℚ → List ℚ → ℚ
  | t, [] => t
  | t, x :: xs => floatAccumulate (f32 (t + x)) xs

/-- The value of a `float` variable that starts at `t` and to which the
statement `t -= x` is applied for each `x` of the list in turn, every
difference being rounded to a `float`. -/
def floatCountdown : ℚ → List ℚ → ℚ
  | t, [] => t
  | t, x :: xs => floatCountdown (f32 (t - x)) xs

/-- The burn block of `Enemy::update(dt)` is reached: the enemy is not dying,
is alive and not at the end, and the burn is on (`burnTimer_ > 0`). -/
def Enemy.burnActive (e : Enemy) : Bool :=
  !e.isDying_ && e.isAlive && !e.reachedEnd_ && decide (e.burnTimer_ > 0)

/-- The burn block of `Enemy::update(dt)` is reached and its timer test
passes: the enemy is not dying, is alive and not at the end, the burn is on
(`burnTimer_ > 0`) and the tick timer is used up by this `dt`
(`burnTickTimer_ -= dt` in `float` arithmetic gives a value `≤ 0`), so
`takeDamage((int)burnDamagePerSec_)` is called. -/
def Enemy.burnTickFires (e : Enemy) (dt : ℚ) : Bool :=
  !e.isDying_ && e.isAlive && !e.reachedEnd_ && decide (e.burnTimer_ > 0) &&
    decide (f32 (e.burnTickTimer_ - dt) ≤ 0)

/-- Number of burn ticks delivered by a sequence of `update` calls with the
given time steps. -/
def Enemy.burnTicks (sqrt : ℚ → ℚ) : Enemy → List ℚ → Nat
  | _, [] => 0
  | e, dt :: dts =>
    (if e.burnTickFires dt then 1 else 0) + Enemy.burnTicks sqrt (e.update sqrt dt) dts

/-! ## Vocabulary of the statement about the ally attack -/

/-- Distance from the ally to enemy `e`, as `Ally::update` computes it. -/
def Ally.distTo (sqrt : ℚ → ℚ) (a : Ally) (e : Enemy) : ℚ :=
  sqrt ((e.getX - a.x_) * (e.getX - a.x_) + (e.getY - a.y_) * (e.getY - a.y_))

/-- The attack cooldown after the decrement at the start of `Ally::update`. -/
def Ally.cooldownAfter (a : Ally) (dt : ℚ) : ℚ :=
  if a.attackCooldown_ > 0 then a.attackCooldown_ - dt else a.attackCooldown_

/-! ## Vocabulary of the statements about the wave table -/

/-- A game started in endless mode from the menu: the constructor, then
`skipLogin`, `startGame` and `startGameWithDifficulty(ENDLESS)`. -/
def endlessStart : Game :=
  (((Game.new 0).skipLogin).startGame).startGameWithDifficulty .ENDLESS

/-- A wave without enemies, completed at once: `sandboxSpawnWave(-3)` builds an
empty spawn queue (the counts of wave number -3 are -1, 0 and 0), and the
following `update` of zero seconds finds the wave complete. -/
def Game.emptyWave (sqrt : ℚ → ℚ) (g : Game) : Option Game :=
  (g.sandboxSpawnWave (-3)).update sqrt 0

/-- The call `emptyWave`, `n` times in a row. -/
def Game.emptyWaves (sqrt : ℚ → ℚ) : Nat → Game → Option Game
  | 0, g => some g
  | n + 1, g =>
    match g.emptyWave sqrt with
    | none => none
    | some g1 => Game.emptyWaves sqrt n g1

/-! ## Vocabulary of the statements about tower cells -/

/-- The grid cells of all towers of the game: archer towers, then sheriff
towers, then mage towers, each collection in order. -/
def Game.towerCells (g : Game) : List (Int × Int) :=
  g.towers_.map (fun t => (t.getGridCol, t.getGridRow)) ++
    g.sheriffTowers_.map (fun t => (t.gridCol_, t.gridRow_)) ++
    g.mageTowers_.map (fun t => (t.gridCol_, t.gridRow_))

/-- No two towers stand on the same cell, and the cell of every tower is
marked TOWER in the map. -/
def Game.towersOnOwnCells (g : Game) : Prop :=
  g.towerCells.Nodup ∧ ∀ c ∈ g.towerCells, g.map_.getCell c.1 c.2 = CellType.TOWER

instance (g : Game) : Decidable g.towersOnOwnCells := by
  unfold Game.towersOnOwnCells
  infer_instance

/-- A sequence of `onTap` calls, first tap first. -/
def Game.onTaps (g : Game) : List (ℚ × ℚ) → Game
  | [] => g
  | t :: ts => Game.onTaps (g.onTap t.1 t.2) ts

/-- Nothing is going on in the simulation: no wave is active, the base has hit
points left, and there are no enemies, towers, allies or projectiles. -/
def Game.idle (g : Game) : Prop :=
  g.waveActive_ = false ∧ 0 < g.baseHP_ ∧ g.enemies_ = [] ∧ g.towers_ = [] ∧
    g.sheriffTowers_ = [] ∧ g.mageTowers_ = [] ∧ g.allies_ = [] ∧ g.projectiles_ = []

instance (g : Game) : Decidable g.idle := by
  unfold Game.idle
  infer_instance

/-! # Theorems -/

/-! ## Rounding to `float` -/

theorem log2_abs_eq (q : ℚ) (e : Int) (h1 : (2 : ℚ) ^ e ≤ |q|) (h2 : |q| < (2 : ℚ) ^ (e + 1)) :
    Int.log 2 |q| = e := by
  have hpos : 0 < |q| := lt_of_lt_of_le (zpow_pos (by norm_num) e) h1
  have ha : e ≤ Int.log 2 |q| :=
    (Int.zpow_le_iff_le_log (by norm_num) hpos).mp (by simpa using h1)
  have hb : Int.log 2 |q| < e + 1 :=
    (Int.lt_zpow_iff_log_lt (by norm_num) hpos).mp (by simpa using h2)
  omega

theorem ulp32_pos (q : ℚ) : 0 < ulp32 q := zpow_pos (by norm_num) _

theorem ulp32_eq (q : ℚ) (e : Int) (he : -126 ≤ e) (h1 : (2 : ℚ) ^ e ≤ |q|)
    (h2 : |q| < (2 : ℚ) ^ (e + 1)) : ulp32 q = (2 : ℚ) ^ (e - 23) := by
  unfold ulp32
  rw [log2_abs_eq q e h1 h2, max_eq_left he]

theorem roundHalfEven_eval (q : ℚ) (k : Int) (hk1 : (k : ℚ) ≤ q) (hk2 : q < (k : ℚ) + 1) :
    roundHalfEven q =
      if q - (k : ℚ) < 1 / 2 then k
      else if q - (k : ℚ) > 1 / 2 then k + 1
      else if k % 2 = 0 then k else k + 1 := by
  have hf : ⌊q⌋ = k := Int.floor_eq_iff.mpr ⟨hk1, hk2⟩
  unfold roundHalfEven
  rw [hf]

theorem roundHalfEven_intCast (n : Int) : roundHalfEven (n : ℚ) = n := by
  rw [roundHalfEven_eval (n : ℚ) n le_rfl (by linarith)]
  simp

theorem floor_le_roundHalfEven (q : ℚ) : ⌊q⌋ ≤ roundHalfEven q := by
  unfold roundHalfEven
  split_ifs <;> omega

theorem roundHalfEven_le_floor_add_one (q : ℚ) : roundHalfEven q ≤ ⌊q⌋ + 1 := by
  unfold roundHalfEven
  split_ifs <;> omega

theorem roundHalfEven_mono (a b : ℚ) (h : a ≤ b) : roundHalfEven a ≤ roundHalfEven b := by
  have hfl : ⌊a⌋ ≤ ⌊b⌋ := Int.floor_mono h
  rcases lt_or_eq_of_le hfl with hlt | heq
  · have h1 := roundHalfEven_le_floor_add_one a
    have h2 := floor_le_roundHalfEven b
    omega
  · unfold roundHalfEven
    rw [← heq]
    have hab : a - (⌊a⌋ : ℚ) ≤ b - (⌊a⌋ : ℚ) := by linarith
    split_ifs <;> first | omega | (exfalso; linarith)

/-- The value computed by `f32` when the binade of `q` is known. -/
theorem f32_eval (q : ℚ) (e k : Int) (he : -126 ≤ e) (h1 : (2 : ℚ) ^ e ≤ |q|)
    (h2 : |q| < (2 : ℚ) ^ (e + 1)) (hk1 : (k : ℚ) ≤ q / (2 : ℚ) ^ (e - 23))
    (hk2 : q / (2 : ℚ) ^ (e - 23) < (k : ℚ) + 1) :
    f32 q =
      ((if q / (2 : ℚ) ^ (e - 23) - (k : ℚ) < 1 / 2 then k
        else if q / (2 : ℚ) ^ (e - 23) - (k : ℚ) > 1 / 2 then k + 1
        else if k % 2 = 0 then k else k + 1 : Int) : ℚ) * (2 : ℚ) ^ (e - 23) := by
  unfold f32
  rw [ulp32_eq q e he h1 h2, roundHalfEven_eval _ k hk1 hk2]

theorem f32_zero : f32 0 = 0 := by
  unfold f32
  have h0 : roundHalfEven (0 : ℚ) = 0 := by
    have := roundHalfEven_intCast 0
    simpa using this
  rw [zero_div, h0]
  simp

theorem f32_nonneg (q : ℚ) (h : 0 ≤ q) : 0 ≤ f32 q := by
  unfold f32
  have hu := ulp32_pos q
  have h0 : (0 : Int) ≤ roundHalfEven (q / ulp32 q) := by
    have := roundHalfEven_mono 0 (q / ulp32 q) (div_nonneg h hu.le)
    have h00 : roundHalfEven (0 : ℚ) = 0 := by
      have := roundHalfEven_intCast 0
      simpa using this
    rwa [h00] at this
  exact mul_nonneg (by exact_mod_cast h0) hu.le

theorem f32_nonpos (q : ℚ) (h : q ≤ 0) : f32 q ≤ 0 := by
  unfold f32
  have hu := ulp32_pos q
  have h0 : roundHalfEven (q / ulp32 q) ≤ (0 : Int) := by
    have := roundHalfEven_mono (q / ulp32 q) 0 (div_nonpos_of_nonpos_of_nonneg h hu.le)
    have h00 : roundHalfEven (0 : ℚ) = 0 := by
      have := roundHalfEven_intCast 0
      simpa using this
    rwa [h00] at this
  exact mul_nonpos_of_nonpos_of_nonneg (by exact_mod_cast h0) hu.le

/-! Bounds of the rounded value by the powers of two around it. -/

theorem two_zpow_intCast (j : Int) (hj : 0 ≤ j) :
    (2 : ℚ) ^ j = (((2 : Int) ^ j.toNat : Int) : ℚ) := by
  obtain ⟨n, rfl⟩ := Int.eq_ofNat_of_zero_le hj
  simp

theorem lt_two_zpow_expo (q : ℚ) :
    |q| < (2 : ℚ) ^ (max (Int.log 2 |q|) (-126) + 1) := by
  have h := Int.lt_zpow_succ_log_self (b := 2) (by norm_num) |q|
  have h' : |q| < (2 : ℚ) ^ (Int.log 2 |q| + 1) := by simpa using h
  refine lt_of_lt_of_le h' ?_
  apply zpow_le_zpow_right₀ (by norm_num)
  have := le_max_left (Int.log 2 |q|) (-126)
  omega

theorem roundHalfEven_div_ulp32_le (q : ℚ) :
    roundHalfEven (q / ulp32 q) ≤ (2 : Int) ^ 24 := by
  have hlt : q < (2 : ℚ) ^ (max (Int.log 2 |q|) (-126) + 1) :=
    lt_of_le_of_lt (le_abs_self q) (lt_two_zpow_expo q)
  unfold ulp32
  set e := max (Int.log 2 |q|) (-126) with he
  have hu : (0 : ℚ) < (2 : ℚ) ^ (e - 23) := zpow_pos (by norm_num) _
  have hdiv : q / (2 : ℚ) ^ (e - 23) ≤ (((2 : Int) ^ 24 : Int) : ℚ) := by
    rw [div_le_iff₀ hu]
    have : (((2 : Int) ^ 24 : Int) : ℚ) * (2 : ℚ) ^ (e - 23) = (2 : ℚ) ^ (e + 1) := by
      rw [show (((2 : Int) ^ 24 : Int) : ℚ) = (2 : ℚ) ^ (24 : Int) by norm_num,
        ← zpow_add₀ (by norm_num : (2 : ℚ) ≠ 0)]
      congr 1
      ring
    rw [this]
    exact hlt.le
  have hr := roundHalfEven_mono _ _ hdiv
  rw [roundHalfEven_intCast] at hr
  exact hr

theorem f32_le_two_zpow (q : ℚ) :
    f32 q ≤ (2 : ℚ) ^ (max (Int.log 2 |q|) (-126) + 1) := by
  have hlt : q < (2 : ℚ) ^ (max (Int.log 2 |q|) (-126) + 1) :=
    lt_of_le_of_lt (le_abs_self q) (lt_two_zpow_expo q)
  unfold f32 ulp32
  set e := max (Int.log 2 |q|) (-126) with he
  have hu : (0 : ℚ) < (2 : ℚ) ^ (e - 23) := zpow_pos (by norm_num) _
  have hdiv : q / (2 : ℚ) ^ (e - 23) ≤ (((2 : Int) ^ 24 : Int) : ℚ) := by
    rw [div_le_iff₀ hu]
    have : (((2 : Int) ^ 24 : Int) : ℚ) * (2 : ℚ) ^ (e - 23) = (2 : ℚ) ^ (e + 1) := by
      rw [show (((2 : Int) ^ 24 : Int) : ℚ) = (2 : ℚ) ^ (24 : Int) by norm_num,
        ← zpow_add₀ (by norm_num : (2 : ℚ) ≠ 0)]
      congr 1
      ring
    rw [this]
    exact hlt.le
  have hr := roundHalfEven_mono _ _ hdiv
  rw [roundHalfEven_intCast] at hr
  have hr' : ((roundHalfEven (q / (2 : ℚ) ^ (e - 23)) : Int) : ℚ) ≤ (2 : ℚ) ^ (24 : Int) := by
    have : ((roundHalfEven (q / (2 : ℚ) ^ (e - 23)) : Int) : ℚ) ≤ (((2 : Int) ^ 24 : Int) : ℚ) := by
      exact_mod_cast hr
    norm_num at this ⊢
    exact this
  calc ((roundHalfEven (q / (2 : ℚ) ^ (e - 23)) : Int) : ℚ) * (2 : ℚ) ^ (e - 23)
      ≤ (2 : ℚ) ^ (24 : Int) * (2 : ℚ) ^ (e - 23) := mul_le_mul_of_nonneg_right hr' hu.le
    _ = (2 : ℚ) ^ (e + 1) := by
      rw [← zpow_add₀ (by norm_num : (2 : ℚ) ≠ 0)]
      congr 1
      ring

theorem two_zpow_le_f32 (q : ℚ) (e : Int) (he : -126 ≤ e) (h1 : (2 : ℚ) ^ e ≤ q)
    (h2 : q < (2 : ℚ) ^ (e + 1)) : (2 : ℚ) ^ e ≤ f32 q := by
  have hq : 0 < q := lt_of_lt_of_le (zpow_pos (by norm_num) e) h1
  unfold f32
  rw [ulp32_eq q e he (by rwa [abs_of_pos hq]) (by rwa [abs_of_pos hq])]
  have hu : (0 : ℚ) < (2 : ℚ) ^ (e - 23) := zpow_pos (by norm_num) _
  have hdiv : (((2 : Int) ^ 23 : Int) : ℚ) ≤ q / (2 : ℚ) ^ (e - 23) := by
    rw [le_div_iff₀ hu]
    have : (((2 : Int) ^ 23 : Int) : ℚ) * (2 : ℚ) ^ (e - 23) = (2 : ℚ) ^ e := by
      rw [show (((2 : Int) ^ 23 : Int) : ℚ) = (2 : ℚ) ^ (23 : Int) by norm_num,
        ← zpow_add₀ (by norm_num : (2 : ℚ) ≠ 0)]
      congr 1
      ring
    rw [this]
    exact h1
  have hr := roundHalfEven_mono _ _ hdiv
  rw [roundHalfEven_intCast] at hr
  have hr' : (2 : ℚ) ^ (23 : Int) ≤ ((roundHalfEven (q / (2 : ℚ) ^ (e - 23)) : Int) : ℚ) := by
    have : (((2 : Int) ^ 23 : Int) : ℚ) ≤ ((roundHalfEven (q / (2 : ℚ) ^ (e - 23)) : Int) : ℚ) := by
      exact_mod_cast hr
    norm_num at this ⊢
    exact this
  calc (2 : ℚ) ^ e = (2 : ℚ) ^ (23 : Int) * (2 : ℚ) ^ (e - 23) := by
        rw [← zpow_add₀ (by norm_num : (2 : ℚ) ≠ 0)]
        congr 1
        ring
    _ ≤ _ := mul_le_mul_of_nonneg_right hr' hu.le

/-- Rounding to `float` is monotone on the non-negative rationals. -/
theorem f32_mono (x y : ℚ) (hx : 0 ≤ x) (hxy : x ≤ y) : f32 x ≤ f32 y := by
  rcases eq_or_lt_of_le hx with h0 | hpos
  · rw [← h0, f32_zero]
    exact f32_nonneg y (le_trans hx hxy)
  have hy : 0 < y := lt_of_lt_of_le hpos hxy
  have hlog : Int.log 2 |x| ≤ Int.log 2 |y| := by
    rw [abs_of_pos hpos, abs_of_pos hy]
    exact Int.log_mono_right hpos hxy
  have hexp : max (Int.log 2 |x|) (-126) ≤ max (Int.log 2 |y|) (-126) :=
    max_le_max hlog le_rfl
  rcases eq_or_lt_of_le hexp with heq | hlt
  · unfold f32 ulp32
    rw [heq]
    have hu : (0 : ℚ) < (2 : ℚ) ^ (max (Int.log 2 |y|) (-126) - 23) := zpow_pos (by norm_num) _
    have hr := roundHalfEven_mono _ _ (div_le_div_of_nonneg_right hxy hu.le)
    exact mul_le_mul_of_nonneg_right (by exact_mod_cast hr) hu.le
  · have hylog : max (Int.log 2 |y|) (-126) = Int.log 2 |y| := by
      apply max_eq_left
      have := le_max_right (Int.log 2 |x|) (-126)
      omega
    have hy126 : -126 ≤ Int.log 2 |y| := by
      have := le_max_right (Int.log 2 |x|) (-126)
      omega
    have hy1 : (2 : ℚ) ^ (Int.log 2 |y|) ≤ y := by
      have := Int.zpow_log_le_self (b := 2) (by norm_num) (abs_pos.mpr hy.ne')
      rw [abs_of_pos hy] at this ⊢
      simpa using this
    have hy2 : y < (2 : ℚ) ^ (Int.log 2 |y| + 1) := by
      have := Int.lt_zpow_succ_log_self (b := 2) (by norm_num) |y|
      rw [abs_of_pos hy] at this ⊢
      simpa using this
    calc f32 x ≤ (2 : ℚ) ^ (max (Int.log 2 |x|) (-126) + 1) := f32_le_two_zpow x
      _ ≤ (2 : ℚ) ^ (Int.log 2 |y|) := by
        apply zpow_le_zpow_right₀ (by norm_num)
        omega
      _ ≤ f32 y := two_zpow_le_f32 y _ hy126 hy1 hy2

/-- A value `m * 2 ^ k` with `|m| < 2 ^ 24` and `k ≥ -149` is a `float`:
rounding leaves it as it is. -/
theorem f32_of_repr (m k : Int) (hk : -149 ≤ k) (hm : |m| < (2 : Int) ^ 24) :
    f32 ((m : ℚ) * (2 : ℚ) ^ k) = (m : ℚ) * (2 : ℚ) ^ k := by
  rcases eq_or_ne m 0 with h0 | hne
  · rw [h0]
    simp [f32_zero]
  have hk2 : (0 : ℚ) < (2 : ℚ) ^ k := zpow_pos (by norm_num) _
  have habs : |(m : ℚ) * (2 : ℚ) ^ k| = (|m| : Int) * (2 : ℚ) ^ k := by
    rw [abs_mul, abs_of_pos hk2]
    simp
  have hpos : 0 < |(m : ℚ) * (2 : ℚ) ^ k| := by
    rw [habs]
    have : (0 : Int) < |m| := abs_pos.mpr hne
    exact mul_pos (by exact_mod_cast this) hk2
  have hlt : |(m : ℚ) * (2 : ℚ) ^ k| < (2 : ℚ) ^ (k + 24) := by
    rw [habs, zpow_add₀ (by norm_num : (2 : ℚ) ≠ 0), mul_comm ((2 : ℚ) ^ k)]
    apply mul_lt_mul_of_pos_right _ hk2
    have : ((|m| : Int) : ℚ) < (((2 : Int) ^ 24 : Int) : ℚ) := by exact_mod_cast hm
    norm_num at this ⊢
    exact this
  have hlog : Int.log 2 |(m : ℚ) * (2 : ℚ) ^ k| < k + 24 :=
    (Int.lt_zpow_iff_log_lt (by norm_num) hpos).mp (by simpa using hlt)
  have hexp : max (Int.log 2 |(m : ℚ) * (2 : ℚ) ^ k|) (-126) ≤ k + 23 :=
    max_le (by omega) (by omega)
  unfold f32 ulp32
  set e := max (Int.log 2 |(m : ℚ) * (2 : ℚ) ^ k|) (-126) with he
  have hu : (0 : ℚ) < (2 : ℚ) ^ (e - 23) := zpow_pos (by norm_num) _
  have hj : 0 ≤ k - (e - 23) := by omega
  have hdiv : (m : ℚ) * (2 : ℚ) ^ k / (2 : ℚ) ^ (e - 23) =
      ((m * (2 : Int) ^ (k - (e - 23)).toNat : Int) : ℚ) := by
    rw [mul_div_assoc, ← zpow_sub₀ (by norm_num : (2 : ℚ) ≠ 0), two_zpow_intCast _ hj]
    push_cast
    ring
  rw [hdiv, roundHalfEven_intCast, ← hdiv]
  field_simp

theorem f32_idem (x : ℚ) (hx : 0 ≤ x) : f32 (f32 x) = f32 x := by
  have hM0 : (0 : Int) ≤ roundHalfEven (x / ulp32 x) := by
    have := roundHalfEven_mono 0 (x / ulp32 x) (div_nonneg hx (ulp32_pos x).le)
    have h00 : roundHalfEven (0 : ℚ) = 0 := by
      have := roundHalfEven_intCast 0
      simpa using this
    rwa [h00] at this
  have hM1 := roundHalfEven_div_ulp32_le x
  have hk : -149 ≤ max (Int.log 2 |x|) (-126) - 23 := by
    have := le_max_right (Int.log 2 |x|) (-126)
    omega
  have hform : f32 x = ((roundHalfEven (x / ulp32 x) : Int) : ℚ) *
      (2 : ℚ) ^ (max (Int.log 2 |x|) (-126) - 23) := rfl
  rcases lt_or_eq_of_le hM1 with hlt | heq
  · rw [hform]
    exact f32_of_repr _ _ hk (by rw [abs_of_nonneg hM0]; exact hlt)
  · have hform2 : f32 x = (((2 : Int) ^ 23 : Int) : ℚ) *
        (2 : ℚ) ^ (max (Int.log 2 |x|) (-126) - 23 + 1) := by
      rw [hform, heq, zpow_add₀ (by norm_num : (2 : ℚ) ≠ 0)]
      norm_num
      ring
    rw [hform2]
    exact f32_of_repr _ _ (by omega) (by norm_num)

/-- Adding a non-negative amount to a non-negative `float` and rounding does
not give less than the `float`. -/
theorem le_f32_add (t dt : ℚ) (ht : 0 ≤ t) (hfix : f32 t = t) (hdt : 0 ≤ dt) :
    t ≤ f32 (t + dt) := by
  have := f32_mono t (t + dt) ht (by linarith)
  rwa [hfix] at this

/-! Values of `f32` used by the concrete runs. -/

theorem f32_three_fifths : f32 (3 / 5) = 5033165 / 8388608 := by
  rw [f32_eval (3 / 5) (-1) 10066329 (by norm_num)
    (by rw [abs_of_nonneg (by norm_num)]; norm_num)
    (by rw [abs_of_nonneg (by norm_num)]; norm_num) (by norm_num) (by norm_num)]
  norm_num

theorem f32_one_tenth : f32 (10⁻¹) = 13421773 / 134217728 := by
  rw [show ((10⁻¹ : ℚ)) = 1 / 10 by norm_num]
  rw [f32_eval (1 / 10) (-4) 13421772 (by norm_num)
    (by rw [abs_of_nonneg (by norm_num)]; norm_num)
    (by rw [abs_of_nonneg (by norm_num)]; norm_num) (by norm_num) (by norm_num)]
  norm_num

theorem f32_one_tenth_div : f32 (1 / 10) = 13421773 / 134217728 := by
  rw [f32_eval (1 / 10) (-4) 13421772 (by norm_num)
    (by rw [abs_of_nonneg (by norm_num)]; norm_num)
    (by rw [abs_of_nonneg (by norm_num)]; norm_num) (by norm_num) (by norm_num)]
  norm_num

theorem f32_frame_six : f32 (80530640 / 13421773) = 6 := by
  rw [f32_eval (80530640 / 13421773) 2 12582912 (by norm_num)
    (by rw [abs_of_nonneg (by norm_num)]; norm_num)
    (by rw [abs_of_nonneg (by norm_num)]; norm_num) (by norm_num) (by norm_num)]
  norm_num

theorem f32_one : f32 1 = 1 := by
  rw [f32_eval 1 0 8388608 (by norm_num)
    (by rw [abs_of_nonneg (by norm_num)]; norm_num)
    (by rw [abs_of_nonneg (by norm_num)]; norm_num) (by norm_num) (by norm_num)]
  norm_num

theorem f32_tenth_plus_three_fifths : f32 (469762049 / 671088640) = 11744051 / 16777216 := by
  rw [f32_eval (469762049 / 671088640) (-1) 11744051 (by norm_num)
    (by rw [abs_of_nonneg (by norm_num)]; norm_num)
    (by rw [abs_of_nonneg (by norm_num)]; norm_num) (by norm_num) (by norm_num)]
  norm_num

theorem f32_frame_seven : f32 (93952408 / 13421773) = 7 := by
  rw [f32_eval (93952408 / 13421773) 2 14680063 (by norm_num)
    (by rw [abs_of_nonneg (by norm_num)]; norm_num)
    (by rw [abs_of_nonneg (by norm_num)]; norm_num) (by norm_num) (by norm_num)]
  norm_num

theorem f32_twentynine_tenths : f32 (29 / 10) = 6081741 / 2097152 := by
  rw [f32_eval (29 / 10) 1 12163481 (by norm_num)
    (by rw [abs_of_nonneg (by norm_num)]; norm_num)
    (by rw [abs_of_nonneg (by norm_num)]; norm_num) (by norm_num) (by norm_num)]
  norm_num

theorem f32_neg_one_tenth_div : f32 (-1 / 10) = -13421773 / 134217728 := by
  rw [f32_eval (-1 / 10) (-4) (-13421773) (by norm_num)
    (by rw [abs_of_nonpos (by norm_num)]; norm_num)
    (by rw [abs_of_nonpos (by norm_num)]; norm_num) (by norm_num) (by norm_num)]
  norm_num

theorem f32_neg_one_tenth : f32 (-(1 / 10)) = -13421773 / 134217728 := by
  rw [show (-(1 / 10 : ℚ)) = -1 / 10 by norm_num]
  exact f32_neg_one_tenth_div

/-! ## Enemy: frame lemmas -/

theorem sqrtQ_mul_self {a : ℚ} (h : 0 ≤ a) : sqrtQ (a * a) = a := by
  unfold sqrtQ
  rw [Rat.sqrt_eq, abs_of_nonneg h]

@[simp] theorem sqrtQ_zero : sqrtQ 0 = 0 := by
  simpa using sqrtQ_mul_self (le_refl (0 : ℚ))

@[simp] theorem sqrtQ_one : sqrtQ 1 = 1 := by
  simpa using sqrtQ_mul_self (zero_le_one : (0 : ℚ) ≤ 1)

@[simp] theorem sqrtQ_four : sqrtQ 4 = 2 := by
  have h := sqrtQ_mul_self (show (0 : ℚ) ≤ 2 by norm_num)
  norm_num at h
  exact h

@[simp] theorem sqrtQ_sixteen : sqrtQ 16 = 4 := by
  have h := sqrtQ_mul_self (show (0 : ℚ) ≤ 4 by norm_num)
  norm_num at h
  exact h

@[simp] theorem sqrtQ_twentyfive : sqrtQ 25 = 5 := by
  have h := sqrtQ_mul_self (show (0 : ℚ) ≤ 5 by norm_num)
  norm_num at h
  exact h

@[simp] theorem sqrtQ_thirtysix : sqrtQ 36 = 6 := by
  have h := sqrtQ_mul_self (show (0 : ℚ) ≤ 6 by norm_num)
  norm_num at h
  exact h

theorem floatToInt_nonneg {q : ℚ} (h : 0 ≤ q) : 0 ≤ floatToInt q := by
  unfold floatToInt
  exact Int.tdiv_nonneg (Rat.num_nonneg.mpr h) (Int.ofNat_nonneg _)

namespace Enemy

theorem takeDamage_hp (e : Enemy) (d : Int) :
    (e.takeDamage d).hp_ = if e.hp_ - d < 0 then 0 else e.hp_ - d := by
  unfold takeDamage startDeath
  simp only []
  split_ifs <;> rfl

theorem takeDamage_isDying (e : Enemy) (d : Int) :
    (e.takeDamage d).isDying_ = (e.isDying_ || (decide (e.hp_ - d ≤ 0) && !e.isDead_)) := by
  unfold takeDamage startDeath
  simp only []
  cases hdy : e.isDying_ <;> cases hde : e.isDead_ <;> split_ifs <;> simp_all <;> omega

@[simp] theorem takeDamage_type_ (e : Enemy) (d : Int) : (e.takeDamage d).type_ = e.type_ := by
  unfold takeDamage startDeath
  simp only []
  split_ifs <;> rfl

@[simp] theorem takeDamage_x_ (e : Enemy) (d : Int) : (e.takeDamage d).x_ = e.x_ := by
  unfold takeDamage startDeath
  simp only []
  split_ifs <;> rfl

@[simp] theorem takeDamage_y_ (e : Enemy) (d : Int) : (e.takeDamage d).y_ = e.y_ := by
  unfold takeDamage startDeath
  simp only []
  split_ifs <;> rfl

@[simp] theorem takeDamage_speed_ (e : Enemy) (d : Int) : (e.takeDamage d).speed_ = e.speed_ := by
  unfold takeDamage startDeath
  simp only []
  split_ifs <;> rfl

@[simp] theorem takeDamage_maxHP_ (e : Enemy) (d : Int) : (e.takeDamage d).maxHP_ = e.maxHP_ := by
  unfold takeDamage startDeath
  simp only []
  split_ifs <;> rfl

@[simp] theorem takeDamage_reward_ (e : Enemy) (d : Int) : (e.takeDamage d).reward_ = e.reward_ := by
  unfold takeDamage startDeath
  simp only []
  split_ifs <;> rfl

@[simp] theorem takeDamage_reachedEnd_ (e : Enemy) (d : Int) : (e.takeDamage d).reachedEnd_ = e.reachedEnd_ := by
  unfold takeDamage startDeath
  simp only []
  split_ifs <;> rfl

@[simp] theorem takeDamage_rewardGranted_ (e : Enemy) (d : Int) : (e.takeDamage d).rewardGranted_ = e.rewardGranted_ := by
  unfold takeDamage startDeath
  simp only []
  split_ifs <;> rfl

@[simp] theorem takeDamage_waypoints_ (e : Enemy) (d : Int) : (e.takeDamage d).waypoints_ = e.waypoints_ := by
  unfold takeDamage startDeath
  simp only []
  split_ifs <;> rfl

@[simp] theorem takeDamage_currentWaypoint_ (e : Enemy) (d : Int) : (e.takeDamage d).currentWaypoint_ = e.currentWaypoint_ := by
  unfold takeDamage startDeath
  simp only []
  split_ifs <;> rfl

@[simp] theorem takeDamage_isDead_ (e : Enemy) (d : Int) : (e.takeDamage d).isDead_ = e.isDead_ := by
  unfold takeDamage startDeath
  simp only []
  split_ifs <;> rfl

@[simp] theorem takeDamage_burnTimer_ (e : Enemy) (d : Int) : (e.takeDamage d).burnTimer_ = e.burnTimer_ := by
  unfold takeDamage startDeath
  simp only []
  split_ifs <;> rfl

@[simp] theorem takeDamage_burnDamagePerSec_ (e : Enemy) (d : Int) : (e.takeDamage d).burnDamagePerSec_ = e.burnDamagePerSec_ := by
  unfold takeDamage startDeath
  simp only []
  split_ifs <;> rfl

@[simp] theorem takeDamage_burnTickTimer_ (e : Enemy) (d : Int) : (e.takeDamage d).burnTickTimer_ = e.burnTickTimer_ := by
  unfold takeDamage startDeath
  simp only []
  split_ifs <;> rfl

@[simp] theorem takeDamage_slowTimer_ (e : Enemy) (d : Int) : (e.takeDamage d).slowTimer_ = e.slowTimer_ := by
  unfold takeDamage startDeath
  simp only []
  split_ifs <;> rfl

@[simp] theorem takeDamage_slowFactor_ (e : Enemy) (d : Int) : (e.takeDamage d).slowFactor_ = e.slowFactor_ := by
  unfold takeDamage startDeath
  simp only []
  split_ifs <;> rfl

@[simp] theorem takeDamage_frozenTimer_ (e : Enemy) (d : Int) : (e.takeDamage d).frozenTimer_ = e.frozenTimer_ := by
  unfold takeDamage startDeath
  simp only []
  split_ifs <;> rfl

theorem HpInv_takeDamage {e : Enemy} (h : e.HpInv) {d : Int} (hd : 0 ≤ d) :
    (e.takeDamage d).HpInv := by
  obtain ⟨h1, h2, h3, h4⟩ := h
  refine ⟨?_, ?_, ?_, ?_⟩
  · rw [takeDamage_hp]; split_ifs <;> omega
  · rw [takeDamage_hp, takeDamage_maxHP_]; split_ifs <;> omega
  · rw [takeDamage_hp, takeDamage_isDying, takeDamage_isDead_]
    intro h0
    cases hde : e.isDead_
    · left
      have : e.hp_ - d ≤ 0 := by split_ifs at h0 <;> omega
      simp [this]
    · right; rfl
  · rw [takeDamage_burnDamagePerSec_]; exact h4

end Enemy

namespace Enemy

@[simp] theorem updateSlow_type_ (e : Enemy) (dt : ℚ) : (e.updateSlow dt).type_ = e.type_ := by
  unfold updateSlow
  split_ifs <;> rfl

@[simp] theorem updateSlow_hp_ (e : Enemy) (dt : ℚ) : (e.updateSlow dt).hp_ = e.hp_ := by
  unfold updateSlow
  split_ifs <;> rfl

@[simp] theorem updateSlow_maxHP_ (e : Enemy) (dt : ℚ) : (e.updateSlow dt).maxHP_ = e.maxHP_ := by
  unfold updateSlow
  split_ifs <;> rfl

@[simp] theorem updateSlow_reward_ (e : Enemy) (dt : ℚ) : (e.updateSlow dt).reward_ = e.reward_ := by
  unfold updateSlow
  split_ifs <;> rfl

@[simp] theorem updateSlow_rewardGranted_ (e : Enemy) (dt : ℚ) : (e.updateSlow dt).rewardGranted_ = e.rewardGranted_ := by
  unfold updateSlow
  split_ifs <;> rfl

@[simp] theorem updateSlow_isDying_ (e : Enemy) (dt : ℚ) : (e.updateSlow dt).isDying_ = e.isDying_ := by
  unfold updateSlow
  split_ifs <;> rfl

@[simp] theorem updateSlow_isDead_ (e : Enemy) (dt : ℚ) : (e.updateSlow dt).isDead_ = e.isDead_ := by
  unfold updateSlow
  split_ifs <;> rfl

@[simp] theorem updateSlow_burnDamagePerSec_ (e : Enemy) (dt : ℚ) : (e.updateSlow dt).burnDamagePerSec_ = e.burnDamagePerSec_ := by
  unfold updateSlow
  split_ifs <;> rfl

@[simp] theorem updateSlow_waypoints_ (e : Enemy) (dt : ℚ) : (e.updateSlow dt).waypoints_ = e.waypoints_ := by
  unfold updateSlow
  split_ifs <;> rfl

@[simp] theorem updateSlow_reachedEnd_ (e : Enemy) (dt : ℚ) : (e.updateSlow dt).reachedEnd_ = e.reachedEnd_ := by
  unfold updateSlow
  split_ifs <;> rfl

@[simp] theorem updateSlow_x_ (e : Enemy) (dt : ℚ) : (e.updateSlow dt).x_ = e.x_ := by
  unfold updateSlow
  split_ifs <;> rfl

@[simp] theorem updateSlow_y_ (e : Enemy) (dt : ℚ) : (e.updateSlow dt).y_ = e.y_ := by
  unfold updateSlow
  split_ifs <;> rfl

@[simp] theorem updateSlow_currentWaypoint_ (e : Enemy) (dt : ℚ) : (e.updateSlow dt).currentWaypoint_ = e.currentWaypoint_ := by
  unfold updateSlow
  split_ifs <;> rfl

@[simp] theorem updateSlow_burnTimer_ (e : Enemy) (dt : ℚ) : (e.updateSlow dt).burnTimer_ = e.burnTimer_ := by
  unfold updateSlow
  split_ifs <;> rfl

@[simp] theorem updateSlow_frozenTimer_ (e : Enemy) (dt : ℚ) : (e.updateSlow dt).frozenTimer_ = e.frozenTimer_ := by
  unfold updateSlow
  split_ifs <;> rfl

@[simp] theorem updateFrozen_type_ (e : Enemy) (dt : ℚ) : (e.updateFrozen dt).1.type_ = e.type_ := by
  unfold updateFrozen
  split_ifs <;> rfl

@[simp] theorem updateFrozen_hp_ (e : Enemy) (dt : ℚ) : (e.updateFrozen dt).1.hp_ = e.hp_ := by
  unfold updateFrozen
  split_ifs <;> rfl

@[simp] theorem updateFrozen_maxHP_ (e : Enemy) (dt : ℚ) : (e.updateFrozen dt).1.maxHP_ = e.maxHP_ := by
  unfold updateFrozen
  split_ifs <;> rfl

@[simp] theorem updateFrozen_reward_ (e : Enemy) (dt : ℚ) : (e.updateFrozen dt).1.reward_ = e.reward_ := by
  unfold updateFrozen
  split_ifs <;> rfl

@[simp] theorem updateFrozen_rewardGranted_ (e : Enemy) (dt : ℚ) : (e.updateFrozen dt).1.rewardGranted_ = e.rewardGranted_ := by
  unfold updateFrozen
  split_ifs <;> rfl

@[simp] theorem updateFrozen_isDying_ (e : Enemy) (dt : ℚ) : (e.updateFrozen dt).1.isDying_ = e.isDying_ := by
  unfold updateFrozen
  split_ifs <;> rfl

@[simp] theorem updateFrozen_isDead_ (e : Enemy) (dt : ℚ) : (e.updateFrozen dt).1.isDead_ = e.isDead_ := by
  unfold updateFrozen
  split_ifs <;> rfl

@[simp] theorem updateFrozen_burnDamagePerSec_ (e : Enemy) (dt : ℚ) : (e.updateFrozen dt).1.burnDamagePerSec_ = e.burnDamagePerSec_ := by
  unfold updateFrozen
  split_ifs <;> rfl

@[simp] theorem updateFrozen_waypoints_ (e : Enemy) (dt : ℚ) : (e.updateFrozen dt).1.waypoints_ = e.waypoints_ := by
  unfold updateFrozen
  split_ifs <;> rfl

@[simp] theorem updateFrozen_reachedEnd_ (e : Enemy) (dt : ℚ) : (e.updateFrozen dt).1.reachedEnd_ = e.reachedEnd_ := by
  unfold updateFrozen
  split_ifs <;> rfl

@[simp] theorem updateFrozen_x_ (e : Enemy) (dt : ℚ) : (e.updateFrozen dt).1.x_ = e.x_ := by
  unfold updateFrozen
  split_ifs <;> rfl

@[simp] theorem updateFrozen_y_ (e : Enemy) (dt : ℚ) : (e.updateFrozen dt).1.y_ = e.y_ := by
  unfold updateFrozen
  split_ifs <;> rfl

@[simp] theorem updateFrozen_currentWaypoint_ (e : Enemy) (dt : ℚ) : (e.updateFrozen dt).1.currentWaypoint_ = e.currentWaypoint_ := by
  unfold updateFrozen
  split_ifs <;> rfl

@[simp] theorem updateFrozen_burnTimer_ (e : Enemy) (dt : ℚ) : (e.updateFrozen dt).1.burnTimer_ = e.burnTimer_ := by
  unfold updateFrozen
  split_ifs <;> rfl

@[simp] theorem updateFrozen_slowTimer_ (e : Enemy) (dt : ℚ) : (e.updateFrozen dt).1.slowTimer_ = e.slowTimer_ := by
  unfold updateFrozen
  split_ifs <;> rfl

@[simp] theorem updateFrozen_slowFactor_ (e : Enemy) (dt : ℚ) : (e.updateFrozen dt).1.slowFactor_ = e.slowFactor_ := by
  unfold updateFrozen
  split_ifs <;> rfl

@[simp] theorem updateAnim_type_ (e : Enemy) (dt : ℚ) : (e.updateAnim dt).type_ = e.type_ := by
  unfold updateAnim
  simp only []
  split_ifs <;> rfl

@[simp] theorem updateAnim_hp_ (e : Enemy) (dt : ℚ) : (e.updateAnim dt).hp_ = e.hp_ := by
  unfold updateAnim
  simp only []
  split_ifs <;> rfl

@[simp] theorem updateAnim_maxHP_ (e : Enemy) (dt : ℚ) : (e.updateAnim dt).maxHP_ = e.maxHP_ := by
  unfold updateAnim
  simp only []
  split_ifs <;> rfl

@[simp] theorem updateAnim_reward_ (e : Enemy) (dt : ℚ) : (e.updateAnim dt).reward_ = e.reward_ := by
  unfold updateAnim
  simp only []
  split_ifs <;> rfl

@[simp] theorem updateAnim_rewardGranted_ (e : Enemy) (dt : ℚ) : (e.updateAnim dt).rewardGranted_ = e.rewardGranted_ := by
  unfold updateAnim
  simp only []
  split_ifs <;> rfl

@[simp] theorem updateAnim_isDying_ (e : Enemy) (dt : ℚ) : (e.updateAnim dt).isDying_ = e.isDying_ := by
  unfold updateAnim
  simp only []
  split_ifs <;> rfl

@[simp] theorem updateAnim_isDead_ (e : Enemy) (dt : ℚ) : (e.updateAnim dt).isDead_ = e.isDead_ := by
  unfold updateAnim
  simp only []
  split_ifs <;> rfl

@[simp] theorem updateAnim_burnDamagePerSec_ (e : Enemy) (dt : ℚ) : (e.updateAnim dt).burnDamagePerSec_ = e.burnDamagePerSec_ := by
  unfold updateAnim
  simp only []
  split_ifs <;> rfl

@[simp] theorem updateAnim_waypoints_ (e : Enemy) (dt : ℚ) : (e.updateAnim dt).waypoints_ = e.waypoints_ := by
  unfold updateAnim
  simp only []
  split_ifs <;> rfl

@[simp] theorem updateAnim_reachedEnd_ (e : Enemy) (dt : ℚ) : (e.updateAnim dt).reachedEnd_ = e.reachedEnd_ := by
  unfold updateAnim
  simp only []
  split_ifs <;> rfl

@[simp] theorem updateAnim_x_ (e : Enemy) (dt : ℚ) : (e.updateAnim dt).x_ = e.x_ := by
  unfold updateAnim
  simp only []
  split_ifs <;> rfl

@[simp] theorem updateAnim_y_ (e : Enemy) (dt : ℚ) : (e.updateAnim dt).y_ = e.y_ := by
  unfold updateAnim
  simp only []
  split_ifs <;> rfl

@[simp] theorem updateAnim_currentWaypoint_ (e : Enemy) (dt : ℚ) : (e.updateAnim dt).currentWaypoint_ = e.currentWaypoint_ := by
  unfold updateAnim
  simp only []
  split_ifs <;> rfl

@[simp] theorem updateAnim_burnTimer_ (e : Enemy) (dt : ℚ) : (e.updateAnim dt).burnTimer_ = e.burnTimer_ := by
  unfold updateAnim
  simp only []
  split_ifs <;> rfl

@[simp] theorem updateAnim_slowTimer_ (e : Enemy) (dt : ℚ) : (e.updateAnim dt).slowTimer_ = e.slowTimer_ := by
  unfold updateAnim
  simp only []
  split_ifs <;> rfl

@[simp] theorem updateAnim_slowFactor_ (e : Enemy) (dt : ℚ) : (e.updateAnim dt).slowFactor_ = e.slowFactor_ := by
  unfold updateAnim
  simp only []
  split_ifs <;> rfl

@[simp] theorem updateAnim_frozenTimer_ (e : Enemy) (dt : ℚ) : (e.updateAnim dt).frozenTimer_ = e.frozenTimer_ := by
  unfold updateAnim
  simp only []
  split_ifs <;> rfl

@[simp] theorem updateAnim_burnTickTimer_ (e : Enemy) (dt : ℚ) : (e.updateAnim dt).burnTickTimer_ = e.burnTickTimer_ := by
  unfold updateAnim
  simp only []
  split_ifs <;> rfl

@[simp] theorem updateMove_type_ (sqrt : ℚ → ℚ) (e : Enemy) (dt : ℚ) :
    (updateMove sqrt e dt).type_ = e.type_ := by
  unfold updateMove
  simp only []
  split_ifs <;> simp

@[simp] theorem updateMove_hp_ (sqrt : ℚ → ℚ) (e : Enemy) (dt : ℚ) :
    (updateMove sqrt e dt).hp_ = e.hp_ := by
  unfold updateMove
  simp only []
  split_ifs <;> simp

@[simp] theorem updateMove_maxHP_ (sqrt : ℚ → ℚ) (e : Enemy) (dt : ℚ) :
    (updateMove sqrt e dt).maxHP_ = e.maxHP_ := by
  unfold updateMove
  simp only []
  split_ifs <;> simp

@[simp] theorem updateMove_reward_ (sqrt : ℚ → ℚ) (e : Enemy) (dt : ℚ) :
    (updateMove sqrt e dt).reward_ = e.reward_ := by
  unfold updateMove
  simp only []
  split_ifs <;> simp

@[simp] theorem updateMove_rewardGranted_ (sqrt : ℚ → ℚ) (e : Enemy) (dt : ℚ) :
    (updateMove sqrt e dt).rewardGranted_ = e.rewardGranted_ := by
  unfold updateMove
  simp only []
  split_ifs <;> simp

@[simp] theorem updateMove_isDying_ (sqrt : ℚ → ℚ) (e : Enemy) (dt : ℚ) :
    (updateMove sqrt e dt).isDying_ = e.isDying_ := by
  unfold updateMove
  simp only []
  split_ifs <;> simp

@[simp] theorem updateMove_isDead_ (sqrt : ℚ → ℚ) (e : Enemy) (dt : ℚ) :
    (updateMove sqrt e dt).isDead_ = e.isDead_ := by
  unfold updateMove
  simp only []
  split_ifs <;> simp

@[simp] theorem updateMove_burnDamagePerSec_ (sqrt : ℚ → ℚ) (e : Enemy) (dt : ℚ) :
    (updateMove sqrt e dt).burnDamagePerSec_ = e.burnDamagePerSec_ := by
  unfold updateMove
  simp only []
  split_ifs <;> simp

@[simp] theorem updateMove_waypoints_ (sqrt : ℚ → ℚ) (e : Enemy) (dt : ℚ) :
    (updateMove sqrt e dt).waypoints_ = e.waypoints_ := by
  unfold updateMove
  simp only []
  split_ifs <;> simp

@[simp] theorem updateMove_burnTimer_ (sqrt : ℚ → ℚ) (e : Enemy) (dt : ℚ) :
    (updateMove sqrt e dt).burnTimer_ = e.burnTimer_ := by
  unfold updateMove
  simp only []
  split_ifs <;> simp

@[simp] theorem updateMove_slowTimer_ (sqrt : ℚ → ℚ) (e : Enemy) (dt : ℚ) :
    (updateMove sqrt e dt).slowTimer_ = e.slowTimer_ := by
  unfold updateMove
  simp only []
  split_ifs <;> simp

@[simp] theorem updateMove_slowFactor_ (sqrt : ℚ → ℚ) (e : Enemy) (dt : ℚ) :
    (updateMove sqrt e dt).slowFactor_ = e.slowFactor_ := by
  unfold updateMove
  simp only []
  split_ifs <;> simp

@[simp] theorem updateMove_frozenTimer_ (sqrt : ℚ → ℚ) (e : Enemy) (dt : ℚ) :
    (updateMove sqrt e dt).frozenTimer_ = e.frozenTimer_ := by
  unfold updateMove
  simp only []
  split_ifs <;> simp

@[simp] theorem updateMove_burnTickTimer_ (sqrt : ℚ → ℚ) (e : Enemy) (dt : ℚ) :
    (updateMove sqrt e dt).burnTickTimer_ = e.burnTickTimer_ := by
  unfold updateMove
  simp only []
  split_ifs <;> simp

@[simp] theorem updateBurn_type_ (e : Enemy) (dt : ℚ) : (e.updateBurn dt).type_ = e.type_ := by
  unfold updateBurn
  simp only []
  split_ifs <;> simp

@[simp] theorem updateBurn_maxHP_ (e : Enemy) (dt : ℚ) : (e.updateBurn dt).maxHP_ = e.maxHP_ := by
  unfold updateBurn
  simp only []
  split_ifs <;> simp

@[simp] theorem updateBurn_reward_ (e : Enemy) (dt : ℚ) : (e.updateBurn dt).reward_ = e.reward_ := by
  unfold updateBurn
  simp only []
  split_ifs <;> simp

@[simp] theorem updateBurn_rewardGranted_ (e : Enemy) (dt : ℚ) : (e.updateBurn dt).rewardGranted_ = e.rewardGranted_ := by
  unfold updateBurn
  simp only []
  split_ifs <;> simp

@[simp] theorem updateBurn_isDead_ (e : Enemy) (dt : ℚ) : (e.updateBurn dt).isDead_ = e.isDead_ := by
  unfold updateBurn
  simp only []
  split_ifs <;> simp

@[simp] theorem updateBurn_burnDamagePerSec_ (e : Enemy) (dt : ℚ) : (e.updateBurn dt).burnDamagePerSec_ = e.burnDamagePerSec_ := by
  unfold updateBurn
  simp only []
  split_ifs <;> simp

@[simp] theorem updateBurn_waypoints_ (e : Enemy) (dt : ℚ) : (e.updateBurn dt).waypoints_ = e.waypoints_ := by
  unfold updateBurn
  simp only []
  split_ifs <;> simp

@[simp] theorem updateBurn_reachedEnd_ (e : Enemy) (dt : ℚ) : (e.updateBurn dt).reachedEnd_ = e.reachedEnd_ := by
  unfold updateBurn
  simp only []
  split_ifs <;> simp

@[simp] theorem updateBurn_x_ (e : Enemy) (dt : ℚ) : (e.updateBurn dt).x_ = e.x_ := by
  unfold updateBurn
  simp only []
  split_ifs <;> simp

@[simp] theorem updateBurn_y_ (e : Enemy) (dt : ℚ) : (e.updateBurn dt).y_ = e.y_ := by
  unfold updateBurn
  simp only []
  split_ifs <;> simp

@[simp] theorem updateBurn_currentWaypoint_ (e : Enemy) (dt : ℚ) : (e.updateBurn dt).currentWaypoint_ = e.currentWaypoint_ := by
  unfold updateBurn
  simp only []
  split_ifs <;> simp

@[simp] theorem updateBurn_slowTimer_ (e : Enemy) (dt : ℚ) : (e.updateBurn dt).slowTimer_ = e.slowTimer_ := by
  unfold updateBurn
  simp only []
  split_ifs <;> simp

@[simp] theorem updateBurn_slowFactor_ (e : Enemy) (dt : ℚ) : (e.updateBurn dt).slowFactor_ = e.slowFactor_ := by
  unfold updateBurn
  simp only []
  split_ifs <;> simp

@[simp] theorem updateBurn_frozenTimer_ (e : Enemy) (dt : ℚ) : (e.updateBurn dt).frozenTimer_ = e.frozenTimer_ := by
  unfold updateBurn
  simp only []
  split_ifs <;> simp

theorem updateMove_reachedEnd_mono (sqrt : ℚ → ℚ) (e : Enemy) (dt : ℚ)
    (h : e.reachedEnd_ = true) : (updateMove sqrt e dt).reachedEnd_ = true := by
  unfold updateMove
  simp only []
  split_ifs <;> simp [h]

theorem HpInv_updateBurn {e : Enemy} (h : e.HpInv) (dt : ℚ) : (e.updateBurn dt).HpInv := by
  unfold updateBurn
  simp only []
  split_ifs with hb ht
  · have h1 : HpInv { e with burnTimer_ := f32 (e.burnTimer_ - dt),
                              burnTickTimer_ := f32 (e.burnTickTimer_ - dt) } := h
    have h2 := HpInv_takeDamage h1 (floatToInt_nonneg h.2.2.2)
    exact h2
  · exact h
  · exact h

theorem HpInv_of_fields {e e' : Enemy} (h : e.HpInv) (h1 : e'.hp_ = e.hp_)
    (h2 : e'.maxHP_ = e.maxHP_) (h3 : e'.isDying_ = e.isDying_) (h4 : e'.isDead_ = e.isDead_)
    (h5 : e'.burnDamagePerSec_ = e.burnDamagePerSec_) : e'.HpInv := by
  unfold HpInv at *
  rw [h1, h2, h3, h4, h5]
  exact h

theorem HpInv_update (sqrt : ℚ → ℚ) {e : Enemy} (h : e.HpInv) (dt : ℚ) :
    (e.update sqrt dt).HpInv := by
  unfold update
  simp only []
  split_ifs with hd hdur hr
  · exact ⟨h.1, h.2.1, fun _ => Or.inr rfl, h.2.2.2⟩
  · exact ⟨h.1, h.2.1, fun _ => Or.inl hd, h.2.2.2⟩
  · exact h
  · exact HpInv_of_fields (HpInv_updateBurn h dt) (by simp) (by simp) (by simp) (by simp)
      (by simp)

end Enemy

namespace Enemy

theorem HpInv_call (sqrt : ℚ → ℚ) {e : Enemy} (h : e.HpInv) {c : EnemyCall} (hc : c.nonneg) :
    (e.call sqrt c).HpInv := by
  cases c with
  | takeDamage d => exact HpInv_takeDamage h hc
  | applyBurn a b => exact ⟨h.1, h.2.1, h.2.2.1, hc.1⟩
  | applySlow a b => exact h
  | update dt => exact HpInv_update sqrt h dt

theorem HpInv_calls (sqrt : ℚ → ℚ) (cs : List EnemyCall) :
    ∀ {e : Enemy}, e.HpInv → (∀ c ∈ cs, c.nonneg) → (e.calls sqrt cs).HpInv := by
  induction cs with
  | nil => intro e h _; exact h
  | cons c cs ih =>
    intro e h hcs
    exact ih (HpInv_call sqrt h (hcs c (List.mem_cons_self _ _)))
      (fun c' hc' => hcs c' (List.mem_cons_of_mem _ hc'))

theorem baseHP_ge (type : EnemyType) : 25 ≤ baseHP type := by
  cases type <;> decide

theorem applyDifficulty_product_in_range (type : EnemyType) (m : Int) (h0 : 0 ≤ m)
    (h1 : m ≤ 1431655) : 0 ≤ baseHP type * m ∧ baseHP type * m ≤ 2147483647 := by
  cases type <;> simp only [baseHP] <;> constructor <;> omega

theorem HpInv_spawned (type : EnemyType) (wps : List Waypoint) (scale : Option Int)
    (hs : ∀ m ∈ scale, 75 ≤ m) : (spawned type wps scale).HpInv := by
  have hb := baseHP_ge type
  cases scale with
  | none =>
    refine ⟨?_, ?_, ?_, ?_⟩
    · show 0 ≤ baseHP type; omega
    · show baseHP type ≤ baseHP type; omega
    · show baseHP type = 0 → _; omega
    · show (0 : ℚ) ≤ 0; exact le_refl _
  | some m =>
    have hm : 75 ≤ m := hs m rfl
    have hprod : 100 ≤ baseHP type * m := by nlinarith
    have hpos : 0 < Int.tdiv (baseHP type * m) 100 := by
      rw [Int.tdiv_eq_ediv (by omega) (by omega)]
      omega
    refine ⟨?_, ?_, ?_, ?_⟩
    · show 0 ≤ Int.tdiv (baseHP type * m) 100; omega
    · show Int.tdiv (baseHP type * m) 100 ≤ Int.tdiv (baseHP type * m) 100; omega
    · show Int.tdiv (baseHP type * m) 100 = 0 → _; omega
    · show (0 : ℚ) ≤ 0; exact le_refl _

end Enemy

/-- C1. An enemy built by the constructor (any of the five kinds), optionally
scaled once by `applyDifficulty m` with `m ≥ 75`, and then subjected to any
sequence of `takeDamage`, `applyBurn`, `applySlow` and `update` calls with
non-negative arguments satisfies, after every call of the sequence (after the
first `n` calls, for every `n`): `0 ≤ hp ≤ maxHP`, and `hp = 0` only when the
enemy is dying or dead. -/
theorem enemy_hp_within_bounds (sqrt : ℚ → ℚ) (type : EnemyType) (waypoints : List Waypoint)
    (scale : Option Int) (hscale : ∀ m ∈ scale, 75 ≤ m) (cs : List EnemyCall)
    (hcs : ∀ c ∈ cs, c.nonneg) (n : Nat) :
    0 ≤ ((Enemy.spawned type waypoints scale).calls sqrt (cs.take n)).hp_ ∧
    ((Enemy.spawned type waypoints scale).calls sqrt (cs.take n)).hp_ ≤
      ((Enemy.spawned type waypoints scale).calls sqrt (cs.take n)).maxHP_ ∧
    (((Enemy.spawned type waypoints scale).calls sqrt (cs.take n)).hp_ = 0 →
      ((Enemy.spawned type waypoints scale).calls sqrt (cs.take n)).isDying = true ∨
      ((Enemy.spawned type waypoints scale).calls sqrt (cs.take n)).isDead = true) := by
  have h := Enemy.HpInv_calls sqrt (cs.take n) (Enemy.HpInv_spawned type waypoints scale hscale)
    (fun c hc => hcs c (List.mem_of_mem_take hc))
  exact ⟨h.1, h.2.1, h.2.2.1⟩

/-- Witness for C1: a goblin scaled by 75, set on fire and then hit for more
than its hit points. -/
theorem enemy_hp_within_bounds_witness :
    0 ≤ ((Enemy.spawned .GOBLIN [⟨0, 0⟩, ⟨4, 0⟩] (some 75)).calls sqrtQ
          ([.applyBurn 5 3, .update (1 / 10), .takeDamage 100].take 3)).hp_ ∧
    ((Enemy.spawned .GOBLIN [⟨0, 0⟩, ⟨4, 0⟩] (some 75)).calls sqrtQ
          ([.applyBurn 5 3, .update (1 / 10), .takeDamage 100].take 3)).hp_ ≤
      ((Enemy.spawned .GOBLIN [⟨0, 0⟩, ⟨4, 0⟩] (some 75)).calls sqrtQ
          ([.applyBurn 5 3, .update (1 / 10), .takeDamage 100].take 3)).maxHP_ ∧
    (((Enemy.spawned .GOBLIN [⟨0, 0⟩, ⟨4, 0⟩] (some 75)).calls sqrtQ
          ([.applyBurn 5 3, .update (1 / 10), .takeDamage 100].take 3)).hp_ = 0 →
      ((Enemy.spawned .GOBLIN [⟨0, 0⟩, ⟨4, 0⟩] (some 75)).calls sqrtQ
          ([.applyBurn 5 3, .update (1 / 10), .takeDamage 100].take 3)).isDying = true ∨
      ((Enemy.spawned .GOBLIN [⟨0, 0⟩, ⟨4, 0⟩] (some 75)).calls sqrtQ
          ([.applyBurn 5 3, .update (1 / 10), .takeDamage 100].take 3)).isDead = true) :=
  enemy_hp_within_bounds sqrtQ .GOBLIN [⟨0, 0⟩, ⟨4, 0⟩] (some 75)
    (by intro m hm; cases hm; decide)
    [.applyBurn 5 3, .update (1 / 10), .takeDamage 100]
    (by
      intro c hc
      simp only [List.mem_cons, List.mem_singleton, List.not_mem_nil, or_false] at hc
      rcases hc with rfl | rfl | rfl
      · exact ⟨by norm_num, by norm_num⟩
      · show (0 : ℚ) ≤ 1 / 10; norm_num
      · show (0 : Int) ≤ 100; decide)
    3

/-! ## Game::updateEnemies: the reward is granted at most once -/

namespace Enemy

@[simp] theorem update_reward_ (sqrt : ℚ → ℚ) (e : Enemy) (dt : ℚ) :
    (e.update sqrt dt).reward_ = e.reward_ := by
  unfold update
  simp only []
  split_ifs <;> simp

@[simp] theorem update_rewardGranted_ (sqrt : ℚ → ℚ) (e : Enemy) (dt : ℚ) :
    (e.update sqrt dt).rewardGranted_ = e.rewardGranted_ := by
  unfold update
  simp only []
  split_ifs <;> simp

@[simp] theorem update_type_ (sqrt : ℚ → ℚ) (e : Enemy) (dt : ℚ) :
    (e.update sqrt dt).type_ = e.type_ := by
  unfold update
  simp only []
  split_ifs <;> simp

theorem update_isDying_of_isDying (sqrt : ℚ → ℚ) (e : Enemy) (dt : ℚ) (h : e.isDying_ = true) :
    (e.update sqrt dt).isDying_ = true := by
  unfold update
  rw [if_pos h]
  simp only []
  split_ifs <;> exact h

theorem update_reachedEnd_of_isDying (sqrt : ℚ → ℚ) (e : Enemy) (dt : ℚ)
    (h : e.isDying_ = true) : (e.update sqrt dt).reachedEnd_ = e.reachedEnd_ := by
  unfold update
  rw [if_pos h]
  simp only []
  split_ifs <;> rfl

theorem update_reachedEnd_mono (sqrt : ℚ → ℚ) (e : Enemy) (dt : ℚ)
    (h : e.reachedEnd_ = true) : (e.update sqrt dt).reachedEnd_ = true := by
  unfold update
  simp only []
  split_ifs with h1 h2 h3
  · exact h
  · exact h
  · exact h
  · simp [h] at h3

theorem update_isDead_imp (sqrt : ℚ → ℚ) (e : Enemy) (dt : ℚ)
    (h : (e.update sqrt dt).isDead_ = true) : e.isDead_ = true ∨ e.isDying_ = true := by
  unfold update at h
  simp only [] at h
  split_ifs at h with h1 h2 h3
  · exact Or.inr h1
  · exact Or.inl h
  · exact Or.inl h
  · simp at h; exact Or.inl h

end Enemy

namespace Game

@[simp] theorem enemyPass_reward_ (sqrt : ℚ → ℚ) (dt : ℚ) (e : Enemy) :
    (enemyPass sqrt dt e).enemy.reward_ = e.reward_ := by
  unfold enemyPass Enemy.markRewardGranted
  simp only []
  split_ifs <;> simp

theorem enemyPass_of_granted (sqrt : ℚ → ℚ) (dt : ℚ) (e : Enemy)
    (h : (enemyPass sqrt dt e).granted = true) :
    e.rewardGranted_ = false ∧ (enemyPass sqrt dt e).enemy.Settled := by
  unfold enemyPass at h ⊢
  simp only [Enemy.isDying, Enemy.reachedEnd, Enemy.isRewardGranted, Bool.and_eq_true,
    Bool.not_eq_true'] at h ⊢
  obtain ⟨⟨h1, h2⟩, h3⟩ := h
  refine ⟨?_, ?_⟩
  · split_ifs at h3 <;> simpa using h3
  · simp only [h1, h2, h3, Bool.and_self, Bool.and_true, if_true]
    exact ⟨rfl, h1, h2⟩

theorem enemyPass_of_rewardGranted (sqrt : ℚ → ℚ) (dt : ℚ) (e : Enemy)
    (h : e.rewardGranted_ = true) :
    (enemyPass sqrt dt e).granted = false ∧ (enemyPass sqrt dt e).enemy.rewardGranted_ = true := by
  have hg : (enemyPass sqrt dt e).granted = false := by
    by_contra hc
    have := (enemyPass_of_granted sqrt dt e (by simpa using hc)).1
    rw [h] at this
    exact Bool.noConfusion this
  refine ⟨hg, ?_⟩
  unfold enemyPass at hg ⊢
  simp only [] at hg ⊢
  rw [hg]
  simp only [Bool.false_eq_true, if_false]
  split_ifs <;> simp [h]

theorem enemyPass_of_settled (sqrt : ℚ → ℚ) (dt : ℚ) (e : Enemy) (h : e.Settled) :
    (enemyPass sqrt dt e).granted = false ∧ (enemyPass sqrt dt e).enemy.Settled := by
  obtain ⟨h1, h2, h3⟩ := h
  have hg := enemyPass_of_rewardGranted sqrt dt e h1
  refine ⟨hg.1, hg.2, ?_, ?_⟩
  · have hd := Enemy.update_isDying_of_isDying sqrt e dt h2
    unfold enemyPass
    simp only [Enemy.markRewardGranted]
    split_ifs <;> simp [Enemy.takeDamage_isDying, hd]
  · have hr := Enemy.update_reachedEnd_of_isDying sqrt e dt h2
    unfold enemyPass
    simp only [Enemy.markRewardGranted]
    split_ifs <;> simp [hr, h3]

theorem enemyPass_reachedEnd_mono (sqrt : ℚ → ℚ) (dt : ℚ) (e : Enemy)
    (h : e.reachedEnd_ = true) : (enemyPass sqrt dt e).enemy.reachedEnd_ = true := by
  have hr := Enemy.update_reachedEnd_mono sqrt e dt h
  unfold enemyPass
  simp only [Enemy.markRewardGranted]
  split_ifs <;> simp [hr]

theorem enemyAfter_settled (sqrt : ℚ → ℚ) (dts : List ℚ) :
    ∀ e : Enemy, e.Settled → (enemyAfter sqrt e dts).Settled ∧ rewardGrants sqrt e dts = 0 := by
  induction dts with
  | nil => intro e h; exact ⟨h, rfl⟩
  | cons dt dts ih =>
    intro e h
    have hp := enemyPass_of_settled sqrt dt e h
    have := ih _ hp.2
    refine ⟨this.1, ?_⟩
    simp only [rewardGrants, hp.1, this.2]
    rfl

theorem rewardGrants_le_one (sqrt : ℚ → ℚ) (dts : List ℚ) :
    ∀ e : Enemy, rewardGrants sqrt e dts ≤ 1 := by
  induction dts with
  | nil => intro e; exact Nat.zero_le _
  | cons dt dts ih =>
    intro e
    simp only [rewardGrants]
    by_cases hg : (enemyPass sqrt dt e).granted = true
    · have hs := (enemyPass_of_granted sqrt dt e hg).2
      have := (enemyAfter_settled sqrt dts _ hs).2
      simp [hg, this]
    · have := ih (enemyPass sqrt dt e).enemy
      simp only [hg]
      simpa using this

theorem rewardGrants_of_rewardGranted (sqrt : ℚ → ℚ) (dts : List ℚ) :
    ∀ e : Enemy, e.rewardGranted_ = true → rewardGrants sqrt e dts = 0 := by
  induction dts with
  | nil => intro e _; rfl
  | cons dt dts ih =>
    intro e h
    have hp := enemyPass_of_rewardGranted sqrt dt e h
    simp only [rewardGrants, hp.1, ih _ hp.2]
    rfl

theorem rewardGrants_of_reachedEnd (sqrt : ℚ → ℚ) (dts : List ℚ) :
    ∀ e : Enemy, (enemyAfter sqrt e dts).reachedEnd_ = true → rewardGrants sqrt e dts = 0 := by
  induction dts with
  | nil => intro e _; rfl
  | cons dt dts ih =>
    intro e h
    simp only [enemyAfter] at h
    simp only [rewardGrants]
    by_cases hg : (enemyPass sqrt dt e).granted = true
    · have hs := (enemyPass_of_granted sqrt dt e hg).2
      have := (enemyAfter_settled sqrt dts _ hs).1.2.2
      rw [h] at this
      exact Bool.noConfusion this
    · simp only [hg, ih _ h]
      rfl

end Game

namespace Game

theorem updateEnemiesLoop_enemies (sqrt : ℚ → ℚ) (dt : ℚ) (es : List Enemy) :
    ∀ gold baseHP : Int,
      (updateEnemiesLoop sqrt dt es gold baseHP).1 = es.map fun e => (enemyPass sqrt dt e).enemy := by
  induction es with
  | nil => intro _ _; rfl
  | cons e es ih =>
    intro gold baseHP
    simp only [updateEnemiesLoop, List.map_cons, ih]

theorem updateEnemiesLoop_gold (sqrt : ℚ → ℚ) (dt : ℚ) (es : List Enemy) :
    ∀ gold baseHP : Int,
      (updateEnemiesLoop sqrt dt es gold baseHP).2.1 =
        gold + (es.map fun e => if (enemyPass sqrt dt e).granted then e.reward_ else 0).sum := by
  induction es with
  | nil => intro _ _; simp [updateEnemiesLoop]
  | cons e es ih =>
    intro gold baseHP
    simp only [updateEnemiesLoop, List.map_cons, List.sum_cons, ih, Enemy.getReward,
      enemyPass_reward_]
    split_ifs <;> omega

theorem sum_grants_step (sqrt : ℚ → ℚ) (dt : ℚ) (dts : List ℚ) (es : List Enemy) :
    (es.map fun e => if (enemyPass sqrt dt e).granted then e.reward_ else 0).sum +
      ((es.map fun e => (enemyPass sqrt dt e).enemy).map fun e =>
        (rewardGrants sqrt e dts : Int) * e.reward_).sum =
    (es.map fun e => (rewardGrants sqrt e (dt :: dts) : Int) * e.reward_).sum := by
  induction es with
  | nil => simp
  | cons e es ih =>
    simp only [List.map_cons, List.sum_cons, enemyPass_reward_] at ih ⊢
    rw [← ih]
    simp only [rewardGrants]
    split_ifs <;> push_cast <;> ring

theorem updateEnemiesSeq_spec (sqrt : ℚ → ℚ) (dts : List ℚ) :
    ∀ g : Game,
      (g.updateEnemiesSeq sqrt dts).enemies_ = g.enemies_.map (fun e => enemyAfter sqrt e dts) ∧
      (g.updateEnemiesSeq sqrt dts).gold_ =
        g.gold_ + (g.enemies_.map fun e => (rewardGrants sqrt e dts : Int) * e.reward_).sum := by
  induction dts with
  | nil => intro g; simp [updateEnemiesSeq, enemyAfter, rewardGrants]
  | cons dt dts ih =>
    intro g
    have h := ih (g.updateEnemies sqrt dt)
    have he : (g.updateEnemies sqrt dt).enemies_ =
        g.enemies_.map fun e => (enemyPass sqrt dt e).enemy :=
      updateEnemiesLoop_enemies sqrt dt g.enemies_ g.gold_ g.baseHP_
    have hg : (g.updateEnemies sqrt dt).gold_ =
        g.gold_ + (g.enemies_.map fun e =>
          if (enemyPass sqrt dt e).granted then e.reward_ else 0).sum :=
      updateEnemiesLoop_gold sqrt dt g.enemies_ g.gold_ g.baseHP_
    have hseq : g.updateEnemiesSeq sqrt (dt :: dts) =
        (g.updateEnemies sqrt dt).updateEnemiesSeq sqrt dts := rfl
    rw [hseq]
    refine ⟨?_, ?_⟩
    · rw [h.1, he, List.map_map]
      rfl
    · rw [h.2, hg, he, add_assoc, sum_grants_step]

end Game

/-- C2. Across every sequence of `Game::updateEnemies` calls (time steps
`dts`), every enemy of the collection evolves by the loop body alone, gold grows
by the reward of each enemy times the number of times its reward branch ran,
and for each enemy that number is at most one, is zero when `rewardGranted` was
already set, and is zero when the enemy ends up with `reachedEnd()` true. -/
theorem reward_granted_at_most_once (sqrt : ℚ → ℚ) (g : Game) (dts : List ℚ) :
    (g.updateEnemiesSeq sqrt dts).enemies_ =
        g.enemies_.map (fun e => Game.enemyAfter sqrt e dts) ∧
    (g.updateEnemiesSeq sqrt dts).gold_ =
        g.gold_ + (g.enemies_.map fun e =>
          (Game.rewardGrants sqrt e dts : Int) * e.getReward).sum ∧
    ∀ e ∈ g.enemies_,
      Game.rewardGrants sqrt e dts ≤ 1 ∧
      (e.isRewardGranted = true → Game.rewardGrants sqrt e dts = 0) ∧
      ((Game.enemyAfter sqrt e dts).reachedEnd = true → Game.rewardGrants sqrt e dts = 0) :=
  ⟨(Game.updateEnemiesSeq_spec sqrt dts g).1, (Game.updateEnemiesSeq_spec sqrt dts g).2,
    fun e _ => ⟨Game.rewardGrants_le_one sqrt dts e,
      Game.rewardGrants_of_rewardGranted sqrt dts e,
      Game.rewardGrants_of_reachedEnd sqrt dts e⟩⟩

/-- Witness for C2: a slime whose reward has been granted is never rewarded
again over two further calls. -/
theorem reward_granted_at_most_once_witness :
    rewardedSlime ∈ ({ exampleGame with enemies_ := [rewardedSlime] } : Game).enemies_ ∧
    rewardedSlime.isRewardGranted = true ∧
    Game.rewardGrants sqrtQ rewardedSlime [1 / 10, 1 / 10] = 0 :=
  ⟨List.mem_singleton.mpr rfl, rfl,
    ((reward_granted_at_most_once sqrtQ { exampleGame with enemies_ := [rewardedSlime] }
      [1 / 10, 1 / 10]).2.2 rewardedSlime (List.mem_singleton.mpr rfl)).2.1 rfl⟩

/-! ## Game::cleanupDead -/

/-- The dead slime of the examples is what `takeDamage(40)` followed by an
`update` of 0.6 s makes of a fresh slime. -/
theorem deadSlime_eq :
    ((Enemy.new .SLIME exampleWaypoints).takeDamage 40).update sqrtQ (6 / 10) = deadSlime := by
  norm_num [Enemy.update, Enemy.takeDamage, Enemy.startDeath, Enemy.new, deadSlime, Enemy.baseHP,
    Enemy.deathAnimDuration_, Enemy.DEATH_FRAME_TIME, floatToInt, f32_three_fifths,
    f32_one_tenth, f32_one_tenth_div, f32_frame_six]

/-- C4. After `Game::cleanupDead` every projectile left is active and its
`targetIndex` is below the size of the enemy collection after the cleanup; no
enemy with `isDead()` remains, and no ally that is dead or has reached the
spawn remains. -/
theorem cleanupDead_postcondition (g : Game) :
    (∀ p ∈ g.cleanupDead.projectiles_,
      p.isActive = true ∧ p.getTargetIndex < (g.cleanupDead.enemies_.length : Int)) ∧
    (∀ e ∈ g.cleanupDead.enemies_, e.isDead = false) ∧
    (∀ a ∈ g.cleanupDead.allies_, a.isAlive = true ∧ a.reachedSpawn = false) := by
  refine ⟨?_, ?_, ?_⟩
  · intro p hp
    simp only [Game.cleanupDead, List.mem_filter, List.mem_map] at hp
    obtain ⟨⟨q, ⟨_, hq⟩, rfl⟩, hact⟩ := hp
    simp only [Bool.not_not] at hact hq
    by_cases hidx : q.getTargetIndex ≥
        ((g.enemies_.filter (fun e => !e.isDead)).length : Int)
    · rw [if_pos hidx] at hact
      simp [Projectile.isActive, Projectile.deactivate] at hact
    · rw [if_neg hidx] at hact ⊢
      exact ⟨hact, by simpa [Game.cleanupDead] using hidx⟩
  · intro e he
    simp only [Game.cleanupDead, List.mem_filter] at he
    simpa using he.2
  · intro a ha
    simp only [Game.cleanupDead, List.mem_filter] at ha
    simpa using ha.2

/-- Witness for C4: in the example the projectile aimed at index 1 survives
the cleanup, is active, and its index is below the new size 2. -/
theorem cleanupDead_postcondition_witness :
    Projectile.new (1 / 2) (1 / 2) 1 10 ∈ staleIndexGame.cleanupDead.projectiles_ ∧
    (Projectile.new (1 / 2) (1 / 2) 1 10).isActive = true ∧
    (Projectile.new (1 / 2) (1 / 2) 1 10).getTargetIndex <
      (staleIndexGame.cleanupDead.enemies_.length : Int) :=
  have hmem : Projectile.new (1 / 2) (1 / 2) 1 10 ∈ staleIndexGame.cleanupDead.projectiles_ :=
    List.mem_singleton.mpr rfl
  ⟨hmem, (cleanupDead_postcondition staleIndexGame).1 _ hmem⟩

/-- C5 (evaluation at the failing input). With a dead slime at index 0, the
projectile aimed at index 1 designates the live slime before `cleanupDead`; it
survives the call with its index unchanged, and afterwards index 1 designates
the goblin, a different enemy. -/
theorem cleanupDead_shifts_target :
    ((Enemy.new .SLIME exampleWaypoints).takeDamage 40).update sqrtQ (6 / 10) = deadSlime ∧
    deadSlime.isDead = true ∧
    enemyAt staleIndexGame.enemies_ 1 = some (Enemy.new .SLIME exampleWaypoints) ∧
    staleIndexGame.cleanupDead.projectiles_ = [Projectile.new (1 / 2) (1 / 2) 1 10] ∧
    staleIndexGame.cleanupDead.enemies_ =
      [Enemy.new .SLIME exampleWaypoints, Enemy.new .GOBLIN exampleWaypoints] ∧
    enemyAt staleIndexGame.cleanupDead.enemies_ 1 = some (Enemy.new .GOBLIN exampleWaypoints) ∧
    (Enemy.new .GOBLIN exampleWaypoints).getType ≠ (Enemy.new .SLIME exampleWaypoints).getType :=
  ⟨deadSlime_eq, rfl, rfl, rfl, rfl, rfl, by decide⟩

/-! ## findTarget: first enemy of greatest progress -/

/-- What the scan returns from position `i` on with the best so far
`(bestIndex, bestProgress)`: either the best so far stands and no eligible
enemy of the rest exceeds `bestProgress`, or the result is the position of an
eligible enemy of the rest that exceeds `bestProgress`, is strictly ahead of
every eligible enemy before it and at least level with every one after it. -/
theorem scanTargets_spec (eligible : Enemy → Bool) (progress : Enemy → ℚ) (es : List Enemy) :
    ∀ (i bestIndex : Int) (bestProgress : ℚ),
      (scanTargets eligible progress es i bestIndex bestProgress = bestIndex ∧
        ∀ e ∈ es, eligible e = true → progress e ≤ bestProgress) ∨
      (∃ (j : Nat) (e : Enemy),
        scanTargets eligible progress es i bestIndex bestProgress = i + (j : Int) ∧
        es[j]? = some e ∧ eligible e = true ∧ bestProgress < progress e ∧
        (∀ (k : Nat) (e' : Enemy), es[k]? = some e' → eligible e' = true →
          progress e' ≤ progress e) ∧
        (∀ (k : Nat) (e' : Enemy), k < j → es[k]? = some e' → eligible e' = true →
          progress e' < progress e)) := by
  induction es with
  | nil =>
    intro i bestIndex bestProgress
    left
    exact ⟨rfl, fun e he => absurd he (List.not_mem_nil e)⟩
  | cons a es ih =>
    intro i bestIndex bestProgress
    by_cases hc : eligible a = true ∧ progress a > bestProgress
    · have hstep : scanTargets eligible progress (a :: es) i bestIndex bestProgress =
          scanTargets eligible progress es (i + 1) i (progress a) := by
        simp only [scanTargets, if_pos hc]
      rw [hstep]
      right
      rcases ih (i + 1) i (progress a) with ⟨hr, hall⟩ | ⟨j, e, hr, hj, he, hlt, hmax, hfirst⟩
      · refine ⟨0, a, by simpa using hr, List.getElem?_cons_zero, hc.1, hc.2, ?_, ?_⟩
        · intro k e' hk he'
          cases k with
          | zero =>
            simp only [List.getElem?_cons_zero, Option.some.injEq] at hk
            subst hk
            exact le_refl _
          | succ k =>
            simp only [List.getElem?_cons_succ] at hk
            exact hall e' (List.getElem?_mem hk) he'
        · intro k e' hk
          exact absurd hk (Nat.not_lt_zero k)
      · refine ⟨j + 1, e, ?_, by simpa using hj, he, lt_trans hc.2 hlt, ?_, ?_⟩
        · rw [hr]; push_cast; ring
        · intro k e' hk he'
          cases k with
          | zero =>
            simp only [List.getElem?_cons_zero, Option.some.injEq] at hk
            subst hk
            exact le_of_lt hlt
          | succ k =>
            simp only [List.getElem?_cons_succ] at hk
            exact hmax k e' hk he'
        · intro k e' hkj hk he'
          cases k with
          | zero =>
            simp only [List.getElem?_cons_zero, Option.some.injEq] at hk
            subst hk
            exact hlt
          | succ k =>
            simp only [List.getElem?_cons_succ] at hk
            exact hfirst k e' (Nat.lt_of_succ_lt_succ hkj) hk he'
    · have hstep : scanTargets eligible progress (a :: es) i bestIndex bestProgress =
          scanTargets eligible progress es (i + 1) bestIndex bestProgress := by
        simp only [scanTargets, if_neg hc]
      rw [hstep]
      have ha : eligible a = true → progress a ≤ bestProgress := by
        intro h
        exact not_lt.mp (fun hgt => hc ⟨h, hgt⟩)
      rcases ih (i + 1) bestIndex bestProgress with
        ⟨hr, hall⟩ | ⟨j, e, hr, hj, he, hlt, hmax, hfirst⟩
      · left
        refine ⟨hr, ?_⟩
        intro e' he' hel
        rcases List.mem_cons.mp he' with rfl | hmem
        · exact ha hel
        · exact hall e' hmem hel
      · right
        refine ⟨j + 1, e, ?_, by simpa using hj, he, hlt, ?_, ?_⟩
        · rw [hr]; push_cast; ring
        · intro k e' hk he'
          cases k with
          | zero =>
            simp only [List.getElem?_cons_zero, Option.some.injEq] at hk
            subst hk
            exact le_trans (ha he') (le_of_lt hlt)
          | succ k =>
            simp only [List.getElem?_cons_succ] at hk
            exact hmax k e' hk he'
        · intro k e' hkj hk he'
          cases k with
          | zero =>
            simp only [List.getElem?_cons_zero, Option.some.injEq] at hk
            subst hk
            exact lt_of_le_of_lt (ha he') hlt
          | succ k =>
            simp only [List.getElem?_cons_succ] at hk
            exact hfirst k e' (Nat.lt_of_succ_lt_succ hkj) hk he'

theorem scanTargets_firstBest (eligible : Enemy → Bool) (cand : Enemy → Prop)
    (hiff : ∀ e, eligible e = true ↔ cand e) (progress : Enemy → ℚ) (es : List Enemy)
    (h : ∀ e ∈ es, cand e → -1 < progress e) :
    FirstBestTarget cand progress es (scanTargets eligible progress es 0 (-1) (-1)) := by
  rcases scanTargets_spec eligible progress es 0 (-1) (-1) with
    ⟨hr, hall⟩ | ⟨j, e, hr, hj, he, hlt, hmax, hfirst⟩
  · refine ⟨⟨fun _ e he hc => ?_, fun _ => hr⟩, fun hne => absurd hr hne⟩
    exact absurd (hall e he ((hiff e).mpr hc)) (not_le.mpr (h e he hc))
  · have hrj : scanTargets eligible progress es 0 (-1) (-1) = (j : Int) := by
      rw [hr]; simp
    have hne : scanTargets eligible progress es 0 (-1) (-1) ≠ -1 := by
      rw [hrj]; omega
    refine ⟨⟨fun heq => absurd heq hne, fun hno => ?_⟩, fun _ => ?_⟩
    · exact absurd ((hiff e).mp he) (hno e (List.getElem?_mem hj))
    · exact ⟨j, e, hrj, hj, (hiff e).mp he, fun k e' hk hc => hmax k e' hk ((hiff e').mpr hc),
        fun k e' hkj hk hc => hfirst k e' hkj hk ((hiff e').mpr hc)⟩

theorem Tower.archer_eligible_iff (sqrt : ℚ → ℚ) (t : Tower) (e : Enemy) :
    Tower.eligible sqrt t e = true ↔ targetCandidate sqrt t.x_ t.y_ t.range_ e := by
  unfold Tower.eligible targetCandidate
  cases ha : e.isAlive <;> cases hr : e.reachedEnd <;> simp

theorem MageTower.mage_eligible_iff (sqrt : ℚ → ℚ) (t : MageTower) (e : Enemy) :
    MageTower.eligible sqrt t e = true ↔
      targetCandidate sqrt t.x_ t.y_ t.getConfig.range e := by
  unfold MageTower.eligible targetCandidate
  cases ha : e.isAlive <;> cases hr : e.reachedEnd <;> simp

/-- C6. `Tower::findTarget` and `MageTower::findTarget` follow the targeting
policy: provided every candidate (alive, not at the end, within the tower's
range) has path progress above `-1`, the result is `-1` iff there is no
candidate, and otherwise it is the index of a candidate whose progress is at
least that of every candidate and strictly above that of every earlier
candidate (the first one of greatest progress). -/
theorem findTarget_first_greatest_progress (sqrt : ℚ → ℚ) (tower : Tower) (mage : MageTower)
    (enemies : List Enemy)
    (htower : ∀ e ∈ enemies, targetCandidate sqrt tower.x_ tower.y_ tower.range_ e →
      -1 < e.getPathProgress sqrt)
    (hmage : ∀ e ∈ enemies, targetCandidate sqrt mage.x_ mage.y_ mage.getConfig.range e →
      -1 < e.getPathProgress sqrt) :
    FirstBestTarget (targetCandidate sqrt tower.x_ tower.y_ tower.range_)
        (Enemy.getPathProgress sqrt) enemies (tower.findTarget sqrt enemies) ∧
    FirstBestTarget (targetCandidate sqrt mage.x_ mage.y_ mage.getConfig.range)
        (Enemy.getPathProgress sqrt) enemies (mage.findTarget sqrt enemies) :=
  ⟨scanTargets_firstBest _ _ (Tower.archer_eligible_iff sqrt tower) _ enemies htower,
   scanTargets_firstBest _ _ (MageTower.mage_eligible_iff sqrt mage) _ enemies hmage⟩

theorem fresh_enemy_progress (type : EnemyType) :
    (Enemy.new type exampleWaypoints).getPathProgress sqrtQ = 0 := by
  simp [Enemy.getPathProgress, Enemy.new, exampleWaypoints, wpAt]
  norm_num

/-- The path progress of goblins standing on the straight example path. -/
theorem goblinAt_progress :
    (goblinAt (1 / 2)).getPathProgress sqrtQ = 0 ∧
    (goblinAt (5 / 2)).getPathProgress sqrtQ = 1 / 2 ∧
    (goblinAt (7 / 2)).getPathProgress sqrtQ = 3 / 4 := by
  refine ⟨?_, ?_, ?_⟩ <;>
    norm_num [goblinAt, Enemy.getPathProgress, Enemy.new, exampleWaypoints, wpAt]

/-- Goblins on the example path at 1/2, 5/2 and 7/2 pass the test of
`findTarget` for an archer tower and for a mage tower on cell (2, 0). -/
theorem goblinAt_eligible :
    (∀ x : ℚ, x = 1 / 2 ∨ x = 5 / 2 ∨ x = 7 / 2 →
      Tower.eligible sqrtQ (Tower.new 2 0) (goblinAt x) = true) ∧
    (∀ x : ℚ, x = 1 / 2 ∨ x = 5 / 2 ∨ x = 7 / 2 →
      MageTower.eligible sqrtQ (MageTower.new 2 0 .FIRE) (goblinAt x) = true) := by
  constructor
  · rintro x (rfl | rfl | rfl) <;>
      norm_num [Tower.eligible, goblinAt, Enemy.new, Enemy.isAlive, Enemy.reachedEnd,
        Enemy.getX, Enemy.getY, Enemy.baseHP, Tower.new, exampleWaypoints, wpAt]
  · rintro x (rfl | rfl | rfl) <;>
      norm_num [MageTower.eligible, MageTower.getConfig, goblinAt, Enemy.new, Enemy.isAlive,
        Enemy.reachedEnd, Enemy.getX, Enemy.getY, Enemy.baseHP, MageTower.new,
        exampleWaypoints, wpAt]

/-- The scan of `findTarget` on four goblins: progress 0, 3/4, 1/2 and 3/4
again, all within range of a tower on cell (2, 0); the result is index 1. -/
theorem findTarget_four_goblins :
    (Tower.new 2 0).findTarget sqrtQ
      [goblinAt (1 / 2), goblinAt (7 / 2), goblinAt (5 / 2), goblinAt (7 / 2)] = 1 ∧
    (MageTower.new 2 0 .FIRE).findTarget sqrtQ
      [goblinAt (1 / 2), goblinAt (7 / 2), goblinAt (5 / 2), goblinAt (7 / 2)] = 1 := by
  obtain ⟨p1, p2, p3⟩ := goblinAt_progress
  obtain ⟨ht, hm⟩ := goblinAt_eligible
  have t1 := ht (1 / 2) (Or.inl rfl)
  have t2 := ht (5 / 2) (Or.inr (Or.inl rfl))
  have t3 := ht (7 / 2) (Or.inr (Or.inr rfl))
  have m1 := hm (1 / 2) (Or.inl rfl)
  have m2 := hm (5 / 2) (Or.inr (Or.inl rfl))
  have m3 := hm (7 / 2) (Or.inr (Or.inr rfl))
  constructor
  · simp only [Tower.findTarget, scanTargets, t1, t2, t3, p1, p2, p3]
    norm_num
  · simp only [MageTower.findTarget, scanTargets, m1, m2, m3, p1, p2, p3]
    norm_num

/-- Witness for C6: four goblins within range of an archer tower and of a mage
tower, with progress 0, 3/4, 1/2 and 3/4; both towers return index 1, the
first goblin of greatest progress. -/
theorem findTarget_first_greatest_progress_witness :
    (∀ e ∈ [goblinAt (1 / 2), goblinAt (7 / 2), goblinAt (5 / 2), goblinAt (7 / 2)],
      targetCandidate sqrtQ (Tower.new 2 0).x_ (Tower.new 2 0).y_ (Tower.new 2 0).range_ e) ∧
    (Tower.new 2 0).findTarget sqrtQ
      [goblinAt (1 / 2), goblinAt (7 / 2), goblinAt (5 / 2), goblinAt (7 / 2)] = 1 ∧
    (MageTower.new 2 0 .FIRE).findTarget sqrtQ
      [goblinAt (1 / 2), goblinAt (7 / 2), goblinAt (5 / 2), goblinAt (7 / 2)] = 1 ∧
    FirstBestTarget
        (targetCandidate sqrtQ (Tower.new 2 0).x_ (Tower.new 2 0).y_ (Tower.new 2 0).range_)
        (Enemy.getPathProgress sqrtQ)
        [goblinAt (1 / 2), goblinAt (7 / 2), goblinAt (5 / 2), goblinAt (7 / 2)]
        ((Tower.new 2 0).findTarget sqrtQ
          [goblinAt (1 / 2), goblinAt (7 / 2), goblinAt (5 / 2), goblinAt (7 / 2)]) ∧
    FirstBestTarget
        (targetCandidate sqrtQ (MageTower.new 2 0 .FIRE).x_ (MageTower.new 2 0 .FIRE).y_
          (MageTower.new 2 0 .FIRE).getConfig.range)
        (Enemy.getPathProgress sqrtQ)
        [goblinAt (1 / 2), goblinAt (7 / 2), goblinAt (5 / 2), goblinAt (7 / 2)]
        ((MageTower.new 2 0 .FIRE).findTarget sqrtQ
          [goblinAt (1 / 2), goblinAt (7 / 2), goblinAt (5 / 2), goblinAt (7 / 2)]) :=
  have hprog : ∀ e ∈ [goblinAt (1 / 2), goblinAt (7 / 2), goblinAt (5 / 2), goblinAt (7 / 2)],
      -1 < e.getPathProgress sqrtQ := by
    intro e he
    simp only [List.mem_cons, List.mem_singleton, List.not_mem_nil, or_false] at he
    rcases he with rfl | rfl | rfl | rfl
    · rw [goblinAt_progress.1]
      norm_num
    · rw [goblinAt_progress.2.2]
      norm_num
    · rw [goblinAt_progress.2.1]
      norm_num
    · rw [goblinAt_progress.2.2]
      norm_num
  have hcand : ∀ e ∈ [goblinAt (1 / 2), goblinAt (7 / 2), goblinAt (5 / 2), goblinAt (7 / 2)],
      targetCandidate sqrtQ (Tower.new 2 0).x_ (Tower.new 2 0).y_ (Tower.new 2 0).range_ e := by
    intro e he
    simp only [List.mem_cons, List.mem_singleton, List.not_mem_nil, or_false] at he
    rcases he with rfl | rfl | rfl | rfl
    · exact (Tower.archer_eligible_iff sqrtQ _ _).mp (goblinAt_eligible.1 _ (Or.inl rfl))
    · exact (Tower.archer_eligible_iff sqrtQ _ _).mp (goblinAt_eligible.1 _ (Or.inr (Or.inr rfl)))
    · exact (Tower.archer_eligible_iff sqrtQ _ _).mp (goblinAt_eligible.1 _ (Or.inr (Or.inl rfl)))
    · exact (Tower.archer_eligible_iff sqrtQ _ _).mp (goblinAt_eligible.1 _ (Or.inr (Or.inr rfl)))
  ⟨hcand, findTarget_four_goblins.1, findTarget_four_goblins.2,
    findTarget_first_greatest_progress sqrtQ (Tower.new 2 0) (MageTower.new 2 0 .FIRE)
      [goblinAt (1 / 2), goblinAt (7 / 2), goblinAt (5 / 2), goblinAt (7 / 2)]
      (fun e he _ => hprog e he) (fun e he _ => hprog e he)⟩

/-! ## SheriffTower: ground targets only -/

theorem SheriffTower.sheriff_eligible_iff (sqrt : ℚ → ℚ) (t : SheriffTower) (e : Enemy) :
    SheriffTower.eligible sqrt t e = true ↔
      (e.isFlying = false ∧ targetCandidate sqrt t.x_ t.y_ 3 e) := by
  unfold SheriffTower.eligible targetCandidate SheriffTower.RANGE
  cases hf : e.isFlying <;> cases ha : e.isAlive <;> cases hr : e.reachedEnd <;> simp

theorem SheriffTower.findTarget_ground (sqrt : ℚ → ℚ) (t : SheriffTower) (enemies : List Enemy) :
    t.findTarget sqrt enemies = -1 ∨
    ∃ (j : Nat) (e : Enemy), t.findTarget sqrt enemies = (j : Int) ∧ enemies[j]? = some e ∧
      e.isFlying = false ∧ targetCandidate sqrt t.x_ t.y_ 3 e := by
  unfold SheriffTower.findTarget
  rcases scanTargets_spec (SheriffTower.eligible sqrt t) (Enemy.getPathProgress sqrt) enemies
      0 (-1) (-1) with ⟨hr, _⟩ | ⟨j, e, hr, hj, he, _, _, _⟩
  · exact Or.inl hr
  · right
    have h := (SheriffTower.sheriff_eligible_iff sqrt t e).mp he
    exact ⟨j, e, by rw [hr]; simp, hj, h.1, h.2⟩

theorem SheriffTower.update_projectiles (sqrt : ℚ → ℚ) (t : SheriffTower) (dt : ℚ)
    (enemies : List Enemy) (projectiles : List Projectile) (waypoints : List Waypoint)
    (allies : List Ally) :
    (t.update sqrt dt enemies projectiles waypoints allies).2.1 = projectiles ∨
    ∃ (p : Projectile) (j : Nat) (e : Enemy),
      (t.update sqrt dt enemies projectiles waypoints allies).2.1 = projectiles ++ [p] ∧
      p.getTargetIndex = (j : Int) ∧ enemies[j]? = some e ∧ e.isFlying = false := by
  unfold SheriffTower.update
  simp only []
  generalize (if t.fireCooldown_ > 0 then
    ({ t with fireCooldown_ := t.fireCooldown_ - dt } : SheriffTower) else t) = t1
  by_cases h1 : t1.fireCooldown_ ≤ 0
  · by_cases h2 : SheriffTower.findTarget sqrt t1 enemies ≥ 0
    · right
      rcases SheriffTower.findTarget_ground sqrt t1 enemies with hneg | ⟨j, e, hr, hj, hf, _⟩
      · omega
      · refine ⟨Projectile.new t1.x_ t1.y_ (SheriffTower.findTarget sqrt t1 enemies)
          SheriffTower.DAMAGE, j, e, ?_, hr, hj, hf⟩
        simp only [if_pos h1, if_pos h2]
        split_ifs <;> rfl
    · left
      simp only [if_pos h1, if_neg h2]
      split_ifs <;> rfl
  · left
    simp only [if_neg h1]
    split_ifs <;> rfl

/-- C7. `SheriffTower::findTarget` never returns the index of a flying enemy:
its result is `-1` or the index of a non-flying enemy that is alive, not at the
end and within range 3.0; it is `-1` when every enemy in range is flying; when
every ground candidate has path progress above `-1` it is the first ground
candidate of greatest progress; and a projectile that `SheriffTower::update`
adds is aimed at a non-flying enemy. -/
theorem sheriff_targets_ground_only (sqrt : ℚ → ℚ) (t : SheriffTower) (enemies : List Enemy) :
    (t.findTarget sqrt enemies = -1 ∨
      ∃ (j : Nat) (e : Enemy), t.findTarget sqrt enemies = (j : Int) ∧ enemies[j]? = some e ∧
        e.isFlying = false ∧ targetCandidate sqrt t.x_ t.y_ 3 e) ∧
    ((∀ e ∈ enemies, targetCandidate sqrt t.x_ t.y_ 3 e → e.isFlying = true) →
      t.findTarget sqrt enemies = -1) ∧
    ((∀ e ∈ enemies, (e.isFlying = false ∧ targetCandidate sqrt t.x_ t.y_ 3 e) →
        -1 < e.getPathProgress sqrt) →
      FirstBestTarget (fun e => e.isFlying = false ∧ targetCandidate sqrt t.x_ t.y_ 3 e)
        (Enemy.getPathProgress sqrt) enemies (t.findTarget sqrt enemies)) ∧
    (∀ (dt : ℚ) (projectiles : List Projectile) (waypoints : List Waypoint) (allies : List Ally),
      (t.update sqrt dt enemies projectiles waypoints allies).2.1 = projectiles ∨
      ∃ (p : Projectile) (j : Nat) (e : Enemy),
        (t.update sqrt dt enemies projectiles waypoints allies).2.1 = projectiles ++ [p] ∧
        p.getTargetIndex = (j : Int) ∧ enemies[j]? = some e ∧ e.isFlying = false) := by
  refine ⟨SheriffTower.findTarget_ground sqrt t enemies, ?_, ?_, ?_⟩
  · intro hall
    rcases SheriffTower.findTarget_ground sqrt t enemies with h | ⟨j, e, _, hj, hf, hc⟩
    · exact h
    · have := hall e (List.getElem?_mem hj) hc
      rw [hf] at this
      exact Bool.noConfusion this
  · intro hprog
    exact scanTargets_firstBest _ _ (SheriffTower.sheriff_eligible_iff sqrt t) _ enemies hprog
  · intro dt projectiles waypoints allies
    exact SheriffTower.update_projectiles sqrt t dt enemies projectiles waypoints allies

/-- Witness for C7: a sheriff two cells from a bat alone finds no target; with
a bat and a slime the hypothesis on the progress of ground candidates holds. -/
theorem sheriff_targets_ground_only_witness :
    (∀ e ∈ [Enemy.new .BAT exampleWaypoints],
      targetCandidate sqrtQ (SheriffTower.new 0 2).x_ (SheriffTower.new 0 2).y_ 3 e →
        e.isFlying = true) ∧
    (SheriffTower.new 0 2).findTarget sqrtQ [Enemy.new .BAT exampleWaypoints] = -1 ∧
    FirstBestTarget
      (fun e => e.isFlying = false ∧
        targetCandidate sqrtQ (SheriffTower.new 0 2).x_ (SheriffTower.new 0 2).y_ 3 e)
      (Enemy.getPathProgress sqrtQ)
      [Enemy.new .BAT exampleWaypoints, Enemy.new .SLIME exampleWaypoints]
      ((SheriffTower.new 0 2).findTarget sqrtQ
        [Enemy.new .BAT exampleWaypoints, Enemy.new .SLIME exampleWaypoints]) :=
  have hbat : ∀ e ∈ [Enemy.new .BAT exampleWaypoints],
      targetCandidate sqrtQ (SheriffTower.new 0 2).x_ (SheriffTower.new 0 2).y_ 3 e →
        e.isFlying = true := by
    intro e he _
    rw [List.mem_singleton.mp he]
    rfl
  ⟨hbat,
   (sheriff_targets_ground_only sqrtQ (SheriffTower.new 0 2)
      [Enemy.new .BAT exampleWaypoints]).2.1 hbat,
   (sheriff_targets_ground_only sqrtQ (SheriffTower.new 0 2)
      [Enemy.new .BAT exampleWaypoints, Enemy.new .SLIME exampleWaypoints]).2.2.1 (by
        intro e he _
        simp only [List.mem_cons, List.mem_singleton, List.not_mem_nil, or_false] at he
        rcases he with rfl | rfl <;> rw [fresh_enemy_progress] <;> norm_num)⟩

/-! ## MageTower::applyChainLightning -/

theorem length_modifyAt {α : Type} (f : α → α) :
    ∀ (l : List α) (i : Nat), (modifyAt l i f).length = l.length
  | [], _ => rfl
  | _ :: _, 0 => rfl
  | a :: l, i + 1 => by simp [modifyAt, length_modifyAt f l i]

theorem getElem?_modifyAt_eq {α : Type} (f : α → α) :
    ∀ (l : List α) (i : Nat), (modifyAt l i f)[i]? = l[i]?.map f
  | [], _ => rfl
  | _ :: _, 0 => by simp [modifyAt]
  | a :: l, i + 1 => by simp [modifyAt, getElem?_modifyAt_eq f l i]

theorem getElem?_modifyAt_ne {α : Type} (f : α → α) :
    ∀ (l : List α) (i j : Nat), i ≠ j → (modifyAt l i f)[j]? = l[j]?
  | [], _, _, _ => rfl
  | _ :: _, 0, 0, h => absurd rfl h
  | _ :: _, 0, j + 1, _ => rfl
  | _ :: _, i + 1, 0, _ => by simp [modifyAt]
  | a :: l, i + 1, j + 1, h => by
    simp only [modifyAt, List.getElem?_cons_succ]
    exact getElem?_modifyAt_ne f l i j (fun h' => h (by rw [h']))

theorem chain_goblinLine_eval :
    (MageTower.chainLightning sqrtQ goblinLine 0 20 3).2 = [0, 1, 2] ∧
    (MageTower.applyChainLightning sqrtQ goblinLine 0 20 3).map Enemy.hp_ = [70, 75, 75] := by
  norm_num [MageTower.applyChainLightning, MageTower.chainLightning, MageTower.chainLoop,
    MageTower.scanChain, goblinLine, goblinAt, enemyAt, modifyAt, Enemy.takeDamage,
    Enemy.startDeath, Enemy.new, Enemy.isAlive, Enemy.getX, Enemy.getY, Enemy.baseHP,
    floatToInt, FLT_MAX, exampleWaypoints, wpAt]

theorem enemyAt_natCast (enemies : List Enemy) (k : Nat) :
    enemyAt enemies (k : Int) = enemies[k]? := by
  unfold enemyAt
  have h : ¬((k : Int) < 0) := by omega
  simp [h]

theorem three_lt_FLT_MAX : (3 : ℚ) < FLT_MAX := by
  unfold FLT_MAX
  norm_num

theorem ChainInv.step {sqrt : ℚ → ℚ} {orig : List Enemy} {first : Int} {damage : ℚ}
    {cur : List Enemy} {hits : List Int} (inv : ChainInv sqrt orig first damage cur hits)
    {j : Nat} {e : Enemy} (hj : cur[j]? = some e) (hnot : (j : Int) ∉ hits)
    (hnear : NearestCandidate sqrt orig hits (hits.getLastD 0) (j : Int)) :
    ChainInv sqrt orig first damage
      (modifyAt cur j (fun e => e.takeDamage (floatToInt (damage * (75 / 100)))))
      (hits ++ [(j : Int)]) := by
  have hne : hits ≠ [] := by
    intro h
    have := inv.head
    rw [h] at this
    simp at this
  have hfirst : first ∈ hits := by
    have := inv.head
    cases hits with
    | nil => simp at this
    | cons a l =>
      simp only [List.head?_cons, Option.some.injEq] at this
      rw [this]; exact List.mem_cons_self _ _
  have hjlt : j < orig.length := by
    rw [← inv.length_eq]
    exact (List.getElem?_eq_some_iff.mp hj).1
  have hoj : orig[j]? = some e := by
    have ho : orig[j]? = some orig[j] := List.getElem?_eq_getElem hjlt
    have := inv.unhit j _ ho hnot
    rw [hj] at this
    cases this
    exact ho
  refine ⟨?_, ?_, ?_, ?_, ?_, ?_, ?_⟩
  · rw [length_modifyAt]; exact inv.length_eq
  · intro i e' hi hmem
    have h1 : (i : Int) ∉ hits := fun h => hmem (List.mem_append_left _ h)
    have h2 : j ≠ i := by
      intro h
      apply hmem
      rw [h]
      exact List.mem_append_right _ (List.mem_singleton.mpr rfl)
    rw [getElem?_modifyAt_ne _ _ _ _ h2]
    exact inv.unhit i e' hi h1
  · intro i e' hi hmem
    rcases List.mem_append.mp hmem with h | h
    · have h2 : j ≠ i := by
        intro h'
        apply hnot
        rw [h']
        exact h
      rw [getElem?_modifyAt_ne _ _ _ _ h2]
      exact inv.hit i e' hi h
    · have hij : i = j := by
        have := List.mem_singleton.mp h
        exact_mod_cast this
      subst hij
      rw [getElem?_modifyAt_eq, hj]
      rw [hi] at hoj
      cases hoj
      have hnf : (i : Int) ≠ first := fun h' => hnot (h' ▸ hfirst)
      simp [chainDamage, hnf]
  · cases hits with
    | nil => exact absurd rfl hne
    | cons a l => exact inv.head
  · rw [List.nodup_append]
    refine ⟨inv.nodup, List.nodup_singleton _, ?_⟩
    intro a ha hb
    rw [List.mem_singleton.mp hb] at ha
    exact hnot ha
  · intro h hmem
    rcases List.mem_append.mp hmem with h' | h'
    · exact inv.valid h h'
    · exact ⟨j, List.mem_singleton.mp h', hjlt⟩
  · intro pre prev next post heq
    rcases List.eq_nil_or_concat post with hpost | ⟨post', x, hpost⟩
    · subst hpost
      have h2 : hits ++ [(j : Int)] = (pre ++ [prev]) ++ [next] := by
        rw [heq]; simp
      have h3 := List.append_inj' h2 rfl
      have hnext : next = (j : Int) := by
        have := h3.2
        simp only [List.cons.injEq, and_true] at this
        exact this.symm
      have hlast : hits.getLastD 0 = prev := by
        rw [h3.1]; simp
      rw [← h3.1, hnext, ← hlast]
      exact hnear
    · subst hpost
      have h2 : hits ++ [(j : Int)] = (pre ++ prev :: next :: post') ++ [x] := by
        rw [heq]; simp
      have h3 := List.append_inj' h2 rfl
      exact inv.chain pre prev next post' h3.1

theorem scanChain_skip (sqrt : ℚ → ℚ) (o : ℚ × ℚ) (hit : List Int) (a : Enemy)
    (es : List Enemy) (i nearestIdx : Int) (nearestDist : ℚ)
    (h : a.isAlive = false ∨ i ∈ hit) :
    MageTower.scanChain sqrt o.1 o.2 hit (a :: es) i nearestIdx nearestDist =
      MageTower.scanChain sqrt o.1 o.2 hit es (i + 1) nearestIdx nearestDist := by
  simp only [MageTower.scanChain]
  rcases h with h | h
  · simp [h]
  · cases ha : a.isAlive <;> simp [h]

theorem scanChain_take (sqrt : ℚ → ℚ) (o : ℚ × ℚ) (hit : List Int) (a : Enemy)
    (es : List Enemy) (i nearestIdx : Int) (nearestDist : ℚ)
    (h1 : a.isAlive = true) (h2 : i ∉ hit) (h3 : hopDist sqrt o a < nearestDist)
    (h4 : hopDist sqrt o a ≤ 3) :
    MageTower.scanChain sqrt o.1 o.2 hit (a :: es) i nearestIdx nearestDist =
      MageTower.scanChain sqrt o.1 o.2 hit es (i + 1) i (hopDist sqrt o a) := by
  simp only [MageTower.scanChain, h1, Bool.not_true, Bool.false_eq_true, if_false, h2]
  exact if_pos ⟨h3, h4⟩

theorem scanChain_far (sqrt : ℚ → ℚ) (o : ℚ × ℚ) (hit : List Int) (a : Enemy)
    (es : List Enemy) (i nearestIdx : Int) (nearestDist : ℚ)
    (h : nearestDist ≤ hopDist sqrt o a) :
    MageTower.scanChain sqrt o.1 o.2 hit (a :: es) i nearestIdx nearestDist =
      MageTower.scanChain sqrt o.1 o.2 hit es (i + 1) nearestIdx nearestDist := by
  simp only [MageTower.scanChain]
  have h3 : ¬(hopDist sqrt o a < nearestDist ∧ hopDist sqrt o a ≤ 3) :=
    fun h' => absurd h'.1 (not_lt.mpr h)
  split_ifs with c1 c2 c3
  · rfl
  · rfl
  · exact absurd c3 h3
  · rfl

theorem chainLoop_succ (sqrt : ℚ → ℚ) (damage : ℚ) (n : Nat) (cur : List Enemy)
    (hits : List Int) :
    MageTower.chainLoop sqrt damage (n + 1) cur hits =
      if MageTower.scanChain sqrt (chainOrigin cur (hits.getLastD 0)).1
          (chainOrigin cur (hits.getLastD 0)).2 hits cur 0 (-1) FLT_MAX ≥ 0 then
        MageTower.chainLoop sqrt damage n
          (modifyAt cur (MageTower.scanChain sqrt (chainOrigin cur (hits.getLastD 0)).1
            (chainOrigin cur (hits.getLastD 0)).2 hits cur 0 (-1) FLT_MAX).toNat
            (fun e => e.takeDamage (floatToInt (damage * (75 / 100)))))
          (hits ++ [MageTower.scanChain sqrt (chainOrigin cur (hits.getLastD 0)).1
            (chainOrigin cur (hits.getLastD 0)).2 hits cur 0 (-1) FLT_MAX])
      else (cur, hits) := rfl

theorem chainLightning_three (sqrt : ℚ → ℚ) (e0 e1 e2 : Enemy) (damage : ℚ)
    (h0 : e0.isAlive = true) (h1 : e1.isAlive = true) (h2 : e2.isAlive = true)
    (d01 : hopDist sqrt (e0.getX, e0.getY) e1 ≤ 3)
    (d12 : hopDist sqrt (e1.getX, e1.getY) e2 ≤ 3)
    (hprox : hopDist sqrt (e0.getX, e0.getY) e1 ≤ hopDist sqrt (e0.getX, e0.getY) e2) :
    MageTower.chainLightning sqrt [e0, e1, e2] 0 damage 3 =
      ([e0.takeDamage (floatToInt damage), e1.takeDamage (floatToInt (damage * (75 / 100))),
        e2.takeDamage (floatToInt (damage * (75 / 100)))], [0, 1, 2]) := by
  have f01 : hopDist sqrt (e0.getX, e0.getY) e1 < FLT_MAX := lt_of_le_of_lt d01 three_lt_FLT_MAX
  have f12 : hopDist sqrt (e1.getX, e1.getY) e2 < FLT_MAX := lt_of_le_of_lt d12 three_lt_FLT_MAX
  have hstart : MageTower.chainLightning sqrt [e0, e1, e2] 0 damage 3 =
      MageTower.chainLoop sqrt damage 2 [e0.takeDamage (floatToInt damage), e1, e2] [0] := by
    unfold MageTower.chainLightning
    simp [enemyAt, h0, modifyAt]
  have ho0 : chainOrigin [e0.takeDamage (floatToInt damage), e1, e2] (([0] : List Int).getLastD 0)
      = (e0.getX, e0.getY) := by
    simp [chainOrigin, enemyAt, Enemy.getX, Enemy.getY]
  have ho1 : chainOrigin [e0.takeDamage (floatToInt damage),
      e1.takeDamage (floatToInt (damage * (75 / 100))), e2] (([0, 1] : List Int).getLastD 0)
      = (e1.getX, e1.getY) := by
    simp [chainOrigin, enemyAt, Enemy.getX, Enemy.getY]
  have hscan1 : MageTower.scanChain sqrt (e0.getX, e0.getY).1 (e0.getX, e0.getY).2 [0]
      [e0.takeDamage (floatToInt damage), e1, e2] 0 (-1) FLT_MAX = 1 := by
    rw [scanChain_skip _ _ _ _ _ _ _ _ (Or.inr (List.mem_singleton.mpr rfl))]
    rw [scanChain_take _ _ _ _ _ _ _ _ h1 (by decide) f01 d01]
    rw [scanChain_far _ _ _ _ _ _ _ _ hprox]
    rfl
  have hscan2 : MageTower.scanChain sqrt (e1.getX, e1.getY).1 (e1.getX, e1.getY).2 [0, 1]
      [e0.takeDamage (floatToInt damage), e1.takeDamage (floatToInt (damage * (75 / 100))), e2]
      0 (-1) FLT_MAX = 2 := by
    rw [scanChain_skip _ _ _ _ _ _ _ _ (Or.inr (by decide))]
    rw [scanChain_skip _ _ _ _ _ _ _ _ (Or.inr (by decide))]
    rw [scanChain_take _ _ _ _ _ _ _ _ h2 (by decide) f12 d12]
    rfl
  rw [hstart, chainLoop_succ, ho0, hscan1]
  have hpos1 : ((1 : Int) ≥ 0) := by decide
  rw [if_pos hpos1]
  have hm1 : modifyAt [e0.takeDamage (floatToInt damage), e1, e2] (1 : Int).toNat
      (fun e => e.takeDamage (floatToInt (damage * (75 / 100)))) =
      [e0.takeDamage (floatToInt damage), e1.takeDamage (floatToInt (damage * (75 / 100))), e2] :=
    rfl
  have ha1 : ([0] : List Int) ++ [1] = [0, 1] := rfl
  rw [hm1, ha1, chainLoop_succ, ho1, hscan2]
  have hpos2 : ((2 : Int) ≥ 0) := by decide
  rw [if_pos hpos2]
  rfl

theorem goblinLine_hops :
    hopDist sqrtQ ((goblinAt (1 / 2)).getX, (goblinAt (1 / 2)).getY) (goblinAt (3 / 2)) = 1 ∧
    hopDist sqrtQ ((goblinAt (3 / 2)).getX, (goblinAt (3 / 2)).getY) (goblinAt (5 / 2)) = 1 ∧
    hopDist sqrtQ ((goblinAt (1 / 2)).getX, (goblinAt (1 / 2)).getY) (goblinAt (5 / 2)) = 2 := by
  norm_num [hopDist, goblinAt, Enemy.getX, Enemy.getY, Enemy.new, exampleWaypoints, wpAt]

/-- C8 (counterexample). A level-1 lightning chain (`D = 20`, three targets) on
three goblins of 90 hit points standing one cell apart leaves them with 70, 75
and 75 hit points: the third goblin loses 15 = 0.75·D, not 0.5625·D = 11.25. -/
theorem chain_third_hop_takes_three_quarters :
    goblinLine.map Enemy.hp_ = [90, 90, 90] ∧
    (MageTower.applyChainLightning sqrtQ goblinLine 0 20 3).map Enemy.hp_ = [70, 75, 75] ∧
    ((90 : ℚ) - 75 ≠ 20 * (75 / 100) * (75 / 100)) :=
  ⟨rfl, chain_goblinLine_eval.2, by norm_num⟩

/-- C8 (amended). `MageTower::applyChainLightning` with base damage `D` and
`chainCount = 3` on three alive enemies, the second within 3.0 of the first and
at least as near to it as the third, the third within 3.0 of the second, hits
them in that order: the first takes `(int)D` and the second and the third each
take `(int)(D * 0.75)`. -/
theorem chain_lightning_damage_amounts (sqrt : ℚ → ℚ) (e0 e1 e2 : Enemy) (damage : ℚ)
    (h0 : e0.isAlive = true) (h1 : e1.isAlive = true) (h2 : e2.isAlive = true)
    (d01 : hopDist sqrt (e0.getX, e0.getY) e1 ≤ 3)
    (d12 : hopDist sqrt (e1.getX, e1.getY) e2 ≤ 3)
    (hprox : hopDist sqrt (e0.getX, e0.getY) e1 ≤ hopDist sqrt (e0.getX, e0.getY) e2) :
    (MageTower.chainLightning sqrt [e0, e1, e2] 0 damage 3).2 = [0, 1, 2] ∧
    MageTower.applyChainLightning sqrt [e0, e1, e2] 0 damage 3 =
      [e0.takeDamage (floatToInt damage), e1.takeDamage (floatToInt (damage * (75 / 100))),
        e2.takeDamage (floatToInt (damage * (75 / 100)))] := by
  unfold MageTower.applyChainLightning
  rw [chainLightning_three sqrt e0 e1 e2 damage h0 h1 h2 d01 d12 hprox]
  exact ⟨rfl, rfl⟩

/-- Witness for the amended C8: the three goblins one cell apart. -/
theorem chain_lightning_damage_amounts_witness :
    (MageTower.chainLightning sqrtQ [goblinAt (1 / 2), goblinAt (3 / 2), goblinAt (5 / 2)]
      0 20 3).2 = [0, 1, 2] ∧
    MageTower.applyChainLightning sqrtQ [goblinAt (1 / 2), goblinAt (3 / 2), goblinAt (5 / 2)]
      0 20 3 =
      [(goblinAt (1 / 2)).takeDamage (floatToInt 20),
        (goblinAt (3 / 2)).takeDamage (floatToInt (20 * (75 / 100))),
        (goblinAt (5 / 2)).takeDamage (floatToInt (20 * (75 / 100)))] :=
  chain_lightning_damage_amounts sqrtQ (goblinAt (1 / 2)) (goblinAt (3 / 2)) (goblinAt (5 / 2)) 20
    (by decide) (by decide) (by decide)
    (by rw [goblinLine_hops.1]; norm_num)
    (by rw [goblinLine_hops.2.1]; norm_num)
    (by rw [goblinLine_hops.1, goblinLine_hops.2.2]; norm_num)

/-- With the third goblin five cells beyond the second, only two enemies are in
range and exactly two are hit. -/
theorem chain_two_in_range_eval :
    (MageTower.chainLightning sqrtQ [goblinAt (1 / 2), goblinAt (3 / 2), goblinAt (13 / 2)]
      0 20 3).2 = [0, 1] ∧
    (MageTower.applyChainLightning sqrtQ [goblinAt (1 / 2), goblinAt (3 / 2), goblinAt (13 / 2)]
      0 20 3).map Enemy.hp_ = [70, 75, 90] := by
  norm_num [MageTower.applyChainLightning, MageTower.chainLightning, MageTower.chainLoop,
    MageTower.scanChain, goblinAt, enemyAt, modifyAt, Enemy.takeDamage,
    Enemy.startDeath, Enemy.new, Enemy.isAlive, Enemy.getX, Enemy.getY, Enemy.baseHP,
    floatToInt, FLT_MAX, exampleWaypoints, wpAt]

theorem aoeHit_fire_frozen (sqrt : ℚ → ℚ) (targetX targetY damage : ℚ) (config : MageConfig)
    (e : Enemy) (hfire : config.element = ElementType.FIRE) (halive : e.isAlive = true)
    (hfrozen : e.isFrozen = true)
    (hin : hopDist sqrt (targetX, targetY) e ≤ config.aoeRadius) :
    MageTower.aoeHit sqrt targetX targetY damage config e =
      ((e.clearStatusEffects).takeDamage (floatToInt (damage * 2))).applyBurn
        config.dotDamage config.dotDuration := by
  unfold hopDist at hin
  simp only [] at hin
  unfold MageTower.aoeHit
  simp only [halive, Bool.not_true, Bool.false_eq_true, if_false, if_pos hin, hfire, hfrozen,
    beq_self_eq_true, Bool.and_self, if_true]

theorem applyAoeDamage_getElem? (sqrt : ℚ → ℚ) (enemies : List Enemy) (targetIdx : Nat)
    (target : Enemy) (damage : ℚ) (config : MageConfig)
    (htarget : enemies[targetIdx]? = some target) (i : Nat) :
    (MageTower.applyAoeDamage sqrt enemies (targetIdx : Int) damage config)[i]? =
      enemies[i]?.map (MageTower.aoeHit sqrt target.getX target.getY damage config) := by
  unfold MageTower.applyAoeDamage
  rw [enemyAt_natCast, htarget]
  simp

/-- C10 (counterexample). A level-1 Fire mage (base damage 15) splashes a
frozen slime of 40 hit points standing at the target: the slime takes 30
damage and is no longer frozen or slowed, but when the application finishes it
is burning. -/
theorem fire_splash_leaves_enemy_burning :
    frozenSlime.isAlive = true ∧ frozenSlime.isFrozen = true ∧
    (MageTower.applyAoeDamage sqrtQ [frozenSlime] 0 15 (MageTower.new 0 0 .FIRE).getConfig).map
      (fun e => (e.hp_, e.isFrozen, e.isSlowed, e.isBurning)) = [(10, false, false, true)] := by
  refine ⟨by decide, ?_, ?_⟩
  · norm_num [frozenSlime, Enemy.freeze, Enemy.isFrozen]
  · norm_num [MageTower.applyAoeDamage, MageTower.aoeHit, MageTower.getConfig, MageTower.new,
      frozenSlime, Enemy.freeze, Enemy.new, enemyAt, Enemy.isAlive, Enemy.isFrozen,
      Enemy.isSlowed, Enemy.isBurning, Enemy.getX, Enemy.getY, Enemy.clearStatusEffects,
      Enemy.takeDamage, Enemy.startDeath, Enemy.applyBurn, Enemy.baseHP, floatToInt,
      exampleWaypoints, wpAt]

/-- C10 (amended). When a Fire `applyAoeDamage` with base damage `D` runs, every
alive frozen enemy within `aoeRadius` of the target takes `(int)(2·D)` damage
(hit points clamped at 0), and when the application finishes it is not frozen
and not slowed and carries the burn of this attack: its burn timer is
`dotDuration` and its burn damage per second is `dotDamage`, so it is burning
exactly when `dotDuration > 0`. -/
theorem fire_splash_on_frozen (sqrt : ℚ → ℚ) (enemies : List Enemy) (targetIdx : Nat)
    (target : Enemy) (damage : ℚ) (config : MageConfig)
    (hfire : config.element = ElementType.FIRE) (htarget : enemies[targetIdx]? = some target)
    (i : Nat) (e : Enemy) (hi : enemies[i]? = some e) (halive : e.isAlive = true)
    (hfrozen : e.isFrozen = true)
    (hin : hopDist sqrt (target.getX, target.getY) e ≤ config.aoeRadius) :
    ∃ e' : Enemy,
      (MageTower.applyAoeDamage sqrt enemies (targetIdx : Int) damage config)[i]? = some e' ∧
      e'.hp_ = (if e.hp_ - floatToInt (damage * 2) < 0 then 0
                else e.hp_ - floatToInt (damage * 2)) ∧
      e'.isFrozen = false ∧ e'.isSlowed = false ∧
      e'.burnTimer_ = config.dotDuration ∧ e'.burnDamagePerSec_ = config.dotDamage ∧
      (e'.isBurning = true ↔ 0 < config.dotDuration) := by
  refine ⟨((e.clearStatusEffects).takeDamage (floatToInt (damage * 2))).applyBurn
    config.dotDamage config.dotDuration, ?_, ?_, ?_, ?_, ?_, ?_, ?_⟩
  · rw [applyAoeDamage_getElem? sqrt enemies targetIdx target damage config htarget i, hi]
    rw [Option.map_some', aoeHit_fire_frozen sqrt _ _ damage config e hfire halive hfrozen hin]
  · show ((e.clearStatusEffects).takeDamage (floatToInt (damage * 2))).hp_ = _
    rw [Enemy.takeDamage_hp]
    rfl
  · simp [Enemy.isFrozen, Enemy.applyBurn, Enemy.clearStatusEffects]
  · simp [Enemy.isSlowed, Enemy.applyBurn, Enemy.clearStatusEffects]
  · rfl
  · rfl
  · simp [Enemy.isBurning, Enemy.applyBurn]

/-- Witness for the amended C10: the frozen slime at the target of a level-1
Fire mage. -/
theorem fire_splash_on_frozen_witness :
    ∃ e' : Enemy,
      (MageTower.applyAoeDamage sqrtQ [frozenSlime] ((0 : Nat) : Int) 15
        (MageTower.new 0 0 .FIRE).getConfig)[0]? = some e' ∧
      e'.hp_ = (if frozenSlime.hp_ - floatToInt (15 * 2) < 0 then 0
                else frozenSlime.hp_ - floatToInt (15 * 2)) ∧
      e'.isFrozen = false ∧ e'.isSlowed = false ∧
      e'.burnTimer_ = (MageTower.new 0 0 .FIRE).getConfig.dotDuration ∧
      e'.burnDamagePerSec_ = (MageTower.new 0 0 .FIRE).getConfig.dotDamage ∧
      (e'.isBurning = true ↔ 0 < (MageTower.new 0 0 .FIRE).getConfig.dotDuration) :=
  fire_splash_on_frozen sqrtQ [frozenSlime] 0 frozenSlime 15 (MageTower.new 0 0 .FIRE).getConfig
    rfl rfl 0 frozenSlime rfl (by decide)
    (by norm_num [frozenSlime, Enemy.freeze, Enemy.isFrozen])
    (by norm_num [hopDist, MageTower.getConfig, MageTower.new])

/-! ## Rewards of killed enemies: granted before removal -/

namespace Enemy

theorem SameLedger.refl (e : Enemy) : e.SameLedger e := ⟨rfl, rfl, rfl, rfl, id⟩

theorem SameLedger.trans {a b c : Enemy} (h1 : a.SameLedger b) (h2 : b.SameLedger c) :
    a.SameLedger c :=
  ⟨h2.1.trans h1.1, h2.2.1.trans h1.2.1, h2.2.2.1.trans h1.2.2.1, h2.2.2.2.1.trans h1.2.2.2.1,
    fun h => h2.2.2.2.2 (h1.2.2.2.2 h)⟩

theorem SameLedger_takeDamage (e : Enemy) (d : Int) : e.SameLedger (e.takeDamage d) := by
  refine ⟨by simp, by simp, by simp, by simp, ?_⟩
  intro h
  rw [takeDamage_isDying, h]
  rfl

theorem SameLedger_applyBurn (e : Enemy) (a b : ℚ) : e.SameLedger (e.applyBurn a b) :=
  ⟨rfl, rfl, rfl, rfl, id⟩

theorem SameLedger_applySlow (e : Enemy) (a b : ℚ) : e.SameLedger (e.applySlow a b) :=
  ⟨rfl, rfl, rfl, rfl, id⟩

theorem SameLedger_clearStatusEffects (e : Enemy) : e.SameLedger e.clearStatusEffects :=
  ⟨rfl, rfl, rfl, rfl, id⟩

theorem Booked.of_sameLedger {e e' : Enemy} {n : Nat} (h : e.Booked n) (hs : e.SameLedger e') :
    e'.Booked n := by
  obtain ⟨h1, h2, h3, _, h5⟩ := hs
  refine ⟨?_, ?_⟩
  · rcases h.1 with ⟨hn, hg⟩ | ⟨hn, hg, hd, hr⟩
    · exact Or.inl ⟨hn, by rw [h1]; exact hg⟩
    · exact Or.inr ⟨hn, by rw [h1]; exact hg, h5 hd, by rw [h2]; exact hr⟩
  · rw [h3, h2, h1]
    exact h.2

end Enemy

theorem forall₂_sameLedger_refl (es : List Enemy) : List.Forall₂ Enemy.SameLedger es es := by
  induction es with
  | nil => exact List.Forall₂.nil
  | cons a l ih => exact List.Forall₂.cons (Enemy.SameLedger.refl a) ih

theorem forall₂_sameLedger_trans {a b c : List Enemy} (h1 : List.Forall₂ Enemy.SameLedger a b)
    (h2 : List.Forall₂ Enemy.SameLedger b c) : List.Forall₂ Enemy.SameLedger a c := by
  induction h1 generalizing c with
  | nil => cases h2; exact List.Forall₂.nil
  | cons hab _ ih =>
    cases h2 with
    | cons hbc hrest => exact List.Forall₂.cons (hab.trans hbc) (ih hrest)

theorem forall₂_sameLedger_map (f : Enemy → Enemy) (hf : ∀ e : Enemy, e.SameLedger (f e))
    (es : List Enemy) : List.Forall₂ Enemy.SameLedger es (es.map f) := by
  induction es with
  | nil => exact List.Forall₂.nil
  | cons a l ih => exact List.Forall₂.cons (hf a) ih

theorem forall₂_sameLedger_modifyAt (f : Enemy → Enemy)
    (hf : ∀ e : Enemy, e.SameLedger (f e)) :
    ∀ (es : List Enemy) (i : Nat), List.Forall₂ Enemy.SameLedger es (modifyAt es i f)
  | [], _ => List.Forall₂.nil
  | a :: l, 0 => List.Forall₂.cons (hf a) (forall₂_sameLedger_refl l)
  | a :: l, i + 1 =>
    List.Forall₂.cons (Enemy.SameLedger.refl a) (forall₂_sameLedger_modifyAt f hf l i)

theorem MageTower.sameLedger_aoeHit (sqrt : ℚ → ℚ) (x y damage : ℚ) (config : MageConfig)
    (e : Enemy) : e.SameLedger (MageTower.aoeHit sqrt x y damage config e) := by
  unfold MageTower.aoeHit
  simp only []
  split_ifs with h1 h2 h3
  · exact Enemy.SameLedger.refl e
  · cases config.element
    · exact (Enemy.SameLedger_clearStatusEffects e).trans
        ((Enemy.SameLedger_takeDamage _ _).trans (Enemy.SameLedger_applyBurn _ _ _))
    · exact (Enemy.SameLedger_clearStatusEffects e).trans
        ((Enemy.SameLedger_takeDamage _ _).trans (Enemy.SameLedger_applySlow _ _ _))
    · exact (Enemy.SameLedger_clearStatusEffects e).trans (Enemy.SameLedger_takeDamage _ _)
  · cases config.element
    · exact (Enemy.SameLedger_takeDamage _ _).trans (Enemy.SameLedger_applyBurn _ _ _)
    · exact (Enemy.SameLedger_takeDamage _ _).trans (Enemy.SameLedger_applySlow _ _ _)
    · exact Enemy.SameLedger_takeDamage _ _
  · exact Enemy.SameLedger.refl e

theorem MageTower.sameLedger_applyAoeDamage (sqrt : ℚ → ℚ) (enemies : List Enemy)
    (targetIdx : Int) (damage : ℚ) (config : MageConfig) :
    List.Forall₂ Enemy.SameLedger enemies
      (MageTower.applyAoeDamage sqrt enemies targetIdx damage config) := by
  unfold MageTower.applyAoeDamage
  cases enemyAt enemies targetIdx with
  | none => exact forall₂_sameLedger_refl enemies
  | some target =>
    exact forall₂_sameLedger_map _ (MageTower.sameLedger_aoeHit sqrt _ _ damage config) enemies

theorem MageTower.sameLedger_chainLoop (sqrt : ℚ → ℚ) (damage : ℚ) (n : Nat) :
    ∀ (cur : List Enemy) (hits : List Int),
      List.Forall₂ Enemy.SameLedger cur (MageTower.chainLoop sqrt damage n cur hits).1 := by
  induction n with
  | zero => intro cur hits; exact forall₂_sameLedger_refl cur
  | succ n ih =>
    intro cur hits
    rw [chainLoop_succ]
    split_ifs with h
    · exact forall₂_sameLedger_trans
        (forall₂_sameLedger_modifyAt _ (fun e => Enemy.SameLedger_takeDamage e _) cur _)
        (ih _ _)
    · exact forall₂_sameLedger_refl cur

theorem MageTower.sameLedger_applyChainLightning (sqrt : ℚ → ℚ) (enemies : List Enemy)
    (firstTargetIdx : Int) (damage : ℚ) (chainCount : Int) :
    List.Forall₂ Enemy.SameLedger enemies
      (MageTower.applyChainLightning sqrt enemies firstTargetIdx damage chainCount) := by
  unfold MageTower.applyChainLightning MageTower.chainLightning
  cases enemyAt enemies firstTargetIdx with
  | none => exact forall₂_sameLedger_refl enemies
  | some first =>
    simp only []
    split_ifs with h
    · exact forall₂_sameLedger_refl enemies
    · exact forall₂_sameLedger_trans
        (forall₂_sameLedger_modifyAt _ (fun e => Enemy.SameLedger_takeDamage e _) enemies _)
        (MageTower.sameLedger_chainLoop sqrt damage _ _ _)

theorem MageTower.sameLedger_mageUpdate (sqrt : ℚ → ℚ) (t : MageTower) (dt : ℚ)
    (enemies : List Enemy) (projectiles : List Projectile) :
    List.Forall₂ Enemy.SameLedger enemies (t.update sqrt dt enemies projectiles).2.1 := by
  unfold MageTower.update
  simp only []
  split_ifs
  all_goals first
    | exact forall₂_sameLedger_refl enemies
    | exact MageTower.sameLedger_applyChainLightning sqrt enemies _ _ _
    | exact MageTower.sameLedger_applyAoeDamage sqrt enemies _ _ _

theorem Game.sameLedger_updateMageTowersLoop (sqrt : ℚ → ℚ) (dt : ℚ) (ts : List MageTower) :
    ∀ (enemies : List Enemy) (projectiles : List Projectile),
      List.Forall₂ Enemy.SameLedger enemies
        (Game.updateMageTowersLoop sqrt dt ts enemies projectiles).2.1 := by
  induction ts with
  | nil => intro enemies _; exact forall₂_sameLedger_refl enemies
  | cons t ts ih =>
    intro enemies projectiles
    simp only [Game.updateMageTowersLoop]
    exact forall₂_sameLedger_trans (MageTower.sameLedger_mageUpdate sqrt t dt enemies projectiles)
      (ih _ _)

theorem Ally.sameLedger_allyUpdate (sqrt : ℚ → ℚ) (a : Ally) (dt : ℚ) (enemies : List Enemy) :
    List.Forall₂ Enemy.SameLedger enemies (a.update sqrt dt enemies).2 := by
  unfold Ally.update
  simp only []
  split_ifs
  all_goals first
    | exact forall₂_sameLedger_refl enemies
    | exact forall₂_sameLedger_modifyAt _ (fun e => Enemy.SameLedger_takeDamage e _) enemies _

theorem Game.sameLedger_updateAlliesLoop (sqrt : ℚ → ℚ) (dt : ℚ) (allies : List Ally) :
    ∀ enemies : List Enemy,
      List.Forall₂ Enemy.SameLedger enemies (Game.updateAlliesLoop sqrt dt allies enemies).2 := by
  induction allies with
  | nil => intro enemies; exact forall₂_sameLedger_refl enemies
  | cons a allies ih =>
    intro enemies
    simp only [Game.updateAlliesLoop]
    refine forall₂_sameLedger_trans ?_ (ih _)
    split_ifs
    · exact Ally.sameLedger_allyUpdate sqrt a dt enemies
    · exact forall₂_sameLedger_refl enemies

theorem Game.sameLedger_projectileStep (sqrt : ℚ → ℚ) (dt : ℚ) (proj : Projectile)
    (enemies : List Enemy) :
    List.Forall₂ Enemy.SameLedger enemies (Game.projectileStep sqrt dt proj enemies).2 := by
  unfold Game.projectileStep
  split_ifs with h
  · exact forall₂_sameLedger_refl enemies
  · simp only []
    cases enemyAt enemies proj.getTargetIndex with
    | none => exact forall₂_sameLedger_refl enemies
    | some target =>
      simp only []
      split_ifs
      all_goals first
        | exact forall₂_sameLedger_refl enemies
        | exact forall₂_sameLedger_modifyAt _ (fun e => Enemy.SameLedger_takeDamage e _)
            enemies _

theorem Game.sameLedger_updateProjectilesLoop (sqrt : ℚ → ℚ) (dt : ℚ) (ps : List Projectile) :
    ∀ enemies : List Enemy,
      List.Forall₂ Enemy.SameLedger enemies
        (Game.updateProjectilesLoop sqrt dt ps enemies).2 := by
  induction ps with
  | nil => intro enemies; exact forall₂_sameLedger_refl enemies
  | cons p ps ih =>
    intro enemies
    simp only [Game.updateProjectilesLoop]
    exact forall₂_sameLedger_trans (Game.sameLedger_projectileStep sqrt dt p enemies) (ih _)

namespace Game

theorem enemyPass_rewardGranted_of_not_granted (sqrt : ℚ → ℚ) (dt : ℚ) (e : Enemy)
    (h : (enemyPass sqrt dt e).granted = false) :
    (enemyPass sqrt dt e).enemy.rewardGranted_ = e.rewardGranted_ := by
  unfold enemyPass at h ⊢
  simp only [] at h ⊢
  rw [h]
  simp only [Bool.false_eq_true, if_false]
  split_ifs <;> simp

theorem enemyPass_exit (sqrt : ℚ → ℚ) (dt : ℚ) (e : Enemy)
    (h : (enemyPass sqrt dt e).enemy.isDying_ = true) :
    (enemyPass sqrt dt e).enemy.reachedEnd_ = true ∨
      (enemyPass sqrt dt e).enemy.rewardGranted_ = true := by
  unfold enemyPass at h ⊢
  simp only [] at h ⊢
  generalize (if ((e.update sqrt dt).reachedEnd && (e.update sqrt dt).isAlive) = true then
    (e.update sqrt dt).takeDamage 9999 else e.update sqrt dt) = e2 at h ⊢
  cases h1 : e2.isDying_ <;> cases h2 : e2.reachedEnd_ <;> cases h3 : e2.rewardGranted_ <;>
    simp_all [Enemy.isDying, Enemy.reachedEnd, Enemy.isRewardGranted, Enemy.markRewardGranted]

theorem enemyPass_isDead (sqrt : ℚ → ℚ) (dt : ℚ) (e : Enemy)
    (h : (enemyPass sqrt dt e).enemy.isDead_ = true) :
    e.isDead_ = true ∨ (enemyPass sqrt dt e).enemy.isDying_ = true := by
  have hu : (e.update sqrt dt).isDead_ = true := by
    unfold enemyPass at h
    simp only [Enemy.markRewardGranted] at h
    split_ifs at h <;> simpa using h
  rcases Enemy.update_isDead_imp sqrt e dt hu with hd | hd
  · exact Or.inl hd
  · right
    have hd' := Enemy.update_isDying_of_isDying sqrt e dt hd
    unfold enemyPass
    simp only [Enemy.markRewardGranted]
    split_ifs <;> simp [Enemy.takeDamage_isDying, hd']

theorem enemyPass_booked (sqrt : ℚ → ℚ) (dt : ℚ) (e : Enemy) (n : Nat) (h : e.Booked n) :
    (enemyPass sqrt dt e).enemy.Booked (if (enemyPass sqrt dt e).granted then n + 1 else n) := by
  refine ⟨?_, ?_⟩
  · rcases h.1 with ⟨hn, hg⟩ | ⟨hn, hs⟩
    · by_cases hgr : (enemyPass sqrt dt e).granted = true
      · rw [if_pos hgr]
        exact Or.inr ⟨by omega, (enemyPass_of_granted sqrt dt e hgr).2⟩
      · rw [if_neg hgr]
        refine Or.inl ⟨hn, ?_⟩
        rw [enemyPass_rewardGranted_of_not_granted sqrt dt e (by simpa using hgr)]
        exact hg
    · have := enemyPass_of_settled sqrt dt e hs
      rw [this.1]
      exact Or.inr ⟨hn, this.2⟩
  · intro hd
    rcases enemyPass_isDead sqrt dt e hd with h0 | h0
    · rcases h.2 h0 with hr | hr
      · exact Or.inl (enemyPass_reachedEnd_mono sqrt dt e hr)
      · exact Or.inr (enemyPass_of_rewardGranted sqrt dt e hr).2
    · exact enemyPass_exit sqrt dt e h0

theorem spawnEnemy_enemies (g : Game) (type : EnemyType) :
    ∃ e : Enemy, (g.spawnEnemy type).enemies_ = g.enemies_ ++ [e] ∧ e.Booked 0 ∧
      (g.spawnEnemy type).gold_ = g.gold_ := by
  unfold spawnEnemy
  refine ⟨_, rfl, ?_, rfl⟩
  split_ifs
  all_goals exact ⟨Or.inl ⟨rfl, rfl⟩, fun h => Bool.noConfusion h⟩

end Game

theorem creditedGold_nil : creditedGold [] = 0 := rfl

theorem creditedGold_cons (p : Enemy × Nat) (l : List (Enemy × Nat)) :
    creditedGold (p :: l) = (p.2 : Int) * p.1.getReward + creditedGold l := by
  simp [creditedGold]

theorem creditedGold_append (a b : List (Enemy × Nat)) :
    creditedGold (a ++ b) = creditedGold a + creditedGold b := by
  simp [creditedGold]

theorem booked_of_sameLedger {es es' : List Enemy} {cs : List Nat}
    (hs : List.Forall₂ Enemy.SameLedger es es') :
    List.Forall₂ Enemy.Booked es cs →
      List.Forall₂ Enemy.Booked es' cs ∧
      creditedGold (es'.zip cs) = creditedGold (es.zip cs) := by
  induction hs generalizing cs with
  | nil => intro h; exact ⟨h, rfl⟩
  | cons hab _ ih =>
    intro h
    cases h with
    | cons hb hrest =>
      have := ih hrest
      refine ⟨List.Forall₂.cons (hb.of_sameLedger hab) this.1, ?_⟩
      simp only [List.zip_cons_cons, creditedGold_cons, this.2, Enemy.getReward, hab.2.2.2.1]

theorem booked_updateEnemies (sqrt : ℚ → ℚ) (dt : ℚ) {es : List Enemy} {cs : List Nat}
    (h : List.Forall₂ Enemy.Booked es cs) :
    List.Forall₂ Enemy.Booked (es.map fun e => (Game.enemyPass sqrt dt e).enemy)
      (List.zipWith (fun e c => if (Game.enemyPass sqrt dt e).granted then c + 1 else c) es cs) ∧
    creditedGold ((es.map fun e => (Game.enemyPass sqrt dt e).enemy).zip
      (List.zipWith (fun e c => if (Game.enemyPass sqrt dt e).granted then c + 1 else c) es cs)) =
      creditedGold (es.zip cs) +
        (es.map fun e => if (Game.enemyPass sqrt dt e).granted then e.reward_ else 0).sum := by
  induction h with
  | nil => exact ⟨List.Forall₂.nil, by simp [creditedGold]⟩
  | cons hb _ ih =>
    refine ⟨List.Forall₂.cons (Game.enemyPass_booked sqrt dt _ _ hb) ih.1, ?_⟩
    simp only [List.map_cons, List.zipWith_cons_cons, List.zip_cons_cons, creditedGold_cons,
      ih.2, List.sum_cons, Enemy.getReward, Game.enemyPass_reward_]
    split_ifs <;> push_cast <;> ring

theorem booked_cleanup {es : List Enemy} {cs : List Nat}
    (h : List.Forall₂ Enemy.Booked es cs) :
    List.Forall₂ Enemy.Booked (es.filter fun e => !e.isDead)
      (((es.zip cs).filter fun p => !p.1.isDead).map Prod.snd) ∧
    (∀ p ∈ (es.zip cs).filter (fun p => p.1.isDead), p.1.isDead_ = true ∧ p.1.Booked p.2) ∧
    creditedGold (es.zip cs) =
      creditedGold ((es.zip cs).filter fun p => p.1.isDead) +
      creditedGold ((es.filter fun e => !e.isDead).zip
        (((es.zip cs).filter fun p => !p.1.isDead).map Prod.snd)) := by
  induction h with
  | nil => exact ⟨List.Forall₂.nil, fun p hp => absurd hp (List.not_mem_nil p), rfl⟩
  | @cons e c es cs hb _ ih =>
    cases hd : e.isDead
    · refine ⟨?_, ?_, ?_⟩
      · simp only [List.zip_cons_cons, List.filter_cons, hd, Bool.not_false, if_true,
          List.map_cons]
        exact List.Forall₂.cons hb ih.1
      · intro p hp
        simp only [List.zip_cons_cons, List.filter_cons, hd, Bool.false_eq_true, if_false] at hp
        exact ih.2.1 p hp
      · simp only [List.zip_cons_cons, List.filter_cons, hd, Bool.not_false, if_true,
          Bool.false_eq_true, if_false, List.map_cons, creditedGold_cons, ih.2.2]
        ring
    · refine ⟨?_, ?_, ?_⟩
      · simp only [List.zip_cons_cons, List.filter_cons, hd, Bool.not_true, Bool.false_eq_true,
          if_false]
        exact ih.1
      · intro p hp
        simp only [List.zip_cons_cons, List.filter_cons, hd, if_true, List.mem_cons] at hp
        rcases hp with rfl | hp
        · exact ⟨hd, hb⟩
        · exact ih.2.1 p hp
      · simp only [List.zip_cons_cons, List.filter_cons, hd, Bool.not_true, Bool.false_eq_true,
          if_false, if_true, creditedGold_cons, ih.2.2]
        ring

theorem booked_spawn {es : List Enemy} {cs : List Nat} (h : List.Forall₂ Enemy.Booked es cs)
    {e : Enemy} (he : e.Booked 0) :
    List.Forall₂ Enemy.Booked (es ++ [e]) (cs ++ [0]) ∧
    creditedGold ((es ++ [e]).zip (cs ++ [0])) = creditedGold (es.zip cs) := by
  induction h with
  | nil => exact ⟨List.Forall₂.cons he List.Forall₂.nil, by simp [creditedGold]⟩
  | cons hb _ ih =>
    refine ⟨List.Forall₂.cons hb ih.1, ?_⟩
    simp only [List.cons_append, List.zip_cons_cons, creditedGold_cons, ih.2]

theorem Ledger.step_game (sqrt : ℚ → ℚ) (l : Ledger) (op : GameOp) :
    (l.step sqrt op).game = l.game.step sqrt op := by
  cases op <;> rfl

theorem Ledger.run_game (sqrt : ℚ → ℚ) (ops : List GameOp) :
    ∀ l : Ledger, (l.run sqrt ops).game = l.game.run sqrt ops := by
  induction ops with
  | nil => intro l; rfl
  | cons op ops ih =>
    intro l
    have h := ih (l.step sqrt op)
    rw [Ledger.step_game] at h
    exact h

theorem Ledger.Inv_of_sameLedger {startGold : Int} {l : Ledger} (h : l.Inv startGold)
    {g' : Game} (hs : List.Forall₂ Enemy.SameLedger l.game.enemies_ g'.enemies_)
    (hg : g'.gold_ = l.game.gold_) :
    Ledger.Inv startGold { l with game := g' } := by
  have hb := booked_of_sameLedger hs h.1
  refine ⟨hb.1, h.2.1, ?_⟩
  show g'.gold_ = _
  rw [hg, h.2.2]
  show _ = startGold + creditedGold l.removed + creditedGold (g'.enemies_.zip l.credits)
  rw [hb.2]

theorem Ledger.Inv_step (sqrt : ℚ → ℚ) {startGold : Int} {l : Ledger} (h : l.Inv startGold)
    (op : GameOp) : (l.step sqrt op).Inv startGold := by
  cases op with
  | updateEnemies dt =>
    have he : (l.game.updateEnemies sqrt dt).enemies_ =
        l.game.enemies_.map fun e => (Game.enemyPass sqrt dt e).enemy :=
      Game.updateEnemiesLoop_enemies sqrt dt l.game.enemies_ l.game.gold_ l.game.baseHP_
    have hg : (l.game.updateEnemies sqrt dt).gold_ =
        l.game.gold_ + (l.game.enemies_.map fun e =>
          if (Game.enemyPass sqrt dt e).granted then e.reward_ else 0).sum :=
      Game.updateEnemiesLoop_gold sqrt dt l.game.enemies_ l.game.gold_ l.game.baseHP_
    have hb := booked_updateEnemies sqrt dt h.1
    refine ⟨?_, h.2.1, ?_⟩
    · show List.Forall₂ Enemy.Booked (l.game.updateEnemies sqrt dt).enemies_ _
      rw [he]
      exact hb.1
    · show (l.game.updateEnemies sqrt dt).gold_ = startGold + creditedGold l.removed +
        creditedGold ((l.game.updateEnemies sqrt dt).enemies_.zip
          (List.zipWith (fun e c => if (Game.enemyPass sqrt dt e).granted then c + 1 else c)
            l.game.enemies_ l.credits))
      rw [hg, he, hb.2, h.2.2]
      ring
  | cleanupDead =>
    have hb := booked_cleanup h.1
    refine ⟨hb.1, ?_, ?_⟩
    · intro p hp
      rcases List.mem_append.mp hp with hp | hp
      · exact h.2.1 p hp
      · exact hb.2.1 p hp
    · show l.game.gold_ = startGold + creditedGold (l.removed ++ _) + creditedGold _
      rw [h.2.2, creditedGold_append, hb.2.2]
      show _ = startGold + (creditedGold l.removed +
        creditedGold ((l.game.enemies_.zip l.credits).filter fun p => p.1.isDead)) +
        creditedGold ((l.game.enemies_.filter fun e => !e.isDead).zip
          (((l.game.enemies_.zip l.credits).filter fun p => !p.1.isDead).map Prod.snd))
      ring
  | spawnEnemy type =>
    obtain ⟨e, he, hbk, hg⟩ := Game.spawnEnemy_enemies l.game type
    have hb := booked_spawn h.1 hbk
    refine ⟨?_, h.2.1, ?_⟩
    · show List.Forall₂ Enemy.Booked (l.game.spawnEnemy type).enemies_ _
      rw [he]
      exact hb.1
    · show (l.game.spawnEnemy type).gold_ = startGold + creditedGold l.removed +
        creditedGold ((l.game.spawnEnemy type).enemies_.zip (l.credits ++ [0]))
      rw [hg, he, hb.2, h.2.2]
  | updateTowers dt =>
    exact Ledger.Inv_of_sameLedger h (forall₂_sameLedger_refl _) rfl
  | updateSheriffTowers dt =>
    exact Ledger.Inv_of_sameLedger h (forall₂_sameLedger_refl _) rfl
  | updateMageTowers dt =>
    exact Ledger.Inv_of_sameLedger h
      (Game.sameLedger_updateMageTowersLoop sqrt dt _ _ _) rfl
  | updateAllies dt =>
    exact Ledger.Inv_of_sameLedger h (Game.sameLedger_updateAlliesLoop sqrt dt _ _) rfl
  | updateProjectiles dt =>
    exact Ledger.Inv_of_sameLedger h (Game.sameLedger_updateProjectilesLoop sqrt dt _ _) rfl

theorem Ledger.Inv_run (sqrt : ℚ → ℚ) {startGold : Int} (ops : List GameOp) :
    ∀ l : Ledger, l.Inv startGold → (l.run sqrt ops).Inv startGold := by
  induction ops with
  | nil => intro l h; exact h
  | cons op ops ih => intro l h; exact ih _ (Ledger.Inv_step sqrt h op)

theorem Ledger.Inv_start (g : Game) (h : g.enemies_ = []) : (Ledger.start g).Inv g.gold_ := by
  unfold Ledger.start Ledger.Inv
  simp [h, creditedGold]

theorem Enemy.Booked.count {e : Enemy} {n : Nat} (h : e.Booked n) :
    n ≤ 1 ∧ (e.isDead_ = true → e.reachedEnd_ = false → n = 1) ∧
      (e.reachedEnd_ = true → n = 0) := by
  refine ⟨?_, ?_, ?_⟩
  · rcases h.1 with ⟨hn, _⟩ | ⟨hn, _⟩ <;> omega
  · intro hd hr
    rcases h.2 hd with h1 | h1
    · rw [hr] at h1; exact Bool.noConfusion h1
    · rcases h.1 with ⟨_, hg⟩ | ⟨hn, _⟩
      · rw [hg] at h1; exact Bool.noConfusion h1
      · exact hn
  · intro hr
    rcases h.1 with ⟨hn, _⟩ | ⟨_, _, _, hs⟩
    · exact hn
    · rw [hr] at hs; exact Bool.noConfusion hs

/-- Reward bookkeeping over whole runs. Starting from a game with an empty
enemy collection, run any sequence of pipeline stages and spawns, counting for
every enemy how many times `Game::updateEnemies` adds its reward to gold. Then
the game evolves exactly as without the counting; gold is the starting gold
plus, over all enemies removed or still present, count times reward; every
enemy `Game::cleanupDead` has removed was dead, and if its `reachedEnd` flag
was clear its reward was added exactly once (if the flag was set, never); and
an enemy still present has count at most one, and exactly one as soon as it is
dead with the flag clear. -/
theorem rewarded_once_unless_reachedEnd (sqrt : ℚ → ℚ) (g : Game) (hempty : g.enemies_ = [])
    (ops : List GameOp) :
    ((Ledger.start g).run sqrt ops).game = g.run sqrt ops ∧
    (g.run sqrt ops).gold_ = g.gold_ + creditedGold ((Ledger.start g).run sqrt ops).removed +
      creditedGold ((g.run sqrt ops).enemies_.zip ((Ledger.start g).run sqrt ops).credits) ∧
    (∀ p ∈ ((Ledger.start g).run sqrt ops).removed,
      p.1.isDead = true ∧ (p.1.reachedEnd = false → p.2 = 1) ∧ (p.1.reachedEnd = true → p.2 = 0)) ∧
    (∀ p ∈ (g.run sqrt ops).enemies_.zip ((Ledger.start g).run sqrt ops).credits,
      p.2 ≤ 1 ∧ (p.1.isDead = true → p.1.reachedEnd = false → p.2 = 1)) := by
  have hgame := Ledger.run_game sqrt ops (Ledger.start g)
  have hinv := Ledger.Inv_run sqrt ops (Ledger.start g) (Ledger.Inv_start g hempty)
  have hgame' : ((Ledger.start g).run sqrt ops).game = g.run sqrt ops := hgame
  unfold Ledger.Inv at hinv
  rw [hgame'] at hinv
  refine ⟨hgame', hinv.2.2, ?_, ?_⟩
  · intro p hp
    have := hinv.2.1 p hp
    exact ⟨this.1, (this.2.count).2.1 this.1, (this.2.count).2.2⟩
  · intro p hp
    have hb : p.1.Booked p.2 := List.forall₂_zip hinv.1 hp
    exact ⟨hb.count.1, hb.count.2.1⟩

theorem ambush_eval :
    (ambushGame.run sqrtQ ambushOps).gold_ = 60 ∧
    (ambushGame.run sqrtQ ambushOps).enemies_ = [] ∧
    (((Ledger.start ambushGame).run sqrtQ ambushOps).removed.map
      fun p => (p.1.isDead, p.1.reachedEnd, p.2)) = [(true, false, 1)] := by
  norm_num [ambushGame, ambushOps, exampleGame, Game.run, Game.step, Ledger.run, Ledger.step,
    Ledger.start, Game.spawnEnemy, Game.getDifficultyMultiplier, Game.updateProjectiles,
    Game.updateProjectilesLoop, Game.projectileStep, Game.updateEnemies, Game.updateEnemiesLoop,
    Game.enemyPass, Game.cleanupDead, Projectile.new, Projectile.isActive,
    Projectile.getTargetIndex, Projectile.update, Projectile.hasReachedTarget,
    Projectile.deactivate, Projectile.getDamage, enemyAt, modifyAt, Enemy.new, Enemy.update,
    Enemy.takeDamage, Enemy.startDeath, Enemy.isAlive, Enemy.isDying, Enemy.isDead,
    Enemy.reachedEnd, Enemy.isRewardGranted, Enemy.markRewardGranted, Enemy.getReward,
    Enemy.getX, Enemy.getY, Enemy.baseHP, Enemy.baseReward, Enemy.deathAnimDuration_,
    Enemy.DEATH_FRAME_TIME, floatToInt, Map.getWaypoints, exampleWaypoints, wpAt,
    f32_three_fifths, f32_one_tenth, f32_one_tenth_div, f32_frame_six, f32_one,
    f32_tenth_plus_three_fifths, f32_frame_seven, f32_twentynine_tenths, f32_neg_one_tenth_div,
    f32_neg_one_tenth]

/-- The slime of the failing input is what the methods of `Enemy` produce: a
fresh slime walks the four cells of the path in one long step and stops on the
last waypoint, takes 35 damage and is set on fire. -/
theorem burningSlimeAtEnd_reached :
    (((Enemy.new .SLIME exampleWaypoints).update sqrtQ 3).takeDamage 35).applyBurn 5 3 =
      burningSlimeAtEnd := by
  norm_num [burningSlimeAtEnd, Enemy.new, Enemy.update, Enemy.updateBurn,
    Enemy.updateSlow, Enemy.updateFrozen, Enemy.updateMove, Enemy.updateAnim, Enemy.applyBurn,
    Enemy.takeDamage, Enemy.startDeath, Enemy.isAlive, Enemy.baseHP, Enemy.baseSpeed,
    Enemy.baseFrameCount, Enemy.ANIM_FRAME_TIME, exampleWaypoints, wpAt]
  decide

theorem burningSlimeAtEnd_update :
    burningSlimeAtEnd.update sqrtQ (1 / 10) = killedAtEnd := by
  norm_num [burningSlimeAtEnd, killedAtEnd, Enemy.new, Enemy.update, Enemy.updateBurn,
    Enemy.updateSlow, Enemy.updateFrozen, Enemy.updateMove, Enemy.applyBurn, Enemy.takeDamage,
    Enemy.startDeath, Enemy.isAlive, Enemy.baseHP, floatToInt, exampleWaypoints, wpAt,
    f32_three_fifths, f32_one_tenth, f32_one_tenth_div, f32_frame_six, f32_one,
    f32_tenth_plus_three_fifths, f32_frame_seven, f32_twentynine_tenths, f32_neg_one_tenth_div,
    f32_neg_one_tenth]

theorem killedAtEnd_update : killedAtEnd.update sqrtQ (3 / 5) = deadAtEnd := by
  norm_num [burningSlimeAtEnd, killedAtEnd, deadAtEnd, Enemy.new, Enemy.update,
    Enemy.applyBurn, Enemy.takeDamage, Enemy.startDeath, Enemy.baseHP,
    Enemy.deathAnimDuration_, Enemy.DEATH_FRAME_TIME, floatToInt,
    f32_three_fifths, f32_one_tenth, f32_one_tenth_div, f32_frame_six, f32_one,
    f32_tenth_plus_three_fifths, f32_frame_seven, f32_twentynine_tenths, f32_neg_one_tenth_div,
    f32_neg_one_tenth]

theorem burningSlimeAtEnd_pass :
    (Game.enemyPass sqrtQ (1 / 10) burningSlimeAtEnd).enemy = killedAtEnd ∧
    (Game.enemyPass sqrtQ (1 / 10) burningSlimeAtEnd).escaped = false ∧
    (Game.enemyPass sqrtQ (1 / 10) burningSlimeAtEnd).granted = false := by
  unfold Game.enemyPass
  rw [burningSlimeAtEnd_update]
  exact ⟨rfl, rfl, rfl⟩

theorem killedAtEnd_pass :
    (Game.enemyPass sqrtQ (3 / 5) killedAtEnd).enemy = deadAtEnd ∧
    (Game.enemyPass sqrtQ (3 / 5) killedAtEnd).escaped = false ∧
    (Game.enemyPass sqrtQ (3 / 5) killedAtEnd).granted = false := by
  unfold Game.enemyPass
  rw [killedAtEnd_update]
  exact ⟨rfl, rfl, rfl⟩

theorem lastStepGame_first :
    lastStepGame.updateEnemies sqrtQ (1 / 10) = { lastStepGame with enemies_ := [killedAtEnd] } := by
  have h := burningSlimeAtEnd_pass
  simp only [Game.updateEnemies, lastStepGame, Game.updateEnemiesLoop, h.1, h.2.1, h.2.2,
    Bool.false_eq_true, if_false]

theorem lastStepGame_second :
    ({ lastStepGame with enemies_ := [killedAtEnd] } : Game).updateEnemies sqrtQ (3 / 5) =
      { lastStepGame with enemies_ := [deadAtEnd] } := by
  have h := killedAtEnd_pass
  simp only [Game.updateEnemies, lastStepGame, Game.updateEnemiesLoop, h.1, h.2.1, h.2.2,
    Bool.false_eq_true, if_false]

theorem lastStepGame_run :
    lastStepGame.run sqrtQ lastStepOps = { lastStepGame with enemies_ := [] } := by
  show (((lastStepGame.updateEnemies sqrtQ (1 / 10)).updateEnemies sqrtQ (3 / 5)).cleanupDead) = _
  rw [lastStepGame_first, lastStepGame_second]
  rfl

theorem lastStepGame_books :
    ((Ledger.start lastStepGame).run sqrtQ lastStepOps).removed = [(deadAtEnd, 0)] := by
  have h1 := burningSlimeAtEnd_pass
  have h2 := killedAtEnd_pass
  show ((((Ledger.start lastStepGame).step sqrtQ (.updateEnemies (1 / 10))).step sqrtQ
    (.updateEnemies (3 / 5))).step sqrtQ .cleanupDead).removed = _
  simp only [Ledger.step, Ledger.start, lastStepGame_first, lastStepGame_second]
  simp only [lastStepGame, List.map_cons, List.map_nil, List.zipWith_cons_cons,
    List.zipWith_nil_right, h1.2.2, h2.2.2, Bool.false_eq_true, if_false]
  rfl

/-- C3 (evaluation at the failing input). A slime standing on the last
waypoint, alive and with `reachedEnd` clear (what a fresh slime becomes by
walking the path, taking 35 damage and being set on fire), is killed by a burn
tick inside `Enemy::update`; the same call moves it past the last waypoint and
sets `reachedEnd`. That `updateEnemies` therefore neither takes a base hit
point (the enemy is not alive) nor grants the reward (gold stays 50, base HP
stays 20), and after the death animation `cleanupDead` removes the enemy with
its reward never granted. -/
theorem burn_kill_on_last_waypoint_unrewarded :
    (((Enemy.new .SLIME exampleWaypoints).update sqrtQ 3).takeDamage 35).applyBurn 5 3 =
      burningSlimeAtEnd ∧
    burningSlimeAtEnd.isAlive = true ∧ burningSlimeAtEnd.reachedEnd = false ∧
    ((lastStepGame.updateEnemies sqrtQ (1 / 10)).enemies_.map
      fun e => (e.hp_, e.isDying, e.reachedEnd, e.isRewardGranted)) = [(0, true, true, false)] ∧
    (lastStepGame.updateEnemies sqrtQ (1 / 10)).gold_ = 50 ∧
    (lastStepGame.updateEnemies sqrtQ (1 / 10)).baseHP_ = 20 ∧
    (lastStepGame.run sqrtQ lastStepOps).enemies_ = [] ∧
    (lastStepGame.run sqrtQ lastStepOps).gold_ = 50 ∧
    (lastStepGame.run sqrtQ lastStepOps).baseHP_ = 20 ∧
    (((Ledger.start lastStepGame).run sqrtQ lastStepOps).removed.map
      fun p => (p.1.isDead, p.1.isRewardGranted, p.2)) = [(true, false, 0)] := by
  rw [lastStepGame_first, lastStepGame_run, lastStepGame_books]
  exact ⟨burningSlimeAtEnd_reached, by decide, rfl, rfl, rfl, rfl, rfl, rfl, rfl, rfl⟩

/-! ## Difficulty scaling (C11) -/

namespace Enemy

/-- State of an enemy with `h > 0` hit points, neither dying nor dead, after
`k` hits of `d > 0` points: the hit points are `h - k·d` cut off at zero, the
enemy is dying exactly when `h ≤ k·d`, and it is never marked dead. -/
theorem takeHits_state (e : Enemy) (d : Int) (h0 : 0 < e.hp_) (hd : 0 < d)
    (hdy : e.isDying_ = false) (hdd : e.isDead_ = false) (k : Nat) :
    (e.takeHits d k).hp_ = max (e.hp_ - (k : Int) * d) 0 ∧
    ((e.takeHits d k).isDying_ = true ↔ e.hp_ ≤ (k : Int) * d) ∧
    (e.takeHits d k).isDead_ = false := by
  induction k with
  | zero =>
    refine ⟨?_, ?_, hdd⟩
    · show e.hp_ = max (e.hp_ - ((0 : Nat) : Int) * d) 0
      simp only [Nat.cast_zero, zero_mul, sub_zero]
      exact (max_eq_left h0.le).symm
    · show e.isDying_ = true ↔ e.hp_ ≤ ((0 : Nat) : Int) * d
      simp only [hdy, Nat.cast_zero, zero_mul]
      constructor
      · intro h
        exact absurd h (by decide)
      · intro h
        omega
  | succ n ih =>
    obtain ⟨ihp, idy, idd⟩ := ih
    have hstep : e.takeHits d (n + 1) = (e.takeHits d n).takeDamage d := rfl
    have hmul : ((n + 1 : Nat) : Int) * d = (n : Int) * d + d := by
      push_cast
      ring
    rw [hstep, hmul]
    refine ⟨?_, ?_, ?_⟩
    · rw [takeDamage_hp, ihp]
      simp only [max_def]
      split_ifs <;> omega
    · rw [takeDamage_isDying, idd, ihp]
      simp only [Bool.not_false, Bool.and_true, Bool.or_eq_true, decide_eq_true_eq, idy]
      simp only [max_def]
      split_ifs <;> omega
    · rw [takeDamage_isDead_]
      exact idd

end Enemy

/-- C15. A freshly constructed slime has 40 hit points and a freshly built
archer tower deals 10 points per hit; hit again and again with 10 points the
slime is alive and not dying after 1, 2 and 3 hits and is dying after the 4th.
In general an enemy with `h > 0` hit points that is neither dying nor dead,
hit repeatedly with `d > 0` points, is dying after `k` hits exactly when
`k ≥ ⌈h/d⌉` and alive exactly when `k < ⌈h/d⌉`: it starts dying on hit number
`⌈h/d⌉` and not before. -/
theorem dying_on_hit_ceil (e : Enemy) (d : Int) (h0 : 0 < e.hp_) (hd : 0 < d)
    (hdy : e.isDying_ = false) (hdd : e.isDead_ = false) (k : Nat)
    (waypoints : List Waypoint) (col row : Int) :
    ((e.takeHits d k).isDying = true ↔ ⌈(e.hp_ : ℚ) / (d : ℚ)⌉ ≤ (k : Int)) ∧
    ((e.takeHits d k).isAlive = true ↔ (k : Int) < ⌈(e.hp_ : ℚ) / (d : ℚ)⌉) ∧
    (Enemy.new .SLIME waypoints).hp_ = 40 ∧ (Tower.new col row).getDamage = 10 ∧
    (∀ j : Nat, 1 ≤ j → j ≤ 3 →
      ((Enemy.new .SLIME waypoints).takeHits 10 j).isAlive = true ∧
      ((Enemy.new .SLIME waypoints).takeHits 10 j).isDying = false) ∧
    ((Enemy.new .SLIME waypoints).takeHits 10 4).isDying = true ∧
    ((Enemy.new .SLIME waypoints).takeHits 10 4).isAlive = false := by
  have hdq : (0 : ℚ) < (d : ℚ) := by exact_mod_cast hd
  have hceil : ∀ j : Nat, (⌈(e.hp_ : ℚ) / (d : ℚ)⌉ ≤ (j : Int) ↔ e.hp_ ≤ (j : Int) * d) := by
    intro j
    rw [Int.ceil_le, div_le_iff₀ hdq]
    exact_mod_cast Iff.rfl
  obtain ⟨hhp, hdying, _⟩ := Enemy.takeHits_state e d h0 hd hdy hdd k
  have hslime : ∀ j : Nat,
      ((Enemy.new .SLIME waypoints).takeHits 10 j).hp_ = max (40 - (j : Int) * 10) 0 ∧
      (((Enemy.new .SLIME waypoints).takeHits 10 j).isDying_ = true ↔ (40 : Int) ≤ (j : Int) * 10) := by
    intro j
    have h := Enemy.takeHits_state (Enemy.new .SLIME waypoints) 10
      (by show (0 : Int) < 40; decide) (by decide) rfl rfl j
    exact ⟨h.1, h.2.1⟩
  refine ⟨?_, ?_, rfl, rfl, ?_, ?_, ?_⟩
  · rw [hceil k]
    exact hdying
  · rw [← not_le, hceil k]
    unfold Enemy.isAlive
    rw [decide_eq_true_eq, hhp]
    constructor
    · intro h hle
      rw [max_eq_right (by omega)] at h
      omega
    · intro h
      rw [max_eq_left (by omega)]
      omega
  · intro j h1 h3
    obtain ⟨hp, dy⟩ := hslime j
    constructor
    · unfold Enemy.isAlive
      rw [decide_eq_true_eq, hp, max_eq_left (by omega)]
      omega
    · unfold Enemy.isDying
      cases hb : ((Enemy.new .SLIME waypoints).takeHits 10 j).isDying_
      · rfl
      · have := dy.mp hb
        omega
  · exact (hslime 4).2.mpr (by decide)
  · unfold Enemy.isAlive
    rw [decide_eq_false_iff_not, (hslime 4).1]
    decide

/-- Witness for C15: a goblin (90 hit points) hit with 25 points is dying after
four hits, `⌈90/25⌉ = 4`. -/
theorem dying_on_hit_ceil_witness :
    (((Enemy.new .GOBLIN exampleWaypoints).takeHits 25 4).isDying = true ↔
      ⌈((Enemy.new .GOBLIN exampleWaypoints).hp_ : ℚ) / ((25 : Int) : ℚ)⌉ ≤ ((4 : Nat) : Int)) ∧
    (((Enemy.new .GOBLIN exampleWaypoints).takeHits 25 4).isAlive = true ↔
      ((4 : Nat) : Int) < ⌈((Enemy.new .GOBLIN exampleWaypoints).hp_ : ℚ) / ((25 : Int) : ℚ)⌉) ∧
    (Enemy.new .SLIME exampleWaypoints).hp_ = 40 ∧ (Tower.new 0 0).getDamage = 10 ∧
    (∀ j : Nat, 1 ≤ j → j ≤ 3 →
      ((Enemy.new .SLIME exampleWaypoints).takeHits 10 j).isAlive = true ∧
      ((Enemy.new .SLIME exampleWaypoints).takeHits 10 j).isDying = false) ∧
    ((Enemy.new .SLIME exampleWaypoints).takeHits 10 4).isDying = true ∧
    ((Enemy.new .SLIME exampleWaypoints).takeHits 10 4).isAlive = false :=
  dying_on_hit_ceil (Enemy.new .GOBLIN exampleWaypoints) 25 (by decide) (by decide) rfl rfl 4
    exampleWaypoints 0 0

/-! ## Endless waves (C12, C13, C14) -/

namespace WaveManager

theorem generateEndlessWave_multiplier (w : WaveManager) (n : Int) :
    (w.generateEndlessWave n).difficultyMultiplier =
      if n ≤ 5 then 75 else if n ≤ 10 then 100 else if n ≤ 20 then 150
      else 200 + (n - 20) * 10 := rfl

theorem generateEndlessWave_entries (w : WaveManager) (n : Int) :
    (w.generateEndlessWave n).entries =
      if Int.tmod n 5 = 0 then
        [⟨.BOSS, 1⟩, ⟨.GOBLIN, Int.tdiv (5 + n * 2) 2⟩, ⟨.FLYING_EYE, Int.tdiv (5 + n * 2) 3⟩]
      else if Int.tmod n 3 = 0 then
        [⟨.GOBLIN, 5 + n * 2⟩, ⟨.SLIME, Int.tdiv (5 + n * 2) 2⟩, ⟨.BAT, Int.tdiv (5 + n * 2) 3⟩]
      else
        [⟨.GOBLIN, Int.tdiv (5 + n * 2) 2⟩, ⟨.SLIME, 5 + n * 2⟩] ++
          (if n ≥ 3 then
            (if Int.tmod n 2 = 0 then [⟨.BAT, Int.tdiv (5 + n * 2) 3⟩]
             else [⟨.FLYING_EYE, Int.tdiv (5 + n * 2) 4⟩])
           else []) := rfl

/-- The C++ test `n % k == 0` is divisibility by `k`. -/
theorem tmod_eq_zero_iff_dvd (n k : Int) : Int.tmod n k = 0 ↔ k ∣ n := by
  constructor
  · intro h
    exact Int.dvd_of_tmod_eq_zero h
  · intro h
    exact Int.tmod_eq_zero_of_dvd h

/-- Truncating division of a non-negative count is the floor quotient. -/
theorem tdiv_count (n k : Int) (hn : 1 ≤ n) (hk : 0 ≤ k) :
    Int.tdiv (5 + n * 2) k = (5 + 2 * n) / k := by
  rw [Int.tdiv_eq_ediv (by omega) hk, show 5 + n * 2 = 5 + 2 * n by ring]

end WaveManager

/-- C12. The difficulty multiplier of `generateEndlessWave(n)` is 75 for
`n ≤ 5`, 100 for `5 < n ≤ 10`, 150 for `10 < n ≤ 20` and `200 + (n-20)·10` for
`n > 20` (210 at `n = 21`), and it never decreases as `n` grows. -/
theorem endless_multiplier_schedule (w : WaveManager) (n : Int) :
    (n ≤ 5 → (w.generateEndlessWave n).difficultyMultiplier = 75) ∧
    (5 < n → n ≤ 10 → (w.generateEndlessWave n).difficultyMultiplier = 100) ∧
    (10 < n → n ≤ 20 → (w.generateEndlessWave n).difficultyMultiplier = 150) ∧
    (20 < n → (w.generateEndlessWave n).difficultyMultiplier = 200 + (n - 20) * 10) ∧
    (w.generateEndlessWave 21).difficultyMultiplier = 210 ∧
    (∀ a b : Int, a ≤ b →
      (w.generateEndlessWave a).difficultyMultiplier ≤
        (w.generateEndlessWave b).difficultyMultiplier) := by
  refine ⟨?_, ?_, ?_, ?_, rfl, ?_⟩
  · intro h
    rw [WaveManager.generateEndlessWave_multiplier, if_pos h]
  · intro h1 h2
    rw [WaveManager.generateEndlessWave_multiplier, if_neg (by omega), if_pos h2]
  · intro h1 h2
    rw [WaveManager.generateEndlessWave_multiplier, if_neg (by omega), if_neg (by omega),
      if_pos h2]
  · intro h
    rw [WaveManager.generateEndlessWave_multiplier, if_neg (by omega), if_neg (by omega),
      if_neg (by omega)]
  · intro a b hab
    simp only [WaveManager.generateEndlessWave_multiplier]
    split_ifs <;> omega

/-- C13. For every wave number `n ≥ 1`, `generateEndlessWave(n)` has a BOSS
entry exactly when 5 divides `n`, and then its entries are, in this order,
(BOSS, 1), (GOBLIN, (5+2n)/2), (FLYING_EYE, (5+2n)/3) with integer division. -/
theorem endless_boss_wave (w : WaveManager) (n : Int) (hn : 1 ≤ n) :
    ((∃ x ∈ (w.generateEndlessWave n).entries, x.enemyType = EnemyType.BOSS) ↔ 5 ∣ n) ∧
    (5 ∣ n → (w.generateEndlessWave n).entries =
      [⟨.BOSS, 1⟩, ⟨.GOBLIN, (5 + 2 * n) / 2⟩, ⟨.FLYING_EYE, (5 + 2 * n) / 3⟩]) := by
  have h5 := WaveManager.tmod_eq_zero_iff_dvd n 5
  have hboss : 5 ∣ n → (w.generateEndlessWave n).entries =
      [⟨.BOSS, 1⟩, ⟨.GOBLIN, (5 + 2 * n) / 2⟩, ⟨.FLYING_EYE, (5 + 2 * n) / 3⟩] := by
    intro hd
    rw [WaveManager.generateEndlessWave_entries, if_pos (h5.mpr hd),
      WaveManager.tdiv_count n 2 hn (by decide), WaveManager.tdiv_count n 3 hn (by decide)]
  refine ⟨⟨?_, ?_⟩, hboss⟩
  · rintro ⟨x, hx, hb⟩
    by_contra hnd
    rw [WaveManager.generateEndlessWave_entries, if_neg (fun h => hnd (h5.mp h))] at hx
    simp only [List.cons_append, List.nil_append] at hx
    split_ifs at hx <;>
      simp only [List.mem_cons, List.mem_singleton, List.not_mem_nil, or_false,
        List.append_nil] at hx <;>
      rcases hx with rfl | rfl | rfl <;> cases hb
  · intro hd
    rw [hboss hd]
    exact ⟨⟨.BOSS, 1⟩, List.mem_cons_self _ _, rfl⟩

/-- Witness for C13: wave 10 is a boss wave with 12 goblins and 8 flying eyes. -/
theorem endless_boss_wave_witness :
    ((∃ x ∈ (WaveManager.new.generateEndlessWave 10).entries, x.enemyType = EnemyType.BOSS) ↔
      (5 : Int) ∣ 10) ∧
    ((5 : Int) ∣ 10 → (WaveManager.new.generateEndlessWave 10).entries =
      [⟨.BOSS, 1⟩, ⟨.GOBLIN, (5 + 2 * 10) / 2⟩, ⟨.FLYING_EYE, (5 + 2 * 10) / 3⟩]) :=
  endless_boss_wave WaveManager.new 10 (by decide)

/-- C14, counterexample. Wave 15 is divisible by 3 (and `15 ≥ 1`), yet its
entries are (BOSS, 1), (GOBLIN, 17), (FLYING_EYE, 11): the boss rule `n % 5 == 0`
is tested first, so the GOBLIN entry has count 17 and not `5 + 2·15 = 35`. -/
theorem wave_fifteen_not_goblin_heavy :
    (1 : Int) ≤ 15 ∧ (3 : Int) ∣ 15 ∧
    (WaveManager.new.generateEndlessWave 15).entries =
      [⟨.BOSS, 1⟩, ⟨.GOBLIN, 17⟩, ⟨.FLYING_EYE, 11⟩] ∧
    ¬ (∃ x ∈ (WaveManager.new.generateEndlessWave 15).entries,
        x.enemyType = EnemyType.GOBLIN ∧ x.count = 5 + 2 * 15) := by
  refine ⟨by decide, by decide, by decide, by decide⟩

/-- C14, amended. For every wave number `n ≥ 1` divisible by 3 and not by 5,
`generateEndlessWave(n)` is goblin-heavy: its entries are (GOBLIN, 5+2n),
(SLIME, (5+2n)/2), (BAT, (5+2n)/3), so the GOBLIN entry has count `5 + 2n` and
every other entry has a smaller count (for `n = 6`: GOBLIN 17, SLIME 8, BAT 5). -/
theorem endless_goblin_heavy (w : WaveManager) (n : Int) (hn : 1 ≤ n) (h3 : 3 ∣ n)
    (h5 : ¬ 5 ∣ n) :
    (w.generateEndlessWave n).entries =
      [⟨.GOBLIN, 5 + 2 * n⟩, ⟨.SLIME, (5 + 2 * n) / 2⟩, ⟨.BAT, (5 + 2 * n) / 3⟩] ∧
    (∀ x ∈ (w.generateEndlessWave n).entries,
      (x.enemyType = EnemyType.GOBLIN → x.count = 5 + 2 * n) ∧
      (x.enemyType ≠ EnemyType.GOBLIN → x.count < 5 + 2 * n)) ∧
    (w.generateEndlessWave 6).entries = [⟨.GOBLIN, 17⟩, ⟨.SLIME, 8⟩, ⟨.BAT, 5⟩] := by
  have hent : (w.generateEndlessWave n).entries =
      [⟨.GOBLIN, 5 + 2 * n⟩, ⟨.SLIME, (5 + 2 * n) / 2⟩, ⟨.BAT, (5 + 2 * n) / 3⟩] := by
    rw [WaveManager.generateEndlessWave_entries,
      if_neg (fun h => h5 ((WaveManager.tmod_eq_zero_iff_dvd n 5).mp h)),
      if_pos ((WaveManager.tmod_eq_zero_iff_dvd n 3).mpr h3),
      WaveManager.tdiv_count n 2 hn (by decide), WaveManager.tdiv_count n 3 hn (by decide),
      show 5 + n * 2 = 5 + 2 * n by ring]
  refine ⟨hent, ?_, rfl⟩
  intro x hx
  rw [hent] at hx
  simp only [List.mem_cons, List.mem_singleton, List.not_mem_nil, or_false] at hx
  rcases hx with h | h | h <;> subst h
  · exact ⟨fun _ => rfl, fun h => absurd rfl h⟩
  · refine ⟨fun h => (by cases h), fun _ => ?_⟩
    show (5 + 2 * n) / 2 < 5 + 2 * n
    omega
  · refine ⟨fun h => (by cases h), fun _ => ?_⟩
    show (5 + 2 * n) / 3 < 5 + 2 * n
    omega

/-- Witness for C14 (amended): wave 6. -/
theorem endless_goblin_heavy_witness :
    (WaveManager.new.generateEndlessWave 6).entries =
      [⟨.GOBLIN, 5 + 2 * 6⟩, ⟨.SLIME, (5 + 2 * 6) / 2⟩, ⟨.BAT, (5 + 2 * 6) / 3⟩] ∧
    (∀ x ∈ (WaveManager.new.generateEndlessWave 6).entries,
      (x.enemyType = EnemyType.GOBLIN → x.count = 5 + 2 * 6) ∧
      (x.enemyType ≠ EnemyType.GOBLIN → x.count < 5 + 2 * 6)) ∧
    (WaveManager.new.generateEndlessWave 6).entries = [⟨.GOBLIN, 17⟩, ⟨.SLIME, 8⟩, ⟨.BAT, 5⟩] :=
  endless_goblin_heavy WaveManager.new 6 (by decide) (by decide) (by decide)

/-! ## Tower upgrades (C19) -/

namespace Tower

theorem upgrade_of_lt (t : Tower) (h : t.level_ < 5) :
    t.upgrade = { t with
      level_ := t.level_ + 1
      damage_ := 10 + (t.level_ + 1 - 1) * 5
      range_ := 25 / 10 + ((t.level_ + 1 - 1 : Int) : ℚ) * (3 / 10)
      fireRate_ := 1 + ((t.level_ + 1 - 1 : Int) : ℚ) * (2 / 10) } := by
  unfold upgrade recalculateStats getMaxLevel
  rw [if_pos h]

theorem upgrade_of_ge (t : Tower) (h : 5 ≤ t.level_) : t.upgrade = t := by
  unfold upgrade getMaxLevel
  rw [if_neg (by omega)]

/-- Level and statistics of a fresh tower after `k` upgrades. -/
theorem upgrades_new (col row : Int) (k : Nat) :
    ((Tower.new col row).upgrades k).level_ = min (1 + (k : Int)) 5 ∧
    ((Tower.new col row).upgrades k).damage_ =
      10 + (((Tower.new col row).upgrades k).level_ - 1) * 5 ∧
    ((Tower.new col row).upgrades k).range_ =
      25 / 10 + ((((Tower.new col row).upgrades k).level_ - 1 : Int) : ℚ) * (3 / 10) ∧
    ((Tower.new col row).upgrades k).fireRate_ =
      1 + ((((Tower.new col row).upgrades k).level_ - 1 : Int) : ℚ) * (2 / 10) := by
  induction k with
  | zero =>
    refine ⟨?_, ?_, ?_, ?_⟩
    · show (1 : Int) = min (1 + ((0 : Nat) : Int)) 5
      decide
    · show (10 : Int) = 10 + (1 - 1) * 5
      decide
    · show (25 / 10 : ℚ) = 25 / 10 + (((1 : Int) - 1 : Int) : ℚ) * (3 / 10)
      norm_num
    · show (1 : ℚ) = 1 + (((1 : Int) - 1 : Int) : ℚ) * (2 / 10)
      norm_num
  | succ n ih =>
    obtain ⟨hl, hd, hr, hf⟩ := ih
    have hstep : (Tower.new col row).upgrades (n + 1) = ((Tower.new col row).upgrades n).upgrade :=
      rfl
    rw [hstep]
    by_cases hlt : ((Tower.new col row).upgrades n).level_ < 5
    · rw [upgrade_of_lt _ hlt]
      refine ⟨?_, rfl, rfl, rfl⟩
      show ((Tower.new col row).upgrades n).level_ + 1 = min (1 + ((n + 1 : Nat) : Int)) 5
      rw [hl] at hlt ⊢
      push_cast
      simp only [min_def] at hlt ⊢
      split_ifs at hlt ⊢ <;> omega
    · rw [upgrade_of_ge _ (by omega)]
      refine ⟨?_, hd, hr, hf⟩
      rw [hl] at hlt ⊢
      push_cast
      simp only [min_def] at hlt ⊢
      split_ifs at hlt ⊢ <;> omega

end Tower

/-- C19. For every `k ≥ 0`, a freshly constructed tower after `k` calls of
`upgrade()` has level `L = min(1+k, 5)`, damage `10 + (L-1)·5`, range
`2.5 + (L-1)·0.3` and fire rate `1.0 + (L-1)·0.2`; its level is between 1 and
5, and `upgrade()` on any tower of level 5 changes nothing. -/
theorem tower_upgrade_schedule (col row : Int) (k : Nat) :
    ((Tower.new col row).upgrades k).getLevel = min (1 + (k : Int)) 5 ∧
    ((Tower.new col row).upgrades k).getDamage = 10 + (min (1 + (k : Int)) 5 - 1) * 5 ∧
    ((Tower.new col row).upgrades k).getRange =
      25 / 10 + ((min (1 + (k : Int)) 5 - 1 : Int) : ℚ) * (3 / 10) ∧
    ((Tower.new col row).upgrades k).getFireRate =
      1 + ((min (1 + (k : Int)) 5 - 1 : Int) : ℚ) * (2 / 10) ∧
    1 ≤ ((Tower.new col row).upgrades k).getLevel ∧
    ((Tower.new col row).upgrades k).getLevel ≤ 5 ∧
    (∀ t : Tower, t.getLevel = 5 → t.upgrade = t) := by
  obtain ⟨hl, hd, hr, hf⟩ := Tower.upgrades_new col row k
  unfold Tower.getLevel Tower.getDamage Tower.getRange Tower.getFireRate
  refine ⟨hl, ?_, ?_, ?_, ?_, ?_, ?_⟩
  · rw [hd, hl]
  · rw [hr, hl]
  · rw [hf, hl]
  · rw [hl]
    simp only [min_def]
    split_ifs <;> omega
  · rw [hl]
    exact min_le_right _ _
  · intro t ht
    exact Tower.upgrade_of_ge t (le_of_eq ht.symm)

/-! ## Upgrading the selected tower (C20) -/

theorem vectorAt_eq_some_iff {α : Type} (v : List α) (i : Int) (a : α) :
    vectorAt v i = some a ↔ 0 ≤ i ∧ v[i.toNat]? = some a := by
  unfold vectorAt
  split_ifs with h
  · exact ⟨fun h' => ⟨h, h'⟩, fun h' => h'.2⟩
  · exact ⟨fun h' => (by cases h'), fun h' => absurd h'.1 h⟩

theorem vectorAt_get {α : Type} (v : List α) (i : Int) (h0 : 0 ≤ i)
    (hlt : i.toNat < v.length) : vectorAt v i = some (v.get ⟨i.toNat, hlt⟩) := by
  unfold vectorAt
  rw [if_pos h0]
  exact List.getElem?_eq_getElem hlt

theorem vectorAt_lt {α : Type} (v : List α) (i : Int) (a : α) (h : vectorAt v i = some a) :
    0 ≤ i ∧ i < (v.length : Int) := by
  obtain ⟨h0, h1⟩ := (vectorAt_eq_some_iff v i a).mp h
  have := (List.getElem?_eq_some_iff.mp h1).1
  omega

namespace Tower

theorem getUpgradeCost_nonneg (t : Tower) : 0 ≤ t.getUpgradeCost := by
  unfold getUpgradeCost
  split_ifs <;> decide

theorem canUpgrade_iff (t : Tower) (gold : Int) :
    t.canUpgrade gold = true ↔ t.getLevel < 5 ∧ gold ≥ t.getUpgradeCost := by
  unfold canUpgrade getMaxLevel getLevel
  rw [Bool.and_eq_true, decide_eq_true_eq, decide_eq_true_eq]

theorem upgrade_level_of_lt (t : Tower) (h : t.getLevel < 5) :
    t.upgrade.getLevel = t.getLevel + 1 := by
  unfold getLevel at h ⊢
  rw [upgrade_of_lt t h]

end Tower

namespace Game

/-- The two outcomes of `upgradeSelectedTower`, in terms of the selected
tower. -/
theorem upgradeSelectedTower_cases (g : Game) :
    ((∃ t, vectorAt g.towers_ g.selectedTowerIndex_ = some t ∧ t.canUpgrade g.gold_ = true ∧
        g.upgradeSelectedTower =
          (true, { g with
            gold_ := g.gold_ - t.getUpgradeCost
            towers_ := modifyAt g.towers_ g.selectedTowerIndex_.toNat Tower.upgrade
            selectedTowerIndex_ := -1 })) ∨
     ((∀ t, vectorAt g.towers_ g.selectedTowerIndex_ = some t → t.canUpgrade g.gold_ = false) ∧
        g.upgradeSelectedTower = (false, g))) := by
  unfold upgradeSelectedTower
  by_cases h : g.selectedTowerIndex_ < 0 ∨ g.selectedTowerIndex_ ≥ (g.towers_.length : Int)
  · right
    rw [dif_pos h]
    refine ⟨?_, rfl⟩
    intro t ht
    have := vectorAt_lt _ _ _ ht
    omega
  · rw [dif_neg h]
    have h0 : 0 ≤ g.selectedTowerIndex_ := by omega
    have hlt : g.selectedTowerIndex_.toNat < g.towers_.length := by omega
    have hget := vectorAt_get g.towers_ g.selectedTowerIndex_ h0 hlt
    simp only []
    by_cases hc : (g.towers_.get ⟨g.selectedTowerIndex_.toNat, hlt⟩).canUpgrade g.gold_ = false
    · right
      rw [if_pos hc]
      refine ⟨?_, rfl⟩
      intro t ht
      rw [hget] at ht
      cases ht
      exact hc
    · left
      rw [if_neg hc]
      refine ⟨_, hget, ?_, rfl⟩
      simpa using hc

end Game

/-- C20. `Game::upgradeSelectedTower` returns true exactly when the selected
index is a valid index into `towers_`, the tower there has level below 5 and
gold is at least its upgrade cost, which is 30, 50, 100, 200 at levels 1..4.
When it returns true, gold has decreased by exactly that cost and is still
non-negative, the level of the selected tower has risen by one and the upgrade
menu is closed.  When it returns false, the game (gold, towers, selection and
everything else) is unchanged. -/
theorem upgradeSelectedTower_contract (g : Game) :
    (g.upgradeSelectedTower.1 = true ↔
      ∃ t, vectorAt g.towers_ g.selectedTowerIndex_ = some t ∧ t.getLevel < 5 ∧
        g.gold_ ≥ t.getUpgradeCost) ∧
    (∀ t : Tower, (t.getLevel = 1 → t.getUpgradeCost = 30) ∧
      (t.getLevel = 2 → t.getUpgradeCost = 50) ∧ (t.getLevel = 3 → t.getUpgradeCost = 100) ∧
      (t.getLevel = 4 → t.getUpgradeCost = 200)) ∧
    (g.upgradeSelectedTower.1 = true →
      ∃ t, vectorAt g.towers_ g.selectedTowerIndex_ = some t ∧
        g.upgradeSelectedTower.2.gold_ = g.gold_ - t.getUpgradeCost ∧
        0 ≤ g.upgradeSelectedTower.2.gold_ ∧
        (∃ t', vectorAt g.upgradeSelectedTower.2.towers_ g.selectedTowerIndex_ = some t' ∧
          t'.getLevel = t.getLevel + 1) ∧
        g.upgradeSelectedTower.2.isUpgradeMenuOpen = false) ∧
    (g.upgradeSelectedTower.1 = false → g.upgradeSelectedTower.2 = g) := by
  have htable : ∀ t : Tower, (t.getLevel = 1 → t.getUpgradeCost = 30) ∧
      (t.getLevel = 2 → t.getUpgradeCost = 50) ∧ (t.getLevel = 3 → t.getUpgradeCost = 100) ∧
      (t.getLevel = 4 → t.getUpgradeCost = 200) := by
    intro t
    unfold Tower.getLevel Tower.getUpgradeCost
    refine ⟨?_, ?_, ?_, ?_⟩ <;> intro h <;> rw [h] <;> rfl
  rcases Game.upgradeSelectedTower_cases g with ⟨t, ht, hc, heq⟩ | ⟨hno, heq⟩
  · obtain ⟨hlev, hgold⟩ := (Tower.canUpgrade_iff t g.gold_).mp hc
    obtain ⟨h0, hsome⟩ := (vectorAt_eq_some_iff _ _ _).mp ht
    rw [heq]
    refine ⟨⟨fun _ => ⟨t, ht, hlev, hgold⟩, fun _ => rfl⟩, htable, fun _ => ?_,
      fun h => (by cases h)⟩
    refine ⟨t, ht, rfl, ?_, ⟨t.upgrade, ?_, Tower.upgrade_level_of_lt t hlev⟩, rfl⟩
    · show 0 ≤ g.gold_ - t.getUpgradeCost
      omega
    · show vectorAt (modifyAt g.towers_ g.selectedTowerIndex_.toNat Tower.upgrade)
        g.selectedTowerIndex_ = some t.upgrade
      rw [vectorAt_eq_some_iff]
      refine ⟨h0, ?_⟩
      rw [getElem?_modifyAt_eq, hsome]
      rfl
  · rw [heq]
    refine ⟨⟨fun h => (by cases h), ?_⟩, htable, fun h => (by cases h), fun _ => rfl⟩
    rintro ⟨t, ht, hlev, hgold⟩
    have := hno t ht
    rw [(Tower.canUpgrade_iff t g.gold_).mpr ⟨hlev, hgold⟩] at this
    cases this

/-! ## Taps: tower placement (C17, C18) -/

namespace Map

theorem inBounds_of_getCell_ne_blocked (m : Map) (col row : Int)
    (h : m.getCell col row ≠ CellType.BLOCKED) :
    0 ≤ col ∧ col < 10 ∧ 0 ≤ row ∧ row < 16 := by
  unfold getCell at h
  by_cases hb : col < 0 ∨ col ≥ 10 ∨ row < 0 ∨ row ≥ 16
  · rw [dif_pos hb] at h
    exact absurd rfl h
  · omega

theorem getCell_setCell_same (m : Map) (col row : Int) (type : CellType)
    (hb : 0 ≤ col ∧ col < 10 ∧ 0 ≤ row ∧ row < 16) :
    (m.setCell col row type).getCell col row = type := by
  unfold setCell getCell
  rw [if_pos ⟨hb.1, hb.2.1, hb.2.2.1, hb.2.2.2⟩, dif_neg (by omega)]
  simp only []
  rw [if_pos]
  constructor
  · show ((col.toNat : Nat) : Int) = col
    omega
  · show ((row.toNat : Nat) : Int) = row
    omega

theorem getCell_placeTower_same (m : Map) (col row : Int)
    (hb : 0 ≤ col ∧ col < 10 ∧ 0 ≤ row ∧ row < 16) :
    (m.placeTower col row).getCell col row = CellType.TOWER :=
  getCell_setCell_same m col row _ hb

end Map

theorem towerIndexAt_none (col row : Int) :
    ∀ (ts : List Tower) (i : Int),
      (∀ t ∈ ts, ¬ (t.getGridCol = col ∧ t.getGridRow = row)) → towerIndexAt col row ts i = none
  | [], _, _ => rfl
  | t :: ts, i, h => by
    unfold towerIndexAt
    rw [if_neg (h t (List.mem_cons_self _ _))]
    exact towerIndexAt_none col row ts (i + 1) (fun t' ht' => h t' (List.mem_cons_of_mem _ ht'))

namespace Game

/-- A tap in a state that is not GAME_OVER, MENU, VICTORY or PAUSED, with the
upgrade menu closed, on a GRASS cell that holds no archer tower, while the
sandbox flag is set: a tower of the selected type is appended to its
collection, the cell becomes TOWER and nothing else changes. -/
theorem onTap_sandbox_place (g : Game) (worldX worldY : ℚ)
    (hs1 : g.state_ ≠ .GAME_OVER) (hs2 : g.state_ ≠ .MENU) (hs3 : g.state_ ≠ .VICTORY)
    (hs4 : g.state_ ≠ .PAUSED) (hmenu : g.isUpgradeMenuOpen = false)
    (hsand : g.sandboxMode_ = true)
    (hgrass : g.map_.getCell (floatToInt worldX) (floatToInt worldY) = CellType.GRASS)
    (hfree : ∀ t ∈ g.towers_,
      ¬ (t.getGridCol = floatToInt worldX ∧ t.getGridRow = floatToInt worldY)) :
    g.onTap worldX worldY =
      match g.selectedTowerType_ with
      | .SHERIFF => { g with
          sheriffTowers_ :=
            g.sheriffTowers_ ++ [SheriffTower.new (floatToInt worldX) (floatToInt worldY)]
          map_ := g.map_.placeTower (floatToInt worldX) (floatToInt worldY) }
      | .MAGE => { g with
          mageTowers_ := g.mageTowers_ ++
            [MageTower.new (floatToInt worldX) (floatToInt worldY) g.selectedMageElement_]
          map_ := g.map_.placeTower (floatToInt worldX) (floatToInt worldY) }
      | .ARCHER => { g with
          towers_ := g.towers_ ++ [Tower.new (floatToInt worldX) (floatToInt worldY)]
          map_ := g.map_.placeTower (floatToInt worldX) (floatToInt worldY) } := by
  have hb := Map.inBounds_of_getCell_ne_blocked g.map_ _ _
    (by rw [hgrass]; decide : g.map_.getCell (floatToInt worldX) (floatToInt worldY) ≠ .BLOCKED)
  have hplace : g.map_.canPlaceTower (floatToInt worldX) (floatToInt worldY) = true := by
    unfold Map.canPlaceTower
    exact decide_eq_true hgrass
  unfold onTap
  rw [if_neg (by rintro (h | h) <;> contradiction), if_neg hs3, if_neg hs4,
    if_neg (by rw [hmenu]; decide)]
  simp only []
  rw [if_neg (by unfold Map.COLS Map.ROWS; omega), towerIndexAt_none _ _ _ _ hfree]
  simp only []
  rw [if_pos hplace]
  cases htype : g.selectedTowerType_ <;> simp [hsand]

end Game

/-- C17. In sandbox mode, that is right after `enterSandbox` on any game whose
upgrade menu is closed, for every amount `amount` and every tap that falls on
a buildable (GRASS) cell of the grid on which no archer tower stands (as is
the case whenever archer towers stand on cells marked TOWER):
`sandboxSetGold(amount)` followed by `onTap` on that cell appends one tower of
the currently selected type, built on that cell, to the collection of its
type, leaves the other two collections as they were, marks the cell TOWER so
that it is no longer buildable, and leaves gold equal to `amount`. -/
theorem sandbox_tap_places_tower (g : Game) (amount : Int) (worldX worldY : ℚ)
    (hmenu : g.isUpgradeMenuOpen = false)
    (hgrass : g.map_.getCell (floatToInt worldX) (floatToInt worldY) = CellType.GRASS)
    (hfree : ∀ t ∈ g.towers_,
      ¬ (t.getGridCol = floatToInt worldX ∧ t.getGridRow = floatToInt worldY)) :
    ((g.enterSandbox.sandboxSetGold amount).onTap worldX worldY).gold_ = amount ∧
    ((g.enterSandbox.sandboxSetGold amount).onTap worldX worldY).map_.getCell
      (floatToInt worldX) (floatToInt worldY) = CellType.TOWER ∧
    ((g.enterSandbox.sandboxSetGold amount).onTap worldX worldY).map_.canPlaceTower
      (floatToInt worldX) (floatToInt worldY) = false ∧
    (g.selectedTowerType_ = .ARCHER →
      ((g.enterSandbox.sandboxSetGold amount).onTap worldX worldY).towers_ =
        g.towers_ ++ [Tower.new (floatToInt worldX) (floatToInt worldY)] ∧
      ((g.enterSandbox.sandboxSetGold amount).onTap worldX worldY).sheriffTowers_ =
        g.sheriffTowers_ ∧
      ((g.enterSandbox.sandboxSetGold amount).onTap worldX worldY).mageTowers_ =
        g.mageTowers_) ∧
    (g.selectedTowerType_ = .SHERIFF →
      ((g.enterSandbox.sandboxSetGold amount).onTap worldX worldY).towers_ = g.towers_ ∧
      ((g.enterSandbox.sandboxSetGold amount).onTap worldX worldY).sheriffTowers_ =
        g.sheriffTowers_ ++ [SheriffTower.new (floatToInt worldX) (floatToInt worldY)] ∧
      ((g.enterSandbox.sandboxSetGold amount).onTap worldX worldY).mageTowers_ =
        g.mageTowers_) ∧
    (g.selectedTowerType_ = .MAGE →
      ((g.enterSandbox.sandboxSetGold amount).onTap worldX worldY).towers_ = g.towers_ ∧
      ((g.enterSandbox.sandboxSetGold amount).onTap worldX worldY).sheriffTowers_ =
        g.sheriffTowers_ ∧
      ((g.enterSandbox.sandboxSetGold amount).onTap worldX worldY).mageTowers_ =
        g.mageTowers_ ++
          [MageTower.new (floatToInt worldX) (floatToInt worldY) g.selectedMageElement_]) := by
  have hb := Map.inBounds_of_getCell_ne_blocked g.map_ _ _
    (by rw [hgrass]; decide : g.map_.getCell (floatToInt worldX) (floatToInt worldY) ≠ .BLOCKED)
  have hcell := Map.getCell_placeTower_same g.map_ _ _ hb
  have hno : (g.map_.placeTower (floatToInt worldX) (floatToInt worldY)).canPlaceTower
      (floatToInt worldX) (floatToInt worldY) = false := by
    unfold Map.canPlaceTower
    rw [hcell]
    decide
  have htap := Game.onTap_sandbox_place (g.enterSandbox.sandboxSetGold amount) worldX worldY
    (by simp [Game.enterSandbox, Game.sandboxSetGold])
    (by simp [Game.enterSandbox, Game.sandboxSetGold])
    (by simp [Game.enterSandbox, Game.sandboxSetGold])
    (by simp [Game.enterSandbox, Game.sandboxSetGold]) hmenu rfl hgrass hfree
  rw [htap]
  have hty : (g.enterSandbox.sandboxSetGold amount).selectedTowerType_ = g.selectedTowerType_ :=
    rfl
  rw [hty]
  cases htype : g.selectedTowerType_
  · exact ⟨rfl, hcell, hno, fun _ => ⟨rfl, rfl, rfl⟩, fun h => (by cases h), fun h => (by cases h)⟩
  · exact ⟨rfl, hcell, hno, fun h => (by cases h), fun _ => ⟨rfl, rfl, rfl⟩, fun h => (by cases h)⟩
  · exact ⟨rfl, hcell, hno, fun h => (by cases h), fun h => (by cases h), fun _ => ⟨rfl, rfl, rfl⟩⟩

theorem floatToInt_five_halves : floatToInt (5 / 2) = 2 := by
  norm_num [floatToInt]
  decide

/-- Witness for C17: on a new game, sandbox gold set to 7 and a tap at
(2.5, 2.5), which lies on the grass cell (2, 2): gold stays 7, the cell
becomes TOWER and the archer tower (the default selection) is placed. -/
theorem sandbox_tap_places_tower_witness :
    ((((Game.new 0).enterSandbox).sandboxSetGold 7).onTap (5 / 2) (5 / 2)).gold_ = 7 ∧
    ((((Game.new 0).enterSandbox).sandboxSetGold 7).onTap (5 / 2) (5 / 2)).map_.getCell
      (floatToInt (5 / 2)) (floatToInt (5 / 2)) = CellType.TOWER ∧
    ((((Game.new 0).enterSandbox).sandboxSetGold 7).onTap (5 / 2) (5 / 2)).towers_ =
      (Game.new 0).towers_ ++ [Tower.new (floatToInt (5 / 2)) (floatToInt (5 / 2))] :=
  have h := sandbox_tap_places_tower (Game.new 0) 7 (5 / 2) (5 / 2) rfl
    (by rw [floatToInt_five_halves]; decide) (fun t ht => by cases ht)
  ⟨h.1, h.2.1, (h.2.2.2.1 rfl).1⟩

namespace Game

end Game

namespace Game

theorem claimVictoryReward_frame (g : Game) :
    g.claimVictoryReward.waveActive_ = g.waveActive_ ∧
    g.claimVictoryReward.waveManager_ = g.waveManager_ ∧
    g.claimVictoryReward.state_ = g.state_ ∧
    g.claimVictoryReward.enemiesSpawned_ = g.enemiesSpawned_ ∧
    g.claimVictoryReward.totalEnemiesInWave_ = g.totalEnemiesInWave_ ∧
    g.claimVictoryReward.enemies_ = g.enemies_ := by
  unfold claimVictoryReward
  simp only []
  split_ifs <;> exact ⟨rfl, rfl, rfl, rfl, rfl, rfl⟩

theorem checkEndlessWaveReward_frame (g : Game) :
    g.checkEndlessWaveReward.waveActive_ = g.waveActive_ ∧
    g.checkEndlessWaveReward.waveManager_ = g.waveManager_ ∧
    g.checkEndlessWaveReward.state_ = g.state_ ∧
    g.checkEndlessWaveReward.enemiesSpawned_ = g.enemiesSpawned_ ∧
    g.checkEndlessWaveReward.totalEnemiesInWave_ = g.totalEnemiesInWave_ ∧
    g.checkEndlessWaveReward.enemies_ = g.enemies_ := by
  unfold checkEndlessWaveReward
  simp only []
  split_ifs <;> exact ⟨rfl, rfl, rfl, rfl, rfl, rfl⟩

/-- The end of `update` either leaves the wave manager and the wave flag as
they are, or it takes the wave-complete branch, and then the wave was active,
all its enemies had been spawned and the enemy collection was empty. -/
theorem checkEndOfWave_cases (h : Game) :
    (h.checkEndOfWave.waveManager_ = h.waveManager_ ∧
      h.checkEndOfWave.waveActive_ = h.waveActive_) ∨
    (h.waveActive_ = true ∧ h.enemiesSpawned_ ≥ h.totalEnemiesInWave_ ∧ h.enemies_ = [] ∧
      h.checkEndOfWave.waveActive_ = false ∧
      h.checkEndOfWave.waveManager_ = h.waveManager_.advanceWave ∧
      (h.checkEndOfWave.state_ = .WAVE_COMPLETE ∨ h.checkEndOfWave.state_ = .VICTORY) ∧
      h.checkEndOfWave.enemiesSpawned_ = h.enemiesSpawned_ ∧
      h.checkEndOfWave.totalEnemiesInWave_ = h.totalEnemiesInWave_ ∧
      h.checkEndOfWave.enemies_ = h.enemies_) := by
  unfold checkEndOfWave
  by_cases hb : h.baseHP_ ≤ 0
  · rw [if_pos hb]
    exact Or.inl ⟨rfl, rfl⟩
  rw [if_neg hb]
  by_cases hc : h.waveActive_ = true ∧ h.enemiesSpawned_ ≥ h.totalEnemiesInWave_ ∧
      h.enemies_.isEmpty = true
  · rw [if_pos hc]
    right
    obtain ⟨ha, hs, he⟩ := hc
    refine ⟨ha, hs, List.isEmpty_iff.mp he, ?_⟩
    simp only []
    split_ifs with h1 h2
    · obtain ⟨f1, f2, f3, f4, f5, f6⟩ := claimVictoryReward_frame
        { h with waveActive_ := false, waveManager_ := h.waveManager_.advanceWave,
                 state_ := .VICTORY }
      exact ⟨f1, f2, Or.inr f3, f4, f5, f6⟩
    · obtain ⟨f1, f2, _, f4, f5, f6⟩ := checkEndlessWaveReward_frame
        { h with waveActive_ := false, waveManager_ := h.waveManager_.advanceWave }
      exact ⟨f1, f2, Or.inl rfl, f4, f5, f6⟩
    · exact ⟨rfl, rfl, Or.inl rfl, rfl, rfl, rfl⟩
  · rw [if_neg hc]
    exact Or.inl ⟨rfl, rfl⟩

theorem buildSpawnQueue_frame (g g1 : Game) (h : g.buildSpawnQueue = some g1) :
    g1.waveManager_ = g.waveManager_ ∧ g1.waveActive_ = g.waveActive_ := by
  unfold buildSpawnQueue at h
  split_ifs at h
  · cases h
    exact ⟨rfl, rfl⟩
  · cases hw : g.waveManager_.getCurrentWave with
    | none => rw [hw] at h; cases h
    | some wave =>
      rw [hw] at h
      cases h
      exact ⟨rfl, rfl⟩

theorem startNextWave_frame (g g1 : Game) (h : g.startNextWave = some g1) :
    g1.waveManager_ = g.waveManager_ ∧ (g.waveActive_ = true → g1.waveActive_ = true) := by
  unfold startNextWave at h
  split_ifs at h
  · cases h
    exact ⟨rfl, fun h => h⟩
  · simp only [] at h
    cases hb : ({ g with state_ := .PLAYING, waveActive_ := true, enemiesSpawned_ := 0,
                         spawnTimer_ := 0 } : Game).buildSpawnQueue with
    | none => rw [hb] at h; cases h
    | some g2 =>
      rw [hb] at h
      cases h
      obtain ⟨f1, f2⟩ := buildSpawnQueue_frame _ _ hb
      exact ⟨f1, fun _ => f2⟩

theorem updateWaveSpawning_frame (g g1 : Game) (dt : ℚ) (h : g.updateWaveSpawning dt = some g1) :
    g1.waveManager_ = g.waveManager_ ∧ (g.waveActive_ = true → g1.waveActive_ = true) := by
  unfold updateWaveSpawning at h
  by_cases hst : g.state_ = .WAVE_COMPLETE
  · rw [if_pos hst] at h
    simp only [] at h
    split_ifs at h with ht
    · have hf := startNextWave_frame _ _ h
      exact hf
    · cases h
      exact ⟨rfl, fun h => h⟩
  rw [if_neg hst] at h
  by_cases ha : g.waveActive_ = false
  · rw [if_pos ha] at h
    cases h
    exact ⟨rfl, fun h => h⟩
  rw [if_neg ha] at h
  by_cases hsp : g.enemiesSpawned_ < g.totalEnemiesInWave_
  · rw [if_pos hsp] at h
    simp only [] at h
    split_ifs at h with ht
    · cases hq : vectorAt g.spawnQueue_ g.enemiesSpawned_ with
      | none =>
        rw [hq] at h
        cases h
      | some type =>
        rw [hq] at h
        simp only [] at h
        cases hw : (({ g with spawnTimer_ := g.spawnTimer_ - dt } : Game).spawnEnemy
            type).waveManager_.getCurrentWave with
        | none =>
          rw [hw] at h
          cases h
        | some wave =>
          rw [hw] at h
          cases h
          exact ⟨rfl, fun h => h⟩
    · cases h
      exact ⟨rfl, fun h => h⟩
  · rw [if_neg hsp] at h
    cases h
    exact ⟨rfl, fun h => h⟩

theorem simulate_frame (sqrt : ℚ → ℚ) (g : Game) (dt : ℚ) :
    (g.simulate sqrt dt).waveManager_ = g.waveManager_ ∧
    (g.simulate sqrt dt).waveActive_ = g.waveActive_ := ⟨rfl, rfl⟩

theorem cleanupDead_frame (g : Game) :
    g.cleanupDead.waveManager_ = g.waveManager_ ∧ g.cleanupDead.waveActive_ = g.waveActive_ ∧
    g.cleanupDead.enemies_ = g.enemies_.filter (fun e => !e.isDead) := ⟨rfl, rfl, rfl⟩

end Game

namespace Game

theorem getCurrentWave_isSome (w : WaveManager) (h0 : 0 ≤ w.currentWave_)
    (h1 : w.currentWave_ < (w.waves_.length : Int)) : ∃ wave, w.getCurrentWave = some wave := by
  unfold WaveManager.getCurrentWave
  rw [if_pos h0]
  have hlt : w.currentWave_.toNat < w.waves_.length := by omega
  exact ⟨_, List.getElem?_eq_getElem hlt⟩

/-- `update` has a defined result whenever the unchecked vector reads are
inside their vectors: the wave index is a valid index into the wave table, and
the number of spawned enemies is non-negative with the wave total not larger
than the spawn queue. -/
theorem update_defined (sqrt : ℚ → ℚ) (g : Game) (dt : ℚ)
    (h0 : 0 ≤ g.waveManager_.currentWave_)
    (h1 : g.waveManager_.currentWave_ < (g.waveManager_.waves_.length : Int))
    (h2 : 0 ≤ g.enemiesSpawned_)
    (h3 : g.totalEnemiesInWave_ ≤ (g.spawnQueue_.length : Int)) :
    ∃ g', g.update sqrt dt = some g' := by
  obtain ⟨wave, hwave⟩ := getCurrentWave_isSome g.waveManager_ h0 h1
  have hsp : ∃ g1, g.updateWaveSpawning dt = some g1 := by
    unfold updateWaveSpawning
    by_cases hst : g.state_ = .WAVE_COMPLETE
    · rw [if_pos hst]
      simp only []
      split_ifs with ht
      · unfold startNextWave
        simp only []
        split_ifs with hd
        · exact ⟨_, rfl⟩
        · unfold buildSpawnQueue
          simp only []
          split_ifs with he
          · exact ⟨_, rfl⟩
          · rw [hwave]
            exact ⟨_, rfl⟩
      · exact ⟨_, rfl⟩
    rw [if_neg hst]
    split_ifs with ha hs
    · exact ⟨_, rfl⟩
    · simp only []
      split_ifs with ht
      · have hlt : g.enemiesSpawned_.toNat < g.spawnQueue_.length := by omega
        have hq : vectorAt g.spawnQueue_ g.enemiesSpawned_ =
            some (g.spawnQueue_.get ⟨g.enemiesSpawned_.toNat, hlt⟩) := by
          unfold vectorAt
          rw [if_pos h2]
          exact List.getElem?_eq_getElem hlt
        rw [hq]
        simp only []
        have hw : (({ g with spawnTimer_ := g.spawnTimer_ - dt } : Game).spawnEnemy
            (g.spawnQueue_.get ⟨g.enemiesSpawned_.toNat, hlt⟩)).waveManager_.getCurrentWave =
            some wave := hwave
        rw [hw]
        exact ⟨_, rfl⟩
      · exact ⟨_, rfl⟩
    · exact ⟨_, rfl⟩
  obtain ⟨g1, hg1⟩ := hsp
  unfold update
  split_ifs
  · exact ⟨_, rfl⟩
  · rw [hg1]
    exact ⟨_, rfl⟩

end Game

/-- C16. If a call of `Game::update` marks the wave complete, that is, the
wave index differs afterwards or the wave flag went from true to false, then
afterwards the wave flag is false, the wave index is one more than before, the
state is WAVE_COMPLETE or VICTORY, the spawn queue is exhausted
(`enemiesSpawned ≥ totalEnemiesInWave`) and the enemy collection is empty; and
every enemy that was in the collection when `cleanupDead` ran in this update
had `isDead()` true, so none was alive or still in its death animation. -/
theorem wave_complete_only_when_cleared (sqrt : ℚ → ℚ) (g g' : Game) (dt : ℚ)
    (hupd : g.update sqrt dt = some g')
    (hmark : g'.waveManager_.getCurrentWaveIndex ≠ g.waveManager_.getCurrentWaveIndex ∨
      (g.waveActive_ = true ∧ g'.waveActive_ = false)) :
    g'.waveActive_ = false ∧
    g'.waveManager_.getCurrentWaveIndex = g.waveManager_.getCurrentWaveIndex + 1 ∧
    (g'.state_ = .WAVE_COMPLETE ∨ g'.state_ = .VICTORY) ∧
    g'.enemiesSpawned_ ≥ g'.totalEnemiesInWave_ ∧ g'.enemies_ = [] ∧
    ∃ g1, g.updateWaveSpawning dt = some g1 ∧ g' = (g1.simulate sqrt dt).cleanupDead.checkEndOfWave ∧
      ∀ e ∈ (g1.simulate sqrt dt).enemies_, e.isDead = true := by
  unfold Game.update at hupd
  split_ifs at hupd with hstate
  · cases hupd
    rcases hmark with h | ⟨h1, h2⟩
    · exact absurd rfl h
    · rw [h1] at h2
      cases h2
  · cases hsp : g.updateWaveSpawning dt with
    | none => rw [hsp] at hupd; cases hupd
    | some g1 =>
      rw [hsp] at hupd
      simp only [Option.some.injEq] at hupd
      obtain ⟨hw1, ha1⟩ := Game.updateWaveSpawning_frame g g1 dt hsp
      obtain ⟨hw2, ha2⟩ := Game.simulate_frame sqrt g1 dt
      obtain ⟨hw3, ha3, he3⟩ := Game.cleanupDead_frame (g1.simulate sqrt dt)
      rcases Game.checkEndOfWave_cases (g1.simulate sqrt dt).cleanupDead with
        ⟨hsame, hact⟩ | ⟨hact, hspawn, hempty, c1, c2, c3, c4, c5, c6⟩
      · exfalso
        rw [hupd] at hsame hact
        rcases hmark with h | ⟨h1, h2⟩
        · apply h
          rw [hsame, hw3, hw2, hw1]
        · rw [hact, ha3, ha2, ha1 h1] at h2
          cases h2
      · rw [hupd] at c1 c2 c3 c4 c5 c6
        refine ⟨c1, ?_, c3, ?_, ?_, g1, rfl, hupd.symm, ?_⟩
        · rw [c2, hw3, hw2, hw1]
          rfl
        · rw [c4, c5]
          exact hspawn
        · rw [c6]
          exact hempty
        · intro e he
          rw [he3] at hempty
          have := (List.filter_eq_nil_iff.mp hempty) e he
          simpa using this

theorem rewardedSlime_last_update :
    Game.enemyPass sqrtQ (3 / 5) rewardedSlime =
      { enemy :=
          { rewardedSlime with deathAnimTimer_ := f32 (3 / 5), deathFrame_ := 6, isDead_ := true }
        escaped := false, granted := false } := by
  norm_num [Game.enemyPass, rewardedSlime, Enemy.update, Enemy.takeDamage, Enemy.startDeath,
    Enemy.markRewardGranted, Enemy.new, Enemy.baseHP, Enemy.DEATH_FRAME_TIME,
    Enemy.deathAnimDuration_, Enemy.reachedEnd, Enemy.isAlive, Enemy.isDying,
    Enemy.isRewardGranted, floatToInt, f32_three_fifths, f32_one_tenth, f32_one_tenth_div,
    f32_frame_six]

theorem lastEnemyGame_spawning :
    lastEnemyGame.updateWaveSpawning (3 / 5) = some lastEnemyGame := rfl

theorem lastEnemyGame_simulate :
    (lastEnemyGame.simulate sqrtQ (3 / 5)).enemies_ =
      [{ rewardedSlime with deathAnimTimer_ := f32 (3 / 5), deathFrame_ := 6,
                            isDead_ := true }] := by
  simp only [Game.simulate, Game.updateProjectiles, Game.updateAllies, Game.updateMageTowers,
    Game.updateSheriffTowers, Game.updateTowers, Game.updateEnemies, lastEnemyGame, Game.new,
    Game.updateEnemiesLoop, rewardedSlime_last_update, Game.updateMageTowersLoop,
    Game.updateAlliesLoop, Game.updateProjectilesLoop]

theorem lastEnemyGame_update :
    lastEnemyGame.update sqrtQ (3 / 5) = some lastEnemyGameAfter := by
  have hs : lastEnemyGame.simulate sqrtQ (3 / 5) =
      { lastEnemyGame with enemies_ :=
          [{ rewardedSlime with deathAnimTimer_ := f32 (3 / 5), deathFrame_ := 6,
                                isDead_ := true }] } := by
    simp only [Game.simulate, Game.updateProjectiles, Game.updateAllies, Game.updateMageTowers,
      Game.updateSheriffTowers, Game.updateTowers, Game.updateEnemies, lastEnemyGame, Game.new,
      Game.updateEnemiesLoop, rewardedSlime_last_update, Game.updateMageTowersLoop,
      Game.updateAlliesLoop, Game.updateProjectilesLoop, Game.updateTowersLoop,
      Game.updateSheriffTowersLoop, Game.contactLoop]
    rfl
  unfold Game.update
  rw [if_neg (by decide), lastEnemyGame_spawning]
  simp only [hs]
  rfl

/-- Witness for C16: the update in which the last slime of the first wave
ends its death animation marks the wave complete. -/
theorem wave_complete_only_when_cleared_witness :
    lastEnemyGameAfter.waveActive_ = false ∧
    lastEnemyGameAfter.waveManager_.getCurrentWaveIndex =
      lastEnemyGame.waveManager_.getCurrentWaveIndex + 1 ∧
    (lastEnemyGameAfter.state_ = .WAVE_COMPLETE ∨ lastEnemyGameAfter.state_ = .VICTORY) ∧
    lastEnemyGameAfter.enemiesSpawned_ ≥ lastEnemyGameAfter.totalEnemiesInWave_ ∧
    lastEnemyGameAfter.enemies_ = [] ∧
    ∃ g1, lastEnemyGame.updateWaveSpawning (3 / 5) = some g1 ∧
      lastEnemyGameAfter = (g1.simulate sqrtQ (3 / 5)).cleanupDead.checkEndOfWave ∧
      ∀ e ∈ (g1.simulate sqrtQ (3 / 5)).enemies_, e.isDead = true :=
  wave_complete_only_when_cleared sqrtQ lastEnemyGame lastEnemyGameAfter (3 / 5)
    lastEnemyGame_update (Or.inl (by decide))

/-- An evaluation of `upgradeSelectedTower`: with 50 gold and the only tower
(level 1) selected, the call returns true, gold drops to 20, the tower is at
level 2 with damage 15 and the menu is closed; a second call, with no tower
selected any more, returns false and changes nothing. -/
theorem upgradeSelectedTower_example :
    (({ Game.new 0 with towers_ := [Tower.new 2 2], selectedTowerIndex_ := 0 } :
        Game).upgradeSelectedTower).1 = true ∧
    (({ Game.new 0 with towers_ := [Tower.new 2 2], selectedTowerIndex_ := 0 } :
        Game).upgradeSelectedTower).2.gold_ = 20 ∧
    ((({ Game.new 0 with towers_ := [Tower.new 2 2], selectedTowerIndex_ := 0 } :
        Game).upgradeSelectedTower).2.towers_.map fun t => (t.getLevel, t.getDamage)) =
      [(2, 15)] ∧
    (({ Game.new 0 with towers_ := [Tower.new 2 2], selectedTowerIndex_ := 0 } :
        Game).upgradeSelectedTower).2.selectedTowerIndex_ = -1 ∧
    ((({ Game.new 0 with towers_ := [Tower.new 2 2], selectedTowerIndex_ := 0 } :
        Game).upgradeSelectedTower).2.upgradeSelectedTower).1 = false := by
  refine ⟨by decide, by decide, by decide, by decide, by decide⟩

/-! ## Endless-mode reward (C24) -/

namespace Game

theorem checkEndlessWaveReward_of_not_endless (g : Game) (h : g.difficulty_ ≠ .ENDLESS) :
    g.checkEndlessWaveReward = g := by
  unfold checkEndlessWaveReward
  rw [if_pos h]

/-- One call in endless mode: the counter goes up by one and, on reaching 10,
100 menu coins are added and the counter returns to 0; nothing else changes. -/
theorem checkEndlessWaveReward_of_endless (g : Game) (h : g.difficulty_ = .ENDLESS) :
    g.checkEndlessWaveReward =
      if g.endlessRewardCounter_ + 1 ≥ 10 then
        { g with menuCoins_ := g.menuCoins_ + 100, endlessRewardCounter_ := 0 }
      else { g with endlessRewardCounter_ := g.endlessRewardCounter_ + 1 } := by
  unfold checkEndlessWaveReward
  rw [if_neg (by rw [h]; decide)]

theorem checkEndlessWaveRewards_state (g : Game) (hd : g.difficulty_ = .ENDLESS)
    (h0 : g.endlessRewardCounter_ = 0) (k : Nat) :
    (g.checkEndlessWaveRewards k).difficulty_ = .ENDLESS ∧
    (g.checkEndlessWaveRewards k).menuCoins_ = g.menuCoins_ + 100 * ((k : Int) / 10) ∧
    (g.checkEndlessWaveRewards k).endlessRewardCounter_ = (k : Int) % 10 := by
  induction k with
  | zero =>
    refine ⟨hd, ?_, ?_⟩
    · show g.menuCoins_ = g.menuCoins_ + 100 * (((0 : Nat) : Int) / 10)
      simp
    · show g.endlessRewardCounter_ = ((0 : Nat) : Int) % 10
      rw [h0]
      rfl
  | succ n ih =>
    obtain ⟨id, ic, ir⟩ := ih
    have hstep : g.checkEndlessWaveRewards (n + 1) =
        (g.checkEndlessWaveRewards n).checkEndlessWaveReward := rfl
    rw [hstep, checkEndlessWaveReward_of_endless _ id]
    push_cast
    split_ifs with hten
    · refine ⟨id, ?_, ?_⟩
      · show (g.checkEndlessWaveRewards n).menuCoins_ + 100 = _
        rw [ic]
        omega
      · show (0 : Int) = _
        omega
    · refine ⟨id, ?_, ?_⟩
      · show (g.checkEndlessWaveRewards n).menuCoins_ = _
        rw [ic]
        omega
      · show (g.checkEndlessWaveRewards n).endlessRewardCounter_ + 1 = _
        omega

end Game

/-- C24. In endless mode, starting from a reward counter of 0, after `k` calls
of `checkEndlessWaveReward` (one per completed wave) the menu coins have grown
by exactly `100 · ⌊k/10⌋` and the counter equals `k mod 10`; with any other
difficulty `checkEndlessWaveReward` changes nothing. -/
theorem endless_reward_every_ten_waves (g : Game) (hd : g.difficulty_ = .ENDLESS)
    (h0 : g.endlessRewardCounter_ = 0) (k : Nat) :
    (g.checkEndlessWaveRewards k).menuCoins_ = g.menuCoins_ + 100 * ((k : Int) / 10) ∧
    (g.checkEndlessWaveRewards k).endlessRewardCounter_ = (k : Int) % 10 ∧
    (∀ h : Game, h.difficulty_ ≠ .ENDLESS → h.checkEndlessWaveReward = h) := by
  obtain ⟨_, hc, hr⟩ := Game.checkEndlessWaveRewards_state g hd h0 k
  exact ⟨hc, hr, Game.checkEndlessWaveReward_of_not_endless⟩

/-- Witness for C24: an endless game with 7 menu coins after 25 completed
waves has 207 menu coins and a counter of 5. -/
theorem endless_reward_every_ten_waves_witness :
    (({ Game.new 7 with difficulty_ := .ENDLESS } : Game).checkEndlessWaveRewards 25).menuCoins_ =
      ({ Game.new 7 with difficulty_ := .ENDLESS } : Game).menuCoins_ +
        100 * (((25 : Nat) : Int) / 10) ∧
    (({ Game.new 7 with difficulty_ := .ENDLESS } :
      Game).checkEndlessWaveRewards 25).endlessRewardCounter_ = ((25 : Nat) : Int) % 10 ∧
    (∀ h : Game, h.difficulty_ ≠ .ENDLESS → h.checkEndlessWaveReward = h) :=
  endless_reward_every_ten_waves ({ Game.new 7 with difficulty_ := .ENDLESS } : Game) rfl rfl 25

/-! ## Game over, victory and the state gate of `update` (C21, C22, C23) -/

namespace Game

theorem buildSpawnQueue_keeps (g g1 : Game) (h : g.buildSpawnQueue = some g1) :
    g1.menuCoins_ = g.menuCoins_ ∧ g1.endlessRewardCounter_ = g.endlessRewardCounter_ ∧
    g1.difficulty_ = g.difficulty_ ∧ g1.baseHP_ = g.baseHP_ ∧ g1.state_ = g.state_ := by
  unfold buildSpawnQueue at h
  split_ifs at h
  · cases h
    exact ⟨rfl, rfl, rfl, rfl, rfl⟩
  · cases hw : g.waveManager_.getCurrentWave with
    | none => rw [hw] at h; cases h
    | some wave =>
      rw [hw] at h
      cases h
      exact ⟨rfl, rfl, rfl, rfl, rfl⟩

theorem startNextWave_keeps (g g1 : Game) (h : g.startNextWave = some g1) :
    g1.menuCoins_ = g.menuCoins_ ∧ g1.endlessRewardCounter_ = g.endlessRewardCounter_ ∧
    g1.difficulty_ = g.difficulty_ ∧ g1.baseHP_ = g.baseHP_ ∧
    (g1.state_ = g.state_ ∨ g1.state_ = .PLAYING) := by
  unfold startNextWave at h
  split_ifs at h
  · cases h
    exact ⟨rfl, rfl, rfl, rfl, Or.inl rfl⟩
  · simp only [] at h
    cases hb : ({ g with state_ := .PLAYING, waveActive_ := true, enemiesSpawned_ := 0,
                         spawnTimer_ := 0 } : Game).buildSpawnQueue with
    | none => rw [hb] at h; cases h
    | some g2 =>
      rw [hb] at h
      cases h
      obtain ⟨f1, f2, f3, f4, f5⟩ := buildSpawnQueue_keeps _ _ hb
      exact ⟨f1, f2, f3, f4, Or.inr f5⟩

/-- What `updateWaveSpawning` leaves alone: the menu coins, the reward
counter, the difficulty and the base hit points; the state stays or becomes
PLAYING. -/
theorem updateWaveSpawning_keeps (g g1 : Game) (dt : ℚ)
    (h : g.updateWaveSpawning dt = some g1) :
    g1.menuCoins_ = g.menuCoins_ ∧ g1.endlessRewardCounter_ = g.endlessRewardCounter_ ∧
    g1.difficulty_ = g.difficulty_ ∧ g1.baseHP_ = g.baseHP_ ∧
    (g1.state_ = g.state_ ∨ g1.state_ = .PLAYING) := by
  unfold updateWaveSpawning at h
  by_cases hst : g.state_ = .WAVE_COMPLETE
  · rw [if_pos hst] at h
    simp only [] at h
    split_ifs at h with ht
    · have hf := startNextWave_keeps _ _ h
      exact hf
    · cases h
      exact ⟨rfl, rfl, rfl, rfl, Or.inl rfl⟩
  rw [if_neg hst] at h
  by_cases ha : g.waveActive_ = false
  · rw [if_pos ha] at h
    cases h
    exact ⟨rfl, rfl, rfl, rfl, Or.inl rfl⟩
  rw [if_neg ha] at h
  by_cases hsp : g.enemiesSpawned_ < g.totalEnemiesInWave_
  · rw [if_pos hsp] at h
    simp only [] at h
    split_ifs at h with ht
    · cases hq : vectorAt g.spawnQueue_ g.enemiesSpawned_ with
      | none =>
        rw [hq] at h
        cases h
      | some type =>
        rw [hq] at h
        simp only [] at h
        cases hw : (({ g with spawnTimer_ := g.spawnTimer_ - dt } : Game).spawnEnemy
            type).waveManager_.getCurrentWave with
        | none =>
          rw [hw] at h
          cases h
        | some wave =>
          rw [hw] at h
          cases h
          exact ⟨rfl, rfl, rfl, rfl, Or.inl rfl⟩
    · cases h
      exact ⟨rfl, rfl, rfl, rfl, Or.inl rfl⟩
  · rw [if_neg hsp] at h
    cases h
    exact ⟨rfl, rfl, rfl, rfl, Or.inl rfl⟩

/-- The simulation calls and the cleanup leave the wave manager, the wave
flag, the menu coins, the reward counter, the difficulty and the state alone;
the cleanup does not touch the base hit points. -/
theorem simulate_cleanup_keeps (sqrt : ℚ → ℚ) (g : Game) (dt : ℚ) :
    (g.simulate sqrt dt).cleanupDead.waveManager_ = g.waveManager_ ∧
    (g.simulate sqrt dt).cleanupDead.waveActive_ = g.waveActive_ ∧
    (g.simulate sqrt dt).cleanupDead.menuCoins_ = g.menuCoins_ ∧
    (g.simulate sqrt dt).cleanupDead.endlessRewardCounter_ = g.endlessRewardCounter_ ∧
    (g.simulate sqrt dt).cleanupDead.difficulty_ = g.difficulty_ ∧
    (g.simulate sqrt dt).cleanupDead.state_ = g.state_ ∧
    (g.simulate sqrt dt).cleanupDead.baseHP_ = (g.simulate sqrt dt).baseHP_ :=
  ⟨rfl, rfl, rfl, rfl, rfl, rfl, rfl⟩

theorem checkEndOfWave_of_baseHP_le (h : Game) (hb : h.baseHP_ ≤ 0) :
    h.checkEndOfWave = { h with baseHP_ := 0, state_ := .GAME_OVER } := by
  unfold checkEndOfWave
  rw [if_pos hb]

theorem claimVictoryReward_coins (g : Game) :
    g.claimVictoryReward.menuCoins_ = g.menuCoins_ + victoryReward g.difficulty_ ∧
    g.claimVictoryReward.baseHP_ = g.baseHP_ := by
  unfold claimVictoryReward victoryReward
  cases g.difficulty_ <;> simp

theorem checkEndlessWaveReward_keeps (g : Game) :
    g.checkEndlessWaveReward.baseHP_ = g.baseHP_ ∧
    g.checkEndlessWaveReward.waveManager_ = g.waveManager_ ∧
    g.checkEndlessWaveReward.difficulty_ = g.difficulty_ := by
  unfold checkEndlessWaveReward
  simp only []
  split_ifs <;> exact ⟨rfl, rfl, rfl⟩

theorem checkEndOfWave_baseHP_nonneg (h : Game) : 0 ≤ h.checkEndOfWave.baseHP_ := by
  unfold checkEndOfWave
  by_cases hb : h.baseHP_ ≤ 0
  · rw [if_pos hb]
  rw [if_neg hb]
  have hpos : 0 ≤ h.baseHP_ := by omega
  split_ifs with hc
  · simp only []
    split_ifs with h1 h2
    · rw [(claimVictoryReward_coins _).2]
      exact hpos
    · show 0 ≤ (checkEndlessWaveReward _).baseHP_
      rw [(checkEndlessWaveReward_keeps _).1]
      exact hpos
    · exact hpos
  · exact hpos

/-- The end of `update` on a state that is not VICTORY: the result is VICTORY
exactly when the wave index went up, the difficulty is not ENDLESS and the new
index has reached the end of the wave table; the reward is then added to the
menu coins. -/
theorem checkEndOfWave_victory (h : Game) (hnv : h.state_ ≠ .VICTORY) :
    (h.checkEndOfWave.state_ = .VICTORY ↔
      h.checkEndOfWave.waveManager_.getCurrentWaveIndex =
        h.waveManager_.getCurrentWaveIndex + 1 ∧
      h.difficulty_ ≠ .ENDLESS ∧ h.checkEndOfWave.waveManager_.allWavesDone = true) ∧
    (h.checkEndOfWave.state_ = .VICTORY →
      h.checkEndOfWave.menuCoins_ = h.menuCoins_ + victoryReward h.difficulty_) := by
  have hne : ∀ w : WaveManager, w.getCurrentWaveIndex ≠ w.getCurrentWaveIndex + 1 := by
    intro w
    omega
  unfold checkEndOfWave
  by_cases hb : h.baseHP_ ≤ 0
  · rw [if_pos hb]
    refine ⟨⟨fun hs => (by cases hs), fun hr => absurd hr.1 (hne _)⟩, fun hs => (by cases hs)⟩
  rw [if_neg hb]
  by_cases hc : h.waveActive_ = true ∧ h.enemiesSpawned_ ≥ h.totalEnemiesInWave_ ∧
      h.enemies_.isEmpty = true
  · rw [if_pos hc]
    simp only []
    by_cases hv : h.difficulty_ ≠ .ENDLESS ∧ h.waveManager_.advanceWave.allWavesDone = true
    · rw [if_pos hv]
      obtain ⟨_, f2, f3, _, _, _⟩ := claimVictoryReward_frame
        { h with waveActive_ := false, waveManager_ := h.waveManager_.advanceWave,
                 state_ := .VICTORY }
      rw [f2, f3, (claimVictoryReward_coins _).1]
      exact ⟨⟨fun _ => ⟨rfl, hv.1, hv.2⟩, fun _ => rfl⟩, fun _ => rfl⟩
    · rw [if_neg hv]
      refine ⟨⟨fun hs => (by cases hs), fun hr => ?_⟩, fun hs => (by cases hs)⟩
      exfalso
      apply hv
      have he := hr.2.1
      have h2 := hr.2.2
      simp only [if_neg he] at h2
      exact ⟨he, h2⟩
  · rw [if_neg hc]
    exact ⟨⟨fun hs => absurd hs hnv, fun hr => absurd hr.1 (hne _)⟩, fun hs => absurd hs hnv⟩

end Game
/-- C21. For a call of `update` that runs the combat pipeline: if the
pipeline (the spawning step and the six simulation calls) ends with
`baseHP ≤ 0`, the resulting state is GAME_OVER with `baseHP = 0`, and the call
performs no wave completion (the wave manager, and so the wave index, is as
before, the wave flag is as the spawning step left it, the menu coins and the
endless reward counter are as before), whatever the spawn counters and the
enemy collection are.  After a call that runs the pipeline `baseHP` is never
negative, and no call of `update` turns a non-negative `baseHP` negative. -/
theorem game_over_overrides_wave_completion (sqrt : ℚ → ℚ) (g g' : Game) (dt : ℚ)
    (hupd : g.update sqrt dt = some g') :
    (∀ g1, g.runsPipeline → g.updateWaveSpawning dt = some g1 →
      (g1.simulate sqrt dt).baseHP_ ≤ 0 →
      g'.state_ = .GAME_OVER ∧ g'.baseHP_ = 0 ∧ g'.waveManager_ = g.waveManager_ ∧
      g'.waveActive_ = g1.waveActive_ ∧ g'.menuCoins_ = g.menuCoins_ ∧
      g'.endlessRewardCounter_ = g.endlessRewardCounter_ ∧
      g'.enemies_ = (g1.simulate sqrt dt).cleanupDead.enemies_) ∧
    (g.runsPipeline → 0 ≤ g'.baseHP_) ∧
    (0 ≤ g.baseHP_ → 0 ≤ g'.baseHP_) := by
  unfold Game.update at hupd
  by_cases hstate : g.state_ = .LOGIN ∨ g.state_ = .MENU ∨ g.state_ = .PAUSED ∨
      g.state_ = .GAME_OVER ∨ g.state_ = .VICTORY
  · rw [if_pos hstate] at hupd
    cases hupd
    exact ⟨fun _ hrun => absurd hstate hrun, fun hrun => absurd hstate hrun, fun h => h⟩
  · rw [if_neg hstate] at hupd
    cases hsp : g.updateWaveSpawning dt with
    | none => rw [hsp] at hupd; cases hupd
    | some g1 =>
      rw [hsp] at hupd
      simp only [Option.some.injEq] at hupd
      have hnn : 0 ≤ g'.baseHP_ := by
        rw [← hupd]
        exact Game.checkEndOfWave_baseHP_nonneg _
      refine ⟨?_, fun _ => hnn, fun _ => hnn⟩
      intro g2 _ hg2 hhp
      cases hg2
      obtain ⟨k1, k2, k3, k4, _⟩ := Game.updateWaveSpawning_keeps g g1 dt hsp
      obtain ⟨w1, _⟩ := Game.updateWaveSpawning_frame g g1 dt hsp
      obtain ⟨s1, s2, s3, s4, _, _, s7⟩ := Game.simulate_cleanup_keeps sqrt g1 dt
      have hend := Game.checkEndOfWave_of_baseHP_le (g1.simulate sqrt dt).cleanupDead
        (by rw [s7]; exact hhp)
      rw [hend] at hupd
      rw [← hupd]
      refine ⟨rfl, rfl, ?_, ?_, ?_, ?_, rfl⟩
      · show (g1.simulate sqrt dt).cleanupDead.waveManager_ = g.waveManager_
        rw [s1, w1]
      · exact s2
      · show (g1.simulate sqrt dt).cleanupDead.menuCoins_ = g.menuCoins_
        rw [s3, k1]
      · show (g1.simulate sqrt dt).cleanupDead.endlessRewardCounter_ = g.endlessRewardCounter_
        rw [s4, k2]

theorem slimeAtExit_pass :
    Game.enemyPass sqrtQ (1 / 10) slimeAtExit =
      { enemy := escapedSlime, escaped := true, granted := false } := by
  norm_num [Game.enemyPass, slimeAtExit, escapedSlime, Enemy.new, Enemy.update,
    Enemy.updateBurn, Enemy.updateSlow, Enemy.updateFrozen, Enemy.updateMove, Enemy.takeDamage,
    Enemy.startDeath, Enemy.markRewardGranted, Enemy.isAlive, Enemy.isDying, Enemy.reachedEnd,
    Enemy.isRewardGranted, Enemy.baseHP, Enemy.baseSpeed, Enemy.baseReward,
    Enemy.baseFrameCount, exampleWaypoints, wpAt]

theorem lastStandGame_spawning :
    lastStandGame.updateWaveSpawning (1 / 10) = some lastStandGame := rfl

theorem lastStandGame_simulate :
    lastStandGame.simulate sqrtQ (1 / 10) =
      { lastStandGame with baseHP_ := 0, enemies_ := [escapedSlime] } := by
  simp only [Game.simulate, Game.updateProjectiles, Game.updateAllies, Game.updateMageTowers,
    Game.updateSheriffTowers, Game.updateTowers, Game.updateEnemies, lastStandGame, Game.new,
    Game.updateEnemiesLoop, slimeAtExit_pass, Game.updateMageTowersLoop,
    Game.updateAlliesLoop, Game.updateProjectilesLoop, Game.updateTowersLoop,
    Game.updateSheriffTowersLoop, Game.contactLoop]
  rfl

theorem lastStandGame_update :
    lastStandGame.update sqrtQ (1 / 10) = some lastStandGameAfter := by
  unfold Game.update
  rw [if_neg (by decide), lastStandGame_spawning]
  simp only [lastStandGame_simulate]
  rfl

/-- Witness for C21: the slime that escapes with one base hit point left ends
the game, although all enemies of the wave have been spawned. -/
theorem game_over_overrides_wave_completion_witness :
    lastStandGameAfter.state_ = .GAME_OVER ∧ lastStandGameAfter.baseHP_ = 0 ∧
    lastStandGameAfter.waveManager_ = lastStandGame.waveManager_ ∧
    lastStandGameAfter.waveActive_ = lastStandGame.waveActive_ ∧
    lastStandGameAfter.menuCoins_ = lastStandGame.menuCoins_ ∧
    lastStandGameAfter.endlessRewardCounter_ = lastStandGame.endlessRewardCounter_ ∧
    lastStandGameAfter.enemies_ = (lastStandGame.simulate sqrtQ (1 / 10)).cleanupDead.enemies_ :=
  (game_over_overrides_wave_completion sqrtQ lastStandGame lastStandGameAfter (1 / 10)
    lastStandGame_update).1 lastStandGame (by unfold Game.runsPipeline; decide)
    lastStandGame_spawning (by rw [lastStandGame_simulate])

/-- C23. For a call of `update` on a state that is not already VICTORY: the
state afterwards is VICTORY exactly when a wave completed in this call (the
wave index went up by one), the difficulty is not ENDLESS and the advanced
index has reached the size of the wave table (`allWavesDone()`; the table has
10 waves).  On that transition the menu coins grow by exactly 50 (EASY), 100
(MEDIUM) or 250 (HARD); with difficulty ENDLESS the state never becomes
VICTORY; and in state VICTORY `update` changes nothing, so the reward is
granted once. -/
theorem victory_exactly_on_last_campaign_wave (sqrt : ℚ → ℚ) (g g' : Game) (dt : ℚ)
    (hupd : g.update sqrt dt = some g') (hnv : g.state_ ≠ .VICTORY) :
    (g'.state_ = .VICTORY ↔
      g'.waveManager_.getCurrentWaveIndex = g.waveManager_.getCurrentWaveIndex + 1 ∧
      g.difficulty_ ≠ .ENDLESS ∧ g'.waveManager_.allWavesDone = true) ∧
    (g'.state_ = .VICTORY → g'.menuCoins_ = g.menuCoins_ + Game.victoryReward g.difficulty_) ∧
    (Game.victoryReward .EASY = 50 ∧ Game.victoryReward .MEDIUM = 100 ∧
      Game.victoryReward .HARD = 250) ∧
    (g.difficulty_ = .ENDLESS → g'.state_ ≠ .VICTORY) ∧
    (∀ h : Game, h.state_ = .VICTORY → h.update sqrt dt = some h) ∧
    (∀ w : WaveManager, w.allWavesDone = true ↔ w.getCurrentWaveIndex ≥ w.getTotalWaves) ∧
    WaveManager.new.getTotalWaves = 10 := by
  have hmain : (g'.state_ = .VICTORY ↔
      g'.waveManager_.getCurrentWaveIndex = g.waveManager_.getCurrentWaveIndex + 1 ∧
      g.difficulty_ ≠ .ENDLESS ∧ g'.waveManager_.allWavesDone = true) ∧
      (g'.state_ = .VICTORY →
        g'.menuCoins_ = g.menuCoins_ + Game.victoryReward g.difficulty_) := by
    unfold Game.update at hupd
    by_cases hstate : g.state_ = .LOGIN ∨ g.state_ = .MENU ∨ g.state_ = .PAUSED ∨
        g.state_ = .GAME_OVER ∨ g.state_ = .VICTORY
    · rw [if_pos hstate] at hupd
      cases hupd
      refine ⟨⟨fun hs => absurd hs hnv, fun hr => ?_⟩, fun hs => absurd hs hnv⟩
      have := hr.1
      omega
    · rw [if_neg hstate] at hupd
      cases hsp : g.updateWaveSpawning dt with
      | none => rw [hsp] at hupd; cases hupd
      | some g1 =>
        rw [hsp] at hupd
        simp only [Option.some.injEq] at hupd
        obtain ⟨k1, _, k3, _, k5⟩ := Game.updateWaveSpawning_keeps g g1 dt hsp
        obtain ⟨w1, _⟩ := Game.updateWaveSpawning_frame g g1 dt hsp
        obtain ⟨s1, _, s3, _, s5, s6, _⟩ := Game.simulate_cleanup_keeps sqrt g1 dt
        have hpost : (g1.simulate sqrt dt).cleanupDead.state_ ≠ .VICTORY := by
          rw [s6]
          rcases k5 with h | h
          · rw [h]
            exact hnv
          · rw [h]
            decide
        have hv := Game.checkEndOfWave_victory _ hpost
        rw [hupd, s1, w1, s5, k3, s3, k1] at hv
        exact hv
  refine ⟨hmain.1, hmain.2, ⟨rfl, rfl, rfl⟩, ?_, ?_, ?_, rfl⟩
  · intro he hs
    exact (hmain.1.mp hs).2.1 he
  · intro h hs
    unfold Game.update
    rw [if_pos (Or.inr (Or.inr (Or.inr (Or.inr hs))))]
  · intro w
    unfold WaveManager.allWavesDone WaveManager.getCurrentWaveIndex WaveManager.getTotalWaves
    exact decide_eq_true_iff

theorem rewardedBat_last_update :
    Game.enemyPass sqrtQ (3 / 5) rewardedBat =
      { enemy :=
          { rewardedBat with deathAnimTimer_ := f32 (3 / 5), deathFrame_ := 6, isDead_ := true }
        escaped := false, granted := false } := by
  norm_num [Game.enemyPass, rewardedBat, Enemy.update, Enemy.takeDamage, Enemy.startDeath,
    Enemy.markRewardGranted, Enemy.new, Enemy.baseHP, Enemy.DEATH_FRAME_TIME,
    Enemy.deathAnimDuration_, Enemy.reachedEnd, Enemy.isAlive, Enemy.isDying,
    Enemy.isRewardGranted, floatToInt, f32_three_fifths, f32_one_tenth, f32_one_tenth_div,
    f32_frame_six]

theorem finalWaveGame_spawning :
    finalWaveGame.updateWaveSpawning (3 / 5) = some finalWaveGame := rfl

theorem finalWaveGame_update :
    finalWaveGame.update sqrtQ (3 / 5) = some finalWaveGameAfter := by
  have hs : finalWaveGame.simulate sqrtQ (3 / 5) =
      { finalWaveGame with enemies_ :=
          [{ rewardedBat with deathAnimTimer_ := f32 (3 / 5), deathFrame_ := 6,
                              isDead_ := true }] } := by
    simp only [Game.simulate, Game.updateProjectiles, Game.updateAllies, Game.updateMageTowers,
      Game.updateSheriffTowers, Game.updateTowers, Game.updateEnemies, finalWaveGame, Game.new,
      Game.updateEnemiesLoop, rewardedBat_last_update, Game.updateMageTowersLoop,
      Game.updateAlliesLoop, Game.updateProjectilesLoop, Game.updateTowersLoop,
      Game.updateSheriffTowersLoop, Game.contactLoop]
    rfl
  unfold Game.update
  rw [if_neg (by decide), finalWaveGame_spawning]
  simp only [hs]
  rfl

/-- Witness for C23: the update that ends the death animation of the last bat
of the tenth wave of a MEDIUM campaign yields VICTORY and 100 menu coins. -/
theorem victory_exactly_on_last_campaign_wave_witness :
    finalWaveGameAfter.state_ = .VICTORY ∧
    finalWaveGameAfter.waveManager_.getCurrentWaveIndex =
      finalWaveGame.waveManager_.getCurrentWaveIndex + 1 ∧
    finalWaveGame.difficulty_ ≠ .ENDLESS ∧
    finalWaveGameAfter.waveManager_.allWavesDone = true ∧
    finalWaveGameAfter.menuCoins_ =
      finalWaveGame.menuCoins_ + Game.victoryReward finalWaveGame.difficulty_ :=
  have h := victory_exactly_on_last_campaign_wave sqrtQ finalWaveGame finalWaveGameAfter
    (3 / 5) finalWaveGame_update (by decide)
  have hv : finalWaveGameAfter.state_ = .VICTORY := rfl
  ⟨hv, (h.1.mp hv).1, (h.1.mp hv).2.1, (h.1.mp hv).2.2, h.2.1 hv⟩

theorem menuGame_update (s : GameState)
    (hs : ¬ (s = .LOGIN ∨ s = .MENU ∨ s = .PAUSED ∨ s = .GAME_OVER ∨ s = .VICTORY))
    (hw : s ≠ .WAVE_COMPLETE) :
    ({ lastEnemyGame with state_ := s } : Game).update sqrtQ (3 / 5) =
      some lastEnemyGameAfter := by
  have hsp : ({ lastEnemyGame with state_ := s } : Game).updateWaveSpawning (3 / 5) =
      some { lastEnemyGame with state_ := s } := by
    unfold Game.updateWaveSpawning
    rw [if_neg hw]
    rfl
  have hsim : ({ lastEnemyGame with state_ := s } : Game).simulate sqrtQ (3 / 5) =
      { lastEnemyGame with
        state_ := s
        enemies_ :=
          [{ rewardedSlime with deathAnimTimer_ := f32 (3 / 5), deathFrame_ := 6,
                                isDead_ := true }] } := by
    simp only [Game.simulate, Game.updateProjectiles, Game.updateAllies, Game.updateMageTowers,
      Game.updateSheriffTowers, Game.updateTowers, Game.updateEnemies, lastEnemyGame, Game.new,
      Game.updateEnemiesLoop, rewardedSlime_last_update, Game.updateMageTowersLoop,
      Game.updateAlliesLoop, Game.updateProjectilesLoop, Game.updateTowersLoop,
      Game.updateSheriffTowersLoop, Game.contactLoop]
    rfl
  unfold Game.update
  rw [if_neg hs, hsp]
  simp only [hsim]
  rfl

/-- C22, counterexample. A game with a wave in progress (its last slime in
the death animation) is put into state CHARACTER_MENU by
`openCharacterMenu()`, or into DIFFICULTY_SELECT by `skipLogin()` and
`startGame()`.  In both states `update(0.6)` runs the combat pipeline: the
slime is removed from the enemy collection, the wave is marked complete (wave
flag cleared, wave index 0 → 1) and the state becomes WAVE_COMPLETE. -/
theorem menu_states_run_pipeline :
    lastEnemyGame.openCharacterMenu.state_ = .CHARACTER_MENU ∧
    lastEnemyGame.skipLogin.startGame.state_ = .DIFFICULTY_SELECT ∧
    lastEnemyGame.openCharacterMenu.update sqrtQ (3 / 5) = some lastEnemyGameAfter ∧
    lastEnemyGame.skipLogin.startGame.update sqrtQ (3 / 5) = some lastEnemyGameAfter ∧
    lastEnemyGame.openCharacterMenu.enemies_ = [rewardedSlime] ∧
    lastEnemyGame.skipLogin.startGame.enemies_ = [rewardedSlime] ∧
    lastEnemyGameAfter.enemies_ = [] ∧
    lastEnemyGame.waveActive_ = true ∧ lastEnemyGameAfter.waveActive_ = false ∧
    lastEnemyGame.waveManager_.getCurrentWaveIndex = 0 ∧
    lastEnemyGameAfter.waveManager_.getCurrentWaveIndex = 1 ∧
    lastEnemyGameAfter.state_ = .WAVE_COMPLETE := by
  have h1 : lastEnemyGame.openCharacterMenu =
      ({ lastEnemyGame with state_ := .CHARACTER_MENU } : Game) := rfl
  have h2 : lastEnemyGame.skipLogin.startGame =
      ({ lastEnemyGame with state_ := .DIFFICULTY_SELECT } : Game) := rfl
  refine ⟨rfl, rfl, ?_, ?_, rfl, rfl, rfl, rfl, rfl, rfl, rfl, rfl⟩
  · rw [h1]
    exact menuGame_update _ (by decide) (by decide)
  · rw [h2]
    exact menuGame_update _ (by decide) (by decide)

/-- In the five states named by the guard of `update` the call changes
nothing in the modelled state. -/
theorem update_of_not_runsPipeline (sqrt : ℚ → ℚ) (g : Game) (dt : ℚ)
    (h : ¬ g.runsPipeline) : g.update sqrt dt = some g := by
  unfold Game.runsPipeline at h
  unfold Game.update
  rw [if_pos (not_not.mp h)]

/-! ## Death animation (C26) -/

namespace Enemy

theorem deathAnimDuration_eq : deathAnimDuration_ = 5033165 / 8388608 := by
  unfold deathAnimDuration_
  rw [show (6 / 10 : ℚ) = 3 / 5 by norm_num]
  exact f32_three_fifths

/-- While dying, `update` only advances the death animation: hit points,
position, waypoint index and the status-effect timers stay as they are, and
the animation timer grows by `dt`, rounded to a `float`. -/
theorem update_dying_frame (sqrt : ℚ → ℚ) (e : Enemy) (dt : ℚ) (h : e.isDying_ = true) :
    (e.update sqrt dt).hp_ = e.hp_ ∧ (e.update sqrt dt).x_ = e.x_ ∧
    (e.update sqrt dt).y_ = e.y_ ∧ (e.update sqrt dt).currentWaypoint_ = e.currentWaypoint_ ∧
    (e.update sqrt dt).burnTimer_ = e.burnTimer_ ∧
    (e.update sqrt dt).burnTickTimer_ = e.burnTickTimer_ ∧
    (e.update sqrt dt).slowTimer_ = e.slowTimer_ ∧
    (e.update sqrt dt).slowFactor_ = e.slowFactor_ ∧
    (e.update sqrt dt).frozenTimer_ = e.frozenTimer_ ∧
    (e.update sqrt dt).deathAnimTimer_ = f32 (e.deathAnimTimer_ + dt) ∧
    ((e.update sqrt dt).isDead_ = true ↔
      e.isDead_ = true ∨ f32 (e.deathAnimTimer_ + dt) ≥ deathAnimDuration_) := by
  unfold update
  rw [if_pos h]
  simp only []
  split_ifs with ht
  · exact ⟨rfl, rfl, rfl, rfl, rfl, rfl, rfl, rfl, rfl, rfl, fun _ => Or.inr ht, fun _ => rfl⟩
  · refine ⟨rfl, rfl, rfl, rfl, rfl, rfl, rfl, rfl, rfl, rfl, fun hd => Or.inl hd, fun hd => ?_⟩
    rcases hd with hd | hd
    · exact hd
    · exact absurd hd ht

/-- A hit on a dying enemy does not touch the death animation. -/
theorem takeDamage_dying_frame (e : Enemy) (d : Int) (h : e.isDying_ = true) :
    (e.takeDamage d).isDying_ = true ∧ (e.takeDamage d).deathAnimTimer_ = e.deathAnimTimer_ ∧
    (e.takeDamage d).deathFrame_ = e.deathFrame_ ∧ (e.takeDamage d).isDead_ = e.isDead_ := by
  unfold takeDamage startDeath
  simp only [h]
  split_ifs <;> simp_all

/-- The lethal hit: hit points 0, dying, not dead, animation timer at 0. -/
theorem takeDamage_lethal (e : Enemy) (d : Int) (hdy : e.isDying_ = false)
    (hdd : e.isDead_ = false) (hle : e.hp_ - d ≤ 0) :
    (e.takeDamage d).hp_ = 0 ∧ (e.takeDamage d).isDying_ = true ∧
    (e.takeDamage d).isDead_ = false ∧ (e.takeDamage d).deathAnimTimer_ = 0 := by
  refine ⟨?_, ?_, ?_, ?_⟩
  · rw [takeDamage_hp]
    split_ifs <;> omega
  · rw [takeDamage_isDying, hdy, hdd]
    simp [hle]
  · rw [takeDamage_isDead_]
    exact hdd
  · unfold takeDamage startDeath
    by_cases hlt : e.hp_ - d < 0
    · simp [hlt, hdy, hdd]
    · have h0 : e.hp_ - d = 0 := by omega
      simp [h0, hdy, hdd]

/-- One call on a dying enemy whose animation timer is a non-negative `float`
and whose dead flag agrees with the timer: all of this still holds afterwards,
and the timer has moved only by an `update`. -/
theorem call_dying (sqrt : ℚ → ℚ) (e : Enemy) (c : EnemyCall) (h : e.isDying_ = true)
    (h0 : 0 ≤ e.deathAnimTimer_) (hfix : f32 e.deathAnimTimer_ = e.deathAnimTimer_)
    (hJ : e.isDead_ = true ↔ e.deathAnimTimer_ ≥ deathAnimDuration_) (hc : 0 ≤ c.elapsed) :
    (e.call sqrt c).isDying_ = true ∧ 0 ≤ (e.call sqrt c).deathAnimTimer_ ∧
    f32 (e.call sqrt c).deathAnimTimer_ = (e.call sqrt c).deathAnimTimer_ ∧
    ((e.call sqrt c).isDead_ = true ↔ (e.call sqrt c).deathAnimTimer_ ≥ deathAnimDuration_) := by
  cases c with
  | takeDamage damage =>
    obtain ⟨h1, h2, _, h4⟩ := takeDamage_dying_frame e damage h
    have ht : (e.call sqrt (.takeDamage damage)).deathAnimTimer_ = e.deathAnimTimer_ := h2
    have hd : (e.call sqrt (.takeDamage damage)).isDead_ = e.isDead_ := h4
    rw [ht, hd]
    exact ⟨h1, h0, hfix, hJ⟩
  | applyBurn damagePerSec duration => exact ⟨h, h0, hfix, hJ⟩
  | applySlow factor duration => exact ⟨h, h0, hfix, hJ⟩
  | update dt =>
    have hf := update_dying_frame sqrt e dt h
    have hdt : 0 ≤ dt := hc
    have ht : (e.call sqrt (.update dt)).deathAnimTimer_ = f32 (e.deathAnimTimer_ + dt) :=
      hf.2.2.2.2.2.2.2.2.2.1
    have hd : (e.call sqrt (.update dt)).isDead_ = true ↔
        e.isDead_ = true ∨ f32 (e.deathAnimTimer_ + dt) ≥ deathAnimDuration_ :=
      hf.2.2.2.2.2.2.2.2.2.2
    have hgrow := le_f32_add e.deathAnimTimer_ dt h0 hfix hdt
    rw [ht, hd]
    refine ⟨update_isDying_of_isDying sqrt e dt h, f32_nonneg _ (by linarith),
      f32_idem _ (by linarith), ?_⟩
    rw [hJ]
    constructor
    · rintro (hd' | hd')
      · exact le_trans hd' hgrow
      · exact hd'
    · exact fun hd' => Or.inr hd'

/-- A dying enemy whose animation timer is a non-negative `float` and whose
dead flag agrees with the timer, under any sequence of calls whose `update`
steps are non-negative: it stays dying, its animation timer is the `float` sum
of the steps on top of the timer before, and it is dead exactly when the timer
has reached the duration of the animation. -/
theorem calls_dying (sqrt : ℚ → ℚ) :
    ∀ (cs : List EnemyCall) (e : Enemy), e.isDying_ = true → 0 ≤ e.deathAnimTimer_ →
      f32 e.deathAnimTimer_ = e.deathAnimTimer_ →
      (e.isDead_ = true ↔ e.deathAnimTimer_ ≥ deathAnimDuration_) →
      (∀ c ∈ cs, 0 ≤ c.elapsed) →
      (e.calls sqrt cs).isDying_ = true ∧
      (e.calls sqrt cs).deathAnimTimer_ =
        floatAccumulate e.deathAnimTimer_ (EnemyCall.steps cs) ∧
      ((e.calls sqrt cs).isDead_ = true ↔
        floatAccumulate e.deathAnimTimer_ (EnemyCall.steps cs) ≥ deathAnimDuration_)
  | [], e, h, _, _, hJ, _ => ⟨h, rfl, hJ⟩
  | c :: cs, e, h, h0, hfix, hJ, hcs => by
    have hc : 0 ≤ c.elapsed := hcs c (List.mem_cons_self _ _)
    obtain ⟨c1, c2, c3, c4⟩ := call_dying sqrt e c h h0 hfix hJ hc
    obtain ⟨i1, i2, i3⟩ := calls_dying sqrt cs (e.call sqrt c) c1 c2 c3 c4
      (fun c' hc' => hcs c' (List.mem_cons_of_mem _ hc'))
    have hstep : e.calls sqrt (c :: cs) = (e.call sqrt c).calls sqrt cs := rfl
    have hacc : floatAccumulate (e.call sqrt c).deathAnimTimer_ (EnemyCall.steps cs) =
        floatAccumulate e.deathAnimTimer_ (EnemyCall.steps (c :: cs)) := by
      cases c with
      | takeDamage damage =>
        have ht : (e.call sqrt (.takeDamage damage)).deathAnimTimer_ = e.deathAnimTimer_ :=
          (takeDamage_dying_frame e damage h).2.1
        rw [ht]
        rfl
      | applyBurn damagePerSec duration => rfl
      | applySlow factor duration => rfl
      | update dt =>
        have ht : (e.call sqrt (.update dt)).deathAnimTimer_ = f32 (e.deathAnimTimer_ + dt) :=
          (update_dying_frame sqrt e dt h).2.2.2.2.2.2.2.2.2.1
        rw [ht]
        rfl
    rw [hstep, ← hacc]
    exact ⟨i1, i2, i3⟩

end Enemy

/-! The `float` sums of the death-animation example: steps of `0.075f`. -/

theorem f32_three_fortieths : f32 (3 / 40) = 5033165 / 67108864 := by
  rw [f32_eval (3 / 40) (-4) 10066329 (by norm_num)
    (by rw [abs_of_nonneg (by norm_num)]; norm_num)
    (by rw [abs_of_nonneg (by norm_num)]; norm_num) (by norm_num) (by norm_num)]
  norm_num

theorem f32_death_step_one : f32 (5033165 / 67108864) = 5033165 / 67108864 := by
  rw [f32_eval (5033165 / 67108864) (-4) 10066330 (by norm_num)
    (by rw [abs_of_nonneg (by norm_num)]; norm_num)
    (by rw [abs_of_nonneg (by norm_num)]; norm_num) (by norm_num) (by norm_num)]
  norm_num

theorem f32_death_step_two : f32 (5033165 / 33554432) = 5033165 / 33554432 := by
  rw [f32_eval (5033165 / 33554432) (-3) 10066330 (by norm_num)
    (by rw [abs_of_nonneg (by norm_num)]; norm_num)
    (by rw [abs_of_nonneg (by norm_num)]; norm_num) (by norm_num) (by norm_num)]
  norm_num

theorem f32_death_step_three : f32 (15099495 / 67108864) = 15099495 / 67108864 := by
  rw [f32_eval (15099495 / 67108864) (-3) 15099495 (by norm_num)
    (by rw [abs_of_nonneg (by norm_num)]; norm_num)
    (by rw [abs_of_nonneg (by norm_num)]; norm_num) (by norm_num) (by norm_num)]
  norm_num

theorem f32_death_step_four : f32 (5033165 / 16777216) = 5033165 / 16777216 := by
  rw [f32_eval (5033165 / 16777216) (-2) 10066330 (by norm_num)
    (by rw [abs_of_nonneg (by norm_num)]; norm_num)
    (by rw [abs_of_nonneg (by norm_num)]; norm_num) (by norm_num) (by norm_num)]
  norm_num

theorem f32_death_step_five : f32 (25165825 / 67108864) = 3 / 8 := by
  rw [f32_eval (25165825 / 67108864) (-2) 12582912 (by norm_num)
    (by rw [abs_of_nonneg (by norm_num)]; norm_num)
    (by rw [abs_of_nonneg (by norm_num)]; norm_num) (by norm_num) (by norm_num)]
  norm_num

theorem f32_death_step_six : f32 (30198989 / 67108864) = 7549747 / 16777216 := by
  rw [f32_eval (30198989 / 67108864) (-2) 15099494 (by norm_num)
    (by rw [abs_of_nonneg (by norm_num)]; norm_num)
    (by rw [abs_of_nonneg (by norm_num)]; norm_num) (by norm_num) (by norm_num)]
  norm_num

theorem f32_death_step_seven : f32 (35232153 / 67108864) = 4404019 / 8388608 := by
  rw [f32_eval (35232153 / 67108864) (-1) 8808038 (by norm_num)
    (by rw [abs_of_nonneg (by norm_num)]; norm_num)
    (by rw [abs_of_nonneg (by norm_num)]; norm_num) (by norm_num) (by norm_num)]
  norm_num

theorem f32_death_step_eight : f32 (40265317 / 67108864) = 10066329 / 16777216 := by
  rw [f32_eval (40265317 / 67108864) (-1) 10066329 (by norm_num)
    (by rw [abs_of_nonneg (by norm_num)]; norm_num)
    (by rw [abs_of_nonneg (by norm_num)]; norm_num) (by norm_num) (by norm_num)]
  norm_num

theorem f32_death_step_nine : f32 (45298481 / 67108864) = 2831155 / 4194304 := by
  rw [f32_eval (45298481 / 67108864) (-1) 11324620 (by norm_num)
    (by rw [abs_of_nonneg (by norm_num)]; norm_num)
    (by rw [abs_of_nonneg (by norm_num)]; norm_num) (by norm_num) (by norm_num)]
  norm_num

theorem f32_three_tenths : f32 (3 / 10) = 5033165 / 16777216 := by
  rw [f32_eval (3 / 10) (-2) 10066329 (by norm_num)
    (by rw [abs_of_nonneg (by norm_num)]; norm_num)
    (by rw [abs_of_nonneg (by norm_num)]; norm_num) (by norm_num) (by norm_num)]
  norm_num

theorem f32_three_tenths_twice : f32 (5033165 / 8388608) = 5033165 / 8388608 := by
  rw [f32_eval (5033165 / 8388608) (-1) 10066330 (by norm_num)
    (by rw [abs_of_nonneg (by norm_num)]; norm_num)
    (by rw [abs_of_nonneg (by norm_num)]; norm_num) (by norm_num) (by norm_num)]
  norm_num

/-- C26, counterexample. A slime killed by a hit of 40 and then updated eight
times with `dt = 0.075f`: the `dt` accumulated since the lethal hit is exactly
`0.6f`, which is at least 0.6 s, yet `isDead()` is still false, because the
`float` sums of the timer have been rounded down to `0.59999996f`; the ninth
update makes it dead. -/
theorem death_animation_lags_elapsed_time :
    f32 (3 / 40) = 5033165 / 67108864 ∧
    (List.replicate 8 (f32 (3 / 40))).sum = f32 (6 / 10) ∧
    (6 / 10 : ℚ) ≤ (List.replicate 8 (f32 (3 / 40))).sum ∧
    (((Enemy.new .SLIME exampleWaypoints).takeDamage 40).calls sqrtQ
      (List.replicate 8 (.update (f32 (3 / 40))))).isDead = false ∧
    (((Enemy.new .SLIME exampleWaypoints).takeDamage 40).calls sqrtQ
      (List.replicate 8 (.update (f32 (3 / 40))))).deathAnimTimer_ = 10066329 / 16777216 ∧
    (10066329 / 16777216 : ℚ) < Enemy.deathAnimDuration_ ∧
    (((Enemy.new .SLIME exampleWaypoints).takeDamage 40).calls sqrtQ
      (List.replicate 9 (.update (f32 (3 / 40))))).isDead = true := by
  have hdur := Enemy.deathAnimDuration_eq
  have hl := Enemy.takeDamage_lethal (Enemy.new .SLIME exampleWaypoints) 40 rfl rfl (by decide)
  have hJ : ((Enemy.new .SLIME exampleWaypoints).takeDamage 40).isDead_ = true ↔
      ((Enemy.new .SLIME exampleWaypoints).takeDamage 40).deathAnimTimer_ ≥
        Enemy.deathAnimDuration_ := by
    rw [hl.2.2.1, hl.2.2.2, hdur]
    constructor
    · intro h
      cases h
    · intro h
      norm_num at h
  have hnn : ∀ n : Nat, ∀ c ∈ List.replicate n (EnemyCall.update (f32 (3 / 40))),
      0 ≤ c.elapsed := by
    intro n c hc
    rw [List.eq_of_mem_replicate hc]
    show (0 : ℚ) ≤ f32 (3 / 40)
    rw [f32_three_fortieths]
    norm_num
  have h0 : (0 : ℚ) ≤ ((Enemy.new .SLIME exampleWaypoints).takeDamage 40).deathAnimTimer_ := by
    rw [hl.2.2.2]
  have hfix : f32 ((Enemy.new .SLIME exampleWaypoints).takeDamage 40).deathAnimTimer_ =
      ((Enemy.new .SLIME exampleWaypoints).takeDamage 40).deathAnimTimer_ := by
    rw [hl.2.2.2]
    exact f32_zero
  obtain ⟨_, t8, d8⟩ := Enemy.calls_dying sqrtQ
    (List.replicate 8 (.update (f32 (3 / 40)))) _ hl.2.1 h0 hfix hJ (hnn 8)
  obtain ⟨_, _, d9⟩ := Enemy.calls_dying sqrtQ
    (List.replicate 9 (.update (f32 (3 / 40)))) _ hl.2.1 h0 hfix hJ (hnn 9)
  have e8 : floatAccumulate 0 (EnemyCall.steps (List.replicate 8 (.update (f32 (3 / 40))))) =
      10066329 / 16777216 := by
    norm_num [List.replicate, EnemyCall.steps, floatAccumulate, f32_three_fortieths,
      f32_death_step_one, f32_death_step_two, f32_death_step_three, f32_death_step_four,
      f32_death_step_five, f32_death_step_six, f32_death_step_seven, f32_death_step_eight]
  have e9 : floatAccumulate 0 (EnemyCall.steps (List.replicate 9 (.update (f32 (3 / 40))))) =
      2831155 / 4194304 := by
    norm_num [List.replicate, EnemyCall.steps, floatAccumulate, f32_three_fortieths,
      f32_death_step_one, f32_death_step_two, f32_death_step_three, f32_death_step_four,
      f32_death_step_five, f32_death_step_six, f32_death_step_seven, f32_death_step_eight,
      f32_death_step_nine]
  rw [hl.2.2.2] at t8 d8 d9
  rw [e8] at t8 d8
  rw [e9] at d9
  refine ⟨f32_three_fortieths, ?_, ?_, ?_, t8, ?_, ?_⟩
  · rw [f32_three_fortieths, show (6 / 10 : ℚ) = 3 / 5 by norm_num, f32_three_fifths]
    norm_num [List.replicate]
  · rw [f32_three_fortieths]
    norm_num [List.replicate]
  · cases hd : (((Enemy.new .SLIME exampleWaypoints).takeDamage 40).calls sqrtQ
        (List.replicate 8 (.update (f32 (3 / 40))))).isDead with
    | false => rfl
    | true =>
      have := d8.mp hd
      rw [hdur] at this
      norm_num at this
  · rw [hdur]
    norm_num
  · apply d9.mpr
    rw [hdur]
    norm_num

/-- C26, amended. A hit that brings the hit points of an enemy (not dying, not
dead) to 0 leaves `isDead()` false, with the enemy dying.  After any following
sequence of calls (`update(dt)` with `dt ≥ 0`, further `takeDamage`,
`applyBurn`, `applySlow`), `isDead()` is true exactly when the `float` timer
`deathAnimTimer_` has reached `0.6f`; the timer starts at 0 at the lethal hit
and is the sum of the steps `dt` of the `update` calls accumulated in `float`
arithmetic, each addition rounded.  The animation is entered once: on a dying
enemy `takeDamage` leaves the animation timer and frame alone.  While dying,
`update` changes neither hit points, position, waypoint index nor the
status-effect timers. -/
theorem dead_after_death_animation (sqrt : ℚ → ℚ) (e : Enemy) (d : Int)
    (hdy : e.isDying_ = false) (hdd : e.isDead_ = false) (hle : e.hp_ - d ≤ 0)
    (cs : List EnemyCall) (hcs : ∀ c ∈ cs, 0 ≤ c.elapsed) :
    (e.takeDamage d).hp_ = 0 ∧ (e.takeDamage d).isDead = false ∧
    (e.takeDamage d).isDying = true ∧ (e.takeDamage d).deathAnimTimer_ = 0 ∧
    (((e.takeDamage d).calls sqrt cs).isDead = true ↔
      floatAccumulate 0 (EnemyCall.steps cs) ≥ Enemy.deathAnimDuration_) ∧
    Enemy.deathAnimDuration_ = f32 (6 / 10) ∧ f32 (6 / 10) = 5033165 / 8388608 ∧
    ((e.takeDamage d).calls sqrt cs).isDying = true ∧
    ((e.takeDamage d).calls sqrt cs).deathAnimTimer_ = floatAccumulate 0 (EnemyCall.steps cs) ∧
    (∀ (e' : Enemy) (damage : Int), e'.isDying = true →
      (e'.takeDamage damage).isDying = true ∧
      (e'.takeDamage damage).deathAnimTimer_ = e'.deathAnimTimer_ ∧
      (e'.takeDamage damage).deathFrame_ = e'.deathFrame_ ∧
      (e'.takeDamage damage).isDead = e'.isDead) ∧
    (∀ (e' : Enemy) (dt : ℚ), e'.isDying = true →
      (e'.update sqrt dt).hp_ = e'.hp_ ∧ (e'.update sqrt dt).getX = e'.getX ∧
      (e'.update sqrt dt).getY = e'.getY ∧
      (e'.update sqrt dt).currentWaypoint_ = e'.currentWaypoint_ ∧
      (e'.update sqrt dt).burnTimer_ = e'.burnTimer_ ∧
      (e'.update sqrt dt).burnTickTimer_ = e'.burnTickTimer_ ∧
      (e'.update sqrt dt).slowTimer_ = e'.slowTimer_ ∧
      (e'.update sqrt dt).slowFactor_ = e'.slowFactor_ ∧
      (e'.update sqrt dt).frozenTimer_ = e'.frozenTimer_ ∧
      (e'.update sqrt dt).deathAnimTimer_ = f32 (e'.deathAnimTimer_ + dt)) := by
  obtain ⟨l1, l2, l3, l4⟩ := Enemy.takeDamage_lethal e d hdy hdd hle
  have hdur := Enemy.deathAnimDuration_eq
  have hJ : (e.takeDamage d).isDead_ = true ↔
      (e.takeDamage d).deathAnimTimer_ ≥ Enemy.deathAnimDuration_ := by
    rw [l3, l4, hdur]
    constructor
    · intro h
      cases h
    · intro h
      norm_num at h
  obtain ⟨r1, r2, r3⟩ := Enemy.calls_dying sqrt cs (e.takeDamage d) l2 (by rw [l4])
    (by rw [l4]; exact f32_zero) hJ hcs
  rw [l4] at r2 r3
  refine ⟨l1, l3, l2, l4, r3, rfl, ?_, r1, r2, ?_, ?_⟩
  · rw [show (6 / 10 : ℚ) = 3 / 5 by norm_num]
    exact f32_three_fifths
  · intro e' damage h
    exact Enemy.takeDamage_dying_frame e' damage h
  · intro e' dt h
    have hf := Enemy.update_dying_frame sqrt e' dt h
    exact ⟨hf.1, hf.2.1, hf.2.2.1, hf.2.2.2.1, hf.2.2.2.2.1, hf.2.2.2.2.2.1, hf.2.2.2.2.2.2.1,
      hf.2.2.2.2.2.2.2.1, hf.2.2.2.2.2.2.2.2.1, hf.2.2.2.2.2.2.2.2.2.1⟩

theorem floatAccumulate_three_tenths_twice :
    floatAccumulate 0 (EnemyCall.steps
      [.update (f32 (3 / 10)), .takeDamage 5, .update (f32 (3 / 10))]) = 5033165 / 8388608 := by
  norm_num [EnemyCall.steps, floatAccumulate, f32_three_tenths, f32_death_step_four,
    f32_three_tenths_twice]

/-- Witness for C26: a slime killed by a hit of 40, then `update(0.3f)`, a
further hit of 5 and `update(0.3f)`: the `float` timer is `0.6f`, so it is
dead. -/
theorem dead_after_death_animation_witness :
    ((((Enemy.new .SLIME exampleWaypoints).takeDamage 40).calls sqrtQ
        [.update (f32 (3 / 10)), .takeDamage 5, .update (f32 (3 / 10))]).isDead = true ↔
      floatAccumulate 0 (EnemyCall.steps
        [.update (f32 (3 / 10)), .takeDamage 5, .update (f32 (3 / 10))]) ≥
          Enemy.deathAnimDuration_) ∧
    floatAccumulate 0 (EnemyCall.steps
      [.update (f32 (3 / 10)), .takeDamage 5, .update (f32 (3 / 10))]) = 5033165 / 8388608 ∧
    Enemy.deathAnimDuration_ = 5033165 / 8388608 :=
  ⟨(dead_after_death_animation sqrtQ (Enemy.new .SLIME exampleWaypoints) 40 rfl rfl (by decide)
    [.update (f32 (3 / 10)), .takeDamage 5, .update (f32 (3 / 10))]
    (by
      intro c hc
      simp only [List.mem_cons, List.mem_singleton, List.not_mem_nil, or_false] at hc
      rcases hc with rfl | rfl | rfl
      · show (0 : ℚ) ≤ f32 (3 / 10)
        exact f32_nonneg _ (by norm_num)
      · exact le_refl _
      · show (0 : ℚ) ≤ f32 (3 / 10)
        exact f32_nonneg _ (by norm_num))).2.2.2.2.1,
    floatAccumulate_three_tenths_twice, Enemy.deathAnimDuration_eq⟩

/-! ## Burn ticks (C27) -/

/-- A positive value of at least the smallest positive `float` does not round
to zero. -/
theorem f32_pos_of_ge (x : ℚ) (h : (2 : ℚ) ^ (-149 : Int) ≤ x) : 0 < f32 x := by
  have hpos : (0 : ℚ) < (2 : ℚ) ^ (-149 : Int) := zpow_pos (by norm_num) _
  have hrepr := f32_of_repr 1 (-149) le_rfl (by norm_num)
  rw [Int.cast_one, one_mul] at hrepr
  have := f32_mono _ x hpos.le h
  rw [hrepr] at this
  exact lt_of_lt_of_le hpos this

namespace Enemy

/-- The burn block seen from outside: when the tick fires the hit points drop
by `(int)burnDamagePerSec_` (not below 0) and the tick timer is set to 1;
otherwise the hit points stay, and the tick timer runs down by `dt` (rounded
to a `float`) while the burn block is reached with the burn on, and stays as
it is when not. -/
theorem updateBurn_view (e : Enemy) (dt : ℚ) :
    (e.updateBurn dt).hp_ =
      (if e.burnTimer_ > 0 ∧ f32 (e.burnTickTimer_ - dt) ≤ 0 then
        max (e.hp_ - floatToInt e.burnDamagePerSec_) 0 else e.hp_) ∧
    (e.updateBurn dt).burnTickTimer_ =
      (if e.burnTimer_ > 0 then
        (if f32 (e.burnTickTimer_ - dt) ≤ 0 then 1 else f32 (e.burnTickTimer_ - dt))
       else e.burnTickTimer_) ∧
    (e.updateBurn dt).burnDamagePerSec_ = e.burnDamagePerSec_ := by
  unfold updateBurn
  by_cases hb : e.burnTimer_ > 0
  · rw [if_pos hb]
    simp only []
    by_cases ht : f32 (e.burnTickTimer_ - dt) ≤ 0
    · rw [if_pos ht, if_pos ⟨hb, ht⟩, if_pos hb, if_pos ht]
      refine ⟨?_, rfl, ?_⟩
      · show (takeDamage _ _).hp_ = _
        rw [takeDamage_hp]
        simp only [max_def]
        split_ifs <;> omega
      · show (takeDamage _ _).burnDamagePerSec_ = _
        rw [takeDamage_burnDamagePerSec_]
    · rw [if_neg ht, if_neg (fun h => ht h.2), if_pos hb, if_neg ht]
      exact ⟨rfl, rfl, rfl⟩
  · rw [if_neg hb, if_neg (fun h => hb h.1), if_neg hb]
    exact ⟨rfl, rfl, rfl⟩

theorem updateSlow_burnTickTimer (e : Enemy) (dt : ℚ) :
    (e.updateSlow dt).burnTickTimer_ = e.burnTickTimer_ := by
  unfold updateSlow
  split_ifs <;> rfl

theorem updateFrozen_burnTickTimer (e : Enemy) (dt : ℚ) :
    (e.updateFrozen dt).1.burnTickTimer_ = e.burnTickTimer_ := by
  unfold updateFrozen
  split_ifs <;> rfl

theorem burnTickFires_eq (e : Enemy) (dt : ℚ) :
    e.burnTickFires dt = (e.burnActive && decide (f32 (e.burnTickTimer_ - dt) ≤ 0)) := rfl

/-- `Enemy::update` seen from the burn: the hit points drop by
`(int)burnDamagePerSec_` (not below 0) exactly when the tick fires, the tick
timer is then 1; when the burn block is reached without a tick the timer has
run down by `dt`, rounded to a `float`; the damage per second is never
changed. -/
theorem update_burn_view (sqrt : ℚ → ℚ) (e : Enemy) (dt : ℚ) :
    (e.update sqrt dt).hp_ =
      (if e.burnTickFires dt = true then max (e.hp_ - floatToInt e.burnDamagePerSec_) 0
       else e.hp_) ∧
    (e.update sqrt dt).burnTickTimer_ =
      (if e.burnTickFires dt = true then 1
       else if e.burnActive = true then f32 (e.burnTickTimer_ - dt)
       else e.burnTickTimer_) ∧
    (e.update sqrt dt).burnDamagePerSec_ = e.burnDamagePerSec_ := by
  by_cases hdy : e.isDying_ = true
  · have hf := update_dying_frame sqrt e dt hdy
    have hact : e.burnActive = false := by
      unfold burnActive
      rw [hdy]
      rfl
    have hfire : e.burnTickFires dt = false := by
      rw [burnTickFires_eq, hact]
      rfl
    rw [hfire, hact]
    refine ⟨hf.1, ?_, ?_⟩
    · rw [hf.2.2.2.2.2.1]
      simp
    · unfold update
      rw [if_pos hdy]
      simp only []
      split_ifs <;> rfl
  · have hdy' : e.isDying_ = false := by simpa using hdy
    by_cases hskip : (!e.isAlive || e.reachedEnd_) = true
    · have hact : e.burnActive = false := by
        unfold burnActive
        rw [hdy']
        cases ha : e.isAlive <;> cases hr : e.reachedEnd_ <;> simp_all
      have hfire : e.burnTickFires dt = false := by
        rw [burnTickFires_eq, hact]
        rfl
      have hupd : e.update sqrt dt = e := by
        unfold update
        rw [if_neg hdy, if_pos hskip]
      rw [hfire, hact, hupd]
      exact ⟨by simp, by simp, rfl⟩
    · have ha : e.isAlive = true := by
        cases h : e.isAlive
        · rw [h] at hskip
          exact absurd rfl hskip
        · rfl
      have hr : e.reachedEnd_ = false := by
        cases h : e.reachedEnd_
        · rfl
        · rw [h, ha] at hskip
          exact absurd rfl hskip
      have hupd : e.update sqrt dt =
          updateMove sqrt (((e.updateBurn dt).updateSlow dt).updateFrozen dt).1
            (((e.updateBurn dt).updateSlow dt).updateFrozen dt).2 := by
        unfold update
        rw [if_neg hdy, if_neg hskip]
      obtain ⟨v1, v2, v3⟩ := updateBurn_view e dt
      have hact : e.burnActive = decide (e.burnTimer_ > 0) := by
        unfold burnActive
        rw [hdy', ha, hr]
        simp
      have hfire : e.burnTickFires dt =
          decide (e.burnTimer_ > 0 ∧ f32 (e.burnTickTimer_ - dt) ≤ 0) := by
        rw [burnTickFires_eq, hact]
        simp
      rw [hupd, updateMove_hp_, updateFrozen_hp_, updateSlow_hp_, v1, updateMove_burnTickTimer_,
        updateFrozen_burnTickTimer, updateSlow_burnTickTimer, v2, updateMove_burnDamagePerSec_,
        updateFrozen_burnDamagePerSec_, updateSlow_burnDamagePerSec_, v3, hfire, hact]
      refine ⟨?_, ?_, rfl⟩
      · simp only [decide_eq_true_eq]
      · simp only [decide_eq_true_eq]
        by_cases hb : e.burnTimer_ > 0
        · by_cases ht : f32 (e.burnTickTimer_ - dt) ≤ 0
          · rw [if_pos hb, if_pos ht, if_pos ⟨hb, ht⟩]
          · rw [if_pos hb, if_neg ht, if_neg (fun h => ht h.2), if_pos hb]
        · rw [if_neg hb, if_neg (fun h => hb h.1), if_neg hb]

end Enemy

/-! The `float` differences of the burn example: steps of `0.04f` from `1.0f`. -/

theorem f32_one_twentyfifth : f32 (25⁻¹) = 5368709 / 134217728 := by
  rw [show ((25⁻¹ : ℚ)) = 1 / 25 by norm_num]
  rw [f32_eval (1 / 25) (-5) 10737418 (by norm_num)
    (by rw [abs_of_nonneg (by norm_num)]; norm_num)
    (by rw [abs_of_nonneg (by norm_num)]; norm_num) (by norm_num) (by norm_num)]
  norm_num

theorem f32_one_twentyfifth_div : f32 (1 / 25) = 5368709 / 134217728 := by
  rw [show (1 / 25 : ℚ) = 25⁻¹ by norm_num]
  exact f32_one_twentyfifth

theorem f32_burn_step_1 : f32 (128849019 / 134217728) = 16106127 / 16777216 := by
  rw [f32_eval (128849019 / 134217728) (-1) 16106127 (by norm_num)
    (by rw [abs_of_nonneg (by norm_num)]; norm_num)
    (by rw [abs_of_nonneg (by norm_num)]; norm_num) (by norm_num) (by norm_num)]
  norm_num

theorem f32_burn_step_2 : f32 (123480307 / 134217728) = 7717519 / 8388608 := by
  rw [f32_eval (123480307 / 134217728) (-1) 15435038 (by norm_num)
    (by rw [abs_of_nonneg (by norm_num)]; norm_num)
    (by rw [abs_of_nonneg (by norm_num)]; norm_num) (by norm_num) (by norm_num)]
  norm_num

theorem f32_burn_step_3 : f32 (118111595 / 134217728) = 14763949 / 16777216 := by
  rw [f32_eval (118111595 / 134217728) (-1) 14763949 (by norm_num)
    (by rw [abs_of_nonneg (by norm_num)]; norm_num)
    (by rw [abs_of_nonneg (by norm_num)]; norm_num) (by norm_num) (by norm_num)]
  norm_num

theorem f32_burn_step_4 : f32 (112742883 / 134217728) = 3523215 / 4194304 := by
  rw [f32_eval (112742883 / 134217728) (-1) 14092860 (by norm_num)
    (by rw [abs_of_nonneg (by norm_num)]; norm_num)
    (by rw [abs_of_nonneg (by norm_num)]; norm_num) (by norm_num) (by norm_num)]
  norm_num

theorem f32_burn_step_5 : f32 (107374171 / 134217728) = 13421771 / 16777216 := by
  rw [f32_eval (107374171 / 134217728) (-1) 13421771 (by norm_num)
    (by rw [abs_of_nonneg (by norm_num)]; norm_num)
    (by rw [abs_of_nonneg (by norm_num)]; norm_num) (by norm_num) (by norm_num)]
  norm_num

theorem f32_burn_step_6 : f32 (102005459 / 134217728) = 6375341 / 8388608 := by
  rw [f32_eval (102005459 / 134217728) (-1) 12750682 (by norm_num)
    (by rw [abs_of_nonneg (by norm_num)]; norm_num)
    (by rw [abs_of_nonneg (by norm_num)]; norm_num) (by norm_num) (by norm_num)]
  norm_num

theorem f32_burn_step_7 : f32 (96636747 / 134217728) = 12079593 / 16777216 := by
  rw [f32_eval (96636747 / 134217728) (-1) 12079593 (by norm_num)
    (by rw [abs_of_nonneg (by norm_num)]; norm_num)
    (by rw [abs_of_nonneg (by norm_num)]; norm_num) (by norm_num) (by norm_num)]
  norm_num

theorem f32_burn_step_8 : f32 (91268035 / 134217728) = 1426063 / 2097152 := by
  rw [f32_eval (91268035 / 134217728) (-1) 11408504 (by norm_num)
    (by rw [abs_of_nonneg (by norm_num)]; norm_num)
    (by rw [abs_of_nonneg (by norm_num)]; norm_num) (by norm_num) (by norm_num)]
  norm_num

theorem f32_burn_step_9 : f32 (85899323 / 134217728) = 10737415 / 16777216 := by
  rw [f32_eval (85899323 / 134217728) (-1) 10737415 (by norm_num)
    (by rw [abs_of_nonneg (by norm_num)]; norm_num)
    (by rw [abs_of_nonneg (by norm_num)]; norm_num) (by norm_num) (by norm_num)]
  norm_num

theorem f32_burn_step_10 : f32 (80530611 / 134217728) = 5033163 / 8388608 := by
  rw [f32_eval (80530611 / 134217728) (-1) 10066326 (by norm_num)
    (by rw [abs_of_nonneg (by norm_num)]; norm_num)
    (by rw [abs_of_nonneg (by norm_num)]; norm_num) (by norm_num) (by norm_num)]
  norm_num

theorem f32_burn_step_11 : f32 (75161899 / 134217728) = 9395237 / 16777216 := by
  rw [f32_eval (75161899 / 134217728) (-1) 9395237 (by norm_num)
    (by rw [abs_of_nonneg (by norm_num)]; norm_num)
    (by rw [abs_of_nonneg (by norm_num)]; norm_num) (by norm_num) (by norm_num)]
  norm_num

theorem f32_burn_step_12 : f32 (69793187 / 134217728) = 2181037 / 4194304 := by
  rw [f32_eval (69793187 / 134217728) (-1) 8724148 (by norm_num)
    (by rw [abs_of_nonneg (by norm_num)]; norm_num)
    (by rw [abs_of_nonneg (by norm_num)]; norm_num) (by norm_num) (by norm_num)]
  norm_num

theorem f32_burn_step_13 : f32 (64424475 / 134217728) = 16106119 / 33554432 := by
  rw [f32_eval (64424475 / 134217728) (-2) 16106118 (by norm_num)
    (by rw [abs_of_nonneg (by norm_num)]; norm_num)
    (by rw [abs_of_nonneg (by norm_num)]; norm_num) (by norm_num) (by norm_num)]
  norm_num

theorem f32_burn_step_14 : f32 (59055767 / 134217728) = 7381971 / 16777216 := by
  rw [f32_eval (59055767 / 134217728) (-2) 14763941 (by norm_num)
    (by rw [abs_of_nonneg (by norm_num)]; norm_num)
    (by rw [abs_of_nonneg (by norm_num)]; norm_num) (by norm_num) (by norm_num)]
  norm_num

theorem f32_burn_step_15 : f32 (53687059 / 134217728) = 13421765 / 33554432 := by
  rw [f32_eval (53687059 / 134217728) (-2) 13421764 (by norm_num)
    (by rw [abs_of_nonneg (by norm_num)]; norm_num)
    (by rw [abs_of_nonneg (by norm_num)]; norm_num) (by norm_num) (by norm_num)]
  norm_num

theorem f32_burn_step_16 : f32 (48318351 / 134217728) = 3019897 / 8388608 := by
  rw [f32_eval (48318351 / 134217728) (-2) 12079587 (by norm_num)
    (by rw [abs_of_nonneg (by norm_num)]; norm_num)
    (by rw [abs_of_nonneg (by norm_num)]; norm_num) (by norm_num) (by norm_num)]
  norm_num

theorem f32_burn_step_17 : f32 (42949643 / 134217728) = 10737411 / 33554432 := by
  rw [f32_eval (42949643 / 134217728) (-2) 10737410 (by norm_num)
    (by rw [abs_of_nonneg (by norm_num)]; norm_num)
    (by rw [abs_of_nonneg (by norm_num)]; norm_num) (by norm_num) (by norm_num)]
  norm_num

theorem f32_burn_step_18 : f32 (37580935 / 134217728) = 4697617 / 16777216 := by
  rw [f32_eval (37580935 / 134217728) (-2) 9395233 (by norm_num)
    (by rw [abs_of_nonneg (by norm_num)]; norm_num)
    (by rw [abs_of_nonneg (by norm_num)]; norm_num) (by norm_num) (by norm_num)]
  norm_num

theorem f32_burn_step_19 : f32 (32212227 / 134217728) = 8053057 / 33554432 := by
  rw [f32_eval (32212227 / 134217728) (-3) 16106113 (by norm_num)
    (by rw [abs_of_nonneg (by norm_num)]; norm_num)
    (by rw [abs_of_nonneg (by norm_num)]; norm_num) (by norm_num) (by norm_num)]
  norm_num

theorem f32_burn_step_20 : f32 (26843519 / 134217728) = 209715 / 1048576 := by
  rw [f32_eval (26843519 / 134217728) (-3) 13421759 (by norm_num)
    (by rw [abs_of_nonneg (by norm_num)]; norm_num)
    (by rw [abs_of_nonneg (by norm_num)]; norm_num) (by norm_num) (by norm_num)]
  norm_num

theorem f32_burn_step_21 : f32 (21474811 / 134217728) = 5368703 / 33554432 := by
  rw [f32_eval (21474811 / 134217728) (-3) 10737405 (by norm_num)
    (by rw [abs_of_nonneg (by norm_num)]; norm_num)
    (by rw [abs_of_nonneg (by norm_num)]; norm_num) (by norm_num) (by norm_num)]
  norm_num

theorem f32_burn_step_22 : f32 (16106103 / 134217728) = 16106103 / 134217728 := by
  rw [f32_eval (16106103 / 134217728) (-4) 16106103 (by norm_num)
    (by rw [abs_of_nonneg (by norm_num)]; norm_num)
    (by rw [abs_of_nonneg (by norm_num)]; norm_num) (by norm_num) (by norm_num)]
  norm_num

theorem f32_burn_step_23 : f32 (5368697 / 67108864) = 5368697 / 67108864 := by
  rw [f32_eval (5368697 / 67108864) (-4) 10737394 (by norm_num)
    (by rw [abs_of_nonneg (by norm_num)]; norm_num)
    (by rw [abs_of_nonneg (by norm_num)]; norm_num) (by norm_num) (by norm_num)]
  norm_num

theorem f32_burn_step_24 : f32 (5368685 / 134217728) = 5368685 / 134217728 := by
  rw [f32_eval (5368685 / 134217728) (-5) 10737370 (by norm_num)
    (by rw [abs_of_nonneg (by norm_num)]; norm_num)
    (by rw [abs_of_nonneg (by norm_num)]; norm_num) (by norm_num) (by norm_num)]
  norm_num

theorem f32_burn_step_25 : f32 (-3 / 16777216) = -3 / 16777216 := by
  rw [f32_eval (-3 / 16777216) (-23) (-12582912) (by norm_num)
    (by rw [abs_of_nonpos (by norm_num)]; norm_num)
    (by rw [abs_of_nonpos (by norm_num)]; norm_num) (by norm_num) (by norm_num)]
  norm_num

theorem f32_two : f32 2 = 2 := by
  rw [f32_eval 2 1 8388608 (by norm_num)
    (by rw [abs_of_nonneg (by norm_num)]; norm_num)
    (by rw [abs_of_nonneg (by norm_num)]; norm_num) (by norm_num) (by norm_num)]
  norm_num

theorem f32_neg_one : f32 (-1) = -1 := by
  rw [f32_eval (-1) 0 (-8388608) (by norm_num)
    (by rw [abs_of_nonpos (by norm_num)]; norm_num)
    (by rw [abs_of_nonpos (by norm_num)]; norm_num) (by norm_num) (by norm_num)]
  norm_num

theorem f32_burn_step_25_neg : f32 (-(3 / 16777216)) = -3 / 16777216 := by
  rw [show (-(3 / 16777216 : ℚ)) = -3 / 16777216 by norm_num]
  exact f32_burn_step_25

/-- The tick timer of the burn example: from `1.0f`, after `n ≤ 24` steps of
`0.04f` it is still positive, after 25 steps it is `-3 * 2 ^ (-24)`. -/
theorem floatCountdown_burn_example :
    (∀ n : Nat, n ≤ 24 → 0 < floatCountdown 1 (List.replicate n (f32 (1 / 25)))) ∧
    floatCountdown 1 (List.replicate 25 (f32 (1 / 25))) = -3 / 16777216 := by
  constructor
  · intro n hn
    interval_cases n <;>
      norm_num [List.replicate, floatCountdown, f32_one_twentyfifth, f32_one_twentyfifth_div, f32_burn_step_1, f32_burn_step_2, f32_burn_step_3, f32_burn_step_4, f32_burn_step_5, f32_burn_step_6, f32_burn_step_7, f32_burn_step_8, f32_burn_step_9, f32_burn_step_10, f32_burn_step_11, f32_burn_step_12, f32_burn_step_13, f32_burn_step_14, f32_burn_step_15, f32_burn_step_16, f32_burn_step_17, f32_burn_step_18, f32_burn_step_19, f32_burn_step_20, f32_burn_step_21, f32_burn_step_22, f32_burn_step_23, f32_burn_step_24, f32_burn_step_25, f32_burn_step_25_neg]
  · norm_num [List.replicate, floatCountdown, f32_one_twentyfifth, f32_one_twentyfifth_div, f32_burn_step_1, f32_burn_step_2, f32_burn_step_3, f32_burn_step_4, f32_burn_step_5, f32_burn_step_6, f32_burn_step_7, f32_burn_step_8, f32_burn_step_9, f32_burn_step_10, f32_burn_step_11, f32_burn_step_12, f32_burn_step_13, f32_burn_step_14, f32_burn_step_15, f32_burn_step_16, f32_burn_step_17, f32_burn_step_18, f32_burn_step_19, f32_burn_step_20, f32_burn_step_21, f32_burn_step_22, f32_burn_step_23, f32_burn_step_24, f32_burn_step_25, f32_burn_step_25_neg]

/-- C27, counterexample. A fresh slime (40 hit points) set on fire with
`applyBurn(5, 3)`: the first `update(0.1)` already delivers a tick (hit points
35 after 0.1 s, before a full second has accumulated), and over the same
elapsed time of 2 s one step of 2 s delivers one tick while two steps of 1 s
deliver two. -/
theorem burn_tick_fires_at_once :
    ((Enemy.new .SLIME exampleWaypoints).applyBurn 5 3).isAlive = true ∧
    ((Enemy.new .SLIME exampleWaypoints).applyBurn 5 3).hp_ = 40 ∧
    (((Enemy.new .SLIME exampleWaypoints).applyBurn 5 3).update sqrtQ (1 / 10)).hp_ = 35 ∧
    Enemy.burnTicks sqrtQ ((Enemy.new .SLIME exampleWaypoints).applyBurn 5 3) [1 / 10] = 1 ∧
    Enemy.burnTicks sqrtQ ((Enemy.new .SLIME exampleWaypoints).applyBurn 5 3) [2] = 1 ∧
    Enemy.burnTicks sqrtQ ((Enemy.new .SLIME exampleWaypoints).applyBurn 5 3) [1, 1] = 2 ∧
    ([2] : List ℚ).sum = ([1, 1] : List ℚ).sum := by
  have hfire : ∀ dt : ℚ, 0 ≤ dt →
      ((Enemy.new .SLIME exampleWaypoints).applyBurn 5 3).burnTickFires dt = true := by
    intro dt hdt
    have hle : f32 (-dt) ≤ 0 := f32_nonpos _ (by linarith)
    simp [Enemy.burnTickFires, Enemy.applyBurn, Enemy.new, Enemy.isAlive, Enemy.baseHP, hle]
  have hstep : ((Enemy.new .SLIME exampleWaypoints).applyBurn 5 3).update sqrtQ 1 =
      { (Enemy.new .SLIME exampleWaypoints).applyBurn 5 3 with
        hp_ := 35, burnTimer_ := 2, burnTickTimer_ := 1, visualState_ := .BURNING,
        x_ := 2, animTimer_ := 17 / 20, animFrame_ := 1 } := by
    norm_num [Enemy.new, Enemy.update, Enemy.updateBurn, Enemy.updateSlow, Enemy.updateFrozen,
      Enemy.updateMove, Enemy.updateAnim, Enemy.applyBurn, Enemy.takeDamage, Enemy.startDeath,
      Enemy.isAlive, Enemy.baseHP, Enemy.baseSpeed, Enemy.baseFrameCount, Enemy.ANIM_FRAME_TIME,
      exampleWaypoints, wpAt, floatToInt, f32_two, f32_neg_one]
    decide
  have hsecond : f32 (0 : ℚ) ≤ 0 := f32_nonpos _ le_rfl
  refine ⟨rfl, rfl, ?_, ?_, ?_, ?_, by norm_num⟩
  · rw [(Enemy.update_burn_view sqrtQ _ _).1, if_pos (hfire _ (by norm_num))]
    norm_num [Enemy.applyBurn, Enemy.new, Enemy.baseHP, floatToInt]
  · simp only [Enemy.burnTicks, hfire _ (by norm_num : (0 : ℚ) ≤ 1 / 10)]
    rfl
  · simp only [Enemy.burnTicks, hfire _ (by norm_num : (0 : ℚ) ≤ 2)]
    rfl
  · simp only [Enemy.burnTicks, hfire _ (by norm_num : (0 : ℚ) ≤ 1), hstep]
    norm_num [Enemy.burnTickFires, Enemy.applyBurn, Enemy.new, Enemy.isAlive, hsecond]

/-- C27, amended. After `applyBurn(d, T)` with `T > 0` on an alive enemy (not
dying, not at the end of the path), `Enemy::update` ticks burn damage by
counting a `float` tick timer down.  `applyBurn` sets the timer to 0, so the
first update (any `dt ≥ 0`) delivers a tick.  A tick deals `(int)d` damage
(hit points cut off at 0), `update` changes the hit points in no other way,
and a tick sets the timer to 1.  While the burn is active every update without
a tick replaces the timer by `timer - dt` rounded to a `float`, and a tick
fires exactly when that rounded value is `≤ 0`: always when `dt` is at least
the timer, never while `timer - dt` is at least the smallest positive `float`.
Because of the rounding a tick can fire before a full second of `dt` has
accumulated: counting down from `1.0f` in steps of `0.04f`, the timer is
positive after 24 steps and negative after the 25th, while the 25 steps add
up to less than one second. -/
theorem burn_ticks_by_countdown (sqrt : ℚ → ℚ) (e : Enemy) (d T : ℚ)
    (halive : e.isAlive = true) (hdy : e.isDying = false) (hend : e.reachedEnd = false)
    (hT : 0 < T) :
    (e.applyBurn d T).burnTickTimer_ = 0 ∧
    (∀ dt : ℚ, 0 ≤ dt → (e.applyBurn d T).burnTickFires dt = true) ∧
    (∀ (e' : Enemy) (dt : ℚ),
      (e'.update sqrt dt).hp_ =
        (if e'.burnTickFires dt = true then max (e'.hp_ - floatToInt e'.burnDamagePerSec_) 0
         else e'.hp_) ∧
      (e'.update sqrt dt).burnDamagePerSec_ = e'.burnDamagePerSec_) ∧
    (e.applyBurn d T).burnDamagePerSec_ = d ∧
    (∀ (e' : Enemy) (dt : ℚ), e'.burnTickFires dt = true →
      (e'.update sqrt dt).burnTickTimer_ = 1) ∧
    (∀ (e' : Enemy) (dt : ℚ), e'.burnActive = true →
      (e'.burnTickFires dt = true ↔ f32 (e'.burnTickTimer_ - dt) ≤ 0) ∧
      (e'.burnTickFires dt = false →
        (e'.update sqrt dt).burnTickTimer_ = f32 (e'.burnTickTimer_ - dt)) ∧
      (e'.burnTickTimer_ ≤ dt → e'.burnTickFires dt = true) ∧
      ((2 : ℚ) ^ (-149 : Int) ≤ e'.burnTickTimer_ - dt → e'.burnTickFires dt = false)) ∧
    (∀ (e' : Enemy) (dt : ℚ), e'.burnActive = false →
      e'.burnTickFires dt = false ∧ (e'.update sqrt dt).burnTickTimer_ = e'.burnTickTimer_) ∧
    ((∀ n : Nat, n ≤ 24 → 0 < floatCountdown 1 (List.replicate n (f32 (1 / 25)))) ∧
      floatCountdown 1 (List.replicate 25 (f32 (1 / 25))) < 0 ∧
      (List.replicate 25 (f32 (1 / 25))).sum < 1) := by
  refine ⟨rfl, ?_, ?_, rfl, ?_, ?_, ?_, ?_⟩
  · intro dt hdt
    unfold Enemy.isDying at hdy
    unfold Enemy.reachedEnd at hend
    have ha : (e.applyBurn d T).isAlive = true := halive
    have hle : f32 (-dt) ≤ 0 := f32_nonpos _ (by linarith)
    unfold Enemy.burnTickFires
    rw [ha]
    simp [Enemy.applyBurn, hdy, hend, hT, hle]
  · intro e' dt
    exact ⟨(Enemy.update_burn_view sqrt e' dt).1, (Enemy.update_burn_view sqrt e' dt).2.2⟩
  · intro e' dt hf
    rw [(Enemy.update_burn_view sqrt e' dt).2.1, if_pos hf]
  · intro e' dt hact
    have hfire : e'.burnTickFires dt = decide (f32 (e'.burnTickTimer_ - dt) ≤ 0) := by
      rw [Enemy.burnTickFires_eq, hact]
      simp
    refine ⟨?_, ?_, ?_, ?_⟩
    · rw [hfire]
      exact decide_eq_true_iff
    · intro hno
      rw [(Enemy.update_burn_view sqrt e' dt).2.1, if_neg (by rw [hno]; decide), if_pos hact]
    · intro hle
      rw [hfire]
      exact decide_eq_true (f32_nonpos _ (by linarith))
    · intro hge
      rw [hfire]
      exact decide_eq_false (not_le.mpr (f32_pos_of_ge _ hge))
  · intro e' dt hact
    have hfire : e'.burnTickFires dt = false := by
      rw [Enemy.burnTickFires_eq, hact]
      rfl
    refine ⟨hfire, ?_⟩
    rw [(Enemy.update_burn_view sqrt e' dt).2.1, if_neg (by rw [hfire]; decide),
      if_neg (by rw [hact]; decide)]
  · refine ⟨floatCountdown_burn_example.1, ?_, ?_⟩
    · rw [floatCountdown_burn_example.2]
      norm_num
    · rw [f32_one_twentyfifth_div]
      norm_num [List.replicate]

/-- Witness for C27 (amended): a slime set on fire with `applyBurn(5, 3)`
receives its first tick on the first update, here `update(0.1)`. -/
theorem burn_ticks_by_countdown_witness :
    ((Enemy.new .SLIME exampleWaypoints).applyBurn 5 3).burnTickTimer_ = 0 ∧
    ((Enemy.new .SLIME exampleWaypoints).applyBurn 5 3).burnTickFires (1 / 10) = true :=
  ⟨(burn_ticks_by_countdown sqrtQ (Enemy.new .SLIME exampleWaypoints) 5 3 rfl rfl rfl
      (by norm_num)).1,
    (burn_ticks_by_countdown sqrtQ (Enemy.new .SLIME exampleWaypoints) 5 3 rfl rfl rfl
      (by norm_num)).2.1 (1 / 10) (by norm_num)⟩

/-! ## Ally attack (C29) -/

namespace Ally

/-- What the target search of `Ally::update` returns from position `i` on with
the best so far `(targetIndex, bestDist)`: either nothing nearer than
`bestDist` is alive, or the result is the first alive enemy of least distance,
which is nearer than `bestDist`. -/
theorem scanNearest_spec (sqrt : ℚ → ℚ) (a : Ally) (es : List Enemy) :
    ∀ (i targetIndex : Int) (bestDist : ℚ),
      (scanNearest sqrt a es i targetIndex bestDist = targetIndex ∧
        ∀ (k : Nat) (e : Enemy), es[k]? = some e → e.isAlive = true →
          bestDist ≤ a.distTo sqrt e) ∨
      (∃ (j : Nat) (e : Enemy),
        scanNearest sqrt a es i targetIndex bestDist = i + (j : Int) ∧
        es[j]? = some e ∧ e.isAlive = true ∧ a.distTo sqrt e < bestDist ∧
        (∀ (k : Nat) (e' : Enemy), es[k]? = some e' → e'.isAlive = true →
          a.distTo sqrt e ≤ a.distTo sqrt e') ∧
        (∀ (k : Nat) (e' : Enemy), k < j → es[k]? = some e' → e'.isAlive = true →
          a.distTo sqrt e < a.distTo sqrt e')) := by
  induction es with
  | nil =>
    intro i targetIndex bestDist
    left
    refine ⟨rfl, ?_⟩
    intro k e hk
    simp at hk
  | cons x es ih =>
    intro i targetIndex bestDist
    by_cases hc : x.isAlive = true ∧ a.distTo sqrt x < bestDist
    · have hstep : scanNearest sqrt a (x :: es) i targetIndex bestDist =
          scanNearest sqrt a es (i + 1) i (a.distTo sqrt x) := by
        obtain ⟨h1, h2⟩ := hc
        simp only [scanNearest, h1, Bool.not_true, Bool.false_eq_true, if_false]
        exact if_pos h2
      rw [hstep]
      right
      rcases ih (i + 1) i (a.distTo sqrt x) with ⟨hr, hall⟩ | ⟨j, e, hr, hj, he1, hlt, hmin, hfirst⟩
      · refine ⟨0, x, by simpa using hr, List.getElem?_cons_zero, hc.1, hc.2, ?_, ?_⟩
        · intro k e' hk h1
          cases k with
          | zero =>
            simp only [List.getElem?_cons_zero, Option.some.injEq] at hk
            subst hk
            exact le_refl _
          | succ k =>
            simp only [List.getElem?_cons_succ] at hk
            exact hall k e' hk h1
        · intro k e' hk
          omega
      · have hidx : i + 1 + (j : Int) = i + ((j + 1 : Nat) : Int) := by push_cast; ring
        refine ⟨j + 1, e, by rw [hr, hidx], by simpa using hj, he1, lt_trans hlt hc.2, ?_, ?_⟩
        · intro k e' hk h1
          cases k with
          | zero =>
            simp only [List.getElem?_cons_zero, Option.some.injEq] at hk
            subst hk
            exact le_of_lt hlt
          | succ k =>
            simp only [List.getElem?_cons_succ] at hk
            exact hmin k e' hk h1
        · intro k e' hkj hk h1
          cases k with
          | zero =>
            simp only [List.getElem?_cons_zero, Option.some.injEq] at hk
            subst hk
            exact hlt
          | succ k =>
            simp only [List.getElem?_cons_succ] at hk
            exact hfirst k e' (by omega) hk h1
    · have hstep : scanNearest sqrt a (x :: es) i targetIndex bestDist =
          scanNearest sqrt a es (i + 1) targetIndex bestDist := by
        simp only [scanNearest]
        by_cases h1 : x.isAlive = true
        · have h2 : ¬ a.distTo sqrt x < bestDist := fun h2 => hc ⟨h1, h2⟩
          simp only [h1, Bool.not_true, Bool.false_eq_true, if_false]
          exact if_neg h2
        · simp [h1]
      rw [hstep]
      have hx : x.isAlive = true → bestDist ≤ a.distTo sqrt x := by
        intro h1
        exact not_lt.mp (fun hlt => hc ⟨h1, hlt⟩)
      rcases ih (i + 1) targetIndex bestDist with
        ⟨hr, hall⟩ | ⟨j, e, hr, hj, he1, hlt, hmin, hfirst⟩
      · left
        refine ⟨hr, ?_⟩
        intro k e' hk h1
        cases k with
        | zero =>
          simp only [List.getElem?_cons_zero, Option.some.injEq] at hk
          subst hk
          exact hx h1
        | succ k =>
          simp only [List.getElem?_cons_succ] at hk
          exact hall k e' hk h1
      · right
        have hidx : i + 1 + (j : Int) = i + ((j + 1 : Nat) : Int) := by push_cast; ring
        refine ⟨j + 1, e, by rw [hr, hidx], by simpa using hj, he1, hlt, ?_, ?_⟩
        · intro k e' hk h1
          cases k with
          | zero =>
            simp only [List.getElem?_cons_zero, Option.some.injEq] at hk
            subst hk
            exact le_trans (le_of_lt hlt) (hx h1)
          | succ k =>
            simp only [List.getElem?_cons_succ] at hk
            exact hmin k e' hk h1
        · intro k e' hkj hk h1
          cases k with
          | zero =>
            simp only [List.getElem?_cons_zero, Option.some.injEq] at hk
            subst hk
            exact lt_of_lt_of_le hlt (hx h1)
          | succ k =>
            simp only [List.getElem?_cons_succ] at hk
            exact hfirst k e' (by omega) hk h1

/-- The search does not read the cooldown: it gives the same result for the
ally before and after the cooldown decrement. -/
theorem scanNearest_cooldown (sqrt : ℚ → ℚ) (a : Ally) (c : ℚ) (es : List Enemy) :
    ∀ (i targetIndex : Int) (bestDist : ℚ),
      scanNearest sqrt { a with attackCooldown_ := c } es i targetIndex bestDist =
        scanNearest sqrt a es i targetIndex bestDist := by
  induction es with
  | nil => intro i t b; rfl
  | cons x es ih =>
    intro i t b
    simp only [scanNearest]
    split_ifs <;> exact ih _ _ _

theorem move_damage (sqrt : ℚ → ℚ) (a : Ally) (dt : ℚ) : (move sqrt a dt).damage_ = a.damage_ := by
  unfold move
  simp only []
  split_ifs <;> rfl

/-- No branch of `Ally::update` changes the damage of the ally. -/
theorem update_damage (sqrt : ℚ → ℚ) (a : Ally) (dt : ℚ) (enemies : List Enemy) :
    (a.update sqrt dt enemies).1.damage_ = a.damage_ := by
  unfold update
  simp only []
  split_ifs <;> first | rfl | (rw [move_damage])

end Ally
/-- C29. For every alive ally that has not reached the spawn (its damage is
60: the constructor sets it and `update` never changes it): if some alive
enemy is at distance `< 0.5` and the attack cooldown after this tick's
decrement is `≤ 0`, then `Ally::update` hits the nearest such enemy (the first
one of least distance): its hit points drop by 60, cut off at 0; every other
enemy is unchanged; the cooldown is set to 1.0; and the position and waypoint
index of the ally are unchanged. -/
theorem ally_attacks_nearest (sqrt : ℚ → ℚ) (a : Ally) (dt : ℚ) (enemies : List Enemy)
    (halive : a.isAlive = true) (hns : a.reachedSpawn = false) (hd : a.damage_ = 60)
    (hcool : a.cooldownAfter dt ≤ 0)
    (hnear : ∃ e ∈ enemies, e.isAlive = true ∧ a.distTo sqrt e < 1 / 2) :
    (∃ (j : Nat) (target : Enemy), enemies[j]? = some target ∧ target.isAlive = true ∧
      a.distTo sqrt target < 1 / 2 ∧
      (∀ (k : Nat) (e' : Enemy), enemies[k]? = some e' → e'.isAlive = true →
        a.distTo sqrt target ≤ a.distTo sqrt e') ∧
      (∀ (k : Nat) (e' : Enemy), k < j → enemies[k]? = some e' → e'.isAlive = true →
        a.distTo sqrt target < a.distTo sqrt e') ∧
      (a.update sqrt dt enemies).2[j]? = some (target.takeDamage 60) ∧
      (target.takeDamage 60).hp_ = max (target.hp_ - 60) 0 ∧
      (∀ k : Nat, k ≠ j → (a.update sqrt dt enemies).2[k]? = enemies[k]?)) ∧
    (a.update sqrt dt enemies).2.length = enemies.length ∧
    (a.update sqrt dt enemies).1.attackCooldown_ = 1 ∧
    (a.update sqrt dt enemies).1.x_ = a.x_ ∧ (a.update sqrt dt enemies).1.y_ = a.y_ ∧
    (a.update sqrt dt enemies).1.currentWaypoint_ = a.currentWaypoint_ ∧
    (∀ (x y : ℚ) (waypoints : List Waypoint), (Ally.new x y waypoints).damage_ = 60) ∧
    (∀ (a' : Ally) (dt' : ℚ) (es : List Enemy), (a'.update sqrt dt' es).1.damage_ = a'.damage_) := by
  have ha1 : (if a.attackCooldown_ > 0 then { a with attackCooldown_ := a.attackCooldown_ - dt }
      else a) = { a with attackCooldown_ := a.cooldownAfter dt } := by
    unfold Ally.cooldownAfter
    split_ifs <;> rfl
  obtain ⟨e0, he0, hal0, hd0⟩ := hnear
  obtain ⟨k0, hk0⟩ := List.getElem?_of_mem he0
  have hspec := Ally.scanNearest_spec sqrt a enemies 0 (-1) Ally.ATTACK_RANGE
  rcases hspec with ⟨_, hall⟩ | ⟨j, target, hr, hj, htal, hlt, hmin, hfirst⟩
  · have := hall k0 e0 hk0 hal0
    unfold Ally.ATTACK_RANGE at this
    exact absurd hd0 (not_lt.mpr this)
  · have hres : a.update sqrt dt enemies =
        ({ a with attackCooldown_ := Ally.ATTACK_COOLDOWN },
          modifyAt enemies j (fun e => e.takeDamage 60)) := by
      unfold Ally.update
      have hns' : a.reachedSpawn_ = false := hns
      rw [if_neg (by rw [halive, hns']; decide)]
      simp only [ha1, Ally.scanNearest_cooldown, hr, zero_add]
      rw [if_pos ⟨by omega, hcool⟩]
      simp only [Int.toNat_ofNat, hd]
    rw [hres]
    unfold Ally.ATTACK_RANGE at hlt
    refine ⟨⟨j, target, hj, htal, hlt, hmin, hfirst, ?_, ?_, ?_⟩, ?_, rfl, rfl, rfl, rfl,
      fun _ _ _ => rfl, fun a' dt' es => Ally.update_damage sqrt a' dt' es⟩
    · show (modifyAt enemies j (fun e => e.takeDamage 60))[j]? = _
      rw [getElem?_modifyAt_eq, hj]
      rfl
    · rw [Enemy.takeDamage_hp]
      simp only [max_def]
      split_ifs <;> omega
    · intro k hk
      show (modifyAt enemies j (fun e => e.takeDamage 60))[k]? = _
      exact getElem?_modifyAt_ne _ enemies j k (fun h => hk h.symm)
    · show (modifyAt enemies j (fun e => e.takeDamage 60)).length = _
      exact length_modifyAt _ enemies j

/-- Witness for C29: a fresh ally at (0.5, 0.5) next to a fresh slime at the
same point and a goblin four cells away attacks the slime. -/
theorem ally_attacks_nearest_witness :
    ((Ally.new (1 / 2) (1 / 2) exampleWaypoints).update sqrtQ (1 / 10)
        [goblinAt (9 / 2), Enemy.new .SLIME exampleWaypoints]).2.length =
      [goblinAt (9 / 2), Enemy.new .SLIME exampleWaypoints].length ∧
    ((Ally.new (1 / 2) (1 / 2) exampleWaypoints).update sqrtQ (1 / 10)
        [goblinAt (9 / 2), Enemy.new .SLIME exampleWaypoints]).1.attackCooldown_ = 1 ∧
    ((Ally.new (1 / 2) (1 / 2) exampleWaypoints).update sqrtQ (1 / 10)
        [goblinAt (9 / 2), Enemy.new .SLIME exampleWaypoints]).1.x_ =
      (Ally.new (1 / 2) (1 / 2) exampleWaypoints).x_ :=
  have h := ally_attacks_nearest sqrtQ (Ally.new (1 / 2) (1 / 2) exampleWaypoints) (1 / 10)
    [goblinAt (9 / 2), Enemy.new .SLIME exampleWaypoints] rfl rfl rfl
    (by norm_num [Ally.cooldownAfter, Ally.new])
    ⟨Enemy.new .SLIME exampleWaypoints, by simp, rfl,
      by norm_num [Ally.distTo, Ally.new, Enemy.new, Enemy.getX, Enemy.getY, exampleWaypoints,
        wpAt]⟩
  ⟨h.2.1, h.2.2.1, h.2.2.2.1⟩

/-! ## Projectiles and their targets (C28) -/

theorem enemyAt_eq_none_iff (enemies : List Enemy) (i : Int) :
    enemyAt enemies i = none ↔ i < 0 ∨ i ≥ (enemies.length : Int) := by
  unfold enemyAt
  split_ifs with h
  · exact ⟨fun _ => Or.inl h, fun _ => rfl⟩
  · rw [List.get?_eq_getElem?, List.getElem?_eq_none_iff]
    constructor
    · intro hl
      right
      omega
    · rintro (hl | hl)
      · exact absurd hl h
      · omega

theorem enemyAt_eq_some (enemies : List Enemy) (i : Int) (e : Enemy)
    (h : enemyAt enemies i = some e) :
    0 ≤ i ∧ i < (enemies.length : Int) ∧ enemies[i.toNat]? = some e := by
  have hn : ¬ (i < 0 ∨ i ≥ (enemies.length : Int)) := by
    intro hc
    rw [(enemyAt_eq_none_iff enemies i).mpr hc] at h
    cases h
  refine ⟨by omega, by omega, ?_⟩
  unfold enemyAt at h
  rw [if_neg (by omega), List.get?_eq_getElem?] at h
  exact h

namespace Projectile

theorem update_keeps (sqrt : ℚ → ℚ) (p : Projectile) (dt targetX targetY : ℚ) :
    (p.update sqrt dt targetX targetY).getDamage = p.getDamage ∧
    (p.update sqrt dt targetX targetY).isActive = p.isActive ∧
    (p.update sqrt dt targetX targetY).getTargetIndex = p.getTargetIndex := by
  unfold update
  simp only []
  split_ifs <;> exact ⟨rfl, rfl, rfl⟩

end Projectile

/-- C28. One pass of the loop of `Game::updateProjectiles` over an active
projectile.  If its target index is negative, is at least the size of the
enemy collection, or designates an enemy that is not alive, the projectile is
deactivated where it stands and no enemy changes.  The enemy collection is
read only when the index is inside it.  Otherwise the projectile moves toward
its target; if it has then reached it, the target takes the projectile's
damage once (every other enemy unchanged) and the projectile is deactivated in
the same pass; if not, no enemy changes and the projectile stays active.  An
inactive projectile is skipped, so a projectile that has hit never hits again,
and the loop handles each projectile once, in order. -/
theorem projectile_target_checked (sqrt : ℚ → ℚ) (dt : ℚ) (proj : Projectile)
    (enemies : List Enemy) (hact : proj.isActive = true) :
    ((proj.getTargetIndex < 0 ∨ proj.getTargetIndex ≥ (enemies.length : Int) ∨
        (∃ target, enemyAt enemies proj.getTargetIndex = some target ∧
          target.isAlive = false)) →
      Game.projectileStep sqrt dt proj enemies = (proj.deactivate, enemies) ∧
      proj.deactivate.isActive = false ∧ proj.deactivate.x_ = proj.x_ ∧
      proj.deactivate.y_ = proj.y_) ∧
    (∀ target, enemyAt enemies proj.getTargetIndex = some target →
      0 ≤ proj.getTargetIndex ∧ proj.getTargetIndex < (enemies.length : Int) ∧
      enemies[proj.getTargetIndex.toNat]? = some target) ∧
    (enemyAt enemies proj.getTargetIndex = none ↔
      proj.getTargetIndex < 0 ∨ proj.getTargetIndex ≥ (enemies.length : Int)) ∧
    (∀ target, enemyAt enemies proj.getTargetIndex = some target → target.isAlive = true →
      ((proj.update sqrt dt target.getX target.getY).hasReachedTarget target.getX target.getY =
          true →
        Game.projectileStep sqrt dt proj enemies =
          ((proj.update sqrt dt target.getX target.getY).deactivate,
            modifyAt enemies proj.getTargetIndex.toNat
              (fun e => e.takeDamage proj.getDamage)) ∧
        (Game.projectileStep sqrt dt proj enemies).1.isActive = false ∧
        (Game.projectileStep sqrt dt proj enemies).2[proj.getTargetIndex.toNat]? =
          some (target.takeDamage proj.getDamage) ∧
        (∀ k : Nat, k ≠ proj.getTargetIndex.toNat →
          (Game.projectileStep sqrt dt proj enemies).2[k]? = enemies[k]?)) ∧
      ((proj.update sqrt dt target.getX target.getY).hasReachedTarget target.getX target.getY =
          false →
        Game.projectileStep sqrt dt proj enemies =
          (proj.update sqrt dt target.getX target.getY, enemies) ∧
        (Game.projectileStep sqrt dt proj enemies).1.isActive = true)) ∧
    (∀ (p : Projectile) (es : List Enemy), p.isActive = false →
      Game.projectileStep sqrt dt p es = (p, es)) ∧
    (∀ (p : Projectile) (ps : List Projectile) (es : List Enemy),
      Game.updateProjectilesLoop sqrt dt (p :: ps) es =
        ((Game.projectileStep sqrt dt p es).1 ::
            (Game.updateProjectilesLoop sqrt dt ps (Game.projectileStep sqrt dt p es).2).1,
          (Game.updateProjectilesLoop sqrt dt ps (Game.projectileStep sqrt dt p es).2).2)) := by
  have hstart : Game.projectileStep sqrt dt proj enemies =
      match enemyAt enemies proj.getTargetIndex with
      | none => (proj.deactivate, enemies)
      | some target =>
        if (!target.isAlive) = true then (proj.deactivate, enemies)
        else
          if (proj.update sqrt dt target.getX target.getY).hasReachedTarget target.getX
              target.getY = true then
            ((proj.update sqrt dt target.getX target.getY).deactivate,
             modifyAt enemies proj.getTargetIndex.toNat
               (fun e => e.takeDamage (proj.update sqrt dt target.getX target.getY).getDamage))
          else (proj.update sqrt dt target.getX target.getY, enemies) := by
    unfold Game.projectileStep
    rw [if_neg (by rw [hact]; decide)]
  refine ⟨?_, fun target h => enemyAt_eq_some _ _ _ h, enemyAt_eq_none_iff _ _, ?_, ?_,
    fun _ _ _ => rfl⟩
  · intro hbad
    refine ⟨?_, rfl, rfl, rfl⟩
    rw [hstart]
    rcases hbad with h | h | ⟨target, ht, hdead⟩
    · rw [(enemyAt_eq_none_iff _ _).mpr (Or.inl h)]
    · rw [(enemyAt_eq_none_iff _ _).mpr (Or.inr h)]
    · rw [ht]
      simp only []
      rw [if_pos (by rw [hdead]; rfl)]
  · intro target ht halive
    have hd := (Projectile.update_keeps sqrt proj dt target.getX target.getY).1
    have ha := (Projectile.update_keeps sqrt proj dt target.getX target.getY).2.1
    obtain ⟨_, _, hget⟩ := enemyAt_eq_some _ _ _ ht
    constructor
    · intro hreach
      have hres : Game.projectileStep sqrt dt proj enemies =
          ((proj.update sqrt dt target.getX target.getY).deactivate,
            modifyAt enemies proj.getTargetIndex.toNat
              (fun e => e.takeDamage proj.getDamage)) := by
        rw [hstart, ht]
        simp only []
        rw [if_neg (by rw [halive]; decide), if_pos hreach, hd]
      rw [hres]
      refine ⟨rfl, rfl, ?_, ?_⟩
      · show (modifyAt enemies _ _)[proj.getTargetIndex.toNat]? = _
        rw [getElem?_modifyAt_eq, hget]
        rfl
      · intro k hk
        exact getElem?_modifyAt_ne _ enemies _ k (fun h => hk h.symm)
    · intro hnot
      have hres : Game.projectileStep sqrt dt proj enemies =
          (proj.update sqrt dt target.getX target.getY, enemies) := by
        rw [hstart, ht]
        simp only []
        rw [if_neg (by rw [halive]; decide), if_neg (by rw [hnot]; decide)]
      rw [hres]
      exact ⟨rfl, by rw [ha]; exact hact⟩
  · intro p es hp
    unfold Game.projectileStep
    rw [if_pos (by rw [hp]; rfl)]

/-- Witness for C28: an active projectile whose target index 5 lies outside
an enemy collection of one slime is deactivated and the slime is untouched. -/
theorem projectile_target_checked_witness :
    Game.projectileStep sqrtQ (1 / 10) (Projectile.new 0 0 5 10)
        [Enemy.new .SLIME exampleWaypoints] =
      ((Projectile.new 0 0 5 10).deactivate, [Enemy.new .SLIME exampleWaypoints]) ∧
    (Projectile.new 0 0 5 10).deactivate.isActive = false ∧
    (Projectile.new 0 0 5 10).deactivate.x_ = (Projectile.new 0 0 5 10).x_ ∧
    (Projectile.new 0 0 5 10).deactivate.y_ = (Projectile.new 0 0 5 10).y_ :=
  (projectile_target_checked sqrtQ (1 / 10) (Projectile.new 0 0 5 10)
    [Enemy.new .SLIME exampleWaypoints] rfl).1 (Or.inr (Or.inl (by decide)))

/-! ## The wave table and endless mode (C30) -/

namespace Game

theorem simulate_of_empty (sqrt : ℚ → ℚ) (g : Game) (dt : ℚ) (he : g.enemies_ = [])
    (ht : g.towers_ = []) (hs : g.sheriffTowers_ = []) (hm : g.mageTowers_ = [])
    (ha : g.allies_ = []) (hp : g.projectiles_ = []) : g.simulate sqrt dt = g := by
  cases g
  simp only [] at he ht hs hm ha hp
  subst he ht hs hm ha hp
  simp only [simulate, updateEnemies, updateEnemiesLoop, updateTowers, updateTowersLoop,
    updateSheriffTowers, updateSheriffTowersLoop, updateMageTowers, updateMageTowersLoop,
    updateAllies, updateAlliesLoop, contactLoop, updateProjectiles, updateProjectilesLoop]

theorem cleanupDead_of_empty (g : Game) (he : g.enemies_ = []) (ha : g.allies_ = [])
    (hp : g.projectiles_ = []) : g.cleanupDead = g := by
  cases g
  simp only [] at he ha hp
  subst he ha hp
  simp [cleanupDead]

/-- The unchecked read of `updateWaveSpawning`: a spawn that is due while the
wave index is at or past the size of the wave table has no defined result. -/
theorem updateWaveSpawning_past_table (g : Game) (dt : ℚ) (hs : g.state_ ≠ .WAVE_COMPLETE)
    (ha : g.waveActive_ = true) (hlt : g.enemiesSpawned_ < g.totalEnemiesInWave_)
    (ht : g.spawnTimer_ - dt ≤ 0)
    (hidx : g.waveManager_.getCurrentWaveIndex ≥ g.waveManager_.getTotalWaves) :
    g.updateWaveSpawning dt = none := by
  unfold updateWaveSpawning
  rw [if_neg hs, if_neg (by rw [ha]; decide), if_pos hlt]
  simp only []
  rw [if_pos ht]
  cases hq : vectorAt g.spawnQueue_ g.enemiesSpawned_ with
  | none => rfl
  | some type =>
    simp only []
    have hw : (({ g with spawnTimer_ := g.spawnTimer_ - dt } : Game).spawnEnemy
        type).waveManager_.getCurrentWave = none := by
      show g.waveManager_.getCurrentWave = none
      unfold WaveManager.getCurrentWave
      unfold WaveManager.getCurrentWaveIndex WaveManager.getTotalWaves at hidx
      split_ifs with h0
      · rw [List.getElem?_eq_none_iff]
        omega
      · rfl
    rw [hw]

end Game
namespace Game

/-- One empty wave in endless mode between waves: the wave index advances by
one and the game is again between waves, with nothing on the field. -/
theorem emptyWave_step (sqrt : ℚ → ℚ) (g : Game) (hd : g.difficulty_ = .ENDLESS)
    (hs : g.state_ = .WAVE_COMPLETE) (ht : 0 < g.waveTimer_) (hhp : 0 < g.baseHP_)
    (he : g.enemies_ = []) (hto : g.towers_ = []) (hsh : g.sheriffTowers_ = [])
    (hm : g.mageTowers_ = []) (ha : g.allies_ = []) (hp : g.projectiles_ = []) :
    ∃ g1, g.emptyWave sqrt = some g1 ∧ g1.difficulty_ = .ENDLESS ∧
      g1.state_ = .WAVE_COMPLETE ∧ g1.waveTimer_ = WAVE_DELAY ∧ 0 < g1.baseHP_ ∧
      g1.enemies_ = [] ∧ g1.towers_ = [] ∧ g1.sheriffTowers_ = [] ∧ g1.mageTowers_ = [] ∧
      g1.allies_ = [] ∧ g1.projectiles_ = [] ∧
      g1.waveManager_ = g.waveManager_.advanceWave ∧
      g1.endlessWaveNumber_ = g.endlessWaveNumber_ := by
  have hq : flattenEntries (g.waveManager_.generateEndlessWave (-3)).entries = [] := by
    simp [WaveManager.generateEndlessWave, flattenEntries]
    decide
  obtain ⟨g0, hg0⟩ : ∃ g0 : Game, g0 =
      { g with spawnQueue_ := [], totalEnemiesInWave_ := 0, enemiesSpawned_ := 0,
               waveActive_ := true, spawnTimer_ := 0, waveTimer_ := g.waveTimer_ - 0 } :=
    ⟨_, rfl⟩
  have hsp : (g.sandboxSpawnWave (-3)).updateWaveSpawning 0 = some g0 := by
    rw [hg0]
    unfold updateWaveSpawning sandboxSpawnWave
    simp only [hq]
    rw [if_pos hs, if_neg (by simpa using ht)]
    rfl
  have he0 : g0.enemies_ = [] := by rw [hg0]; exact he
  have hto0 : g0.towers_ = [] := by rw [hg0]; exact hto
  have hsh0 : g0.sheriffTowers_ = [] := by rw [hg0]; exact hsh
  have hm0 : g0.mageTowers_ = [] := by rw [hg0]; exact hm
  have ha0 : g0.allies_ = [] := by rw [hg0]; exact ha
  have hp0 : g0.projectiles_ = [] := by rw [hg0]; exact hp
  unfold emptyWave update
  rw [if_neg (by
    show ¬ (g.state_ = .LOGIN ∨ g.state_ = .MENU ∨ g.state_ = .PAUSED ∨
      g.state_ = .GAME_OVER ∨ g.state_ = .VICTORY)
    rw [hs]
    decide), hsp]
  simp only []
  rw [simulate_of_empty sqrt g0 0 he0 hto0 hsh0 hm0 ha0 hp0,
    cleanupDead_of_empty g0 he0 ha0 hp0]
  refine ⟨_, rfl, ?_⟩
  rw [hg0]
  unfold checkEndOfWave
  rw [if_neg (by simpa using hhp), if_pos ⟨rfl, le_refl _, by simp [he]⟩]
  simp only []
  rw [if_neg (fun h => h.1 hd), if_pos hd]
  unfold checkEndlessWaveReward
  rw [if_neg (fun h => h hd)]
  simp only []
  split_ifs <;> simp [WAVE_DELAY, hd, hhp, he, hto, hsh, hm, ha, hp]

/-- In endless mode `startNextWave` starts a wave at any wave index: endless
wave 1 has three goblins and seven slimes. -/
theorem startNextWave_endless_first (g : Game) (hd : g.difficulty_ = .ENDLESS)
    (hn : g.endlessWaveNumber_ = 1) :
    ∃ g1, g.startNextWave = some g1 ∧ g1.state_ = .PLAYING ∧ g1.waveActive_ = true ∧
      g1.enemiesSpawned_ = 0 ∧ g1.totalEnemiesInWave_ = 10 ∧ g1.spawnTimer_ = 0 ∧
      g1.waveManager_ = g.waveManager_ ∧ g1.baseHP_ = g.baseHP_ ∧
      g1.enemies_ = g.enemies_ ∧ g1.towers_ = g.towers_ ∧
      g1.sheriffTowers_ = g.sheriffTowers_ ∧ g1.mageTowers_ = g.mageTowers_ ∧
      g1.allies_ = g.allies_ ∧ g1.projectiles_ = g.projectiles_ := by
  unfold startNextWave
  rw [if_neg (fun h => h.1 hd)]
  simp only []
  unfold buildSpawnQueue
  rw [if_pos hd]
  simp only [hn]
  refine ⟨_, rfl, rfl, rfl, rfl, ?_, rfl, rfl, rfl, rfl, rfl, rfl, rfl, rfl, rfl⟩
  simp [WaveManager.generateEndlessWave, flattenEntries]
  decide

theorem emptyWaves_run (sqrt : ℚ → ℚ) (n : Nat) :
    ∀ g : Game, g.difficulty_ = .ENDLESS → g.state_ = .WAVE_COMPLETE →
      0 < g.waveTimer_ ∧ g.waveTimer_ ≤ WAVE_DELAY → 0 < g.baseHP_ → g.enemies_ = [] → g.towers_ = [] → g.sheriffTowers_ = [] →
      g.mageTowers_ = [] → g.allies_ = [] → g.projectiles_ = [] →
      ∃ g1, emptyWaves sqrt n g = some g1 ∧ g1.difficulty_ = .ENDLESS ∧
        g1.state_ = .WAVE_COMPLETE ∧ (0 < g1.waveTimer_ ∧ g1.waveTimer_ ≤ WAVE_DELAY) ∧
        0 < g1.baseHP_ ∧ g1.enemies_ = [] ∧ g1.towers_ = [] ∧ g1.sheriffTowers_ = [] ∧ g1.mageTowers_ = [] ∧
        g1.allies_ = [] ∧ g1.projectiles_ = [] ∧
        g1.waveManager_.waves_ = g.waveManager_.waves_ ∧
        g1.waveManager_.currentWave_ = g.waveManager_.currentWave_ + (n : Int) ∧
        g1.endlessWaveNumber_ = g.endlessWaveNumber_ := by
  induction n with
  | zero =>
    intro g hd hs ht hhp he hto hsh hm ha hp
    exact ⟨g, rfl, hd, hs, ht, hhp, he, hto, hsh, hm, ha, hp, rfl, by simp, rfl⟩
  | succ n ih =>
    intro g hd hs ht hhp he hto hsh hm ha hp
    obtain ⟨g1, h1, hd1, hs1, ht1, hhp1, he1, hto1, hsh1, hm1, ha1, hp1, hw1, hn1⟩ :=
      emptyWave_step sqrt g hd hs ht.1 hhp he hto hsh hm ha hp
    have ht1 : 0 < g1.waveTimer_ ∧ g1.waveTimer_ ≤ WAVE_DELAY := by
      rw [ht1]
      norm_num [WAVE_DELAY]
    obtain ⟨g2, h2, hd2, hs2, ht2, hhp2, he2, hto2, hsh2, hm2, ha2, hp2, hw2, hc2, hn2⟩ :=
      ih g1 hd1 hs1 ht1 hhp1 he1 hto1 hsh1 hm1 ha1 hp1
    refine ⟨g2, ?_, hd2, hs2, ht2, hhp2, he2, hto2, hsh2, hm2, ha2, hp2, ?_, ?_, ?_⟩
    · show (match g.emptyWave sqrt with
        | none => none
        | some g1 => emptyWaves sqrt n g1) = some g2
      rw [h1]
      exact h2
    · rw [hw2, hw1]
      rfl
    · rw [hc2, hw1]
      show g.waveManager_.currentWave_ + 1 + (n : Int) = _
      push_cast
      ring
    · rw [hn2, hn1]

theorem update_between_waves (sqrt : ℚ → ℚ) (g : Game) (dt : ℚ)
    (hd : g.difficulty_ = .ENDLESS) (hs : g.state_ = .WAVE_COMPLETE)
    (ht : g.waveTimer_ - dt ≤ 0) (hn : g.endlessWaveNumber_ = 1) (hhp : 0 < g.baseHP_)
    (he : g.enemies_ = []) (hto : g.towers_ = []) (hsh : g.sheriffTowers_ = [])
    (hm : g.mageTowers_ = []) (ha : g.allies_ = []) (hp : g.projectiles_ = []) :
    ∃ g1, g.update sqrt dt = some g1 ∧ g1.state_ = .PLAYING ∧ g1.waveActive_ = true ∧
      g1.enemiesSpawned_ = 0 ∧ g1.totalEnemiesInWave_ = 10 ∧ g1.spawnTimer_ = 0 ∧
      g1.waveManager_ = g.waveManager_ := by
  obtain ⟨g1, h1, hs1, ha1, hsp1, htot1, hst1, hw1, hhp1, he1, hto1, hsh1, hm1, hal1, hp1⟩ :=
    startNextWave_endless_first { g with waveTimer_ := g.waveTimer_ - dt } hd hn
  have hsp : g.updateWaveSpawning dt = some g1 := by
    unfold updateWaveSpawning
    rw [if_pos hs]
    simp only []
    rw [if_pos ht]
    exact h1
  have he1' : g1.enemies_ = [] := he1.trans he
  have hal1' : g1.allies_ = [] := hal1.trans ha
  have hp1' : g1.projectiles_ = [] := hp1.trans hp
  refine ⟨g1, ?_, hs1, ha1, hsp1, htot1, hst1, hw1⟩
  unfold update
  rw [if_neg (by rw [hs]; decide), hsp]
  simp only []
  rw [simulate_of_empty sqrt g1 dt he1' (hto1.trans hto) (hsh1.trans hsh) (hm1.trans hm)
    hal1' hp1', cleanupDead_of_empty g1 he1' hal1' hp1']
  unfold checkEndOfWave
  rw [if_neg (by rw [hhp1]; exact not_le.mpr hhp), if_neg (by
    rintro ⟨_, h2, _⟩
    rw [hsp1, htot1] at h2
    exact absurd h2 (by decide))]

theorem update_past_table (sqrt : ℚ → ℚ) (g : Game) (dt : ℚ) (hrun : g.runsPipeline)
    (hs : g.state_ ≠ .WAVE_COMPLETE) (ha : g.waveActive_ = true)
    (hlt : g.enemiesSpawned_ < g.totalEnemiesInWave_) (ht : g.spawnTimer_ - dt ≤ 0)
    (hidx : g.waveManager_.getCurrentWaveIndex ≥ g.waveManager_.getTotalWaves) :
    g.update sqrt dt = none := by
  unfold update
  rw [if_neg hrun, updateWaveSpawning_past_table g dt hs ha hlt ht hidx]

end Game
/-- C30 (evaluation of the code). A spawn of `Game::updateWaveSpawning` while
the wave index is at or past the size of the wave table reads
`waves_[currentWave_]` outside the table, so `update` has no defined result;
in endless mode every completed wave advances the index and the game goes on,
so the index passes the table.  On a run made of public operations only - a
game started in endless mode, ten waves completed, the eleventh wave started by
the wave timer - the index equals the table size 10 and the first spawn of the
eleventh wave is such a read. -/
theorem endless_spawn_reads_past_wave_table :
    (∀ (sqrt : ℚ → ℚ) (g : Game) (dt : ℚ), g.runsPipeline → g.state_ ≠ .WAVE_COMPLETE →
      g.waveActive_ = true → g.enemiesSpawned_ < g.totalEnemiesInWave_ →
      g.spawnTimer_ - dt ≤ 0 →
      g.waveManager_.getCurrentWaveIndex ≥ g.waveManager_.getTotalWaves →
      g.updateWaveSpawning dt = none ∧ g.update sqrt dt = none) ∧
    (∀ g : Game, g.difficulty_ = .ENDLESS → 0 < g.baseHP_ → g.waveActive_ = true →
      g.enemiesSpawned_ ≥ g.totalEnemiesInWave_ → g.enemies_ = [] →
      g.checkEndOfWave.waveManager_.getCurrentWaveIndex =
        g.waveManager_.getCurrentWaveIndex + 1 ∧
      g.checkEndOfWave.state_ = .WAVE_COMPLETE) ∧
    (∃ g10 g11 : Game,
      Game.emptyWaves sqrtQ 10 endlessStart = some g10 ∧
      g10.difficulty_ = .ENDLESS ∧ g10.state_ = .WAVE_COMPLETE ∧
      g10.waveManager_.getCurrentWaveIndex = 10 ∧ g10.waveManager_.getTotalWaves = 10 ∧
      g10.update sqrtQ 5 = some g11 ∧
      g11.state_ = .PLAYING ∧ g11.waveActive_ = true ∧ g11.enemiesSpawned_ = 0 ∧
      g11.totalEnemiesInWave_ = 10 ∧
      g11.waveManager_.getCurrentWaveIndex = 10 ∧
      g11.waveManager_.getCurrentWave = none ∧
      g11.update sqrtQ (1 / 10) = none) := by
  refine ⟨fun sqrt g dt hrun hs ha hlt ht hidx =>
      ⟨Game.updateWaveSpawning_past_table g dt hs ha hlt ht hidx,
        Game.update_past_table sqrt g dt hrun hs ha hlt ht hidx⟩, ?_, ?_⟩
  · intro g hd hhp ha hsp he
    unfold Game.checkEndOfWave
    rw [if_neg (not_le.mpr hhp), if_pos ⟨ha, hsp, by simp [he]⟩]
    simp only []
    rw [if_neg (fun h => h.1 hd), if_pos hd]
    unfold Game.checkEndlessWaveReward
    rw [if_neg (fun h => h hd)]
    simp only []
    split_ifs <;> simp [WaveManager.getCurrentWaveIndex, WaveManager.advanceWave]
  · have h3 : endlessStart.waveTimer_ = 3 := rfl
    obtain ⟨g10, h10, hd, hs, ht, hhp, he, hto, hsh, hm, ha, hp, hw, hc, hn⟩ :=
      Game.emptyWaves_run sqrtQ 10 endlessStart rfl rfl
        ⟨by rw [h3]; norm_num, by rw [h3]; norm_num [Game.WAVE_DELAY]⟩
        (by decide) rfl rfl rfl rfl rfl rfl
    have hidx : g10.waveManager_.getCurrentWaveIndex = 10 := by
      show g10.waveManager_.currentWave_ = 10
      rw [hc]
      rfl
    have htot : g10.waveManager_.getTotalWaves = 10 := by
      show (g10.waveManager_.waves_.length : Int) = 10
      rw [hw]
      rfl
    obtain ⟨g11, h11, hs11, ha11, hsp11, htot11, hst11, hw11⟩ :=
      Game.update_between_waves sqrtQ g10 5 hd hs
        (by have := ht.2; norm_num [Game.WAVE_DELAY] at this; linarith)
        (by rw [hn]; rfl) hhp he hto hsh hm ha hp
    have hidx11 : g11.waveManager_.getCurrentWaveIndex = 10 := by rw [hw11]; exact hidx
    have hge : g11.waveManager_.getCurrentWaveIndex ≥ g11.waveManager_.getTotalWaves := by
      rw [hw11, hidx, htot]
    refine ⟨g10, g11, h10, hd, hs, hidx, htot, h11, hs11, ha11, hsp11, htot11, hidx11, ?_, ?_⟩
    · unfold WaveManager.getCurrentWave
      unfold WaveManager.getCurrentWaveIndex WaveManager.getTotalWaves at hge
      split_ifs
      · rw [List.getElem?_eq_none_iff]
        omega
      · rfl
    · exact Game.update_past_table sqrtQ g11 (1 / 10)
        (by unfold Game.runsPipeline; rw [hs11]; decide)
        (by rw [hs11]; decide) ha11 (by rw [hsp11, htot11]; decide)
        (by rw [hst11]; norm_num) hge

/-! ## One tower per cell (C25) -/

namespace Map

theorem getCell_setCell_other (m : Map) (col row c r : Int) (type : CellType)
    (hne : ¬ (c = col ∧ r = row)) :
    (m.setCell col row type).getCell c r = m.getCell c r := by
  unfold setCell
  split_ifs with hb
  · unfold getCell
    by_cases hc : c < 0 ∨ c ≥ 10 ∨ r < 0 ∨ r ≥ 16
    · rw [dif_pos hc, dif_pos hc]
    · rw [dif_neg hc, dif_neg hc]
      simp only []
      rw [if_neg]
      rintro ⟨h1, h2⟩
      apply hne
      constructor
      · have : ((c.toNat : Nat) : Int) = col := h1
        omega
      · have : ((r.toNat : Nat) : Int) = row := h2
        omega
  · rfl

end Map

theorem perm_cons_of_append_first (A S M : List (Int × Int)) (c : Int × Int) :
    List.Perm (A ++ [c] ++ S ++ M) (c :: (A ++ S ++ M)) := by
  rw [List.perm_iff_count]
  intro a
  simp only [List.count_cons, List.count_append, List.count_nil]
  omega

theorem perm_cons_of_append_second (A S M : List (Int × Int)) (c : Int × Int) :
    List.Perm (A ++ (S ++ [c]) ++ M) (c :: (A ++ S ++ M)) := by
  rw [List.perm_iff_count]
  intro a
  simp only [List.count_cons, List.count_append, List.count_nil]
  omega

theorem perm_cons_of_append_third (A S M : List (Int × Int)) (c : Int × Int) :
    List.Perm (A ++ S ++ (M ++ [c])) (c :: (A ++ S ++ M)) := by
  rw [List.perm_iff_count]
  intro a
  simp only [List.count_cons, List.count_append, List.count_nil]
  omega

namespace Game

/-- The three outcomes of a tap for the towers and the map: nothing changes;
the game is reset with no tower left; or one tower is appended to one
collection on the tapped cell, which was GRASS, and that cell is marked. -/
theorem onTap_towers (g : Game) (worldX worldY : ℚ) :
    ((g.onTap worldX worldY).towers_ = g.towers_ ∧
      (g.onTap worldX worldY).sheriffTowers_ = g.sheriffTowers_ ∧
      (g.onTap worldX worldY).mageTowers_ = g.mageTowers_ ∧
      (g.onTap worldX worldY).map_ = g.map_) ∨
    ((g.onTap worldX worldY).towers_ = [] ∧ (g.onTap worldX worldY).sheriffTowers_ = [] ∧
      (g.onTap worldX worldY).mageTowers_ = []) ∨
    (g.map_.getCell (floatToInt worldX) (floatToInt worldY) = CellType.GRASS ∧
      (g.onTap worldX worldY).map_ =
        g.map_.placeTower (floatToInt worldX) (floatToInt worldY) ∧
      (((g.onTap worldX worldY).towers_ =
            g.towers_ ++ [Tower.new (floatToInt worldX) (floatToInt worldY)] ∧
          (g.onTap worldX worldY).sheriffTowers_ = g.sheriffTowers_ ∧
          (g.onTap worldX worldY).mageTowers_ = g.mageTowers_) ∨
        ((g.onTap worldX worldY).towers_ = g.towers_ ∧
          (g.onTap worldX worldY).sheriffTowers_ =
            g.sheriffTowers_ ++ [SheriffTower.new (floatToInt worldX) (floatToInt worldY)] ∧
          (g.onTap worldX worldY).mageTowers_ = g.mageTowers_) ∨
        ((g.onTap worldX worldY).towers_ = g.towers_ ∧
          (g.onTap worldX worldY).sheriffTowers_ = g.sheriffTowers_ ∧
          (g.onTap worldX worldY).mageTowers_ =
            g.mageTowers_ ++ [MageTower.new (floatToInt worldX) (floatToInt worldY)
              g.selectedMageElement_]))) := by
  unfold onTap
  by_cases h1 : g.state_ = .GAME_OVER ∨ g.state_ = .MENU
  · rw [if_pos h1]
    exact Or.inl ⟨rfl, rfl, rfl, rfl⟩
  rw [if_neg h1]
  by_cases h2 : g.state_ = .VICTORY
  · rw [if_pos h2]
    simp only []
    split_ifs
    · exact Or.inr (Or.inl ⟨rfl, rfl, rfl⟩)
    · exact Or.inl ⟨rfl, rfl, rfl, rfl⟩
  rw [if_neg h2]
  by_cases h3 : g.state_ = .PAUSED
  · rw [if_pos h3]
    unfold resumeGame
    rw [if_pos h3]
    exact Or.inl ⟨rfl, rfl, rfl, rfl⟩
  rw [if_neg h3]
  by_cases h4 : g.isUpgradeMenuOpen = true
  · rw [if_pos h4]
    exact Or.inl ⟨rfl, rfl, rfl, rfl⟩
  rw [if_neg h4]
  simp only []
  by_cases h5 : floatToInt worldX < 0 ∨ floatToInt worldX ≥ Map.COLS ∨ floatToInt worldY < 0 ∨
      floatToInt worldY ≥ Map.ROWS
  · rw [if_pos h5]
    exact Or.inl ⟨rfl, rfl, rfl, rfl⟩
  rw [if_neg h5]
  cases hq : towerIndexAt (floatToInt worldX) (floatToInt worldY) g.towers_ 0 with
  | some i => exact Or.inl ⟨rfl, rfl, rfl, rfl⟩
  | none =>
    simp only []
    by_cases h6 : g.map_.canPlaceTower (floatToInt worldX) (floatToInt worldY) = true
    · rw [if_pos h6]
      have hgrass : g.map_.getCell (floatToInt worldX) (floatToInt worldY) = CellType.GRASS := by
        unfold Map.canPlaceTower at h6
        exact of_decide_eq_true h6
      split_ifs
      · exact Or.inr (Or.inr ⟨hgrass, rfl, Or.inr (Or.inl ⟨rfl, rfl, rfl⟩)⟩)
      · exact Or.inr (Or.inr ⟨hgrass, rfl, Or.inr (Or.inl ⟨rfl, rfl, rfl⟩)⟩)
      · exact Or.inr (Or.inr ⟨hgrass, rfl, Or.inr (Or.inr ⟨rfl, rfl, rfl⟩)⟩)
      · exact Or.inr (Or.inr ⟨hgrass, rfl, Or.inr (Or.inr ⟨rfl, rfl, rfl⟩)⟩)
      · exact Or.inr (Or.inr ⟨hgrass, rfl, Or.inl ⟨rfl, rfl, rfl⟩⟩)
      · exact Or.inr (Or.inr ⟨hgrass, rfl, Or.inl ⟨rfl, rfl, rfl⟩⟩)
      · exact Or.inl ⟨rfl, rfl, rfl, rfl⟩
    · rw [if_neg h6]
      exact Or.inl ⟨rfl, rfl, rfl, rfl⟩

/-- The cells of the towers after a tap: the same cells, none, or the cells
before with the tapped GRASS cell added and marked. -/
theorem onTap_towerCells (g : Game) (worldX worldY : ℚ) :
    ((g.onTap worldX worldY).towerCells = g.towerCells ∧
      (g.onTap worldX worldY).map_ = g.map_) ∨
    (g.onTap worldX worldY).towerCells = [] ∨
    (g.map_.getCell (floatToInt worldX) (floatToInt worldY) = CellType.GRASS ∧
      (g.onTap worldX worldY).map_ =
        g.map_.placeTower (floatToInt worldX) (floatToInt worldY) ∧
      List.Perm (g.onTap worldX worldY).towerCells
        ((floatToInt worldX, floatToInt worldY) :: g.towerCells)) := by
  rcases onTap_towers g worldX worldY with ⟨ht, hs, hm, hmap⟩ | ⟨ht, hs, hm⟩ |
    ⟨hgrass, hmap, hplace⟩
  · left
    unfold towerCells
    rw [ht, hs, hm]
    exact ⟨rfl, hmap⟩
  · right
    left
    unfold towerCells
    rw [ht, hs, hm]
    rfl
  · right
    right
    refine ⟨hgrass, hmap, ?_⟩
    unfold towerCells
    rcases hplace with ⟨ht, hs, hm⟩ | ⟨ht, hs, hm⟩ | ⟨ht, hs, hm⟩
    · rw [ht, hs, hm, List.map_append]
      exact perm_cons_of_append_first _ _ _ _
    · rw [ht, hs, hm, List.map_append]
      exact perm_cons_of_append_second _ _ _ _
    · rw [ht, hs, hm, List.map_append]
      exact perm_cons_of_append_third _ _ _ _

theorem onTap_towersOnOwnCells (g : Game) (worldX worldY : ℚ) (hinv : g.towersOnOwnCells) :
    (g.onTap worldX worldY).towersOnOwnCells := by
  obtain ⟨hnd, hcell⟩ := hinv
  rcases onTap_towerCells g worldX worldY with ⟨hc, hmap⟩ | hc | ⟨hgrass, hmap, hperm⟩
  · unfold towersOnOwnCells
    rw [hc, hmap]
    exact ⟨hnd, hcell⟩
  · unfold towersOnOwnCells
    rw [hc]
    exact ⟨List.nodup_nil, fun c hc => absurd hc (List.not_mem_nil c)⟩
  · have hb := Map.inBounds_of_getCell_ne_blocked g.map_ _ _
      (by rw [hgrass]; decide :
        g.map_.getCell (floatToInt worldX) (floatToInt worldY) ≠ .BLOCKED)
    have hnew : (floatToInt worldX, floatToInt worldY) ∉ g.towerCells := by
      intro hmem
      have := hcell _ hmem
      rw [hgrass] at this
      cases this
    unfold towersOnOwnCells
    refine ⟨hperm.nodup_iff.mpr (List.nodup_cons.mpr ⟨hnew, hnd⟩), ?_⟩
    intro c hc
    rw [hmap]
    rcases List.mem_cons.mp (hperm.mem_iff.mp hc) with heq | hold
    · rw [heq]
      exact Map.getCell_placeTower_same g.map_ _ _ hb
    · unfold Map.placeTower
      rw [Map.getCell_setCell_other]
      · exact hcell c hold
      · rintro ⟨e1, e2⟩
        apply hnew
        have : c = (floatToInt worldX, floatToInt worldY) := Prod.ext e1 e2
        rw [← this]
        exact hold

theorem onTaps_towersOnOwnCells (taps : List (ℚ × ℚ)) :
    ∀ g : Game, g.towersOnOwnCells → (g.onTaps taps).towersOnOwnCells := by
  induction taps with
  | nil => exact fun g h => h
  | cons t ts ih => exact fun g h => ih _ (onTap_towersOnOwnCells g t.1 t.2 h)

end Game
/-- Two taps on the grass cell (2, 2) of a new game: the first places an
archer tower for 50 gold, the second selects it. -/
theorem tapTwice_cells :
    ((Game.new 0).onTaps [(5 / 2, 5 / 2), (5 / 2, 5 / 2)]).towerCells = [(2, 2)] := by
  have h1 : (Game.new 0).onTap (5 / 2) (5 / 2) =
      { Game.new 0 with towers_ := [Tower.new 2 2], map_ := (Game.new 0).map_.placeTower 2 2,
                        gold_ := 0 } := by
    unfold Game.onTap
    simp only [floatToInt_five_halves]
    rfl
  simp only [Game.onTaps, h1]
  unfold Game.onTap
  simp only [floatToInt_five_halves]
  rfl

/-- C25. Along every sequence of `Game::onTap` calls, starting from a game in
which no two towers of the Tower, SheriffTower and MageTower collections share
a cell and every tower's cell is marked TOWER (a new game is such a game), the
same holds after the taps.  Each single tap leaves the towers as they are,
removes all of them, or adds one tower on the tapped cell, and that cell was
GRASS in the map before the tap, so it lies inside the grid and is neither
PATH nor BLOCKED. -/
theorem one_tower_per_cell (g : Game) (hinv : g.towersOnOwnCells) (taps : List (ℚ × ℚ)) :
    (g.onTaps taps).towerCells.Nodup ∧
    (∀ c ∈ (g.onTaps taps).towerCells,
      (g.onTaps taps).map_.getCell c.1 c.2 = CellType.TOWER) ∧
    (∀ (h : Game) (worldX worldY : ℚ), ∀ c ∈ (h.onTap worldX worldY).towerCells,
      c ∈ h.towerCells ∨
      (c = (floatToInt worldX, floatToInt worldY) ∧
        h.map_.getCell c.1 c.2 = CellType.GRASS ∧
        h.map_.getCell c.1 c.2 ≠ CellType.PATH ∧ h.map_.getCell c.1 c.2 ≠ CellType.BLOCKED ∧
        0 ≤ c.1 ∧ c.1 < Map.COLS ∧ 0 ≤ c.2 ∧ c.2 < Map.ROWS)) ∧
    (∀ (h : Game) (worldX worldY : ℚ),
      (h.onTap worldX worldY).towerCells.length ≤ h.towerCells.length + 1) ∧
    (∀ savedMenuCoins : Int, (Game.new savedMenuCoins).towersOnOwnCells) := by
  have hfin := Game.onTaps_towersOnOwnCells taps g hinv
  refine ⟨hfin.1, hfin.2, ?_, ?_, ?_⟩
  · intro h worldX worldY c hc
    rcases Game.onTap_towerCells h worldX worldY with ⟨he, _⟩ | he | ⟨hgrass, _, hperm⟩
    · left
      rw [he] at hc
      exact hc
    · rw [he] at hc
      exact absurd hc (List.not_mem_nil c)
    · rcases List.mem_cons.mp (hperm.mem_iff.mp hc) with heq | hold
      · right
        have hb := Map.inBounds_of_getCell_ne_blocked h.map_ _ _
          (by rw [hgrass]; decide :
            h.map_.getCell (floatToInt worldX) (floatToInt worldY) ≠ .BLOCKED)
        rw [heq]
        refine ⟨rfl, hgrass, ?_, ?_, hb.1, hb.2.1, hb.2.2.1, hb.2.2.2⟩
        · show h.map_.getCell (floatToInt worldX) (floatToInt worldY) ≠ .PATH
          rw [hgrass]
          decide
        · show h.map_.getCell (floatToInt worldX) (floatToInt worldY) ≠ .BLOCKED
          rw [hgrass]
          decide
      · exact Or.inl hold
  · intro h worldX worldY
    rcases Game.onTap_towerCells h worldX worldY with ⟨he, _⟩ | he | ⟨_, _, hperm⟩
    · rw [he]
      omega
    · rw [he]
      simp
    · rw [hperm.length_eq]
      simp
  · intro savedMenuCoins
    exact ⟨List.nodup_nil, fun c hc => absurd hc (List.not_mem_nil c)⟩

/-- Witness for C25: two taps on a new game, both on the cell (2, 2); one
tower stands there afterwards. -/
theorem one_tower_per_cell_witness :
    (Game.new 0).towersOnOwnCells ∧
    ((Game.new 0).onTaps [(5 / 2, 5 / 2), (5 / 2, 5 / 2)]).towerCells = [(2, 2)] ∧
    ((Game.new 0).onTaps [(5 / 2, 5 / 2), (5 / 2, 5 / 2)]).towerCells.Nodup ∧
    (∀ c ∈ ((Game.new 0).onTaps [(5 / 2, 5 / 2), (5 / 2, 5 / 2)]).towerCells,
      ((Game.new 0).onTaps [(5 / 2, 5 / 2), (5 / 2, 5 / 2)]).map_.getCell c.1 c.2 =
        CellType.TOWER) :=
  ⟨⟨List.nodup_nil, fun c hc => absurd hc (List.not_mem_nil c)⟩, tapTwice_cells,
    (one_tower_per_cell (Game.new 0)
      ⟨List.nodup_nil, fun c hc => absurd hc (List.not_mem_nil c)⟩
      [(5 / 2, 5 / 2), (5 / 2, 5 / 2)]).1,
    (one_tower_per_cell (Game.new 0)
      ⟨List.nodup_nil, fun c hc => absurd hc (List.not_mem_nil c)⟩
      [(5 / 2, 5 / 2), (5 / 2, 5 / 2)]).2.1⟩

/-! ## The state gate of `update` (C22, amended) -/

/-- C22, amended. In the five states named by the guard of `Game::update`
(LOGIN, MENU, PAUSED, GAME_OVER, VICTORY) the call does not run the combat
pipeline and changes nothing of the game.  In DIFFICULTY_SELECT and
CHARACTER_MENU the guard is passed and the pipeline runs as in PLAYING; it
changes nothing when the simulation is idle (no active wave, base hit points
left, no enemies, towers, allies or projectiles).  A new game and a game reset
by `returnToMenu` or `exitSandbox` are idle, and `skipLogin`,
`openCharacterMenu`, `closeCharacterMenu` and `startGame` keep a game idle. -/
theorem update_skips_pipeline_in_guarded_states (sqrt : ℚ → ℚ) (g : Game) (dt : ℚ) :
    ((g.state_ = .LOGIN ∨ g.state_ = .MENU ∨ g.state_ = .PAUSED ∨ g.state_ = .GAME_OVER ∨
        g.state_ = .VICTORY) → ¬ g.runsPipeline ∧ g.update sqrt dt = some g) ∧
    ((g.state_ = .DIFFICULTY_SELECT ∨ g.state_ = .CHARACTER_MENU) →
      g.runsPipeline ∧
      g.update sqrt dt =
        (g.updateWaveSpawning dt).map
          (fun g1 => Game.checkEndOfWave (Game.cleanupDead (Game.simulate sqrt g1 dt))) ∧
      (g.idle → g.update sqrt dt = some g)) ∧
    (∀ savedMenuCoins : Int, (Game.new savedMenuCoins).idle) ∧
    g.returnToMenu.idle ∧ g.exitSandbox.idle ∧
    (g.idle → g.skipLogin.idle ∧ g.openCharacterMenu.idle ∧ g.closeCharacterMenu.idle ∧
      g.startGame.idle) := by
  refine ⟨?_, ?_, ?_, ?_, ?_, ?_⟩
  · intro hs
    refine ⟨fun h => h hs, ?_⟩
    unfold Game.update
    rw [if_pos hs]
  · intro hs
    have hrun : g.runsPipeline := by
      unfold Game.runsPipeline
      rcases hs with hs | hs <;> rw [hs] <;> decide
    have hupd : g.update sqrt dt =
        (g.updateWaveSpawning dt).map
          (fun g1 => Game.checkEndOfWave (Game.cleanupDead (Game.simulate sqrt g1 dt))) := by
      unfold Game.update
      rw [if_neg hrun]
      cases g.updateWaveSpawning dt <;> rfl
    refine ⟨hrun, hupd, ?_⟩
    rintro ⟨hw, hhp, he, hto, hsh, hm, ha, hp⟩
    have hsp : g.updateWaveSpawning dt = some g := by
      unfold Game.updateWaveSpawning
      rw [if_neg (by rcases hs with hs | hs <;> rw [hs] <;> decide), if_pos hw]
    rw [hupd, hsp]
    show some (Game.checkEndOfWave (Game.cleanupDead (Game.simulate sqrt g dt))) = some g
    rw [Game.simulate_of_empty sqrt g dt he hto hsh hm ha hp, Game.cleanupDead_of_empty g he ha hp]
    unfold Game.checkEndOfWave
    rw [if_neg (not_le.mpr hhp), if_neg (by rw [hw]; rintro ⟨h, _⟩; cases h)]
  · intro savedMenuCoins
    exact ⟨rfl, (by show (0 : Int) < 20; decide), rfl, rfl, rfl, rfl, rfl, rfl⟩
  · exact ⟨rfl, (by show (0 : Int) < 20; decide), rfl, rfl, rfl, rfl, rfl, rfl⟩
  · exact ⟨rfl, (by show (0 : Int) < 20; decide), rfl, rfl, rfl, rfl, rfl, rfl⟩
  · intro hi
    refine ⟨hi, hi, hi, ?_⟩
    unfold Game.startGame
    split_ifs
    · exact hi
    · exact hi

end PathForge
